import Mathlib

/-! LuxCore PhotonGI cache: a shallow embedding.

Embedding of `src/slg/engines/caches/photongi/photongicache.cpp` and
`src/slg/engines/caches/photongi/tracephotonsthread.cpp`.

Conventions of the embedding

* `float` values are exact rationals (`ℚ`): no NaN, no infinity, and a division by
  zero yields `0`.  The one place where the source itself reasons about rounding
  (`Mutate`, "mutateValue can still be 1.f due to numerical precision problems")
  takes the rounding of every float sum and difference as an explicit operator
  `fl` and the C library `powf` as an oracle.
* `u_int` values are naturals; where the C++ arithmetic can wrap, the result is
  reduced with `u32` (modulo `2^32`).  Vector sizes (`size_t`) are lengths of lists.
* Collaborators whose code is not part of these files (scene, lights, BSDFs, the
  random generator, the visibility pass, the BVH builders and queries) are
  oracles: record fields holding functions.
* Threads: the workers of `TracePhotons` share the cache and take turns one
  bucket at a time (one iteration of the outer loop of `RenderFunc` runs without
  another worker in between); which worker runs next is given by a schedule.
* Loops that need not terminate take a `fuel` bound and end with
  `RenderError.outOfFuel` when it is used up.
* `boost::this_thread::interruption_requested()` is taken to be `false`: only
  uninterrupted runs are modelled.  A thrown `runtime_error` is an `Except.error`.
* Logging, memory statistics and the members `samplerSharedData` and
  `visibilitySobolSharedData` have no effect on the modelled state and are left out.
-/

namespace LuxCore

/-! ## Machine integers -/

/-- Reduction of a natural to the range of a 32 bit `u_int`. -/
def u32 (n : Nat) : Nat := n % 4294967296

/-! ## Geometry and radiometry -/

/-- Three floats: the carrier of `Point`, `Vector` and `Normal`. -/
structure Vec3 where
  x : ℚ
  y : ℚ
  z : ℚ
deriving DecidableEq

abbrev Point := Vec3
abbrev Vector := Vec3
abbrev Normal := Vec3

/-- Unary minus of a vector (`operator-`). -/
def Vec3.neg (v : Vec3) : Vec3 := ⟨-v.x, -v.y, -v.z⟩

/-- Product of a float and a vector (`float * Normal`). -/
def Vec3.smul (f : ℚ) (v : Vec3) : Vec3 := ⟨f * v.x, f * v.y, f * v.z⟩

/-- The dot product `Dot(a, b)`. -/
def Dot (a b : Vec3) : ℚ := a.x * b.x + a.y * b.y + a.z * b.z

/-- An RGB `Spectrum`. -/
structure Spectrum where
  r : ℚ
  g : ℚ
  b : ℚ
deriving DecidableEq

/-- The default constructed `Spectrum()`: all channels zero. -/
def Spectrum.zero : Spectrum := ⟨0, 0, 0⟩

/-- Test `Spectrum::Black()`: every channel is zero. -/
def Spectrum.Black (s : Spectrum) : Bool := s.r == 0 && s.g == 0 && s.b == 0

/-- Channel-wise product (`Spectrum * Spectrum`). -/
def Spectrum.mul (a b : Spectrum) : Spectrum := ⟨a.r * b.r, a.g * b.g, a.b * b.b⟩

/-- Product with a float (`Spectrum * float`). -/
def Spectrum.scale (a : Spectrum) (f : ℚ) : Spectrum := ⟨a.r * f, a.g * f, a.b * f⟩

/-- Division by a float (`Spectrum / float`), exact for a divisor that is not zero.
For the divisor 0 the float division gives an infinity or a NaN, which the
rationals do not have; the rational quotient is 0 there and stands for no float
value. -/
def Spectrum.divf (a : Spectrum) (f : ℚ) : Spectrum := ⟨a.r / f, a.g / f, a.b / f⟩

/-- A `Ray`: origin, direction and time.  The parametric bounds are a function of
origin and direction after `UpdateMinMaxWithEpsilon` and `Update`, so the
intersection oracle can recompute them. -/
structure Ray where
  o : Point
  d : Vector
  time : ℚ
deriving DecidableEq

/-- Method `Ray::Update(p, dir)`: restart the ray from `p` in direction `dir`. -/
def Ray.Update (r : Ray) (p : Point) (dir : Vector) : Ray := { r with o := p, d := dir }

/-! ## Photons -/

/-- A stored photon: `Photon(p, d, alpha, landingSurfaceNormal)`. -/
structure Photon where
  p : Point
  d : Vector
  alpha : Spectrum
  landingSurfaceNormal : Normal
deriving DecidableEq

/-- A radiance photon: `RadiancePhoton(p, n, outgoingRadiance)`. -/
structure RadiancePhoton where
  p : Point
  n : Normal
  outgoingRadiance : Spectrum
deriving DecidableEq

/-- A visibility particle (built by the visibility pass, which is not in these files). -/
structure VisibilityParticle where
  p : Point
  n : Normal
  isVolume : Bool
deriving DecidableEq

/-! ## Parameters -/

/-- Enumeration `PhotonGISamplerType`. -/
inductive PhotonGISamplerType where
  | PGIC_SAMPLER_RANDOM
  | PGIC_SAMPLER_METROPOLIS
deriving DecidableEq

/-- Enumeration `PhotonGIDebugType`. -/
inductive PhotonGIDebugType where
  | PGIC_DEBUG_SHOWDIRECT
  | PGIC_DEBUG_SHOWINDIRECT
  | PGIC_DEBUG_SHOWCAUSTIC
  | PGIC_DEBUG_NONE
deriving DecidableEq

/-- Group `params.photon`. -/
structure PhotonParams where
  maxTracedCount : Nat
  maxPathDepth : Nat
deriving DecidableEq

/-- Group `params.visibility`. -/
structure VisibilityParams where
  enabled : Bool
  targetHitRate : ℚ
  maxSampleCount : Nat
  lookUpRadius : ℚ
  lookUpRadius2 : ℚ
  lookUpNormalAngle : ℚ
deriving DecidableEq

/-- Groups `params.direct`, `params.indirect` and `params.caustic`. -/
structure PhotonClassParams where
  enabled : Bool
  maxSize : Nat
  lookUpMaxCount : Nat
  lookUpRadius : ℚ
  lookUpRadius2 : ℚ
  lookUpNormalAngle : ℚ
deriving DecidableEq

/-- The parameter block `PhotonGICacheParams`. -/
structure PhotonGICacheParams where
  samplerType : PhotonGISamplerType
  photon : PhotonParams
  visibility : VisibilityParams
  direct : PhotonClassParams
  indirect : PhotonClassParams
  caustic : PhotonClassParams
  debugType : PhotonGIDebugType
deriving DecidableEq

/-! ## Collaborators (oracles) -/

/-- The `RandomGenerator`: an infinite stream of floats and a read position. -/
structure RandomGenerator where
  draws : Nat → ℚ
  pos : Nat

/-- Method `rndGen.floatValue()`: the next float of the stream and the advanced generator. -/
def RandomGenerator.floatValue (g : RandomGenerator) : ℚ × RandomGenerator :=
  (g.draws g.pos, { g with pos := g.pos + 1 })

/-- A `BSDFEvent` bit mask. -/
abbrev BSDFEvent := Nat

/-- Modelled from the spec: the `SPECULAR` bit of `BSDFEvent`, declared in a header
that is not part of the files; the code only tests `(event & SPECULAR) ≠ 0`. -/
def SPECULAR : BSDFEvent := 4

/-- Modelled from the spec: the `NULL_INDEX` constant returned by an octree lookup
that finds no entry (declared in a header that is not part of the files). -/
def NULL_INDEX : Nat := 4294967295

/-- Enumeration `MaterialType`, as far as the cache distinguishes it. -/
inductive MaterialType where
  | MATTE
  | OTHER
deriving DecidableEq

/-- The hit point fields the cache reads. -/
structure HitPoint where
  p : Point
  shadeN : Normal
  intoObject : Bool

/-- What `bsdf.Sample` returns: the sampled value, direction and event. -/
structure BSDFSample where
  value : Spectrum
  sampledDir : Vector
  bsdfPdf : ℚ
  cosSampleDir : ℚ
  event : BSDFEvent

/-- The `BSDF` oracle of a surface interaction. -/
structure BSDF where
  hitPoint : HitPoint
  IsPhotonGIEnabled : Bool
  GetMaterialType : MaterialType
  EvaluateTotal : Spectrum
  Sample : ℚ → ℚ → BSDFSample
  Evaluate : Vector → Spectrum

/-- State of `PathVolumeInfo`, kept abstract. -/
abbrev PathVolumeInfo := Nat

/-- What `light->Emit` returns. -/
structure EmitResult where
  flux : Spectrum
  o : Point
  d : Vector
  emitPdfW : ℚ

/-- A `LightSource`: its emission sampler `Emit(scene, u0, u1, u2, u3, u4, ...)`. -/
structure LightSource where
  Emit : ℚ → ℚ → ℚ → ℚ → ℚ → EmitResult

/-- What a successful `scene->Intersect` returns: the BSDF at the hit, the
connection throughput and the updated volume information (origin and direction
of the ray are left as they were). -/
structure Intersection where
  bsdf : BSDF
  connectionThroughput : Spectrum
  volInfo : PathVolumeInfo

/-- The `Scene` oracle. -/
structure Scene where
  GenerateRayTime : ℚ → ℚ
  SampleLights : ℚ → Option (LightSource × ℚ)
  Intersect : PathVolumeInfo → ℚ → Ray → Option Intersection
  VolInfoUpdate : PathVolumeInfo → BSDFEvent → BSDF → PathVolumeInfo

/-- The visibility octree `PGCIOctree`, seen through its only query. -/
structure PGCIOctree where
  GetNearestEntry : Point → Normal → Nat

/-- A `PGICPhotonBvh`: the arguments its constructor received. -/
structure PGICPhotonBvh where
  allEntries : List Photon
  entryMaxLookUpCount : Nat
  entryRadius : ℚ
  entryNormalAngle : ℚ
deriving DecidableEq

/-- A `PGICRadiancePhotonBvh`: the arguments its constructor received. -/
structure PGICRadiancePhotonBvh where
  allEntries : List RadiancePhoton
  entryMaxLookUpCount : Nat
  entryRadius : ℚ
  entryNormalAngle : ℚ
deriving DecidableEq

/-- A `NearPhoton` of a BVH lookup: the index of the entry in the BVH's entry
vector (the C++ record holds a pointer to it) and its squared distance. -/
structure NearPhoton where
  photon : Nat
  distance2 : ℚ
deriving DecidableEq

/-! ## The cache -/

/-- The `PhotonGICache` object: parameters, shared atomic counters, photon vectors
and the acceleration structures (`none` is the null pointer). -/
structure PhotonGICache where
  scene : Scene
  params : PhotonGICacheParams
  directPhotonTracedCount : Nat
  indirectPhotonTracedCount : Nat
  causticPhotonTracedCount : Nat
  globalPhotonsCounter : Nat
  globalDirectPhotonsTraced : Nat
  globalIndirectPhotonsTraced : Nat
  globalCausticPhotonsTraced : Nat
  globalDirectSize : Nat
  globalIndirectSize : Nat
  globalCausticSize : Nat
  visibilityParticles : List VisibilityParticle
  visibilityParticlesOctree : Option PGCIOctree
  directPhotons : List Photon
  indirectPhotons : List Photon
  causticPhotons : List Photon
  radiancePhotons : List RadiancePhoton
  directPhotonsBVH : Option PGICPhotonBvh
  indirectPhotonsBVH : Option PGICPhotonBvh
  causticPhotonsBVH : Option PGICPhotonBvh
  radiancePhotonsBVH : Option PGICRadiancePhotonBvh

/-- The parameter normalization done by the constructor body (lines 53-74). -/
def PhotonGICache.normalizeParams (p : PhotonGICacheParams) : PhotonGICacheParams :=
  let p1 : PhotonGICacheParams :=
    if !p.direct.enabled then
      if p.indirect.enabled then
        { p with direct := { p.direct with
            maxSize := p.indirect.maxSize / p.photon.maxPathDepth
            lookUpMaxCount := p.indirect.lookUpMaxCount
            lookUpRadius := p.indirect.lookUpRadius
            lookUpNormalAngle := p.indirect.lookUpNormalAngle } }
      else
        { p with direct := { p.direct with maxSize := 0 } }
    else p
  let p2 : PhotonGICacheParams :=
    if !p1.indirect.enabled then { p1 with indirect := { p1.indirect with maxSize := 0 } } else p1
  let p3 : PhotonGICacheParams :=
    if !p2.caustic.enabled then { p2 with caustic := { p2.caustic with maxSize := 0 } } else p2
  let p4 : PhotonGICacheParams :=
    { p3 with visibility := { p3.visibility with
        lookUpRadius2 := p3.visibility.lookUpRadius * p3.visibility.lookUpRadius } }
  let p5 : PhotonGICacheParams :=
    { p4 with direct := { p4.direct with
        lookUpRadius2 := p4.direct.lookUpRadius * p4.direct.lookUpRadius } }
  let p6 : PhotonGICacheParams :=
    { p5 with indirect := { p5.indirect with
        lookUpRadius2 := p5.indirect.lookUpRadius * p5.indirect.lookUpRadius } }
  { p6 with caustic := { p6.caustic with
      lookUpRadius2 := p6.caustic.lookUpRadius * p6.caustic.lookUpRadius } }

/-- The constructor `PhotonGICache::PhotonGICache(scn, p)`: member initializers
followed by the parameter normalization.  The atomic counters are not initialized
by the constructor; `TracePhotons` resets them before use, and they start at zero
here. -/
def PhotonGICache.construct (scn : Scene) (p : PhotonGICacheParams) : PhotonGICache :=
  { scene := scn
    params := PhotonGICache.normalizeParams p
    directPhotonTracedCount := 0
    indirectPhotonTracedCount := 0
    causticPhotonTracedCount := 0
    globalPhotonsCounter := 0
    globalDirectPhotonsTraced := 0
    globalIndirectPhotonsTraced := 0
    globalCausticPhotonsTraced := 0
    globalDirectSize := 0
    globalIndirectSize := 0
    globalCausticSize := 0
    visibilityParticles := []
    visibilityParticlesOctree := none
    directPhotons := []
    indirectPhotons := []
    causticPhotons := []
    radiancePhotons := []
    directPhotonsBVH := none
    indirectPhotonsBVH := none
    causticPhotonsBVH := none
    radiancePhotonsBVH := none }

/-! ## The platform -/

/-- Everything the machine and the absent collaborators contribute: the float
unit (`fl` rounds the exact result of one float operation, `powf` is the C
library power function, `M_PI` and `INV_PI` are the float constants), the random
streams by seed, the thread count, the visibility pass and the BVH range query. -/
structure Platform where
  fl : ℚ → ℚ
  powf : ℚ → ℚ → ℚ
  M_PI : ℚ
  INV_PI : ℚ
  randomStream : Nat → Nat → ℚ
  hardware_concurrency : Nat
  TraceVisibilityParticles : Scene → PhotonGICacheParams → List VisibilityParticle × PGCIOctree
  GetAllNearEntries : PGICPhotonBvh → Point → Normal → List NearPhoton × ℚ
  RadianceGetAllNearEntries : PGICRadiancePhotonBvh → Point → Normal → List NearPhoton × ℚ
  RadianceGetNearestEntry : PGICRadiancePhotonBvh → Point → Normal → Option RadiancePhoton

/-! ## The photon tracing worker (`tracephotonsthread.cpp`) -/

/-- The four vectors a path trace fills. -/
structure PathPhotons where
  newDirectPhotons : List Photon
  newIndirectPhotons : List Photon
  newCausticPhotons : List Photon
  newRadiancePhotons : List RadiancePhoton
deriving DecidableEq

/-- The four vectors after `clear()`. -/
def PathPhotons.empty : PathPhotons := ⟨[], [], [], []⟩

/-- A `TracePhotonsThread`: its members, the random generator of its `RenderFunc`
and whether `RenderFunc` is still inside its outer loop. -/
structure TracePhotonsThread where
  threadIndex : Nat
  rndGen : RandomGenerator
  directDone : Bool
  indirectDone : Bool
  causticDone : Bool
  directPhotons : List Photon
  indirectPhotons : List Photon
  causticPhotons : List Photon
  radiancePhotons : List RadiancePhoton
  running : Bool

/-- Member `sampleBootSize`, set to 7 by `RenderFunc`. -/
def sampleBootSize : Nat := 7

/-- Member `sampleStepSize`, set to 4 by `RenderFunc`. -/
def sampleStepSize : Nat := 4

/-- Member `sampleSize`, as `RenderFunc` computes it. -/
def sampleSize (pgic : PhotonGICache) : Nat :=
  u32 (sampleBootSize + u32 (pgic.params.photon.maxPathDepth * sampleStepSize))

/-- The bucket size `workSize` of `RenderFunc`. -/
def workSize : Nat := 4096

/-- Function `UniformMutate`: every sample of a vector of `n` samples is redrawn. -/
def UniformMutate (rndGen : RandomGenerator) : Nat → List ℚ × RandomGenerator
  | 0 => ([], rndGen)
  | n + 1 =>
    let d := rndGen.floatValue
    let rest := UniformMutate d.2 n
    (d.1 :: rest.1, rest.2)

/-- Body of the loop of `Mutate` for one sample (lines 71-83). -/
def Mutate.component (M : Platform) (rndGen : RandomGenerator) (mutationSize : ℚ)
    (currentSample : ℚ) : ℚ × RandomGenerator :=
  let d1 := rndGen.floatValue
  let deltaU := M.powf d1.1 (M.fl (M.fl (1 / mutationSize) + 1))
  let d2 := d1.2.floatValue
  let mutateValue : ℚ :=
    if d2.1 < 1 / 2 then
      let m := M.fl (currentSample + deltaU)
      if m < 1 then m else M.fl (m - 1)
    else
      let m := M.fl (currentSample - deltaU)
      if m < 0 then M.fl (m + 1) else m
  (if mutateValue = 1 then 0 else mutateValue, d2.2)

/-- Function `Mutate`: the candidate samples obtained from the current ones. -/
def Mutate (M : Platform) (rndGen : RandomGenerator) (currentPathSamples : List ℚ)
    (mutationSize : ℚ) : List ℚ × RandomGenerator :=
  match currentPathSamples with
  | [] => ([], rndGen)
  | c :: cs =>
    let v := Mutate.component M rndGen mutationSize c
    let rest := Mutate M v.2 cs mutationSize
    (v.1 :: rest.1, rest.2)

/-- The local variables of the light path loop of `TracePhotonPath`. -/
structure PathState where
  rndGen : RandomGenerator
  photons : PathPhotons
  usefulPath : Bool
  lightPathFlux : Spectrum
  nextEventRay : Ray
  specularPath : Bool
  depth : Nat
  volInfo : PathVolumeInfo

/-- The landing normal (lines 158-159): the shading normal, flipped to face the
incoming ray. -/
def landingSurfaceNormal (bsdf : BSDF) (nextEventRay : Ray) : Normal :=
  Vec3.smul (if Dot bsdf.hitPoint.shadeN nextEventRay.d.neg > 0 then 1 else -1)
    bsdf.hitPoint.shadeN

/-- The visibility test (lines 161-167). -/
def visiblePoint (pgic : PhotonGICache) (bsdf : BSDF) (n : Normal) : Bool :=
  match pgic.visibilityParticlesOctree with
  | some octree => decide (octree.GetNearestEntry bsdf.hitPoint.p n ≠ NULL_INDEX)
  | none => true

/-- The photon deposit at a visible vertex (lines 170-198): classification and
push of the photon unless the class is done.  Returns the state and `usedPhoton`. -/
def depositPhoton (pgic : PhotonGICache) (th : TracePhotonsThread) (bsdf : BSDF)
    (n : Normal) (s : PathState) : PathState × Bool :=
  let photon : Photon := ⟨bsdf.hitPoint.p, s.nextEventRay.d, s.lightPathFlux, n⟩
  if s.depth = 1 ∧ (pgic.params.direct.enabled ∨ pgic.params.indirect.enabled) then
    if !th.directDone then
      ({ s with
          photons := { s.photons with
            newDirectPhotons := s.photons.newDirectPhotons ++ [photon] }
          usefulPath := true }, true)
    else ({ s with usefulPath := true }, false)
  else if s.depth > 1 ∧ s.specularPath ∧ pgic.params.caustic.enabled then
    if !th.causticDone then
      ({ s with
          photons := { s.photons with
            newCausticPhotons := s.photons.newCausticPhotons ++ [photon] }
          usefulPath := true }, true)
    else ({ s with usefulPath := true }, false)
  else if pgic.params.indirect.enabled then
    if !th.indirectDone then
      ({ s with
          photons := { s.photons with
            newIndirectPhotons := s.photons.newIndirectPhotons ++ [photon] }
          usefulPath := true }, true)
    else ({ s with usefulPath := true }, false)
  else (s, false)

/-- The radiance photon deposit at a visible vertex (lines 200-207); the random
generator is asked only when a photon was used and indirect is enabled. -/
def depositRadiancePhoton (pgic : PhotonGICache) (bsdf : BSDF) (n : Normal)
    (usedPhoton : Bool) (s : PathState) : PathState :=
  if usedPhoton ∧ pgic.params.indirect.enabled then
    let d := s.rndGen.floatValue
    if d.1 > 1 / 10 then
      { s with
          rndGen := d.2
          photons := { s.photons with
            newRadiancePhotons := s.photons.newRadiancePhotons ++
              [⟨bsdf.hitPoint.p, n, bsdf.EvaluateTotal⟩] } }
    else { s with rndGen := d.2 }
  else s

/-- The deposit at a visible vertex (lines 170-207). -/
def depositPhotons (pgic : PhotonGICache) (th : TracePhotonsThread) (bsdf : BSDF)
    (n : Normal) (s : PathState) : PathState :=
  let r := depositPhoton pgic th bsdf n s
  depositRadiancePhoton pgic bsdf n r.2 r.1

/-- The deposit step of one hit vertex (lines 156-209). -/
def depositVertex (pgic : PhotonGICache) (th : TracePhotonsThread) (bsdf : BSDF)
    (s : PathState) : PathState :=
  if bsdf.IsPhotonGIEnabled then
    let n := landingSurfaceNormal bsdf s.nextEventRay
    if visiblePoint pgic bsdf n then depositPhotons pgic th bsdf n s else s
  else s

/-- The `while (depth <= maxPathDepth)` loop of `TracePhotonPath` (lines 137-244);
`fuel` bounds the number of iterations. -/
def TracePhotonPath.loop (pgic : PhotonGICache) (th : TracePhotonsThread)
    (samples : List ℚ) : Nat → PathState → PathState
  | 0, s => s
  | fuel + 1, s =>
    if s.depth ≤ pgic.params.photon.maxPathDepth then
      let sampleOffset := u32 (sampleBootSize + u32 ((s.depth - 1) * sampleStepSize))
      match pgic.scene.Intersect s.volInfo (samples.getD sampleOffset 0) s.nextEventRay with
      | some hit =>
        let s1 : PathState :=
          { s with
              lightPathFlux := s.lightPathFlux.mul hit.connectionThroughput
              volInfo := hit.volInfo }
        let s2 := depositVertex pgic th hit.bsdf s1
        if s2.depth ≥ pgic.params.photon.maxPathDepth then s2
        else
          let bs := hit.bsdf.Sample (samples.getD (u32 (sampleOffset + 2)) 0)
            (samples.getD (u32 (sampleOffset + 3)) 0)
          if bs.value.Black then s2
          else
            TracePhotonPath.loop pgic th samples fuel
              { s2 with
                  specularPath := s2.specularPath && decide (bs.event &&& SPECULAR ≠ 0)
                  lightPathFlux := s2.lightPathFlux.mul bs.value
                  volInfo := pgic.scene.VolInfoUpdate s2.volInfo bs.event hit.bsdf
                  nextEventRay := s2.nextEventRay.Update hit.bsdf.hitPoint.p bs.sampledDir
                  depth := s2.depth + 1 }
      | none => s
    else s

/-- What `TracePhotonPath` hands back: the return value, the four filled vectors
and the advanced random generator. -/
structure PathResult where
  usefulPath : Bool
  photons : PathPhotons
  rndGen : RandomGenerator

/-- Function `TracePhotonPath`: trace one light path described by `samples`. -/
def TracePhotonPath (pgic : PhotonGICache) (th : TracePhotonsThread)
    (rndGen : RandomGenerator) (samples : List ℚ) : PathResult :=
  let time := pgic.scene.GenerateRayTime (samples.getD 0 0)
  match pgic.scene.SampleLights (samples.getD 1 0) with
  | some (light, lightPickPdf) =>
    let e := light.Emit (samples.getD 2 0) (samples.getD 3 0) (samples.getD 4 0)
      (samples.getD 5 0) (samples.getD 6 0)
    if !e.flux.Black then
      let s := TracePhotonPath.loop pgic th samples pgic.params.photon.maxPathDepth
        { rndGen := rndGen
          photons := PathPhotons.empty
          usefulPath := false
          lightPathFlux := e.flux.divf (e.emitPdfW * lightPickPdf)
          nextEventRay := ⟨e.o, e.d, time⟩
          specularPath := true
          depth := 1
          volInfo := 0 }
      ⟨s.usefulPath, s.photons, s.rndGen⟩
    else ⟨false, PathPhotons.empty, rndGen⟩
  | none => ⟨false, PathPhotons.empty, rndGen⟩

/-- Method `AddPhotons(newDirectPhotons, ...)`: append a path's photons to the
worker's vectors. -/
def TracePhotonsThread.AddPhotons (th : TracePhotonsThread) (ph : PathPhotons) :
    TracePhotonsThread :=
  { th with
      directPhotons := th.directPhotons ++ ph.newDirectPhotons
      indirectPhotons := th.indirectPhotons ++ ph.newIndirectPhotons
      causticPhotons := th.causticPhotons ++ ph.newCausticPhotons
      radiancePhotons := th.radiancePhotons ++ ph.newRadiancePhotons }

/-- A photon with `alpha *= f`. -/
def Photon.scaleAlpha (f : ℚ) (photon : Photon) : Photon :=
  { photon with alpha := photon.alpha.scale f }

/-- Method `AddPhotons(currentPhotonsScale, newDirectPhotons, ...)`: append a
path's photons with their `alpha` scaled; radiance photons are appended as they are. -/
def TracePhotonsThread.AddPhotonsScaled (th : TracePhotonsThread)
    (currentPhotonsScale : ℚ) (ph : PathPhotons) : TracePhotonsThread :=
  { th with
      directPhotons := th.directPhotons ++ ph.newDirectPhotons.map (Photon.scaleAlpha currentPhotonsScale)
      indirectPhotons := th.indirectPhotons ++ ph.newIndirectPhotons.map (Photon.scaleAlpha currentPhotonsScale)
      causticPhotons := th.causticPhotons ++ ph.newCausticPhotons.map (Photon.scaleAlpha currentPhotonsScale)
      radiancePhotons := th.radiancePhotons ++ ph.newRadiancePhotons }

/-- The errors a worker can end with. -/
inductive RenderError where
  | noUsefulPath
  | outOfFuel
deriving DecidableEq

/-- The bootstrap loop of the Metropolis sampler (lines 387-400): up to `n`
uniformly drawn paths, stopping at the first useful one.  Returns the samples and
photons of the last path traced, whether it was useful, and the generator. -/
def RenderFunc.bootstrap (pgic : PhotonGICache) (th : TracePhotonsThread) :
    Nat → RandomGenerator → List ℚ → PathPhotons → Bool × List ℚ × PathPhotons × RandomGenerator
  | 0, rndGen, currentPathSamples, current => (false, currentPathSamples, current, rndGen)
  | n + 1, rndGen, _, _ =>
    let u := UniformMutate rndGen (sampleSize pgic)
    let r := TracePhotonPath pgic th u.2 u.1
    if r.usefulPath then (true, u.1, r.photons, r.rndGen)
    else RenderFunc.bootstrap pgic th n r.rndGen u.1 r.photons

/-- The local variables of the Metropolis chain (lines 410-415) together with the
worker whose vectors the chain appends to. -/
structure ChainState where
  th : TracePhotonsThread
  rndGen : RandomGenerator
  currentPathSamples : List ℚ
  current : PathPhotons
  currentPhotonsScale : Nat
  mutationSize : ℚ
  acceptedCount : Nat
  mutatedCount : Nat
  uniformCount : Nat

/-- One iteration of the Metropolis chain (lines 417-463). -/
def RenderFunc.chainStep (M : Platform) (pgic : PhotonGICache) (c : ChainState) : ChainState :=
  let u := UniformMutate c.rndGen (sampleSize pgic)
  let r := TracePhotonPath pgic c.th u.2 u.1
  if r.usefulPath then
    { c with
        th := c.th.AddPhotonsScaled c.currentPhotonsScale c.current
        rndGen := r.rndGen
        currentPathSamples := u.1
        currentPhotonsScale := 1
        current := r.photons
        uniformCount := c.uniformCount + 1 }
  else
    let m := Mutate M r.rndGen c.currentPathSamples c.mutationSize
    let mutatedCount := c.mutatedCount + 1
    let r2 := TracePhotonPath pgic c.th m.2 m.1
    let c2 : ChainState :=
      if r2.usefulPath then
        { c with
            th := c.th.AddPhotonsScaled c.currentPhotonsScale c.current
            rndGen := r2.rndGen
            currentPathSamples := m.1
            currentPhotonsScale := 1
            current := r2.photons
            mutatedCount := mutatedCount
            acceptedCount := c.acceptedCount + 1 }
      else
        { c with
            rndGen := r2.rndGen
            mutatedCount := mutatedCount
            currentPhotonsScale := c.currentPhotonsScale + 1 }
    let R : ℚ := (c2.acceptedCount : ℚ) / (c2.mutatedCount : ℚ)
    { c2 with mutationSize := c2.mutationSize + (R - 234 / 1000) / (c2.mutatedCount : ℚ) }

/-- The `while (workToDoIndex--)` loop of the Metropolis chain. -/
def RenderFunc.chain (M : Platform) (pgic : PhotonGICache) : Nat → ChainState → ChainState
  | 0, c => c
  | n + 1, c => RenderFunc.chain M pgic n (RenderFunc.chainStep M pgic c)

/-- The photons from index `start` on with `alpha *= f` (lines 480-485). -/
def scaleFrom (start : Nat) (f : ℚ) (photons : List Photon) : List Photon :=
  photons.take start ++ (photons.drop start).map (Photon.scaleAlpha f)

/-- The `while (workToDoIndex--)` loop of the random sampler (lines 495-510). -/
def RenderFunc.randomLoop (pgic : PhotonGICache) :
    Nat → TracePhotonsThread × RandomGenerator → TracePhotonsThread × RandomGenerator
  | 0, s => s
  | n + 1, s =>
    let u := UniformMutate s.2 (sampleSize pgic)
    let r := TracePhotonPath pgic s.1 u.2 u.1
    RenderFunc.randomLoop pgic n (s.1.AddPhotons r.photons, r.rndGen)

/-- The sampler part of one bucket (lines 376-512): the worker after `workToDo`
paths, or the error of a failed bootstrap.  The flags of `th` are the snapshot
taken for this bucket. -/
def RenderFunc.sampleBucket (M : Platform) (pgic : PhotonGICache) (th : TracePhotonsThread)
    (workToDo : Nat) : Except RenderError TracePhotonsThread :=
  let directPhotonsStart := u32 th.directPhotons.length
  let indirectPhotonsStart := u32 th.indirectPhotons.length
  let causticPhotonsStart := u32 th.causticPhotons.length
  match pgic.params.samplerType with
  | PhotonGISamplerType.PGIC_SAMPLER_METROPOLIS =>
    let b := RenderFunc.bootstrap pgic th 16384 th.rndGen [] PathPhotons.empty
    if !b.1 then Except.error RenderError.noUsefulPath
    else
      let c := RenderFunc.chain M pgic workToDo
        { th := th
          rndGen := b.2.2.2
          currentPathSamples := b.2.1
          current := b.2.2.1
          currentPhotonsScale := 1
          mutationSize := 1
          acceptedCount := 1
          mutatedCount := 1
          uniformCount := 1 }
      let th1 :=
        if c.currentPhotonsScale > 1 then c.th.AddPhotonsScaled c.currentPhotonsScale c.current
        else c.th
      let scaleFactor : ℚ := (c.uniformCount : ℚ) / (workToDo : ℚ)
      Except.ok
        { th1 with
            rndGen := c.rndGen
            directPhotons := scaleFrom directPhotonsStart scaleFactor th1.directPhotons
            indirectPhotons := scaleFrom indirectPhotonsStart scaleFactor th1.indirectPhotons
            causticPhotons := scaleFrom causticPhotonsStart scaleFactor th1.causticPhotons }
  | PhotonGISamplerType.PGIC_SAMPLER_RANDOM =>
    let r := RenderFunc.randomLoop pgic workToDo (th, th.rndGen)
    Except.ok { r.1 with rndGen := r.2 }

/-- The snapshot of the three "population full" flags (lines 337-339). -/
def RenderFunc.snapshotDone (pgic : PhotonGICache) (th : TracePhotonsThread) :
    TracePhotonsThread :=
  { th with
      directDone := decide (pgic.globalDirectSize ≥ pgic.params.direct.maxSize)
      indirectDone := decide (pgic.globalIndirectSize ≥ pgic.params.indirect.maxSize)
      causticDone := decide (pgic.globalCausticSize ≥ pgic.params.caustic.maxSize) }

/-- The number of paths of the bucket acquired at `workCounter` (lines 341-342). -/
def RenderFunc.workToDo (pgic : PhotonGICache) (workCounter : Nat) : Nat :=
  if u32 (workCounter + workSize) > pgic.params.photon.maxTracedCount then
    pgic.params.photon.maxTracedCount - workCounter
  else workSize

/-- One iteration of the outer loop of `RenderFunc` (lines 327-524), run without
another worker in between: the shared cache and the worker afterwards; the
worker's `running` is `false` once the loop is left. -/
def RenderFunc.bucket (M : Platform) (pgic : PhotonGICache) (th : TracePhotonsThread) :
    Except RenderError (PhotonGICache × TracePhotonsThread) :=
  let workCounter := pgic.globalPhotonsCounter
  let pgic1 := { pgic with globalPhotonsCounter := u32 (workCounter + workSize) }
  if workCounter ≥ pgic.params.photon.maxTracedCount then
    Except.ok (pgic1, { th with running := false })
  else
    let th1 := RenderFunc.snapshotDone pgic1 th
    let workToDo := RenderFunc.workToDo pgic1 workCounter
    let pgic2 : PhotonGICache :=
      { pgic1 with
          globalDirectPhotonsTraced :=
            if !th1.directDone then u32 (pgic1.globalDirectPhotonsTraced + workToDo)
            else pgic1.globalDirectPhotonsTraced
          globalIndirectPhotonsTraced :=
            if !th1.indirectDone then u32 (pgic1.globalIndirectPhotonsTraced + workToDo)
            else pgic1.globalIndirectPhotonsTraced
          globalCausticPhotonsTraced :=
            if !th1.causticDone then u32 (pgic1.globalCausticPhotonsTraced + workToDo)
            else pgic1.globalCausticPhotonsTraced }
    let directPhotonsStart := u32 th1.directPhotons.length
    let indirectPhotonsStart := u32 th1.indirectPhotons.length
    let causticPhotonsStart := u32 th1.causticPhotons.length
    match RenderFunc.sampleBucket M pgic2 th1 workToDo with
    | Except.error e => Except.error e
    | Except.ok th2 =>
      let pgic3 : PhotonGICache :=
        { pgic2 with
            globalDirectSize :=
              u32 (pgic2.globalDirectSize + (th2.directPhotons.length - directPhotonsStart))
            globalIndirectSize :=
              u32 (pgic2.globalIndirectSize + (th2.indirectPhotons.length - indirectPhotonsStart))
            globalCausticSize :=
              u32 (pgic2.globalCausticSize + (th2.causticPhotons.length - causticPhotonsStart)) }
      if th2.directDone ∧ th2.indirectDone ∧ th2.causticDone then
        Except.ok (pgic3, { th2 with running := false })
      else Except.ok (pgic3, th2)

/-- Function `RenderFunc`: the outer loop of a worker run on its own until it
leaves the loop; `fuel` bounds the number of buckets. -/
def RenderFunc (M : Platform) : Nat → PhotonGICache → TracePhotonsThread →
    Except RenderError (PhotonGICache × TracePhotonsThread)
  | 0, pgic, th => if th.running then Except.error RenderError.outOfFuel else Except.ok (pgic, th)
  | fuel + 1, pgic, th =>
    if th.running then
      match RenderFunc.bucket M pgic th with
      | Except.error e => Except.error e
      | Except.ok r => RenderFunc M fuel r.1 r.2
    else Except.ok (pgic, th)

/-! ## The coordinator (`photongicache.cpp`) -/

/-- The constructor `TracePhotonsThread(cache, index)` followed by `Start()`: empty
vectors, and the generator `RandomGenerator rndGen(1 + threadIndex)` of `RenderFunc`. -/
def TracePhotonsThread.Start (M : Platform) (index : Nat) : TracePhotonsThread :=
  { threadIndex := index
    rndGen := ⟨M.randomStream (1 + index), 0⟩
    directDone := false
    indirectDone := false
    causticDone := false
    directPhotons := []
    indirectPhotons := []
    causticPhotons := []
    radiancePhotons := []
    running := true }

/-- The shared cache and the workers of `TracePhotons`. -/
structure TraceState where
  pgic : PhotonGICache
  renderThreads : List TracePhotonsThread

/-- Worker `i` runs one iteration of its outer loop (nothing happens when it has
left the loop or does not exist). -/
def TraceState.step (M : Platform) (st : TraceState) (i : Nat) : Except RenderError TraceState :=
  match st.renderThreads.get? i with
  | none => Except.ok st
  | some th =>
    if th.running then
      match RenderFunc.bucket M st.pgic th with
      | Except.error e => Except.error e
      | Except.ok r => Except.ok ⟨r.1, st.renderThreads.set i r.2⟩
    else Except.ok st

/-- The workers take turns, one bucket at a time, in the order of `schedule`. -/
def TraceState.run (M : Platform) : List Nat → TraceState → Except RenderError TraceState
  | [], st => Except.ok st
  | i :: schedule, st =>
    match st.step M i with
    | Except.error e => Except.error e
    | Except.ok st1 => TraceState.run M schedule st1

/-- Worker `i` runs on its own until it leaves its loop (`Join()`). -/
def TraceState.join (M : Platform) (fuel : Nat) (st : TraceState) (i : Nat) :
    Except RenderError TraceState :=
  match st.renderThreads.get? i with
  | none => Except.ok st
  | some th =>
    match RenderFunc M fuel st.pgic th with
    | Except.error e => Except.error e
    | Except.ok r => Except.ok ⟨r.1, st.renderThreads.set i r.2⟩

/-- All workers are joined, in index order. -/
def TraceState.joinAll (M : Platform) (fuel : Nat) : List Nat → TraceState →
    Except RenderError TraceState
  | [], st => Except.ok st
  | i :: rest, st =>
    match st.join M fuel i with
    | Except.error e => Except.error e
    | Except.ok st1 => TraceState.joinAll M fuel rest st1

/-- The reset of the shared counters at the start of `TracePhotons` (lines 127-133). -/
def PhotonGICache.resetCounters (pgic : PhotonGICache) : PhotonGICache :=
  { pgic with
      globalPhotonsCounter := 0
      globalDirectPhotonsTraced := 0
      globalIndirectPhotonsTraced := 0
      globalCausticPhotonsTraced := 0
      globalDirectSize := 0
      globalIndirectSize := 0
      globalCausticSize := 0 }

/-- The workers `TracePhotons` creates and starts (lines 135-141). -/
def TracePhotons.startThreads (M : Platform) : List TracePhotonsThread :=
  (List.range M.hardware_concurrency).map (TracePhotonsThread.Start M)

/-- The end of `TracePhotons` (lines 147-162): the workers' vectors are appended,
in worker order, to the cache's vectors, and the traced counts are recorded. -/
def TraceState.collect (st : TraceState) : PhotonGICache :=
  { st.pgic with
      directPhotons :=
        st.pgic.directPhotons ++ (st.renderThreads.map (fun th => th.directPhotons)).flatten
      indirectPhotons :=
        st.pgic.indirectPhotons ++ (st.renderThreads.map (fun th => th.indirectPhotons)).flatten
      causticPhotons :=
        st.pgic.causticPhotons ++ (st.renderThreads.map (fun th => th.causticPhotons)).flatten
      radiancePhotons :=
        st.pgic.radiancePhotons ++ (st.renderThreads.map (fun th => th.radiancePhotons)).flatten
      directPhotonTracedCount := st.pgic.globalDirectPhotonsTraced
      indirectPhotonTracedCount := st.pgic.globalIndirectPhotonsTraced
      causticPhotonTracedCount := st.pgic.globalCausticPhotonsTraced }

/-- Method `PhotonGICache::TracePhotons`: reset the shared counters, start
`hardware_concurrency` workers, let them run (first interleaved bucket by bucket
as `schedule` says, then each to its end, `fuel` buckets at most), append their
vectors to the cache's and record the traced counts. -/
def PhotonGICache.TracePhotons (M : Platform) (schedule : List Nat) (fuel : Nat)
    (pgic : PhotonGICache) : Except RenderError PhotonGICache :=
  match TraceState.run M schedule ⟨pgic.resetCounters, TracePhotons.startThreads M⟩ with
  | Except.error e => Except.error e
  | Except.ok st1 =>
    match TraceState.joinAll M fuel (List.range M.hardware_concurrency) st1 with
    | Except.error e => Except.error e
    | Except.ok st2 => Except.ok st2.collect

/-- Absolute value of the dot product, `AbsDot(a, b)`. -/
def AbsDot (a b : Vec3) : ℚ := |Dot a b|

/-- Channel-wise sum (`Spectrum + Spectrum`). -/
def Spectrum.add (a b : Spectrum) : Spectrum := ⟨a.r + b.r, a.g + b.g, a.b + b.b⟩

/-- Method `PhotonGICache::AddOutgoingRadiance`: add to a radiance photon the box
filtered estimate of one photon map. -/
def PhotonGICache.AddOutgoingRadiance (M : Platform) (radiacePhoton : RadiancePhoton)
    (photonsBVH : Option PGICPhotonBvh) (photonTracedCount : Nat) : RadiancePhoton :=
  match photonsBVH with
  | some bvh =>
    let q := M.GetAllNearEntries bvh radiacePhoton.p radiacePhoton.n
    let entries := q.1
    let maxDistance2 := q.2
    if entries.length > 0 then
      let result : Spectrum :=
        entries.foldl
          (fun acc nearPhoton =>
            match bvh.allEntries.get? nearPhoton.photon with
            | some photon => acc.add (photon.alpha.scale (AbsDot radiacePhoton.n photon.d.neg))
            | none => acc)
          Spectrum.zero
      let result := result.divf ((photonTracedCount : ℚ) * maxDistance2 * M.M_PI)
      { radiacePhoton with outgoingRadiance := radiacePhoton.outgoingRadiance.add result }
    else radiacePhoton
  | none => radiacePhoton

/-- Method `PhotonGICache::FillRadiancePhotonData`: replace the scratch value of a
radiance photon by its outgoing radiance. -/
def PhotonGICache.FillRadiancePhotonData (M : Platform) (pgic : PhotonGICache)
    (radiacePhoton : RadiancePhoton) : RadiancePhoton :=
  let bsdfEvaluateTotal := radiacePhoton.outgoingRadiance
  let r0 : RadiancePhoton := { radiacePhoton with outgoingRadiance := Spectrum.zero }
  let r1 := PhotonGICache.AddOutgoingRadiance M r0 pgic.directPhotonsBVH pgic.directPhotonTracedCount
  let r2 := PhotonGICache.AddOutgoingRadiance M r1 pgic.indirectPhotonsBVH pgic.indirectPhotonTracedCount
  let r3 := PhotonGICache.AddOutgoingRadiance M r2 pgic.causticPhotonsBVH pgic.causticPhotonTracedCount
  { r3 with outgoingRadiance := r3.outgoingRadiance.mul (bsdfEvaluateTotal.scale M.INV_PI) }

/-- Method `PhotonGICache::FillRadiancePhotonsData`: every radiance photon is
filled, each one independently of the others. -/
def PhotonGICache.FillRadiancePhotonsData (M : Platform) (pgic : PhotonGICache) : PhotonGICache :=
  { pgic with radiancePhotons := pgic.radiancePhotons.map (PhotonGICache.FillRadiancePhotonData M pgic) }

/-- Method `PhotonGICache::TraceVisibilityParticles`: the visibility pass fills
the particle vector and leaves the octree built over it. -/
def PhotonGICache.TraceVisibilityParticles (M : Platform) (pgic : PhotonGICache) :
    PhotonGICache :=
  let v := M.TraceVisibilityParticles pgic.scene pgic.params
  { pgic with visibilityParticles := v.1, visibilityParticlesOctree := some v.2 }

/-- Whether `Preprocess` uses the visibility map (lines 257 and 270). -/
def PhotonGICache.useVisibility (pgic : PhotonGICache) : Bool :=
  pgic.params.samplerType = PhotonGISamplerType.PGIC_SAMPLER_METROPOLIS ∧
    pgic.params.visibility.enabled

/-- The start of `Preprocess` (lines 257-258): the visibility pass, when it is used. -/
def PhotonGICache.prepareVisibility (M : Platform) (pgic : PhotonGICache) : PhotonGICache :=
  if pgic.useVisibility then pgic.TraceVisibilityParticles M else pgic

/-- Section "Free visibility map" of `Preprocess` (lines 270-275). -/
def PhotonGICache.freeVisibilityMap (c : PhotonGICache) : PhotonGICache :=
  if c.useVisibility then { c with visibilityParticlesOctree := none, visibilityParticles := [] }
  else c

/-- Section "Direct light photon map" of `Preprocess` (lines 281-285). -/
def PhotonGICache.buildDirectMap (c : PhotonGICache) : PhotonGICache :=
  if c.directPhotons.length > 0 ∧ (c.params.direct.enabled ∨ c.params.indirect.enabled) then
    { c with directPhotonsBVH := some ⟨c.directPhotons, c.params.direct.lookUpMaxCount,
        c.params.direct.lookUpRadius, c.params.direct.lookUpNormalAngle⟩ }
  else c

/-- Section "Indirect light photon map" of `Preprocess` (lines 291-295). -/
def PhotonGICache.buildIndirectMap (c : PhotonGICache) : PhotonGICache :=
  if c.indirectPhotons.length > 0 ∧ c.params.indirect.enabled then
    { c with indirectPhotonsBVH := some ⟨c.indirectPhotons, c.params.indirect.lookUpMaxCount,
        c.params.indirect.lookUpRadius, c.params.indirect.lookUpNormalAngle⟩ }
  else c

/-- Section "Caustic photon map" of `Preprocess` (lines 301-305). -/
def PhotonGICache.buildCausticMap (c : PhotonGICache) : PhotonGICache :=
  if c.causticPhotons.length > 0 ∧ c.params.caustic.enabled then
    { c with causticPhotonsBVH := some ⟨c.causticPhotons, c.params.caustic.lookUpMaxCount,
        c.params.caustic.lookUpRadius, c.params.caustic.lookUpNormalAngle⟩ }
  else c

/-- Section "Radiance photon map" of `Preprocess` (lines 311-318). -/
def PhotonGICache.buildRadianceMap (M : Platform) (c : PhotonGICache) : PhotonGICache :=
  if c.radiancePhotons.length > 0 ∧ c.params.indirect.enabled then
    let f := PhotonGICache.FillRadiancePhotonsData M c
    { f with radiancePhotonsBVH := some ⟨f.radiancePhotons, f.params.indirect.lookUpMaxCount,
        f.params.indirect.lookUpRadius, f.params.indirect.lookUpNormalAngle⟩ }
  else c

/-- Section "Check what I can free" of `Preprocess` (lines 325-344). -/
def PhotonGICache.freeUnused (c : PhotonGICache) : PhotonGICache :=
  let c8 : PhotonGICache :=
    if !c.params.direct.enabled then { c with directPhotonsBVH := none, directPhotons := [] }
    else c
  let c9 : PhotonGICache := { c8 with indirectPhotonsBVH := none, indirectPhotons := [] }
  if !c9.params.caustic.enabled then { c9 with causticPhotonsBVH := none, causticPhotons := [] }
  else c9

/-- The part of `Preprocess` after the photon trace (lines 270-344): free the
visibility map, build the direct, indirect and caustic BVHs, fill the radiance
photons and build their BVH, then free what rendering does not use. -/
def PhotonGICache.buildMaps (M : Platform) (c2 : PhotonGICache) : PhotonGICache :=
  (PhotonGICache.buildRadianceMap M
    c2.freeVisibilityMap.buildDirectMap.buildIndirectMap.buildCausticMap).freeUnused

/-- Method `PhotonGICache::Preprocess`: visibility pass, photon trace, then the
maps are built; a failed photon trace is passed on. -/
def PhotonGICache.Preprocess (M : Platform) (schedule : List Nat) (fuel : Nat)
    (pgic : PhotonGICache) : Except RenderError PhotonGICache :=
  match PhotonGICache.TracePhotons M schedule fuel (pgic.prepareVisibility M) with
  | Except.error e => Except.error e
  | Except.ok c2 => Except.ok (PhotonGICache.buildMaps M c2)

/-! ## The queries of the render pass (`photongicache.cpp`, lines 382-507)

`SimpsonKernel` and the functions that call it return an `Option`: `none` is a
failed `assert`.  A `NearPhoton` is resolved against the entry vector of the BVH
that returned it; an index outside the vector stands for a pointer that points
to no entry, and such a record contributes nothing. -/

/-- Function `DistanceSquared(p1, p2)`: the squared length of `p1 - p2`. -/
def DistanceSquared (p1 p2 : Point) : ℚ :=
  (p1.x - p2.x) * (p1.x - p2.x) + (p1.y - p2.y) * (p1.y - p2.y) + (p1.z - p2.z) * (p1.z - p2.z)

/-- Function `SimpsonKernel`: the Simpson filter weight, `none` when the
assertion `dist2 <= maxDist2` fails. -/
def SimpsonKernel (M : Platform) (p1 p2 : Point) (maxDist2 : ℚ) : Option ℚ :=
  let dist2 := DistanceSquared p1 p2
  if dist2 ≤ maxDist2 then
    let s := 1 - dist2 / maxDist2
    some (3 * M.INV_PI * s * s)
  else none

/-- The loop of the matte fast path of `ProcessCacheEntries`. -/
def ProcessCacheEntries.matteLoop (M : Platform) (photons : List Photon) (maxDistance2 : ℚ)
    (bsdf : BSDF) : List NearPhoton → Spectrum → Option Spectrum
  | [], result => some result
  | nearPhoton :: rest, result =>
    match photons.get? nearPhoton.photon with
    | some photon =>
      match SimpsonKernel M bsdf.hitPoint.p photon.p maxDistance2 with
      | some k =>
        ProcessCacheEntries.matteLoop M photons maxDistance2 bsdf rest
          (result.add (photon.alpha.scale (k * AbsDot bsdf.hitPoint.shadeN photon.d.neg)))
      | none => none
    | none => ProcessCacheEntries.matteLoop M photons maxDistance2 bsdf rest result

/-- The loop of the generic path of `ProcessCacheEntries`. -/
def ProcessCacheEntries.genericLoop (M : Platform) (photons : List Photon) (maxDistance2 : ℚ)
    (bsdf : BSDF) : List NearPhoton → Spectrum → Option Spectrum
  | [], result => some result
  | nearPhoton :: rest, result =>
    match photons.get? nearPhoton.photon with
    | some photon =>
      match SimpsonKernel M bsdf.hitPoint.p photon.p maxDistance2 with
      | some k =>
        ProcessCacheEntries.genericLoop M photons maxDistance2 bsdf rest
          (result.add (((bsdf.Evaluate photon.d.neg).scale k).mul photon.alpha))
      | none => none
    | none => ProcessCacheEntries.genericLoop M photons maxDistance2 bsdf rest result

/-- Method `PhotonGICache::ProcessCacheEntries`: the Simpson filtered density
estimate over the near photons `entries`, which point into `photons`.  The
division of line 454 is exact for a divisor that is not zero; for the divisor 0
the float result is an infinity or a NaN and the value here stands for nothing
(see `Spectrum.divf`). -/
def PhotonGICache.ProcessCacheEntries (M : Platform) (photons : List Photon)
    (entries : List NearPhoton) (photonTracedCount : Nat) (maxDistance2 : ℚ) (bsdf : BSDF) :
    Option Spectrum :=
  let result : Option Spectrum :=
    if entries.length > 0 then
      if bsdf.GetMaterialType = MaterialType.MATTE then
        match ProcessCacheEntries.matteLoop M photons maxDistance2 bsdf entries Spectrum.zero with
        | some result => some (result.mul (bsdf.EvaluateTotal.scale M.INV_PI))
        | none => none
      else ProcessCacheEntries.genericLoop M photons maxDistance2 bsdf entries Spectrum.zero
    else some Spectrum.zero
  match result with
  | some result => some (result.divf ((photonTracedCount : ℚ) * maxDistance2))
  | none => none

/-- The normal handed to the BVH lookups: `(intoObject ? 1.f : -1.f) * shadeN`. -/
def flippedNormal (bsdf : BSDF) : Normal :=
  Vec3.smul (if bsdf.hitPoint.intoObject then 1 else -1) bsdf.hitPoint.shadeN

/-- Method `PhotonGICache::GetDirectRadiance`. -/
def PhotonGICache.GetDirectRadiance (M : Platform) (pgic : PhotonGICache) (bsdf : BSDF) :
    Option Spectrum :=
  if bsdf.IsPhotonGIEnabled then
    match pgic.directPhotonsBVH with
    | some directPhotonsBVH =>
      let n := flippedNormal bsdf
      let q := M.GetAllNearEntries directPhotonsBVH bsdf.hitPoint.p n
      PhotonGICache.ProcessCacheEntries M directPhotonsBVH.allEntries q.1
        pgic.directPhotonTracedCount q.2 bsdf
    | none => some Spectrum.zero
  else none

/-- Method `PhotonGICache::GetCausticRadiance`. -/
def PhotonGICache.GetCausticRadiance (M : Platform) (pgic : PhotonGICache) (bsdf : BSDF) :
    Option Spectrum :=
  if bsdf.IsPhotonGIEnabled then
    match pgic.causticPhotonsBVH with
    | some causticPhotonsBVH =>
      let n := flippedNormal bsdf
      let q := M.GetAllNearEntries causticPhotonsBVH bsdf.hitPoint.p n
      PhotonGICache.ProcessCacheEntries M causticPhotonsBVH.allEntries q.1
        pgic.causticPhotonTracedCount q.2 bsdf
    | none => some Spectrum.zero
  else none

/-- Method `PhotonGICache::GetIndirectRadiance`. -/
def PhotonGICache.GetIndirectRadiance (M : Platform) (pgic : PhotonGICache) (bsdf : BSDF) :
    Option Spectrum :=
  if bsdf.IsPhotonGIEnabled then
    match pgic.radiancePhotonsBVH with
    | some radiancePhotonsBVH =>
      let n := flippedNormal bsdf
      match M.RadianceGetNearestEntry radiancePhotonsBVH bsdf.hitPoint.p n with
      | some radiancePhoton => some radiancePhoton.outgoingRadiance
      | none => some Spectrum.zero
    | none => some Spectrum.zero
  else none

/-- Method `PhotonGICache::GetAllRadiance`. -/
def PhotonGICache.GetAllRadiance (M : Platform) (pgic : PhotonGICache) (bsdf : BSDF) :
    Option Spectrum :=
  if bsdf.IsPhotonGIEnabled then
    match pgic.radiancePhotonsBVH with
    | some radiancePhotonsBVH =>
      let n := flippedNormal bsdf
      let q := M.RadianceGetAllNearEntries radiancePhotonsBVH bsdf.hitPoint.p n
      let entries := q.1
      if entries.length > 0 then
        let result : Spectrum :=
          entries.foldl
            (fun result nearPhoton =>
              match radiancePhotonsBVH.allEntries.get? nearPhoton.photon with
              | some radiancePhoton => result.add radiancePhoton.outgoingRadiance
              | none => result)
            Spectrum.zero
        some (result.divf (entries.length : ℚ))
      else some Spectrum.zero
    | none => some Spectrum.zero
  else none

/-! ## Vocabulary of the statements

The three photon populations are treated alike by the worker; these selectors
let one statement speak about any of them. -/

/-- The three photon populations. -/
inductive PhotonClass where
  | direct
  | indirect
  | caustic
deriving DecidableEq

/-- The vector of a path trace that holds the photons of a class. -/
def PathPhotons.ofClass (ph : PathPhotons) : PhotonClass → List Photon
  | PhotonClass.direct => ph.newDirectPhotons
  | PhotonClass.indirect => ph.newIndirectPhotons
  | PhotonClass.caustic => ph.newCausticPhotons

/-- The vector of a worker that holds the photons of a class. -/
def TracePhotonsThread.ofClass (th : TracePhotonsThread) : PhotonClass → List Photon
  | PhotonClass.direct => th.directPhotons
  | PhotonClass.indirect => th.indirectPhotons
  | PhotonClass.caustic => th.causticPhotons

/-- The "population full" flag of a class in a worker. -/
def TracePhotonsThread.doneOf (th : TracePhotonsThread) : PhotonClass → Bool
  | PhotonClass.direct => th.directDone
  | PhotonClass.indirect => th.indirectDone
  | PhotonClass.caustic => th.causticDone

/-- The shared size counter of a class. -/
def PhotonGICache.sizeOf (pgic : PhotonGICache) : PhotonClass → Nat
  | PhotonClass.direct => pgic.globalDirectSize
  | PhotonClass.indirect => pgic.globalIndirectSize
  | PhotonClass.caustic => pgic.globalCausticSize

/-- The storage budget `maxSize` of a class. -/
def PhotonGICacheParams.maxSizeOf (p : PhotonGICacheParams) : PhotonClass → Nat
  | PhotonClass.direct => p.direct.maxSize
  | PhotonClass.indirect => p.indirect.maxSize
  | PhotonClass.caustic => p.caustic.maxSize

/-- The number of photons of a class held by all workers together. -/
def storedCount (renderThreads : List TracePhotonsThread) (X : PhotonClass) : Nat :=
  (renderThreads.map (fun th => (th.ofClass X).length)).sum

/-- Two caches that differ at most in the shared atomic counters. -/
def PhotonGICache.sameButCounters (a b : PhotonGICache) : Prop :=
  a.scene = b.scene ∧ a.params = b.params ∧
  a.directPhotonTracedCount = b.directPhotonTracedCount ∧
  a.indirectPhotonTracedCount = b.indirectPhotonTracedCount ∧
  a.causticPhotonTracedCount = b.causticPhotonTracedCount ∧
  a.visibilityParticles = b.visibilityParticles ∧
  a.visibilityParticlesOctree = b.visibilityParticlesOctree ∧
  a.directPhotons = b.directPhotons ∧ a.indirectPhotons = b.indirectPhotons ∧
  a.causticPhotons = b.causticPhotons ∧ a.radiancePhotons = b.radiancePhotons ∧
  a.directPhotonsBVH = b.directPhotonsBVH ∧ a.indirectPhotonsBVH = b.indirectPhotonsBVH ∧
  a.causticPhotonsBVH = b.causticPhotonsBVH ∧ a.radiancePhotonsBVH = b.radiancePhotonsBVH

/-- The invariant of the Metropolis chain for one class: `L` photons were held at
the start of the bucket and `k` iterations have run. -/
def chainInv (pgic : PhotonGICache) (X : PhotonClass) (L k : Nat) (done : Bool)
    (c : ChainState) : Prop :=
  c.th.doneOf X = done ∧
  L ≤ (c.th.ofClass X).length ∧
  (c.th.ofClass X).length + (if c.currentPhotonsScale > 1 then (c.current.ofClass X).length else 0) ≤
    L + k * pgic.params.photon.maxPathDepth ∧
  (c.current.ofClass X).length ≤ pgic.params.photon.maxPathDepth ∧
  (done = true → (c.th.ofClass X).length = L ∧ c.current.ofClass X = [])

/-- The size accounting of a trace started from cache `c0`: the cache differs from
`c0` at most in the counters, and the size counter of every class is the total
`tot` of that class modulo `2^32`. -/
def sizeInv (c0 pgic : PhotonGICache) (tot : PhotonClass → Nat) : Prop :=
  pgic.sameButCounters c0 ∧ ∀ X, pgic.sizeOf X = tot X % 4294967296

/-- The budget accounting of a trace started from cache `c0`: the size accounting,
and the total of every class stays below its `maxSize` plus one bucket's worth
of photons (and is zero when `maxSize` is zero). -/
def boundInv (c0 pgic : PhotonGICache) (tot : PhotonClass → Nat) : Prop :=
  sizeInv c0 pgic tot ∧
  ∀ X, tot X ≤ (c0.params.maxSizeOf X - 1) + workSize * c0.params.photon.maxPathDepth ∧
    (c0.params.maxSizeOf X = 0 → tot X = 0)

/-- Sum of a list of spectra, channel by channel. -/
def Spectrum.sum (l : List Spectrum) : Spectrum := l.foldr Spectrum.add Spectrum.zero

/-- The entries that the records of a lookup point to, in lookup order. -/
def nearPhotons {α : Type} (allEntries : List α) (entries : List NearPhoton) : List α :=
  entries.filterMap (fun nearPhoton => allEntries.get? nearPhoton.photon)

/-- Specification: the Simpson weight `3/π · (1 − dist2/maxDist2)²`, with the
program's constant `INV_PI` for `1/π`. -/
def simpsonWeight (M : Platform) (dist2 maxDist2 : ℚ) : ℚ :=
  3 * M.INV_PI * (1 - dist2 / maxDist2) ^ 2

/-- Specification: the reference density estimate at `bsdf` over the photons
`near`.  Matte: the sum of weight · |dot(shadeN, −d)| · alpha, times
`EvaluateTotal`, times `1/π`; otherwise the sum of weight · `Evaluate(−d)` ·
alpha; both divided by `photonTracedCount · maxDistance2`. -/
def referenceEstimator (M : Platform) (near : List Photon) (photonTracedCount : Nat)
    (maxDistance2 : ℚ) (bsdf : BSDF) : Spectrum :=
  let weight := fun (photon : Photon) =>
    simpsonWeight M (DistanceSquared bsdf.hitPoint.p photon.p) maxDistance2
  match bsdf.GetMaterialType with
  | MaterialType.MATTE =>
    (((Spectrum.sum (near.map (fun photon =>
        (photon.alpha.scale (AbsDot bsdf.hitPoint.shadeN photon.d.neg)).scale (weight photon)))).mul
      bsdf.EvaluateTotal).scale M.INV_PI).divf ((photonTracedCount : ℚ) * maxDistance2)
  | MaterialType.OTHER =>
    (Spectrum.sum (near.map (fun photon =>
        ((bsdf.Evaluate photon.d.neg).mul photon.alpha).scale (weight photon)))).divf
      ((photonTracedCount : ℚ) * maxDistance2)

/-- Specification: the sum that the reference density estimate divides by
`photonTracedCount · maxDistance2`. -/
def referenceSum (M : Platform) (near : List Photon) (maxDistance2 : ℚ) (bsdf : BSDF) :
    Spectrum :=
  let weight := fun (photon : Photon) =>
    simpsonWeight M (DistanceSquared bsdf.hitPoint.p photon.p) maxDistance2
  match bsdf.GetMaterialType with
  | MaterialType.MATTE =>
    ((Spectrum.sum (near.map (fun photon =>
        (photon.alpha.scale (AbsDot bsdf.hitPoint.shadeN photon.d.neg)).scale (weight photon)))).mul
      bsdf.EvaluateTotal).scale M.INV_PI
  | MaterialType.OTHER =>
    Spectrum.sum (near.map (fun photon =>
        ((bsdf.Evaluate photon.d.neg).mul photon.alpha).scale (weight photon)))

/-- The contract of a photon BVH lookup at `p`, `n`: every record returned points
to an entry whose squared distance to `p` is at most the returned radius. -/
def PGICPhotonBvh.lookupContract (M : Platform) (bvh : PGICPhotonBvh) (p : Point) (n : Normal) :
    Prop :=
  ∀ photon ∈ nearPhotons bvh.allEntries (M.GetAllNearEntries bvh p n).1,
    DistanceSquared p photon.p ≤ (M.GetAllNearEntries bvh p n).2

/-- Arithmetic mean of a list of spectra. -/
def Spectrum.mean (l : List Spectrum) : Spectrum := (Spectrum.sum l).divf (l.length : ℚ)

/-- The normal of a lookup as the specification words it: `shadeN` when the path
goes into the object, `−shadeN` otherwise. -/
def lookupNormal (bsdf : BSDF) : Normal :=
  if bsdf.hitPoint.intoObject then bsdf.hitPoint.shadeN else bsdf.hitPoint.shadeN.neg

/-- Specification: what one photon map contributes to the outgoing radiance of a
radiance photon: nothing when the BVH is absent or finds no entry, otherwise the
sum of alpha · |dot(n, −d)| over the entries found, divided by
`photonTracedCount · maxDistance2 · π`. -/
def radianceContribution (M : Platform) (radiancePhoton : RadiancePhoton)
    (photonsBVH : Option PGICPhotonBvh) (photonTracedCount : Nat) : Spectrum :=
  match photonsBVH with
  | none => Spectrum.zero
  | some bvh =>
    let q := M.GetAllNearEntries bvh radiancePhoton.p radiancePhoton.n
    if q.1 = [] then Spectrum.zero
    else
      (Spectrum.sum ((nearPhotons bvh.allEntries q.1).map (fun photon =>
        photon.alpha.scale (AbsDot radiancePhoton.n photon.d.neg)))).divf
        ((photonTracedCount : ℚ) * q.2 * M.M_PI)

/-- Whether a path pushed a photon into one of the three photon vectors. -/
def PathPhotons.pushedPhoton (ph : PathPhotons) : Bool :=
  !ph.newDirectPhotons.isEmpty || !ph.newIndirectPhotons.isEmpty || !ph.newCausticPhotons.isEmpty

/-- The `k`-th of the consecutive bootstrap paths drawn uniformly from the
generator `g`, every path before it having been traced and left: its samples
and what `TracePhotonPath` returns for it. -/
def RenderFunc.bootstrapPath (pgic : PhotonGICache) (th : TracePhotonsThread) :
    Nat → RandomGenerator → List ℚ × PathResult
  | 0, g =>
    let u := UniformMutate g (sampleSize pgic)
    (u.1, TracePhotonPath pgic th u.2 u.1)
  | k + 1, g =>
    let u := UniformMutate g (sampleSize pgic)
    RenderFunc.bootstrapPath pgic th k (TracePhotonPath pgic th u.2 u.1).rndGen

/-- The local variables of the chain as lines 410-415 set them, around a current
path with its samples and the generator left after tracing it. -/
def RenderFunc.chainStart (th : TracePhotonsThread) (currentPathSamples : List ℚ)
    (current : PathPhotons) (rndGen : RandomGenerator) : ChainState :=
  { th := th
    rndGen := rndGen
    currentPathSamples := currentPathSamples
    current := current
    currentPhotonsScale := 1
    mutationSize := 1
    acceptedCount := 1
    mutatedCount := 1
    uniformCount := 1 }

/-- The Metropolis bucket from the end of the bootstrap on (lines 410-486): the
chain of `workToDo` iterations started at `c0`, the last flush and the scaling by
`scaleFactor`; `th` is the worker at the start of the bucket. -/
def RenderFunc.afterBootstrap (M : Platform) (pgic : PhotonGICache) (th : TracePhotonsThread)
    (workToDo : Nat) (c0 : ChainState) : TracePhotonsThread :=
  let c := RenderFunc.chain M pgic workToDo c0
  let th1 :=
    if c.currentPhotonsScale > 1 then c.th.AddPhotonsScaled c.currentPhotonsScale c.current
    else c.th
  let scaleFactor : ℚ := (c.uniformCount : ℚ) / (workToDo : ℚ)
  { th1 with
      rndGen := c.rndGen
      directPhotons := scaleFrom (u32 th.directPhotons.length) scaleFactor th1.directPhotons
      indirectPhotons := scaleFrom (u32 th.indirectPhotons.length) scaleFactor th1.indirectPhotons
      causticPhotons := scaleFrom (u32 th.causticPhotons.length) scaleFactor th1.causticPhotons }

/-- The state from which the chain of a bucket starts: the local variables of
lines 410-415 around what the bootstrap loop left. -/
def RenderFunc.bootstrapStart (pgic : PhotonGICache) (th : TracePhotonsThread) : ChainState :=
  RenderFunc.chainStart th
    (RenderFunc.bootstrap pgic th 16384 th.rndGen [] PathPhotons.empty).2.1
    (RenderFunc.bootstrap pgic th 16384 th.rndGen [] PathPhotons.empty).2.2.1
    (RenderFunc.bootstrap pgic th 16384 th.rndGen [] PathPhotons.empty).2.2.2

/-- Whether the chain iteration at `c` adopts its uniform draw as current path. -/
def RenderFunc.adoptsUniform (pgic : PhotonGICache) (c : ChainState) : Bool :=
  (TracePhotonPath pgic c.th (UniformMutate c.rndGen (sampleSize pgic)).2
    (UniformMutate c.rndGen (sampleSize pgic)).1).usefulPath

/-- Whether the mutation that the chain iteration at `c` tries after a useless
uniform draw is useful. -/
def RenderFunc.acceptsMutation (M : Platform) (pgic : PhotonGICache) (c : ChainState) : Bool :=
  let u := UniformMutate c.rndGen (sampleSize pgic)
  let r := TracePhotonPath pgic c.th u.2 u.1
  let m := Mutate M r.rndGen c.currentPathSamples c.mutationSize
  (TracePhotonPath pgic c.th m.2 m.1).usefulPath

/-- Whether the chain iteration at `c` replaces the current path. -/
def RenderFunc.replacesCurrent (M : Platform) (pgic : PhotonGICache) (c : ChainState) : Bool :=
  RenderFunc.adoptsUniform pgic c || RenderFunc.acceptsMutation M pgic c

/-- The flushes of `n` chain iterations from `c`, in order: the multiplicity and
the photons of every current path that was replaced. -/
def RenderFunc.chainFlushes (M : Platform) (pgic : PhotonGICache) :
    Nat → ChainState → List (Nat × PathPhotons)
  | 0, _ => []
  | n + 1, c =>
    (if RenderFunc.replacesCurrent M pgic c then [(c.currentPhotonsScale, c.current)] else []) ++
      RenderFunc.chainFlushes M pgic n (RenderFunc.chainStep M pgic c)

/-- The number of uniform draws adopted as current path in `n` chain iterations
from `c`. -/
def RenderFunc.uniformAdopted (M : Platform) (pgic : PhotonGICache) : Nat → ChainState → Nat
  | 0, _ => 0
  | n + 1, c =>
    (if RenderFunc.adoptsUniform pgic c then 1 else 0) +
      RenderFunc.uniformAdopted M pgic n (RenderFunc.chainStep M pgic c)

/-- The flushes of a whole bucket: those of the chain, then the last current path
when its multiplicity is above 1. -/
def RenderFunc.bucketFlushes (M : Platform) (pgic : PhotonGICache) (workToDo : Nat)
    (c0 : ChainState) : List (Nat × PathPhotons) :=
  RenderFunc.chainFlushes M pgic workToDo c0 ++
    (if (RenderFunc.chain M pgic workToDo c0).currentPhotonsScale > 1 then
      [((RenderFunc.chain M pgic workToDo c0).currentPhotonsScale,
        (RenderFunc.chain M pgic workToDo c0).current)]
    else [])

/-- The photons of a class that a list of flushes appends: those of every flushed
path, `alpha` times the multiplicity. -/
def flushedPhotons (X : PhotonClass) (flushes : List (Nat × PathPhotons)) : List Photon :=
  (flushes.map (fun f => (f.2.ofClass X).map (Photon.scaleAlpha (f.1 : ℚ)))).flatten

/-- The radiance photons that a list of flushes appends: those of every flushed
path, as traced. -/
def flushedRadiancePhotons (flushes : List (Nat × PathPhotons)) : List RadiancePhoton :=
  (flushes.map (fun f => f.2.newRadiancePhotons)).flatten

/-- The worker after the flush of the last current path (lines 471-475). -/
def RenderFunc.lastFlush (c : ChainState) : TracePhotonsThread :=
  if c.currentPhotonsScale > 1 then c.th.AddPhotonsScaled c.currentPhotonsScale c.current
  else c.th

/-- The paths that were the current state during `n` chain iterations from `c`,
in order, each with the multiplicity `currentPhotonsScale` it had when it was
replaced or, for the last one, when the chain ended. -/
def RenderFunc.currentStates (M : Platform) (pgic : PhotonGICache) :
    Nat → ChainState → List (Nat × PathPhotons)
  | 0, c => [(c.currentPhotonsScale, c.current)]
  | n + 1, c =>
    if RenderFunc.replacesCurrent M pgic c then
      (c.currentPhotonsScale, c.current) ::
        RenderFunc.currentStates M pgic n (RenderFunc.chainStep M pgic c)
    else RenderFunc.currentStates M pgic n (RenderFunc.chainStep M pgic c)

/-- The number of photons a path holds in its direct, indirect and caustic lists
together. -/
def PathPhotons.photonCount (ph : PathPhotons) : Nat :=
  ph.newDirectPhotons.length + ph.newIndirectPhotons.length + ph.newCausticPhotons.length

/-- The shared traced counter of a class. -/
def PhotonGICache.tracedOf (pgic : PhotonGICache) : PhotonClass → Nat
  | PhotonClass.direct => pgic.globalDirectPhotonsTraced
  | PhotonClass.indirect => pgic.globalIndirectPhotonsTraced
  | PhotonClass.caustic => pgic.globalCausticPhotonsTraced

/-- The number of buckets of work a worker processes in a run of `RenderFunc`:
the bucket acquisitions that observe `workCounter < maxTracedCount`. -/
def RenderFunc.processed (M : Platform) : Nat → PhotonGICache → TracePhotonsThread → Nat
  | 0, _, _ => 0
  | fuel + 1, pgic, th =>
    if th.running then
      (if pgic.globalPhotonsCounter < pgic.params.photon.maxTracedCount then 1 else 0) +
        (match RenderFunc.bucket M pgic th with
          | Except.error _ => 0
          | Except.ok r => RenderFunc.processed M fuel r.1 r.2)
    else 0

/-! ## The configuration (`photongicache.cpp`, lines 509-670) -/

/-- Modelled from the spec: the key/value property bag `Properties`.  The class
and the conversions of its values are declared outside these files, so a bag is
taken as the values it defines, by key, for each of the four readings
`Get<bool>()`, `Get<u_int>()`, `Get<float>()` and `Get<string>()` used here. -/
structure Properties where
  bools : List (String × Bool)
  uints : List (String × Nat)
  floats : List (String × ℚ)
  strings : List (String × String)

/-- Function `GetDefaultProps`: the default value of each of the 24 keys. -/
def PhotonGICache.GetDefaultProps : Properties :=
  { strings :=
      [("path.photongi.sampler.type", "METROPOLIS"),
       ("path.photongi.debug.type", "none")]
    uints :=
      [("path.photongi.photon.maxcount", 500000),
       ("path.photongi.photon.maxdepth", 4),
       ("path.photongi.visibility.maxsamplecount", 1024 * 1024),
       ("path.photongi.direct.maxsize", 25000),
       ("path.photongi.direct.lookup.maxcount", 64),
       ("path.photongi.indirect.maxsize", 100000),
       ("path.photongi.indirect.lookup.maxcount", 64),
       ("path.photongi.caustic.maxsize", 100000),
       ("path.photongi.caustic.lookup.maxcount", 256)]
    bools :=
      [("path.photongi.visibility.enabled", true),
       ("path.photongi.direct.enabled", false),
       ("path.photongi.indirect.enabled", false),
       ("path.photongi.caustic.enabled", false)]
    floats :=
      [("path.photongi.visibility.targethitrate", 99 / 100),
       ("path.photongi.visibility.lookup.radius", 15 / 100),
       ("path.photongi.visibility.lookup.normalangle", 10),
       ("path.photongi.direct.lookup.radius", 15 / 100),
       ("path.photongi.direct.lookup.normalangle", 10),
       ("path.photongi.indirect.lookup.radius", 15 / 100),
       ("path.photongi.indirect.lookup.normalangle", 10),
       ("path.photongi.caustic.lookup.radius", 15 / 100),
       ("path.photongi.caustic.lookup.normalangle", 10)] }

/-- The reading `cfg.Get(GetDefaultProps().Get(name))` of one type: the value
`cfg` defines under `name`, else the default; a name without default is an error. -/
def Properties.GetOrDefault {α : Type} (own defaults : List (String × α)) (name : String) :
    Except String α :=
  match own.lookup name with
  | some v => Except.ok v
  | none =>
    match defaults.lookup name with
    | some v => Except.ok v
    | none => Except.error ("Undefined property in Properties::Get(): " ++ name)

/-- Reading `cfg.Get(GetDefaultProps().Get(name)).Get<bool>()`. -/
def Properties.GetBool (cfg : Properties) (name : String) : Except String Bool :=
  Properties.GetOrDefault cfg.bools PhotonGICache.GetDefaultProps.bools name

/-- Reading `cfg.Get(GetDefaultProps().Get(name)).Get<u_int>()`. -/
def Properties.GetUInt (cfg : Properties) (name : String) : Except String Nat :=
  Properties.GetOrDefault cfg.uints PhotonGICache.GetDefaultProps.uints name

/-- Reading `cfg.Get(GetDefaultProps().Get(name)).Get<float>()`. -/
def Properties.GetFloat (cfg : Properties) (name : String) : Except String ℚ :=
  Properties.GetOrDefault cfg.floats PhotonGICache.GetDefaultProps.floats name

/-- Reading `cfg.Get(GetDefaultProps().Get(name)).Get<string>()`. -/
def Properties.GetString (cfg : Properties) (name : String) : Except String String :=
  Properties.GetOrDefault cfg.strings PhotonGICache.GetDefaultProps.strings name

/-- Function `String2SamplerType`; the error is the `runtime_error` thrown. -/
def PhotonGICache.String2SamplerType (type : String) : Except String PhotonGISamplerType :=
  if type = "RANDOM" then Except.ok PhotonGISamplerType.PGIC_SAMPLER_RANDOM
  else if type = "METROPOLIS" then Except.ok PhotonGISamplerType.PGIC_SAMPLER_METROPOLIS
  else Except.error ("Unknown PhotonGI cache debug type: " ++ type)

/-- Function `SamplerType2String`. -/
def PhotonGICache.SamplerType2String (type : PhotonGISamplerType) : String :=
  match type with
  | PhotonGISamplerType.PGIC_SAMPLER_RANDOM => "RANDOM"
  | PhotonGISamplerType.PGIC_SAMPLER_METROPOLIS => "METROPOLIS"

/-- Function `String2DebugType`; the error is the `runtime_error` thrown. -/
def PhotonGICache.String2DebugType (type : String) : Except String PhotonGIDebugType :=
  if type = "showdirect" then Except.ok PhotonGIDebugType.PGIC_DEBUG_SHOWDIRECT
  else if type = "showindirect" then Except.ok PhotonGIDebugType.PGIC_DEBUG_SHOWINDIRECT
  else if type = "showcaustic" then Except.ok PhotonGIDebugType.PGIC_DEBUG_SHOWCAUSTIC
  else if type = "none" then Except.ok PhotonGIDebugType.PGIC_DEBUG_NONE
  else Except.error ("Unknown PhotonGI cache debug type: " ++ type)

/-- Function `DebugType2String`. -/
def PhotonGICache.DebugType2String (type : PhotonGIDebugType) : String :=
  match type with
  | PhotonGIDebugType.PGIC_DEBUG_SHOWDIRECT => "showdirect"
  | PhotonGIDebugType.PGIC_DEBUG_SHOWINDIRECT => "showindirect"
  | PhotonGIDebugType.PGIC_DEBUG_SHOWCAUSTIC => "showcaustic"
  | PhotonGIDebugType.PGIC_DEBUG_NONE => "none"

/-- The visibility group as `FromProperties` sets it (lines 633-640). -/
def FromProperties.visibility (DEFAULT_EPSILON_MIN : ℚ) (cfg : Properties)
    (samplerType : PhotonGISamplerType) (v : VisibilityParams) : Except String VisibilityParams :=
  if samplerType = PhotonGISamplerType.PGIC_SAMPLER_METROPOLIS then
    match cfg.GetBool "path.photongi.visibility.enabled" with
    | Except.error e => Except.error e
    | Except.ok enabled =>
    match cfg.GetFloat "path.photongi.visibility.targethitrate" with
    | Except.error e => Except.error e
    | Except.ok targetHitRate =>
    match cfg.GetUInt "path.photongi.visibility.maxsamplecount" with
    | Except.error e => Except.error e
    | Except.ok maxSampleCount =>
    match cfg.GetFloat "path.photongi.visibility.lookup.radius" with
    | Except.error e => Except.error e
    | Except.ok lookUpRadius =>
    match cfg.GetFloat "path.photongi.visibility.lookup.normalangle" with
    | Except.error e => Except.error e
    | Except.ok lookUpNormalAngle =>
      Except.ok
        { v with
            enabled := enabled
            targetHitRate := targetHitRate
            maxSampleCount := maxSampleCount
            lookUpRadius := max DEFAULT_EPSILON_MIN lookUpRadius
            lookUpNormalAngle := max DEFAULT_EPSILON_MIN lookUpNormalAngle }
  else Except.ok { v with enabled := false }

/-- One of the three blocks `if (params.X.enabled) { ... }` of `FromProperties`
(lines 642-664), with the four keys of the class. -/
def FromProperties.classParams (DEFAULT_EPSILON_MIN : ℚ) (cfg : Properties)
    (maxsize maxcount radius normalangle : String) (p : PhotonClassParams) :
    Except String PhotonClassParams :=
  if p.enabled then
    match cfg.GetUInt maxsize with
    | Except.error e => Except.error e
    | Except.ok maxSize =>
    match cfg.GetUInt maxcount with
    | Except.error e => Except.error e
    | Except.ok lookUpMaxCount =>
    match cfg.GetFloat radius with
    | Except.error e => Except.error e
    | Except.ok lookUpRadius =>
    match cfg.GetFloat normalangle with
    | Except.error e => Except.error e
    | Except.ok lookUpNormalAngle =>
      Except.ok
        { p with
            maxSize := max 0 maxSize
            lookUpMaxCount := max 1 lookUpMaxCount
            lookUpRadius := max DEFAULT_EPSILON_MIN lookUpRadius
            lookUpNormalAngle := max DEFAULT_EPSILON_MIN lookUpNormalAngle }
  else Except.ok p

/-- The parameter block that `FromProperties` hands to the constructor when a
class is enabled (lines 627-666); `params` holds the three enabled flags. -/
def FromProperties.params (DEFAULT_EPSILON_MIN : ℚ) (cfg : Properties)
    (params : PhotonGICacheParams) : Except String PhotonGICacheParams :=
  match cfg.GetString "path.photongi.sampler.type" with
  | Except.error e => Except.error e
  | Except.ok samplerName =>
  match PhotonGICache.String2SamplerType samplerName with
  | Except.error e => Except.error e
  | Except.ok samplerType =>
  match cfg.GetUInt "path.photongi.photon.maxcount" with
  | Except.error e => Except.error e
  | Except.ok maxcount =>
  match cfg.GetUInt "path.photongi.photon.maxdepth" with
  | Except.error e => Except.error e
  | Except.ok maxdepth =>
  match FromProperties.visibility DEFAULT_EPSILON_MIN cfg samplerType params.visibility with
  | Except.error e => Except.error e
  | Except.ok visibility =>
  match FromProperties.classParams DEFAULT_EPSILON_MIN cfg "path.photongi.direct.maxsize"
      "path.photongi.direct.lookup.maxcount" "path.photongi.direct.lookup.radius"
      "path.photongi.direct.lookup.normalangle" params.direct with
  | Except.error e => Except.error e
  | Except.ok direct =>
  match FromProperties.classParams DEFAULT_EPSILON_MIN cfg "path.photongi.indirect.maxsize"
      "path.photongi.indirect.lookup.maxcount" "path.photongi.indirect.lookup.radius"
      "path.photongi.indirect.lookup.normalangle" params.indirect with
  | Except.error e => Except.error e
  | Except.ok indirect =>
  match FromProperties.classParams DEFAULT_EPSILON_MIN cfg "path.photongi.caustic.maxsize"
      "path.photongi.caustic.lookup.maxcount" "path.photongi.caustic.lookup.radius"
      "path.photongi.caustic.lookup.normalangle" params.caustic with
  | Except.error e => Except.error e
  | Except.ok caustic =>
  match cfg.GetString "path.photongi.debug.type" with
  | Except.error e => Except.error e
  | Except.ok debugName =>
  match PhotonGICache.String2DebugType debugName with
  | Except.error e => Except.error e
  | Except.ok debugType =>
    Except.ok
      { samplerType := samplerType
        photon := ⟨max 1 maxcount, max 1 maxdepth⟩
        visibility := visibility
        direct := direct
        indirect := indirect
        caustic := caustic
        debugType := debugType }

/-- Function `PhotonGICache::FromProperties`: `none` is the null pointer, an error
the exception thrown.  `params0` is the block `PhotonGICacheParams params;` as
declared, and `DEFAULT_EPSILON_MIN` the constant of that name; both come from
headers outside these files. -/
def PhotonGICache.FromProperties (params0 : PhotonGICacheParams) (DEFAULT_EPSILON_MIN : ℚ)
    (scn : Scene) (cfg : Properties) : Except String (Option PhotonGICache) :=
  match cfg.GetBool "path.photongi.direct.enabled" with
  | Except.error e => Except.error e
  | Except.ok directEnabled =>
  match cfg.GetBool "path.photongi.indirect.enabled" with
  | Except.error e => Except.error e
  | Except.ok indirectEnabled =>
  match cfg.GetBool "path.photongi.caustic.enabled" with
  | Except.error e => Except.error e
  | Except.ok causticEnabled =>
    let params : PhotonGICacheParams :=
      { params0 with
          direct := { params0.direct with enabled := directEnabled }
          indirect := { params0.indirect with enabled := indirectEnabled }
          caustic := { params0.caustic with enabled := causticEnabled } }
    if params.direct.enabled || params.indirect.enabled || params.caustic.enabled then
      match FromProperties.params DEFAULT_EPSILON_MIN cfg params with
      | Except.error e => Except.error e
      | Except.ok p => Except.ok (some (PhotonGICache.construct scn p))
    else Except.ok none

/-- The candidate samples that the chain iteration at `c` obtains from `Mutate`
after a useless uniform draw (line 435). -/
def RenderFunc.candidateSamples (M : Platform) (pgic : PhotonGICache) (c : ChainState) : List ℚ :=
  let u := UniformMutate c.rndGen (sampleSize pgic)
  let r := TracePhotonPath pgic c.th u.2 u.1
  (Mutate M r.rndGen c.currentPathSamples c.mutationSize).1

/-- The `mutationSize` of the chain after `j` mutations in a row were rejected
from the start of the bucket: it starts at 1 and the `j+1`-th rejection adds
`(1/(j+2) − 0.234)/(j+2)`, the accepted count being 1 and the mutated count
`j+2`. -/
def msSeq : Nat → ℚ
  | 0 => 1
  | j + 1 => msSeq j + (1 / ((j : ℚ) + 2) - 234 / 1000) / ((j : ℚ) + 2)

/-- The sum of the `2^d` increments that the rejections `a+1`, ..., `a+2^d` add to
`mutationSize`, split in halves. -/
def msSum : Nat → Nat → ℚ
  | 0, a => (1 / ((a : ℚ) + 2) - 234 / 1000) / ((a : ℚ) + 2)
  | d + 1, a => msSum d a + msSum d (a + 2 ^ d)

/-- The total multiplicity of a list of flushes. -/
def flushedMultiplicity (flushes : List (Nat × PathPhotons)) : Nat :=
  (flushes.map (fun f => f.1)).sum

/-- The number of workers of a group that are still in their outer loop. -/
def runningCount (renderThreads : List TracePhotonsThread) : Nat :=
  (renderThreads.map (fun th => if th.running then 1 else 0)).sum

/-- The accounting of the traced counters in a trace with parameters `p` and `W`
workers: no traced counter is above `maxTracedCount`, a class of which some
worker holds a photon has a traced counter of at least 1, and while a worker is
running no traced counter is above the work counter, which has not wrapped. -/
def tracedInv (p : PhotonGICacheParams) (W : Nat) (pgic : PhotonGICache)
    (renderThreads : List TracePhotonsThread) : Prop :=
  pgic.params = p ∧ renderThreads.length = W ∧
  (∀ X, pgic.tracedOf X ≤ p.photon.maxTracedCount) ∧
  (∀ X, 0 < storedCount renderThreads X → 1 ≤ pgic.tracedOf X) ∧
  (1 ≤ runningCount renderThreads →
    (∀ X, pgic.tracedOf X ≤ pgic.globalPhotonsCounter) ∧
    pgic.globalPhotonsCounter + 4096 * (runningCount renderThreads - 1) ≤
      p.photon.maxTracedCount + 4095 + 4096 * (W - 1))

/-- The accounting of the classes without budget: a class whose `maxSize` is 0
holds no photon in any worker and has a traced counter of 0. -/
def disabledInv (pgic : PhotonGICache) (tot : PhotonClass → Nat) : Prop :=
  ∀ X, pgic.params.maxSizeOf X = 0 → tot X = 0 ∧ pgic.tracedOf X = 0

/-! ## The sample vector with checked reads (`tracephotonsthread.cpp`, lines 88-250)

`TracePhotonPath` once more, with every `samples[i]` as a read that fails outside
the vector: `none` is a read past the end. -/

/-- The `sampleOffset` of the vertex at `depth` (line 138). -/
def TracePhotonPath.sampleOffset (depth : Nat) : Nat :=
  u32 (sampleBootSize + u32 ((depth - 1) * sampleStepSize))

/-- The loop of `TracePhotonPath` with checked reads of `samples`. -/
def TracePhotonPath.loopChecked (pgic : PhotonGICache) (th : TracePhotonsThread)
    (samples : List ℚ) : Nat → PathState → Option PathState
  | 0, s => some s
  | fuel + 1, s =>
    if s.depth ≤ pgic.params.photon.maxPathDepth then
      let sampleOffset := TracePhotonPath.sampleOffset s.depth
      match samples.get? sampleOffset with
      | none => none
      | some u =>
        match pgic.scene.Intersect s.volInfo u s.nextEventRay with
        | some hit =>
          let s1 : PathState :=
            { s with
                lightPathFlux := s.lightPathFlux.mul hit.connectionThroughput
                volInfo := hit.volInfo }
          let s2 := depositVertex pgic th hit.bsdf s1
          if s2.depth ≥ pgic.params.photon.maxPathDepth then some s2
          else
            match samples.get? (u32 (sampleOffset + 2)) with
            | none => none
            | some u2 =>
              match samples.get? (u32 (sampleOffset + 3)) with
              | none => none
              | some u3 =>
                let bs := hit.bsdf.Sample u2 u3
                if bs.value.Black then some s2
                else
                  TracePhotonPath.loopChecked pgic th samples fuel
                    { s2 with
                        specularPath := s2.specularPath && decide (bs.event &&& SPECULAR ≠ 0)
                        lightPathFlux := s2.lightPathFlux.mul bs.value
                        volInfo := pgic.scene.VolInfoUpdate s2.volInfo bs.event hit.bsdf
                        nextEventRay := s2.nextEventRay.Update hit.bsdf.hitPoint.p bs.sampledDir
                        depth := s2.depth + 1 }
        | none => some s
    else some s

/-- The five samples `samples[2]`, ..., `samples[6]` handed to `Emit`, read with
checks. -/
def TracePhotonPath.emitSamples (samples : List ℚ) : Option (ℚ × ℚ × ℚ × ℚ × ℚ) :=
  match samples.get? 2 with
  | none => none
  | some u2 =>
    match samples.get? 3 with
    | none => none
    | some u3 =>
      match samples.get? 4 with
      | none => none
      | some u4 =>
        match samples.get? 5 with
        | none => none
        | some u5 =>
          match samples.get? 6 with
          | none => none
          | some u6 => some (u2, u3, u4, u5, u6)

/-- Function `TracePhotonPath` with checked reads of `samples`. -/
def TracePhotonPath.checked (pgic : PhotonGICache) (th : TracePhotonsThread)
    (rndGen : RandomGenerator) (samples : List ℚ) : Option PathResult :=
  match samples.get? 0 with
  | none => none
  | some timeSample =>
    let time := pgic.scene.GenerateRayTime timeSample
    match samples.get? 1 with
    | none => none
    | some u1 =>
      match pgic.scene.SampleLights u1 with
      | some (light, lightPickPdf) =>
        match TracePhotonPath.emitSamples samples with
        | none => none
        | some u =>
          let e := light.Emit u.1 u.2.1 u.2.2.1 u.2.2.2.1 u.2.2.2.2
          if !e.flux.Black then
            match TracePhotonPath.loopChecked pgic th samples pgic.params.photon.maxPathDepth
                { rndGen := rndGen
                  photons := PathPhotons.empty
                  usefulPath := false
                  lightPathFlux := e.flux.divf (e.emitPdfW * lightPickPdf)
                  nextEventRay := ⟨e.o, e.d, time⟩
                  specularPath := true
                  depth := 1
                  volInfo := 0 } with
            | none => none
            | some s => some ⟨s.usefulPath, s.photons, s.rndGen⟩
          else some ⟨false, PathPhotons.empty, rndGen⟩
      | none => some ⟨false, PathPhotons.empty, rndGen⟩

/-! ## The random sampler (`random.cpp`, lines 28-85)

`RANDOM_THREAD_WORK_SIZE` is a constant of a header outside these files and is a
parameter here.  A modulo or a division by zero is `none`. -/

/-- Subtraction of `u_int`. -/
def u32sub (a b : Nat) : Nat := (a + 4294967296 - b) % 4294967296

/-- Class `Film` as far as the random sampler reads it: the
four bounds `GetSubRegion()` returns (`x0`, `x1`, `y0`, `y1`) and `GetWidth()`,
`GetHeight()`; the class is declared outside these files. -/
structure Film where
  subRegion0 : Nat
  subRegion1 : Nat
  subRegion2 : Nat
  subRegion3 : Nat
  width : Nat
  height : Nat

/-- Class `RandomSamplerSharedData`. -/
structure RandomSamplerSharedData where
  filmRegionPixelCount : Nat
  pixelIndex : Nat
deriving DecidableEq

/-- The constructor `RandomSamplerSharedData(film)` (lines 32-36). -/
def RandomSamplerSharedData.construct (film : Film) : RandomSamplerSharedData :=
  { filmRegionPixelCount :=
      u32 (u32 (u32sub film.subRegion1 film.subRegion0 + 1) *
        u32 (u32sub film.subRegion3 film.subRegion2 + 1))
    pixelIndex := 0 }

/-- Method `RandomSamplerSharedData::GetNewPixelIndex` (lines 38-46): the index
handed out and the shared data afterwards. -/
def RandomSamplerSharedData.GetNewPixelIndex (RANDOM_THREAD_WORK_SIZE : Nat)
    (sharedData : RandomSamplerSharedData) : Option (Nat × RandomSamplerSharedData) :=
  if sharedData.filmRegionPixelCount = 0 then none
  else
    some (sharedData.pixelIndex,
      { sharedData with
          pixelIndex :=
            u32 (sharedData.pixelIndex + RANDOM_THREAD_WORK_SIZE) %
              sharedData.filmRegionPixelCount })

/-- The members of a `RandomSampler` that `InitNewSample` works on. -/
structure RandomSampler where
  rndGen : RandomGenerator
  pixelIndexBase : Nat
  pixelIndexOffset : Nat
  sample0 : ℚ
  sample1 : ℚ

/-- The pixel of `InitNewSample` (lines 77-80): `pixelX` and `pixelY` for a base
and an offset. -/
def RandomSampler.pixel (film : Film) (filmRegionPixelCount pixelIndexBase pixelIndexOffset : Nat) :
    Option (Nat × Nat) :=
  if filmRegionPixelCount = 0 then none
  else
    let pixelIndex := u32 (pixelIndexBase + pixelIndexOffset) % filmRegionPixelCount
    let subRegionWidth := u32 (u32sub film.subRegion1 film.subRegion0 + 1)
    if subRegionWidth = 0 then none
    else
      some (u32 (film.subRegion0 + pixelIndex % subRegionWidth),
        u32 (film.subRegion2 + pixelIndex / subRegionWidth))

/-- Method `RandomSampler::InitNewSample` (lines 64-84): the sampler and the shared
data afterwards. -/
def RandomSampler.InitNewSample (RANDOM_THREAD_WORK_SIZE : Nat) (film : Film)
    (sharedData : RandomSamplerSharedData) (s : RandomSampler) :
    Option (RandomSampler × RandomSamplerSharedData) :=
  let pixelIndexOffset := u32 (s.pixelIndexOffset + 1)
  let asked : Option (Nat × Nat × RandomSamplerSharedData) :=
    if pixelIndexOffset > RANDOM_THREAD_WORK_SIZE then
      match sharedData.GetNewPixelIndex RANDOM_THREAD_WORK_SIZE with
      | none => none
      | some r => some (r.1, 0, r.2)
    else some (s.pixelIndexBase, pixelIndexOffset, sharedData)
  match asked with
  | none => none
  | some a =>
    match RandomSampler.pixel film a.2.2.filmRegionPixelCount a.1 a.2.1 with
    | none => none
    | some px =>
      let d0 := s.rndGen.floatValue
      let d1 := d0.2.floatValue
      some
        ({ rndGen := d1.2
           pixelIndexBase := a.1
           pixelIndexOffset := a.2.1
           sample0 := ((px.1 : ℚ) + d0.1) / (film.width : ℚ)
           sample1 := ((px.2 : ℚ) + d1.1) / (film.height : ℚ) },
          a.2.2)

/-- Calling `GetNewPixelIndex` `n` times in a row: the indices handed out, in
order, and the shared data afterwards. -/
def RandomSamplerSharedData.calls (RANDOM_THREAD_WORK_SIZE : Nat) :
    Nat → RandomSamplerSharedData → Option (List Nat × RandomSamplerSharedData)
  | 0, sharedData => some ([], sharedData)
  | n + 1, sharedData =>
    match sharedData.GetNewPixelIndex RANDOM_THREAD_WORK_SIZE with
    | none => none
    | some r =>
      match RandomSamplerSharedData.calls RANDOM_THREAD_WORK_SIZE n r.2 with
      | none => none
      | some rest => some (r.1 :: rest.1, rest.2)

/-! ## The BVH of the direct light sampling cache (`dlscbvh.cpp`)

The node array is the one the base class `IndexBvh` builds; the base class and
the builder are outside these files, so the array is taken as it is given.  A
read outside the node array or outside the entry vector is an error of its own. -/

/-- A `DLSCacheEntry` as far as `GetEntry` reads it. -/
structure DLSCacheEntry where
  p : Point
  n : Normal
  isVolume : Bool
deriving DecidableEq

/-- An `IndexBVHArrayNode`: `nodeData` and the two members of its union, the box
of `bvhNode` and the index of `entryLeaf`. -/
structure IndexBVHArrayNode where
  nodeData : Nat
  bboxMin : Vec3
  bboxMax : Vec3
  entryLeafIndex : Nat
deriving DecidableEq

/-- Macro `BVHNodeData_IsLeaf` of the BVH header: the top bit of `nodeData`. -/
def BVHNodeData_IsLeaf (nodeData : Nat) : Bool := decide (nodeData &&& 2147483648 ≠ 0)

/-- Macro `BVHNodeData_GetSkipIndex` of the BVH header: the low 31 bits of
`nodeData`. -/
def BVHNodeData_GetSkipIndex (nodeData : Nat) : Nat := nodeData &&& 2147483647

/-- Class `DLSCBvh` with the members of its base class that `GetEntry` reads. -/
structure DLSCBvh where
  arrayNodes : List IndexBVHArrayNode
  allEntries : List DLSCacheEntry
  entryRadius : ℚ
  entryRadius2 : ℚ
  entryNormalCosAngle : ℚ

/-- The constructor `DLSCBvh(entries, radius, normalAngle)` (lines 35-37):
`arrayNodes` is the array the base class builds over `entries`, `cosRadians` is
`cosf(Radians(.))`. -/
def DLSCBvh.construct (cosRadians : ℚ → ℚ) (arrayNodes : List IndexBVHArrayNode)
    (entries : List DLSCacheEntry) (radius normalAngle : ℚ) : DLSCBvh :=
  { arrayNodes := arrayNodes
    allEntries := entries
    entryRadius := radius
    entryRadius2 := radius * radius
    entryNormalCosAngle := cosRadians normalAngle }

/-- The test of an entry (lines 54-56). -/
def DLSCBvh.validEntry (bvh : DLSCBvh) (p : Point) (n : Normal) (isVolume : Bool)
    (entry : DLSCacheEntry) : Prop :=
  DistanceSquared p entry.p ≤ bvh.entryRadius2 ∧ isVolume = entry.isVolume ∧
    (isVolume = true ∨ Dot n entry.n ≥ bvh.entryNormalCosAngle)

instance (bvh : DLSCBvh) (p : Point) (n : Normal) (isVolume : Bool) (entry : DLSCacheEntry) :
    Decidable (bvh.validEntry p n isVolume entry) :=
  inferInstanceAs (Decidable (DistanceSquared p entry.p ≤ bvh.entryRadius2 ∧
    isVolume = entry.isVolume ∧
    (isVolume = true ∨ Dot n entry.n ≥ bvh.entryNormalCosAngle)))

/-- The test of a bounding box (lines 64-66). -/
def IndexBVHArrayNode.boxContains (node : IndexBVHArrayNode) (p : Point) : Prop :=
  p.x ≥ node.bboxMin.x ∧ p.x ≤ node.bboxMax.x ∧
    p.y ≥ node.bboxMin.y ∧ p.y ≤ node.bboxMax.y ∧
    p.z ≥ node.bboxMin.z ∧ p.z ≤ node.bboxMax.z

instance (node : IndexBVHArrayNode) (p : Point) : Decidable (node.boxContains p) :=
  inferInstanceAs (Decidable (p.x ≥ node.bboxMin.x ∧ p.x ≤ node.bboxMax.x ∧
    p.y ≥ node.bboxMin.y ∧ p.y ≤ node.bboxMax.y ∧
    p.z ≥ node.bboxMin.z ∧ p.z ≤ node.bboxMax.z))

/-- What one iteration of the loop of `GetEntry` does. -/
inductive GetEntryStep where
  | found (entry : DLSCacheEntry)
  | next (currentNode : Nat)
  | invalidRead
deriving DecidableEq

/-- The ways in which a run of `GetEntry` gives no result. -/
inductive GetEntryError where
  | outOfFuel
  | invalidRead
deriving DecidableEq

/-- The body of the loop of `GetEntry` at `currentNode` (lines 47-73). -/
def DLSCBvh.GetEntry.step (bvh : DLSCBvh) (p : Point) (n : Normal) (isVolume : Bool)
    (currentNode : Nat) : GetEntryStep :=
  match bvh.arrayNodes.get? currentNode with
  | none => GetEntryStep.invalidRead
  | some node =>
    let nodeData := node.nodeData
    if BVHNodeData_IsLeaf nodeData then
      match bvh.allEntries.get? node.entryLeafIndex with
      | none => GetEntryStep.invalidRead
      | some entry =>
        if bvh.validEntry p n isVolume entry then GetEntryStep.found entry
        else GetEntryStep.next (u32 (currentNode + 1))
    else
      if node.boxContains p then GetEntryStep.next (u32 (currentNode + 1))
      else GetEntryStep.next nodeData

/-- The loop `while (currentNode < stopNode)` of `GetEntry`; `fuel` bounds the
number of iterations; `none` is the null pointer. -/
def DLSCBvh.GetEntry.loop (bvh : DLSCBvh) (p : Point) (n : Normal) (isVolume : Bool)
    (stopNode : Nat) : Nat → Nat → Except GetEntryError (Option DLSCacheEntry)
  | 0, currentNode =>
    if currentNode < stopNode then Except.error GetEntryError.outOfFuel else Except.ok none
  | fuel + 1, currentNode =>
    if currentNode < stopNode then
      match DLSCBvh.GetEntry.step bvh p n isVolume currentNode with
      | GetEntryStep.found entry => Except.ok (some entry)
      | GetEntryStep.next c => DLSCBvh.GetEntry.loop bvh p n isVolume stopNode fuel c
      | GetEntryStep.invalidRead => Except.error GetEntryError.invalidRead
    else Except.ok none

/-- The root's skip index, `stopNode` (line 45); 0 for an array without root. -/
def DLSCBvh.stopNode (bvh : DLSCBvh) : Nat :=
  match bvh.arrayNodes.get? 0 with
  | some root => BVHNodeData_GetSkipIndex root.nodeData
  | none => 0

/-- Method `DLSCBvh::GetEntry`. -/
def DLSCBvh.GetEntry (bvh : DLSCBvh) (p : Point) (n : Normal) (isVolume : Bool) (fuel : Nat) :
    Except GetEntryError (Option DLSCacheEntry) :=
  match bvh.arrayNodes.get? 0 with
  | none => Except.error GetEntryError.invalidRead
  | some root =>
    DLSCBvh.GetEntry.loop bvh p n isVolume (BVHNodeData_GetSkipIndex root.nodeData) fuel 0

/-- The nodes that the loop of `GetEntry` visits from `currentNode` on, in order. -/
def DLSCBvh.GetEntry.visited (bvh : DLSCBvh) (p : Point) (n : Normal) (isVolume : Bool)
    (stopNode : Nat) : Nat → Nat → List Nat
  | 0, _ => []
  | fuel + 1, currentNode =>
    if currentNode < stopNode then
      currentNode ::
        (match DLSCBvh.GetEntry.step bvh p n isVolume currentNode with
          | GetEntryStep.next c => DLSCBvh.GetEntry.visited bvh p n isVolume stopNode fuel c
          | _ => [])
    else []

/-- Node `i` is a leaf whose entry is `entry`. -/
def DLSCBvh.leafEntry (bvh : DLSCBvh) (i : Nat) (entry : DLSCacheEntry) : Prop :=
  ∃ node, bvh.arrayNodes.get? i = some node ∧ BVHNodeData_IsLeaf node.nodeData = true ∧
    bvh.allEntries.get? node.entryLeafIndex = some entry

/-- Every interior node has a skip index above its own index and not above the
root's. -/
def DLSCBvh.skipsForward (bvh : DLSCBvh) : Prop :=
  ∀ i node, bvh.arrayNodes.get? i = some node → BVHNodeData_IsLeaf node.nodeData = false →
    i < node.nodeData ∧ node.nodeData ≤ bvh.stopNode

/-- The node array has a root and holds the nodes below the root's skip index,
and every leaf points into the entry vector. -/
def DLSCBvh.inBounds (bvh : DLSCBvh) : Prop :=
  0 < bvh.arrayNodes.length ∧ bvh.stopNode ≤ bvh.arrayNodes.length ∧
    ∀ i node, bvh.arrayNodes.get? i = some node → BVHNodeData_IsLeaf node.nodeData = true →
      node.entryLeafIndex < bvh.allEntries.length

/-- The box of every interior node contains every point within the entry radius
of every entry of a leaf of its subtree (the nodes after it and before its skip
index). -/
def DLSCBvh.boxesCover (bvh : DLSCBvh) : Prop :=
  ∀ j nodeJ, bvh.arrayNodes.get? j = some nodeJ → BVHNodeData_IsLeaf nodeJ.nodeData = false →
    ∀ i entry, j < i → i < nodeJ.nodeData → bvh.leafEntry i entry →
      ∀ q : Point, DistanceSquared q entry.p ≤ bvh.entryRadius2 → nodeJ.boxContains q

/-- Every entry of the vector is the entry of a leaf below the root's skip index. -/
def DLSCBvh.leavesCover (bvh : DLSCBvh) : Prop :=
  ∀ entry ∈ bvh.allEntries, ∃ i, i < bvh.stopNode ∧ bvh.leafEntry i entry

/-- The float `1 - 2^-12`. -/
def nearOne : ℚ := 4095 / 4096

/-- A random stream whose second draw is 3/4 and whose other draws are
`1 - 2^-12`. -/
def nearOneStream : Nat → ℚ := fun n => if n = 1 then 3 / 4 else nearOne

/-- What is used of the rounding of a float runtime: rounding is monotone, and
it leaves the multiples of `2^-24` between -1 and 1 and the whole numbers up to
`2^24` as they are (all of them are floats). -/
def Platform.roundsLikeFloat (M : Platform) : Prop :=
  (∀ x y : ℚ, x ≤ y → M.fl x ≤ M.fl y) ∧
    (∀ k : ℤ, |k| ≤ 16777216 → M.fl ((k : ℚ) / 16777216) = (k : ℚ) / 16777216) ∧
    (∀ n : ℤ, |n| ≤ 16777216 → M.fl (n : ℚ) = (n : ℚ))

/-- What is used of `powf` at the base `1 - 2^-12`: for an exponent between 1 and
`2^15` the result lies between `2^-24` and `1 - 2^-24` (the power itself lies
between 0.0003 and `1 - 2^-12`), and for an exponent of at most `-2^13` the
result is at least 3 (the power itself is above 7). -/
def Platform.powfNearOne (M : Platform) : Prop :=
  (∀ e : ℚ, 1 ≤ e → e ≤ 32768 →
      1 / 16777216 ≤ M.powf nearOne e ∧ M.powf nearOne e ≤ 1 - 1 / 16777216) ∧
    (∀ e : ℚ, e ≤ -8192 → 3 ≤ M.powf nearOne e)

/-! ## Concrete inputs

Small scenes, parameter blocks and a platform on which the definitions above
are run. -/

/-- The spectrum with every channel 1. -/
def whiteSpectrum : Spectrum := ⟨1, 1, 1⟩

/-- A diffuse floor at height -1 facing up, enabled for the photon cache; its
sampler scatters straight up with a diffuse event. -/
def floorBSDF : BSDF :=
  { hitPoint := ⟨⟨0, 0, -1⟩, ⟨0, 0, 1⟩, true⟩
    IsPhotonGIEnabled := true
    GetMaterialType := MaterialType.MATTE
    EvaluateTotal := ⟨1 / 2, 1 / 2, 1 / 2⟩
    Sample := fun _ _ => ⟨⟨1 / 2, 1 / 2, 1 / 2⟩, ⟨0, 0, 1⟩, 1, 1, 1⟩
    Evaluate := fun _ => ⟨1 / 2, 1 / 2, 1 / 2⟩ }

/-- A mirror at height 1 facing down, not enabled for the photon cache; its
sampler reflects straight down with a specular event. -/
def mirrorBSDF : BSDF :=
  { hitPoint := ⟨⟨0, 0, 1⟩, ⟨0, 0, -1⟩, true⟩
    IsPhotonGIEnabled := false
    GetMaterialType := MaterialType.OTHER
    EvaluateTotal := whiteSpectrum
    Sample := fun _ _ => ⟨whiteSpectrum, ⟨0, 0, -1⟩, 1, 1, SPECULAR⟩
    Evaluate := fun _ => Spectrum.zero }

/-- A light at the origin shining straight down. -/
def downLight : LightSource := ⟨fun _ _ _ _ _ => ⟨whiteSpectrum, ⟨0, 0, 0⟩, ⟨0, 0, -1⟩, 1⟩⟩

/-- A light at the origin shining straight up. -/
def upLight : LightSource := ⟨fun _ _ _ _ _ => ⟨whiteSpectrum, ⟨0, 0, 0⟩, ⟨0, 0, 1⟩, 1⟩⟩

/-- A floor under a light: every path lands on the floor at depth 1 and then
leaves the scene. -/
def floorScene : Scene :=
  { GenerateRayTime := fun u => u
    SampleLights := fun _ => some (downLight, 1)
    Intersect := fun vol _ ray =>
      if ray.d.z < 0 then some ⟨floorBSDF, whiteSpectrum, vol⟩ else none
    VolInfoUpdate := fun vol _ _ => vol }

/-- A mirror above a light above a floor: every path is reflected by the mirror
(depth 1, specular) and lands on the floor at depth 2. -/
def mirrorScene : Scene :=
  { GenerateRayTime := fun u => u
    SampleLights := fun _ => some (upLight, 1)
    Intersect := fun vol _ ray =>
      if ray.d.z < 0 then some ⟨floorBSDF, whiteSpectrum, vol⟩
      else some ⟨mirrorBSDF, whiteSpectrum, vol⟩
    VolInfoUpdate := fun vol _ _ => vol }

/-- A scene without lights. -/
def darkScene : Scene :=
  { GenerateRayTime := fun u => u
    SampleLights := fun _ => none
    Intersect := fun _ _ _ => none
    VolInfoUpdate := fun vol _ _ => vol }

/-- A parameter block with every class enabled and depth 4. -/
def allEnabledParams : PhotonGICacheParams :=
  { samplerType := PhotonGISamplerType.PGIC_SAMPLER_RANDOM
    photon := ⟨2, 4⟩
    visibility := ⟨false, 99 / 100, 1048576, 15 / 100, 0, 10⟩
    direct := ⟨true, 100, 64, 1 / 10, 0, 10⟩
    indirect := ⟨true, 100, 64, 2 / 10, 0, 20⟩
    caustic := ⟨true, 100, 256, 3 / 10, 0, 30⟩
    debugType := PhotonGIDebugType.PGIC_DEBUG_NONE }

/-- Only the indirect class is enabled (the direct size given is 7). -/
def indirectOnlyParams : PhotonGICacheParams :=
  { allEnabledParams with
      direct := ⟨false, 7, 64, 1 / 10, 0, 10⟩
      caustic := ⟨false, 100, 256, 3 / 10, 0, 30⟩ }

/-- Only the direct class is enabled, with room for a single photon. -/
def directOnlyParams : PhotonGICacheParams :=
  { allEnabledParams with
      direct := ⟨true, 1, 64, 1 / 10, 0, 10⟩
      indirect := ⟨false, 100, 64, 2 / 10, 0, 20⟩
      caustic := ⟨false, 100, 256, 3 / 10, 0, 30⟩ }

/-- Only the direct class is enabled, with room for 100 photons, and 101 paths
are to be traced. -/
def budget100Params : PhotonGICacheParams :=
  { directOnlyParams with
      photon := ⟨101, 4⟩
      direct := ⟨true, 100, 64, 1 / 10, 0, 10⟩ }

/-- A platform with exact float arithmetic, a power function that is exact for
whole exponents, a constant random stream and a single hardware thread. -/
def exactPlatform : Platform :=
  { fl := fun x => x
    powf := fun x e => x ^ (Int.toNat ⌊e⌋)
    M_PI := 355 / 113
    INV_PI := 113 / 355
    randomStream := fun _ _ => 1 / 2
    hardware_concurrency := 1
    TraceVisibilityParticles := fun _ _ => ([], ⟨fun _ _ => 0⟩)
    GetAllNearEntries := fun bvh _ _ => ([], bvh.entryRadius * bvh.entryRadius)
    RadianceGetAllNearEntries := fun bvh _ _ => ([], bvh.entryRadius * bvh.entryRadius)
    RadianceGetNearestEntry := fun _ _ _ => none }

/-- Rounding to sixteenths inside `[-1/2, 1/2]` and to quarters outside: like a
float format, finer near zero than near one. -/
def coarseRound (x : ℚ) : ℚ :=
  if -(1 / 2) ≤ x ∧ x ≤ 1 / 2 then (⌊16 * x + 1 / 2⌋ : ℚ) / 16 else (⌊4 * x + 1 / 2⌋ : ℚ) / 4

/-- The exact platform with sums and differences rounded by `coarseRound` and a
random stream that alternates between 1/4 and 1/2. -/
def coarsePlatform : Platform :=
  { exactPlatform with
      fl := coarseRound
      randomStream := fun _ n => if n % 2 = 0 then 1 / 4 else 1 / 2 }

/-- A worker that has just been started on the exact platform. -/
def freshThread : TracePhotonsThread := TracePhotonsThread.Start exactPlatform 0

/-- A sample vector with every sample one half (depth 4: 23 samples). -/
def halfSamples : List ℚ := List.replicate 23 (1 / 2)

/-- A lookup by exhaustive search: the records of all entries of `positions`
within `radius2` of `p`, in storage order. -/
def searchNear (positions : List Point) (p : Point) (radius2 : ℚ) : List NearPhoton :=
  (List.range positions.length).filterMap (fun i =>
    match positions.get? i with
    | some q => if DistanceSquared p q ≤ radius2 then some ⟨i, DistanceSquared p q⟩ else none
    | none => none)

/-- The exact platform with BVH lookups done by exhaustive search within the
entry radius (the normal is not tested). -/
def searchPlatform : Platform :=
  { exactPlatform with
      GetAllNearEntries := fun bvh p _ =>
        (searchNear (bvh.allEntries.map (fun photon => photon.p)) p
          (bvh.entryRadius * bvh.entryRadius), bvh.entryRadius * bvh.entryRadius)
      RadianceGetAllNearEntries := fun bvh p _ =>
        (searchNear (bvh.allEntries.map (fun photon => photon.p)) p
          (bvh.entryRadius * bvh.entryRadius), bvh.entryRadius * bvh.entryRadius)
      RadianceGetNearestEntry := fun bvh p _ =>
        bvh.allEntries.find? (fun photon =>
          decide (DistanceSquared p photon.p ≤ bvh.entryRadius * bvh.entryRadius)) }

/-- A photon on the floor at abscissa `x` that arrived straight from above with
flux `a` on every channel. -/
def floorPhoton (x a : ℚ) : Photon := ⟨⟨x, 0, -1⟩, ⟨0, 0, -1⟩, ⟨a, a, a⟩, ⟨0, 0, 1⟩⟩

/-- A radiance photon on the floor at abscissa `x` with radiance `a` on every channel. -/
def floorRadiancePhoton (x a : ℚ) : RadiancePhoton := ⟨⟨x, 0, -1⟩, ⟨0, 0, 1⟩, ⟨a, a, a⟩⟩

/-- A cache after preprocessing: three direct photons (the third one out of
reach of the floor point), two caustic photons and three radiance photons, with
lookup radius 1. -/
def litCache : PhotonGICache :=
  { PhotonGICache.construct floorScene allEnabledParams with
      directPhotonTracedCount := 4
      indirectPhotonTracedCount := 4
      causticPhotonTracedCount := 2
      directPhotonsBVH := some ⟨[floorPhoton 0 1, floorPhoton (1 / 2) 2, floorPhoton 3 1], 64, 1, 10⟩
      causticPhotonsBVH := some ⟨[floorPhoton (1 / 2) 1, floorPhoton (-1 / 2) 3], 256, 1, 30⟩
      radiancePhotonsBVH := some ⟨[floorRadiancePhoton 2 5, floorRadiancePhoton (1 / 2) 1,
        floorRadiancePhoton 0 3], 64, 1, 20⟩ }

/-- The floor seen through a material that is not matte. -/
def glossyFloorBSDF : BSDF := { floorBSDF with GetMaterialType := MaterialType.OTHER }

/-- The floor cache with every class enabled at the moment the direct population
has reached its budget of 100. -/
def directFullCache : PhotonGICache :=
  { PhotonGICache.construct floorScene allEnabledParams with globalDirectSize := 100 }

/-- Every class enabled, depth 4, Metropolis sampler. -/
def metropolisParams : PhotonGICacheParams :=
  { allEnabledParams with samplerType := PhotonGISamplerType.PGIC_SAMPLER_METROPOLIS }

/-- The floor scene prepared for the Metropolis sampler. -/
def metropolisCache : PhotonGICache := PhotonGICache.construct floorScene metropolisParams

/-- The scene without lights prepared for the Metropolis sampler. -/
def darkCache : PhotonGICache := PhotonGICache.construct darkScene metropolisParams

/-- The exact platform with a random stream that steps through the tenths. -/
def steppingPlatform : Platform :=
  { exactPlatform with
      randomStream := fun seed n => (((((n + seed) * 7) % 10 : Nat) : ℚ)) / 10 }

/-- A light shining straight down from the abscissa given by its first sample. -/
def slideLight : LightSource :=
  ⟨fun u0 _ _ _ _ => ⟨whiteSpectrum, ⟨u0, 0, 0⟩, ⟨0, 0, -1⟩, 1⟩⟩

/-- A floor under the sliding light, which is picked only by a sample of at least
one half: a path lands on the floor right under its origin, or has no light. -/
def slideScene : Scene :=
  { GenerateRayTime := fun u => u
    SampleLights := fun u => if u < 1 / 2 then none else some (slideLight, 1)
    Intersect := fun vol _ ray =>
      if ray.d.z < 0 then
        some ⟨{ floorBSDF with hitPoint := ⟨⟨ray.o.x, 0, -1⟩, ⟨0, 0, 1⟩, true⟩ }, whiteSpectrum, vol⟩
      else none
    VolInfoUpdate := fun vol _ _ => vol }

/-- The sliding scene prepared for the Metropolis sampler. -/
def slideCache : PhotonGICache := PhotonGICache.construct slideScene metropolisParams

/-- A fresh worker on the stepping platform. -/
def slideThread : TracePhotonsThread := TracePhotonsThread.Start steppingPlatform 0

/-- A configuration that names an unknown sampler and an unknown debug type and
enables no class. -/
def unknownTagsCfg : Properties :=
  { bools := []
    uints := []
    floats := []
    strings := [("path.photongi.sampler.type", "SOBOL"), ("path.photongi.debug.type", "showall")] }

/-- A configuration that enables the direct class and names an unknown sampler. -/
def unknownSamplerCfg : Properties :=
  { bools := [("path.photongi.direct.enabled", true)]
    uints := []
    floats := []
    strings := [("path.photongi.sampler.type", "SOBOL")] }

/-- The configuration that defines nothing. -/
def emptyCfg : Properties := ⟨[], [], [], []⟩

/-- The floor scene with a light strategy that picks the light for the sample 3/4
only: every other path has no light. -/
def pinholeScene : Scene :=
  { GenerateRayTime := fun u => u
    SampleLights := fun u => if u = 3 / 4 then some (downLight, 1) else none
    Intersect := fun vol _ ray =>
      if ray.d.z < 0 then some ⟨floorBSDF, whiteSpectrum, vol⟩ else none
    VolInfoUpdate := fun vol _ _ => vol }

/-- The pinhole scene prepared for the Metropolis sampler with 4096 paths. -/
def pinholeCache : PhotonGICache :=
  PhotonGICache.construct pinholeScene
    { samplerType := PhotonGISamplerType.PGIC_SAMPLER_METROPOLIS
      photon := ⟨4096, 4⟩
      visibility := ⟨false, 99 / 100, 1048576, 15 / 100, 0, 10⟩
      direct := ⟨true, 100, 64, 1 / 10, 0, 10⟩
      indirect := ⟨true, 100, 64, 2 / 10, 0, 20⟩
      caustic := ⟨true, 100, 256, 3 / 10, 0, 30⟩
      debugType := PhotonGIDebugType.PGIC_DEBUG_NONE }

/-- A configuration that enables the indirect class only, with the random sampler,
a radius and an angle below the floor, and counts of zero. -/
def clampedCfg : Properties :=
  { bools := [("path.photongi.indirect.enabled", true)]
    uints := [("path.photongi.photon.maxcount", 0), ("path.photongi.photon.maxdepth", 0),
      ("path.photongi.indirect.lookup.maxcount", 0), ("path.photongi.indirect.maxsize", 10)]
    floats := [("path.photongi.indirect.lookup.radius", 0),
      ("path.photongi.indirect.lookup.normalangle", -5)]
    strings := [("path.photongi.sampler.type", "RANDOM")] }

/-- The exact platform with two hardware threads. -/
def twoWorkerPlatform : Platform := { exactPlatform with hardware_concurrency := 2 }

/-- A film of 8 by 6 pixels with the sub-region `[2, 5] x [1, 3]`. -/
def smallFilm : Film := ⟨2, 5, 1, 3, 8, 6⟩

/-- A tree of five nodes over three entries: the root (skip index 5), a leaf, an
interior node (skip index 5) and two leaves. -/
def smallBvh : DLSCBvh :=
  DLSCBvh.construct (fun _ => 1 / 2)
    [⟨5, ⟨-1, -1, -1⟩, ⟨12, 1, 1⟩, 0⟩,
     ⟨2147483648 + 2, ⟨0, 0, 0⟩, ⟨0, 0, 0⟩, 0⟩,
     ⟨5, ⟨4, -1, -1⟩, ⟨12, 1, 1⟩, 0⟩,
     ⟨2147483648 + 4, ⟨0, 0, 0⟩, ⟨0, 0, 0⟩, 1⟩,
     ⟨2147483648 + 5, ⟨0, 0, 0⟩, ⟨0, 0, 0⟩, 2⟩]
    [⟨⟨0, 0, 0⟩, ⟨0, 0, 1⟩, false⟩, ⟨⟨5, 0, 0⟩, ⟨0, 0, -1⟩, false⟩,
      ⟨⟨11, 0, 0⟩, ⟨0, 0, 1⟩, true⟩]
    1 60

/-- Rounding to the nearest multiple of `2^-24`, the spacing of the floats between
1/2 and 1. -/
def round24 (x : ℚ) : ℚ := (⌊x * 16777216 + 1 / 2⌋ : ℚ) / 16777216

/-- A platform that rounds every sum and difference of `Mutate` and the result of
`powf` with `round24`; its `powf` takes the whole part of the exponent, of either
sign; its random stream is `nearOneStream`. -/
def roundingPlatform : Platform :=
  { exactPlatform with
      fl := round24
      powf := fun x e =>
        round24 (if 0 ≤ ⌊e⌋ then x ^ (Int.toNat ⌊e⌋) else (x ^ (Int.toNat (-⌊e⌋)))⁻¹)
      randomStream := fun _ => nearOneStream }

/-- A fresh worker whose random stream is `nearOneStream`. -/
def pinholeThread : TracePhotonsThread := TracePhotonsThread.Start roundingPlatform 0

/-- The samples of the first bootstrap path of `pinholeThread`. -/
def bootSamples : List ℚ := nearOne :: 3 / 4 :: List.replicate 21 nearOne

/-- The chain of the pinhole bucket after `j` iterations that rejected. -/
def rejState (j : Nat) : ChainState :=
  { RenderFunc.bootstrapStart pinholeCache pinholeThread with
      rndGen := ⟨nearOneStream, 24 + 69 * j⟩
      currentPhotonsScale := j + 1
      mutationSize := msSeq j
      mutatedCount := j + 1 }

/-! # Theorems -/

/-! ## Constructor: parameter normalization -/

/-- The constructor leaves the three enable flags, the photon group and the
sampler type as given. -/
theorem construct_keeps_flags (scn : Scene) (p : PhotonGICacheParams) :
    (PhotonGICache.construct scn p).params.direct.enabled = p.direct.enabled ∧
    (PhotonGICache.construct scn p).params.indirect.enabled = p.indirect.enabled ∧
    (PhotonGICache.construct scn p).params.caustic.enabled = p.caustic.enabled ∧
    (PhotonGICache.construct scn p).params.photon = p.photon ∧
    (PhotonGICache.construct scn p).params.samplerType = p.samplerType := by
  simp only [PhotonGICache.construct, PhotonGICache.normalizeParams]
  cases hd : p.direct.enabled <;> cases hi : p.indirect.enabled <;>
    cases hc : p.caustic.enabled <;> simp [hd, hi, hc]

/-- C8: with direct disabled, indirect enabled and `maxPathDepth ≥ 1` the
constructor sets `direct.maxSize` to `indirect.maxSize / maxPathDepth` (unsigned
division) and copies `lookUpMaxCount`, `lookUpRadius` and `lookUpNormalAngle`
from indirect into direct; with direct enabled these four direct fields are
left as given. -/
theorem construct_direct_from_indirect (scn : Scene) (p : PhotonGICacheParams) :
    (p.direct.enabled = false → p.indirect.enabled = true → 1 ≤ p.photon.maxPathDepth →
      (PhotonGICache.construct scn p).params.direct.maxSize =
          p.indirect.maxSize / p.photon.maxPathDepth ∧
        (PhotonGICache.construct scn p).params.direct.lookUpMaxCount = p.indirect.lookUpMaxCount ∧
        (PhotonGICache.construct scn p).params.direct.lookUpRadius = p.indirect.lookUpRadius ∧
        (PhotonGICache.construct scn p).params.direct.lookUpNormalAngle =
          p.indirect.lookUpNormalAngle) ∧
    (p.direct.enabled = true →
      (PhotonGICache.construct scn p).params.direct.maxSize = p.direct.maxSize ∧
        (PhotonGICache.construct scn p).params.direct.lookUpMaxCount = p.direct.lookUpMaxCount ∧
        (PhotonGICache.construct scn p).params.direct.lookUpRadius = p.direct.lookUpRadius ∧
        (PhotonGICache.construct scn p).params.direct.lookUpNormalAngle =
          p.direct.lookUpNormalAngle) := by
  simp only [PhotonGICache.construct, PhotonGICache.normalizeParams]
  constructor
  · intro hd hi _
    cases hc : p.caustic.enabled <;> simp [hd, hi, hc]
  · intro hd
    cases hi : p.indirect.enabled <;> cases hc : p.caustic.enabled <;> simp [hd, hi, hc]

/-- C8 at a concrete block: direct disabled with size 7 given, indirect enabled
with size 100, depth 4: the direct size becomes 25 and the lookup fields are
those of indirect. -/
theorem construct_direct_from_indirect_witness :
    (PhotonGICache.construct floorScene indirectOnlyParams).params.direct.maxSize = 100 / 4 ∧
      (PhotonGICache.construct floorScene indirectOnlyParams).params.direct.lookUpMaxCount = 64 ∧
      (PhotonGICache.construct floorScene indirectOnlyParams).params.direct.lookUpRadius = 2 / 10 ∧
      (PhotonGICache.construct floorScene indirectOnlyParams).params.direct.lookUpNormalAngle = 20 :=
  (construct_direct_from_indirect floorScene indirectOnlyParams).1 rfl rfl (by decide)

/-- C9 fails as stated: direct is disabled, and after construction its `maxSize`
is 25, not 0 (indirect is enabled with size 100 and the depth is 4). -/
theorem construct_disabled_direct_nonzero :
    (PhotonGICache.construct floorScene indirectOnlyParams).params.direct.enabled = false ∧
      (PhotonGICache.construct floorScene indirectOnlyParams).params.direct.maxSize = 25 ∧
      (PhotonGICache.construct floorScene indirectOnlyParams).params.direct.maxSize ≠ 0 := by
  decide

/-- C9 (amended): after construction a disabled indirect or caustic population
has `maxSize = 0`; a disabled direct population has `maxSize = 0` when indirect
is disabled too, and `indirect.maxSize / maxPathDepth` when indirect is enabled. -/
theorem construct_disabled_maxSize (scn : Scene) (p : PhotonGICacheParams) :
    ((PhotonGICache.construct scn p).params.indirect.enabled = false →
      (PhotonGICache.construct scn p).params.indirect.maxSize = 0) ∧
    ((PhotonGICache.construct scn p).params.caustic.enabled = false →
      (PhotonGICache.construct scn p).params.caustic.maxSize = 0) ∧
    ((PhotonGICache.construct scn p).params.direct.enabled = false →
      (PhotonGICache.construct scn p).params.indirect.enabled = false →
      (PhotonGICache.construct scn p).params.direct.maxSize = 0) ∧
    ((PhotonGICache.construct scn p).params.direct.enabled = false →
      (PhotonGICache.construct scn p).params.indirect.enabled = true →
      (PhotonGICache.construct scn p).params.direct.maxSize =
        (PhotonGICache.construct scn p).params.indirect.maxSize /
          (PhotonGICache.construct scn p).params.photon.maxPathDepth) := by
  simp only [PhotonGICache.construct, PhotonGICache.normalizeParams]
  cases hd : p.direct.enabled <;> cases hi : p.indirect.enabled <;>
    cases hc : p.caustic.enabled <;> simp [hd, hi, hc]

/-- C9 (amended) at a concrete block with only direct enabled: the indirect and
caustic sizes are zeroed. -/
theorem construct_disabled_maxSize_witness :
    (PhotonGICache.construct floorScene directOnlyParams).params.indirect.maxSize = 0 ∧
      (PhotonGICache.construct floorScene directOnlyParams).params.caustic.maxSize = 0 :=
  ⟨(construct_disabled_maxSize floorScene directOnlyParams).1 rfl,
    (construct_disabled_maxSize floorScene directOnlyParams).2.1 rfl⟩

/-- C10: after construction `lookUpRadius2 = lookUpRadius * lookUpRadius` in the
visibility, direct, indirect and caustic groups, with `lookUpRadius` as it
stands after normalization; when direct is derived from indirect (direct
disabled, indirect enabled) `direct.lookUpRadius2` is the square of the given
`indirect.lookUpRadius`. -/
theorem construct_lookUpRadius2 (scn : Scene) (p : PhotonGICacheParams) :
    (PhotonGICache.construct scn p).params.visibility.lookUpRadius2 =
        (PhotonGICache.construct scn p).params.visibility.lookUpRadius *
          (PhotonGICache.construct scn p).params.visibility.lookUpRadius ∧
    (PhotonGICache.construct scn p).params.direct.lookUpRadius2 =
        (PhotonGICache.construct scn p).params.direct.lookUpRadius *
          (PhotonGICache.construct scn p).params.direct.lookUpRadius ∧
    (PhotonGICache.construct scn p).params.indirect.lookUpRadius2 =
        (PhotonGICache.construct scn p).params.indirect.lookUpRadius *
          (PhotonGICache.construct scn p).params.indirect.lookUpRadius ∧
    (PhotonGICache.construct scn p).params.caustic.lookUpRadius2 =
        (PhotonGICache.construct scn p).params.caustic.lookUpRadius *
          (PhotonGICache.construct scn p).params.caustic.lookUpRadius ∧
    (p.direct.enabled = false → p.indirect.enabled = true →
      (PhotonGICache.construct scn p).params.direct.lookUpRadius2 =
        p.indirect.lookUpRadius * p.indirect.lookUpRadius) ∧
    (PhotonGICache.construct scn p).params.visibility.lookUpRadius = p.visibility.lookUpRadius ∧
    (PhotonGICache.construct scn p).params.indirect.lookUpRadius = p.indirect.lookUpRadius ∧
    (PhotonGICache.construct scn p).params.caustic.lookUpRadius = p.caustic.lookUpRadius := by
  simp only [PhotonGICache.construct, PhotonGICache.normalizeParams]
  cases hd : p.direct.enabled <;> cases hi : p.indirect.enabled <;>
    cases hc : p.caustic.enabled <;> simp [hd, hi, hc]

/-- C10 at a concrete block in which direct is derived from indirect: the
squared direct radius is the square of the indirect radius 2/10. -/
theorem construct_lookUpRadius2_witness :
    (PhotonGICache.construct floorScene indirectOnlyParams).params.direct.lookUpRadius2 =
      (2 / 10 : ℚ) * (2 / 10) :=
  (construct_lookUpRadius2 floorScene indirectOnlyParams).2.2.2.2.1 rfl rfl

/-! ## Sample mutation -/

/-- One mutated sample stays in `[0, 1)`. -/
theorem Mutate.component_range (M : Platform) (hmono : Monotone M.fl)
    (hm1 : M.fl (-1) = -1) (h0 : M.fl 0 = 0) (h1 : M.fl 1 = 1) (h2 : M.fl 2 = 2)
    (hpow : ∀ x e : ℚ, 0 ≤ x → x < 1 → 1 ≤ e → 0 ≤ M.powf x e ∧ M.powf x e < 1)
    (g : RandomGenerator) (hg : ∀ n, 0 ≤ g.draws n ∧ g.draws n < 1)
    (mutationSize : ℚ) (hm : 0 < mutationSize) (u : ℚ) (hu0 : 0 ≤ u) (hu1 : u < 1) :
    0 ≤ (Mutate.component M g mutationSize u).1 ∧ (Mutate.component M g mutationSize u).1 < 1 := by
  have he : 1 ≤ M.fl (M.fl (1 / mutationSize) + 1) := by
    have h3 : 0 ≤ M.fl (1 / mutationSize) := by
      have := hmono (show (0 : ℚ) ≤ 1 / mutationSize by positivity)
      rwa [h0] at this
    have := hmono (show (1 : ℚ) ≤ M.fl (1 / mutationSize) + 1 by linarith)
    rwa [h1] at this
  obtain ⟨hd0, hd1⟩ := hpow (g.draws g.pos) _ (hg g.pos).1 (hg g.pos).2 he
  simp only [Mutate.component, RandomGenerator.floatValue]
  set δ := M.powf (g.draws g.pos) (M.fl (M.fl (1 / mutationSize) + 1)) with hδ
  have key : ∀ v : ℚ, 0 ≤ v → v ≤ 1 →
      0 ≤ (if v = 1 then 0 else v) ∧ (if v = 1 then 0 else v) < 1 := by
    intro v hv0 hv1
    by_cases hv : v = 1
    · simp [hv]
    · simp only [hv, if_false]
      exact ⟨hv0, lt_of_le_of_ne hv1 hv⟩
  have hadd0 : 0 ≤ M.fl (u + δ) := by
    have := hmono (show (0 : ℚ) ≤ u + δ by linarith)
    rwa [h0] at this
  have hadd2 : M.fl (u + δ) ≤ 2 := by
    have := hmono (show u + δ ≤ (2 : ℚ) by linarith)
    rwa [h2] at this
  have hsub1 : M.fl (u - δ) ≤ 1 := by
    have := hmono (show u - δ ≤ (1 : ℚ) by linarith)
    rwa [h1] at this
  have hsubm1 : -1 ≤ M.fl (u - δ) := by
    have := hmono (show (-1 : ℚ) ≤ u - δ by linarith)
    rwa [hm1] at this
  apply key
  · split_ifs with hc ha hs
    · exact hadd0
    · have := hmono (show (0 : ℚ) ≤ M.fl (u + δ) - 1 by linarith)
      rwa [h0] at this
    · have := hmono (show (0 : ℚ) ≤ M.fl (u - δ) + 1 by linarith)
      rwa [h0] at this
    · linarith
  · split_ifs with hc ha hs
    · linarith
    · have := hmono (show M.fl (u + δ) - 1 ≤ (1 : ℚ) by linarith)
      rwa [h1] at this
    · have := hmono (show M.fl (u - δ) + 1 ≤ (1 : ℚ) by linarith)
      rwa [h1] at this
    · exact hsub1

/-- The generator after `Mutate` has advanced by two draws per sample. -/
theorem Mutate.rndGen_after (M : Platform) (mutationSize : ℚ) (cur : List ℚ) :
    ∀ g : RandomGenerator, (Mutate M g cur mutationSize).2 = ⟨g.draws, g.pos + 2 * cur.length⟩ := by
  induction cur with
  | nil => intro g; simp [Mutate]
  | cons c cs ih =>
    intro g
    simp only [Mutate, ih, Mutate.component, RandomGenerator.floatValue, List.length_cons]
    congr 1
    ring

/-- C5: under a monotone rounding that is exact on -1, 0, 1 and 2 and a power
function that maps `[0,1) × [1,∞)` into `[0,1)`, for samples in `[0,1)`, random
draws in `[0,1)` and `mutationSize > 0`: `Mutate` writes as many samples as it
reads, every written sample lies in `[0,1)`, and sample `i` is the wrap rule
(`u + δ`, minus 1 when not below 1, or `u - δ`, plus 1 when negative, with
`δ = powf(rnd, 1/mutationSize + 1)`, and 1 replaced by 0) applied to the current
sample `i` with draws `2i` and `2i+1` of the generator. -/
theorem Mutate_range (M : Platform) (hmono : Monotone M.fl)
    (hm1 : M.fl (-1) = -1) (h0 : M.fl 0 = 0) (h1 : M.fl 1 = 1) (h2 : M.fl 2 = 2)
    (hpow : ∀ x e : ℚ, 0 ≤ x → x < 1 → 1 ≤ e → 0 ≤ M.powf x e ∧ M.powf x e < 1)
    (mutationSize : ℚ) (hm : 0 < mutationSize)
    (cur : List ℚ) (hcur : ∀ u ∈ cur, 0 ≤ u ∧ u < 1)
    (g : RandomGenerator) (hg : ∀ n, 0 ≤ g.draws n ∧ g.draws n < 1) :
    (Mutate M g cur mutationSize).1.length = cur.length ∧
    (∀ v ∈ (Mutate M g cur mutationSize).1, 0 ≤ v ∧ v < 1) ∧
    (∀ i, i < cur.length →
      (Mutate M g cur mutationSize).1.getD i 0 =
        (Mutate.component M ⟨g.draws, g.pos + 2 * i⟩ mutationSize (cur.getD i 0)).1 ∧
      (Mutate.component M ⟨g.draws, g.pos + 2 * i⟩ mutationSize (cur.getD i 0)).1 =
        (let δ := M.powf (g.draws (g.pos + 2 * i)) (M.fl (M.fl (1 / mutationSize) + 1))
         let u := cur.getD i 0
         let mutateValue : ℚ :=
           if g.draws (g.pos + 2 * i + 1) < 1 / 2 then
             (if M.fl (u + δ) < 1 then M.fl (u + δ) else M.fl (M.fl (u + δ) - 1))
           else
             (if M.fl (u - δ) < 0 then M.fl (M.fl (u - δ) + 1) else M.fl (u - δ))
         if mutateValue = 1 then 0 else mutateValue)) := by
  induction cur generalizing g with
  | nil => simp [Mutate]
  | cons c cs ih =>
    have hc := hcur c (List.mem_cons_self _ _)
    have hcs : ∀ u ∈ cs, 0 ≤ u ∧ u < 1 := fun u hu => hcur u (List.mem_cons_of_mem _ hu)
    have hg2 : ∀ n, 0 ≤ (Mutate.component M g mutationSize c).2.draws n ∧
        (Mutate.component M g mutationSize c).2.draws n < 1 := by
      intro n
      simpa [Mutate.component, RandomGenerator.floatValue] using hg n
    obtain ⟨ihl, ihr, ihc⟩ := ih hcs (Mutate.component M g mutationSize c).2 hg2
    refine ⟨?_, ?_, ?_⟩
    · simp [Mutate, ihl]
    · intro v hv
      simp only [Mutate, List.mem_cons] at hv
      rcases hv with hv | hv
      · rw [hv]
        exact Mutate.component_range M hmono hm1 h0 h1 h2 hpow g hg mutationSize hm c hc.1 hc.2
      · exact ihr v hv
    · intro i hi
      cases i with
      | zero =>
        refine ⟨?_, ?_⟩
        · simp [Mutate]
        · simp [Mutate.component, RandomGenerator.floatValue]
      | succ j =>
        have hj : j < cs.length := by simpa using hi
        obtain ⟨e1, e2⟩ := ihc j hj
        have hpos : (Mutate.component M g mutationSize c).2.pos + 2 * j = g.pos + 2 * (j + 1) := by
          simp [Mutate.component, RandomGenerator.floatValue]; ring
        have hdr : (Mutate.component M g mutationSize c).2.draws = g.draws := by
          simp [Mutate.component, RandomGenerator.floatValue]
        rw [hpos, hdr] at e1 e2
        refine ⟨?_, ?_⟩
        · simpa [Mutate] using e1
        · simpa using e2

/-- The coarse rounding is monotone. -/
theorem coarseRound_monotone : Monotone coarseRound := by
  intro x y hxy
  unfold coarseRound
  have h16 : ∀ a b : ℚ, a ≤ b → (⌊16 * a + 1 / 2⌋ : ℚ) / 16 ≤ (⌊16 * b + 1 / 2⌋ : ℚ) / 16 := by
    intro a b hab
    have : ⌊16 * a + 1 / 2⌋ ≤ ⌊16 * b + 1 / 2⌋ := Int.floor_le_floor (by linarith)
    have : (⌊16 * a + 1 / 2⌋ : ℚ) ≤ (⌊16 * b + 1 / 2⌋ : ℚ) := by exact_mod_cast this
    linarith
  have h4 : ∀ a b : ℚ, a ≤ b → (⌊4 * a + 1 / 2⌋ : ℚ) / 4 ≤ (⌊4 * b + 1 / 2⌋ : ℚ) / 4 := by
    intro a b hab
    have : ⌊4 * a + 1 / 2⌋ ≤ ⌊4 * b + 1 / 2⌋ := Int.floor_le_floor (by linarith)
    have : (⌊4 * a + 1 / 2⌋ : ℚ) ≤ (⌊4 * b + 1 / 2⌋ : ℚ) := by exact_mod_cast this
    linarith
  have e1 : (⌊16 * (1 / 2 : ℚ) + 1 / 2⌋ : ℚ) / 16 = 1 / 2 := by
    have : ⌊16 * (1 / 2 : ℚ) + 1 / 2⌋ = 8 := by rw [Int.floor_eq_iff]; norm_num
    rw [this]; norm_num
  have e2 : (⌊4 * (1 / 2 : ℚ) + 1 / 2⌋ : ℚ) / 4 = 1 / 2 := by
    have : ⌊4 * (1 / 2 : ℚ) + 1 / 2⌋ = 2 := by rw [Int.floor_eq_iff]; norm_num
    rw [this]; norm_num
  have e3 : (⌊16 * (-(1 / 2) : ℚ) + 1 / 2⌋ : ℚ) / 16 = -(1 / 2) := by
    have : ⌊16 * (-(1 / 2) : ℚ) + 1 / 2⌋ = -8 := by rw [Int.floor_eq_iff]; norm_num
    rw [this]; norm_num
  have e4 : (⌊4 * (-(1 / 2) : ℚ) + 1 / 2⌋ : ℚ) / 4 = -(1 / 2) := by
    have : ⌊4 * (-(1 / 2) : ℚ) + 1 / 2⌋ = -2 := by rw [Int.floor_eq_iff]; norm_num
    rw [this]; norm_num
  split_ifs with hx hy hy
  · exact h16 x y hxy
  · -- x inside, y outside, so y is above 1/2
    have hy2 : 1 / 2 ≤ y := by
      by_contra hlt
      push_neg at hlt
      exact hy ⟨by linarith [hx.1], le_of_lt hlt⟩
    calc (⌊16 * x + 1 / 2⌋ : ℚ) / 16 ≤ (⌊16 * (1 / 2 : ℚ) + 1 / 2⌋ : ℚ) / 16 := h16 _ _ hx.2
      _ = (⌊4 * (1 / 2 : ℚ) + 1 / 2⌋ : ℚ) / 4 := by rw [e1, e2]
      _ ≤ (⌊4 * y + 1 / 2⌋ : ℚ) / 4 := h4 _ _ hy2
  · -- x outside, y inside, so x is below -1/2
    have hx2 : x ≤ -(1 / 2) := by
      by_contra hlt
      push_neg at hlt
      exact hx ⟨le_of_lt hlt, by linarith [hy.2]⟩
    calc (⌊4 * x + 1 / 2⌋ : ℚ) / 4 ≤ (⌊4 * (-(1 / 2) : ℚ) + 1 / 2⌋ : ℚ) / 4 := h4 _ _ hx2
      _ = (⌊16 * (-(1 / 2) : ℚ) + 1 / 2⌋ : ℚ) / 16 := by rw [e3, e4]
      _ ≤ (⌊16 * y + 1 / 2⌋ : ℚ) / 16 := h16 _ _ hy.1
  · exact h4 x y hxy

/-- C5 on the coarse platform, `mutationSize = 1`, samples 0 and 3/4, draws 1/4
and 1/2: `δ = 1/16`; the first sample becomes `0 - 1/16`, wrapped to `15/16`,
which the coarse rounding turns into 1 and `Mutate` replaces by 0; the second
becomes `3/4 - 1/16`, rounded to `3/4`.  Both written samples lie in `[0, 1)`. -/
theorem Mutate_range_witness :
    (Mutate coarsePlatform ⟨coarsePlatform.randomStream 1, 0⟩ [0, 3 / 4] 1).1 = [0, 3 / 4] ∧
    (Mutate coarsePlatform ⟨coarsePlatform.randomStream 1, 0⟩ [0, 3 / 4] 1).1.length = 2 ∧
    (∀ v ∈ (Mutate coarsePlatform ⟨coarsePlatform.randomStream 1, 0⟩ [0, 3 / 4] 1).1,
      0 ≤ v ∧ v < 1) :=
  have h := Mutate_range coarsePlatform coarseRound_monotone (by decide!) (by decide!)
    (by decide!) (by decide!)
    (by
      intro x e hx0 hx1 he
      have hf : 0 < ⌊e⌋ := Int.floor_pos.mpr he
      have hn : Int.toNat ⌊e⌋ ≠ 0 := by omega
      exact ⟨pow_nonneg hx0 _, pow_lt_one₀ hx0 hx1 hn⟩)
    1 one_pos [0, 3 / 4] (by
      intro u hu
      simp only [List.mem_cons, List.mem_singleton, List.not_mem_nil, or_false] at hu
      rcases hu with hu | hu <;> rw [hu] <;> norm_num)
    ⟨coarsePlatform.randomStream 1, 0⟩ (by
      intro n
      show (0 : ℚ) ≤ (if n % 2 = 0 then 1 / 4 else 1 / 2) ∧
        (if n % 2 = 0 then (1 / 4 : ℚ) else 1 / 2) < 1
      split_ifs <;> norm_num)
  ⟨by decide!, h.1, h.2.1⟩

/-- A property of the photon vectors and of `usefulPath` that every vertex
deposit preserves is preserved by the whole light path loop. -/
theorem TracePhotonPath.loop_preserves (pgic : PhotonGICache) (th : TracePhotonsThread)
    (samples : List ℚ) (Q : PathPhotons → Bool → Prop)
    (hdep : ∀ (bsdf : BSDF) (s : PathState), Q s.photons s.usefulPath →
      Q (depositVertex pgic th bsdf s).photons (depositVertex pgic th bsdf s).usefulPath) :
    ∀ (fuel : Nat) (s : PathState), Q s.photons s.usefulPath →
      Q (TracePhotonPath.loop pgic th samples fuel s).photons
        (TracePhotonPath.loop pgic th samples fuel s).usefulPath := by
  intro fuel
  induction fuel with
  | zero => intro s hs; simpa [TracePhotonPath.loop] using hs
  | succ fuel ih =>
    intro s hs
    rw [TracePhotonPath.loop]
    by_cases hd : s.depth ≤ pgic.params.photon.maxPathDepth
    · simp only [hd, if_true]
      cases hI : pgic.scene.Intersect s.volInfo
          (samples.getD (u32 (sampleBootSize + u32 ((s.depth - 1) * sampleStepSize))) 0)
          s.nextEventRay with
      | none => simpa using hs
      | some hit =>
        have h2 := hdep hit.bsdf
          { s with
              lightPathFlux := s.lightPathFlux.mul hit.connectionThroughput
              volInfo := hit.volInfo } hs
        simp only []
        split_ifs with hmax hblack
        · exact h2
        · exact h2
        · exact ih _ h2
    · simpa [hd] using hs

/-- A property of the photon vectors that every vertex deposit preserves and that
holds of the empty vectors holds of the result of `TracePhotonPath`. -/
theorem TracePhotonPath_preserves (pgic : PhotonGICache) (th : TracePhotonsThread)
    (Q : PathPhotons → Bool → Prop) (h0 : Q PathPhotons.empty false)
    (hdep : ∀ (bsdf : BSDF) (s : PathState), Q s.photons s.usefulPath →
      Q (depositVertex pgic th bsdf s).photons (depositVertex pgic th bsdf s).usefulPath)
    (rndGen : RandomGenerator) (samples : List ℚ) :
    Q (TracePhotonPath pgic th rndGen samples).photons
      (TracePhotonPath pgic th rndGen samples).usefulPath := by
  unfold TracePhotonPath
  cases hL : pgic.scene.SampleLights (samples.getD 1 0) with
  | none => simpa using h0
  | some lp =>
    obtain ⟨light, lightPickPdf⟩ := lp
    simp only []
    split_ifs
    · exact TracePhotonPath.loop_preserves pgic th samples Q hdep _ _ h0
    · exact h0

/-- The radiance photon deposit leaves the three photon vectors and `usefulPath`
as they are. -/
theorem depositRadiancePhoton_frame (pgic : PhotonGICache) (bsdf : BSDF) (n : Normal)
    (used : Bool) (s : PathState) :
    (depositRadiancePhoton pgic bsdf n used s).photons.newDirectPhotons = s.photons.newDirectPhotons ∧
    (depositRadiancePhoton pgic bsdf n used s).photons.newIndirectPhotons = s.photons.newIndirectPhotons ∧
    (depositRadiancePhoton pgic bsdf n used s).photons.newCausticPhotons = s.photons.newCausticPhotons ∧
    (depositRadiancePhoton pgic bsdf n used s).usefulPath = s.usefulPath := by
  simp only [depositRadiancePhoton]
  split_ifs <;> exact ⟨rfl, rfl, rfl, rfl⟩

/-- The three photon vectors after the photon deposit at a visible vertex. -/
theorem depositPhoton_lists (pgic : PhotonGICache) (th : TracePhotonsThread) (bsdf : BSDF)
    (n : Normal) (s : PathState) :
    (depositPhoton pgic th bsdf n s).1.photons.newDirectPhotons =
      (if s.depth = 1 ∧ (pgic.params.direct.enabled = true ∨ pgic.params.indirect.enabled = true) ∧
          th.directDone = false
        then s.photons.newDirectPhotons ++ [⟨bsdf.hitPoint.p, s.nextEventRay.d, s.lightPathFlux, n⟩]
        else s.photons.newDirectPhotons) ∧
    (depositPhoton pgic th bsdf n s).1.photons.newCausticPhotons =
      (if s.depth > 1 ∧ s.specularPath = true ∧ pgic.params.caustic.enabled = true ∧
          th.causticDone = false
        then s.photons.newCausticPhotons ++ [⟨bsdf.hitPoint.p, s.nextEventRay.d, s.lightPathFlux, n⟩]
        else s.photons.newCausticPhotons) ∧
    (depositPhoton pgic th bsdf n s).1.photons.newIndirectPhotons =
      (if s.depth ≠ 1 ∧ ¬ (s.depth > 1 ∧ s.specularPath = true ∧ pgic.params.caustic.enabled = true) ∧
          pgic.params.indirect.enabled = true ∧ th.indirectDone = false
        then s.photons.newIndirectPhotons ++ [⟨bsdf.hitPoint.p, s.nextEventRay.d, s.lightPathFlux, n⟩]
        else s.photons.newIndirectPhotons) := by
  by_cases hA : s.depth = 1 ∧ (pgic.params.direct.enabled = true ∨ pgic.params.indirect.enabled = true)
  · have hc : ¬ (s.depth > 1 ∧ s.specularPath = true ∧ pgic.params.caustic.enabled = true ∧
        th.causticDone = false) := fun h => by omega
    have hi : ¬ (s.depth ≠ 1 ∧ ¬ (s.depth > 1 ∧ s.specularPath = true ∧
        pgic.params.caustic.enabled = true) ∧ pgic.params.indirect.enabled = true ∧
        th.indirectDone = false) := fun h => h.1 hA.1
    rw [if_neg hc, if_neg hi]
    unfold depositPhoton
    rw [if_pos hA]
    cases hdd : th.directDone
    · simp [hA]
    · simp
  · have hd : ¬ (s.depth = 1 ∧ (pgic.params.direct.enabled = true ∨
        pgic.params.indirect.enabled = true) ∧ th.directDone = false) :=
      fun h => hA ⟨h.1, h.2.1⟩
    rw [if_neg hd]
    by_cases hB : s.depth > 1 ∧ s.specularPath = true ∧ pgic.params.caustic.enabled = true
    · have hi : ¬ (s.depth ≠ 1 ∧ ¬ (s.depth > 1 ∧ s.specularPath = true ∧
          pgic.params.caustic.enabled = true) ∧ pgic.params.indirect.enabled = true ∧
          th.indirectDone = false) := fun h => h.2.1 hB
      rw [if_neg hi]
      unfold depositPhoton
      rw [if_neg hA, if_pos hB]
      cases hcd : th.causticDone
      · simp [hB]
      · simp
    · have hc : ¬ (s.depth > 1 ∧ s.specularPath = true ∧ pgic.params.caustic.enabled = true ∧
          th.causticDone = false) := fun h => hB ⟨h.1, h.2.1, h.2.2.1⟩
      rw [if_neg hc]
      unfold depositPhoton
      rw [if_neg hA, if_neg hB]
      by_cases hC : pgic.params.indirect.enabled = true
      · have h1 : s.depth ≠ 1 := fun h => hA ⟨h, Or.inr hC⟩
        rw [if_pos hC]
        cases hid : th.indirectDone
        · have hB2 : ¬ (1 < s.depth ∧ s.specularPath = true ∧
              pgic.params.caustic.enabled = true) := hB
          simp [h1, hB2, hC]
        · simp
      · rw [if_neg hC, if_neg (fun h => hC h.2.2.1)]
        simp

/-- A vertex either deposits nothing or deposits as a visible vertex with the
landing normal of the incoming ray. -/
theorem depositVertex_cases (pgic : PhotonGICache) (th : TracePhotonsThread) (bsdf : BSDF)
    (s : PathState) :
    depositVertex pgic th bsdf s = s ∨
    depositVertex pgic th bsdf s =
      depositPhotons pgic th bsdf (landingSurfaceNormal bsdf s.nextEventRay) s := by
  simp only [depositVertex]
  split_ifs
  · exact Or.inr rfl
  · exact Or.inl rfl
  · exact Or.inl rfl

/-- The three photon vectors after the whole deposit at a visible vertex, class by
class. -/
theorem depositPhotons_lists (pgic : PhotonGICache) (th : TracePhotonsThread)
    (bsdf : BSDF) (n : Normal) (s : PathState) :
    (depositPhotons pgic th bsdf n s).photons.newDirectPhotons =
      (if s.depth = 1 ∧ (pgic.params.direct.enabled = true ∨ pgic.params.indirect.enabled = true) ∧
          th.directDone = false
        then s.photons.newDirectPhotons ++ [⟨bsdf.hitPoint.p, s.nextEventRay.d, s.lightPathFlux, n⟩]
        else s.photons.newDirectPhotons) ∧
    (depositPhotons pgic th bsdf n s).photons.newCausticPhotons =
      (if s.depth > 1 ∧ s.specularPath = true ∧ pgic.params.caustic.enabled = true ∧
          th.causticDone = false
        then s.photons.newCausticPhotons ++ [⟨bsdf.hitPoint.p, s.nextEventRay.d, s.lightPathFlux, n⟩]
        else s.photons.newCausticPhotons) ∧
    (depositPhotons pgic th bsdf n s).photons.newIndirectPhotons =
      (if s.depth ≠ 1 ∧ ¬ (s.depth > 1 ∧ s.specularPath = true ∧ pgic.params.caustic.enabled = true) ∧
          pgic.params.indirect.enabled = true ∧ th.indirectDone = false
        then s.photons.newIndirectPhotons ++ [⟨bsdf.hitPoint.p, s.nextEventRay.d, s.lightPathFlux, n⟩]
        else s.photons.newIndirectPhotons) := by
  have hf := depositRadiancePhoton_frame pgic bsdf n (depositPhoton pgic th bsdf n s).2
    (depositPhoton pgic th bsdf n s).1
  have hl := depositPhoton_lists pgic th bsdf n s
  unfold depositPhotons
  simp only []
  rw [hf.1, hf.2.1, hf.2.2.1]
  exact ⟨hl.1, hl.2.1, hl.2.2⟩

/-- C1 (amended): at every path vertex of `TracePhotonPath`, with photon
`Photon(p, ray.d, flux, landingNormal)`, for every setting of the enable and
done flags: the photon is appended to the direct list exactly when the vertex
deposits (PhotonGI enabled and visible), `depth = 1`, direct or indirect is
enabled and direct is not done; to the caustic list exactly when the vertex
deposits, `depth > 1`, the path is specular so far, caustic is enabled and
caustic is not done; to the indirect list exactly when the vertex deposits,
`depth ≠ 1`, it is not the case that `depth > 1` with a specular path and
caustic enabled, indirect is enabled and indirect is not done; a list that does
not receive the photon is unchanged. -/
theorem depositVertex_classification (pgic : PhotonGICache) (th : TracePhotonsThread)
    (bsdf : BSDF) (s : PathState) :
    (depositVertex pgic th bsdf s).photons.newDirectPhotons =
      (if (bsdf.IsPhotonGIEnabled = true ∧
            visiblePoint pgic bsdf (landingSurfaceNormal bsdf s.nextEventRay) = true) ∧
          s.depth = 1 ∧
          (pgic.params.direct.enabled = true ∨ pgic.params.indirect.enabled = true) ∧
          th.directDone = false
        then s.photons.newDirectPhotons ++
          [⟨bsdf.hitPoint.p, s.nextEventRay.d, s.lightPathFlux,
            landingSurfaceNormal bsdf s.nextEventRay⟩]
        else s.photons.newDirectPhotons) ∧
    (depositVertex pgic th bsdf s).photons.newCausticPhotons =
      (if (bsdf.IsPhotonGIEnabled = true ∧
            visiblePoint pgic bsdf (landingSurfaceNormal bsdf s.nextEventRay) = true) ∧
          s.depth > 1 ∧ s.specularPath = true ∧ pgic.params.caustic.enabled = true ∧
          th.causticDone = false
        then s.photons.newCausticPhotons ++
          [⟨bsdf.hitPoint.p, s.nextEventRay.d, s.lightPathFlux,
            landingSurfaceNormal bsdf s.nextEventRay⟩]
        else s.photons.newCausticPhotons) ∧
    (depositVertex pgic th bsdf s).photons.newIndirectPhotons =
      (if (bsdf.IsPhotonGIEnabled = true ∧
            visiblePoint pgic bsdf (landingSurfaceNormal bsdf s.nextEventRay) = true) ∧
          s.depth ≠ 1 ∧
          ¬ (s.depth > 1 ∧ s.specularPath = true ∧ pgic.params.caustic.enabled = true) ∧
          pgic.params.indirect.enabled = true ∧ th.indirectDone = false
        then s.photons.newIndirectPhotons ++
          [⟨bsdf.hitPoint.p, s.nextEventRay.d, s.lightPathFlux,
            landingSurfaceNormal bsdf s.nextEventRay⟩]
        else s.photons.newIndirectPhotons) := by
  obtain ⟨e1, e2, e3⟩ := depositPhotons_lists pgic th bsdf
    (landingSurfaceNormal bsdf s.nextEventRay) s
  by_cases hv : bsdf.IsPhotonGIEnabled = true ∧
      visiblePoint pgic bsdf (landingSurfaceNormal bsdf s.nextEventRay) = true
  · have hdv : depositVertex pgic th bsdf s =
        depositPhotons pgic th bsdf (landingSurfaceNormal bsdf s.nextEventRay) s := by
      simp only [depositVertex]
      rw [if_pos hv.1, if_pos hv.2]
    rw [hdv, e1, e2, e3]
    simp only [hv, and_self, true_and]
  · have hdv : depositVertex pgic th bsdf s = s := by
      simp only [depositVertex]
      by_cases h1 : bsdf.IsPhotonGIEnabled = true
      · rw [if_pos h1, if_neg (fun h2 => hv ⟨h1, h2⟩)]
      · rw [if_neg h1]
    rw [hdv]
    simp only [hv, false_and, if_false, and_self]

/-- C1 fails as stated: with caustic disabled and indirect enabled, the floor
vertex reached at depth 2 over the mirror (a specular path) puts its photon into
the indirect list and the caustic list stays empty; the whole path of the
mirror scene deposits its two photons in the indirect list. -/
theorem specular_path_photon_in_indirect_list :
    (depositVertex (PhotonGICache.construct mirrorScene indirectOnlyParams) freshThread floorBSDF
        ⟨freshThread.rndGen, PathPhotons.empty, false, whiteSpectrum,
          ⟨⟨0, 0, 1⟩, ⟨0, 0, -1⟩, 1 / 2⟩, true, 2, 0⟩).photons =
      ⟨[], [⟨⟨0, 0, -1⟩, ⟨0, 0, -1⟩, whiteSpectrum, ⟨0, 0, 1⟩⟩], [],
        [⟨⟨0, 0, -1⟩, ⟨0, 0, 1⟩, ⟨1 / 2, 1 / 2, 1 / 2⟩⟩]⟩ ∧
    (TracePhotonPath (PhotonGICache.construct mirrorScene indirectOnlyParams) freshThread
        freshThread.rndGen halfSamples).photons =
      ⟨[], [⟨⟨0, 0, -1⟩, ⟨0, 0, -1⟩, whiteSpectrum, ⟨0, 0, 1⟩⟩,
            ⟨⟨0, 0, -1⟩, ⟨0, 0, -1⟩, ⟨1 / 2, 1 / 2, 1 / 2⟩, ⟨0, 0, 1⟩⟩], [],
        [⟨⟨0, 0, -1⟩, ⟨0, 0, 1⟩, ⟨1 / 2, 1 / 2, 1 / 2⟩⟩,
          ⟨⟨0, 0, -1⟩, ⟨0, 0, 1⟩, ⟨1 / 2, 1 / 2, 1 / 2⟩⟩]⟩ := by
  decide!

/-- C1 (amended) at the floor vertex of the mirror scene with every class
enabled: depth 2 on a specular path, the photon goes to the caustic list. -/
theorem depositVertex_classification_witness :
    (depositVertex (PhotonGICache.construct mirrorScene allEnabledParams) freshThread floorBSDF
        ⟨freshThread.rndGen, PathPhotons.empty, false, whiteSpectrum,
          ⟨⟨0, 0, 1⟩, ⟨0, 0, -1⟩, 1 / 2⟩, true, 2, 0⟩).photons.newCausticPhotons =
      [⟨⟨0, 0, -1⟩, ⟨0, 0, -1⟩, whiteSpectrum, ⟨0, 0, 1⟩⟩] :=
  (depositVertex_classification (PhotonGICache.construct mirrorScene allEnabledParams)
    freshThread floorBSDF
    ⟨freshThread.rndGen, PathPhotons.empty, false, whiteSpectrum,
      ⟨⟨0, 0, 1⟩, ⟨0, 0, -1⟩, 1 / 2⟩, true, 2, 0⟩).2.1.trans (by decide!)

/-- A class receives photons from `TracePhotonPath` only when it is open: enabled
(for direct: direct or indirect enabled) and not done. -/
theorem TracePhotonPath_nonempty_lists (pgic : PhotonGICache)
    (th : TracePhotonsThread) (rndGen : RandomGenerator) (samples : List ℚ) :
    ((TracePhotonPath pgic th rndGen samples).photons.newDirectPhotons ≠ [] →
      (pgic.params.direct.enabled = true ∨ pgic.params.indirect.enabled = true) ∧
        th.directDone = false) ∧
    ((TracePhotonPath pgic th rndGen samples).photons.newCausticPhotons ≠ [] →
      pgic.params.caustic.enabled = true ∧ th.causticDone = false) ∧
    ((TracePhotonPath pgic th rndGen samples).photons.newIndirectPhotons ≠ [] →
      pgic.params.indirect.enabled = true ∧ th.indirectDone = false) := by
  apply TracePhotonPath_preserves pgic th
    (fun ph _ =>
      (ph.newDirectPhotons ≠ [] →
        (pgic.params.direct.enabled = true ∨ pgic.params.indirect.enabled = true) ∧
          th.directDone = false) ∧
      (ph.newCausticPhotons ≠ [] → pgic.params.caustic.enabled = true ∧ th.causticDone = false) ∧
      (ph.newIndirectPhotons ≠ [] → pgic.params.indirect.enabled = true ∧ th.indirectDone = false))
  · simp [PathPhotons.empty]
  · intro bsdf s hs
    rcases depositVertex_cases pgic th bsdf s with h | h
    · rw [h]; exact hs
    · rw [h]
      obtain ⟨e1, e2, e3⟩ := depositPhotons_lists pgic th bsdf
        (landingSurfaceNormal bsdf s.nextEventRay) s
      rw [e1, e2, e3]
      refine ⟨?_, ?_, ?_⟩
      · split_ifs with hc
        · intro _; exact ⟨hc.2.1, hc.2.2⟩
        · exact hs.1
      · split_ifs with hc
        · intro _; exact ⟨hc.2.2.1, hc.2.2.2⟩
        · exact hs.2.1
      · split_ifs with hc
        · intro _; exact ⟨hc.2.2.1, hc.2.2.2⟩
        · exact hs.2.2

/-- C2 (amended): `TracePhotonPath`, called by a worker whose flags are those
snapshotted for the current bucket from the cache `pgic0`, pushes a direct photon
only when direct or indirect is enabled and `globalDirectSize < direct.maxSize`
held at the snapshot (`directDone` is false), a caustic photon only when caustic
is enabled and `globalCausticSize < caustic.maxSize` held, an indirect photon
only when indirect is enabled and `globalIndirectSize < indirect.maxSize` held. -/
theorem TracePhotonPath_pushes_only_open_classes (pgic0 pgic : PhotonGICache)
    (th0 th : TracePhotonsThread) (rndGen : RandomGenerator) (samples : List ℚ)
    (hparams : pgic.params = pgic0.params)
    (hd : th.directDone = (RenderFunc.snapshotDone pgic0 th0).directDone)
    (hi : th.indirectDone = (RenderFunc.snapshotDone pgic0 th0).indirectDone)
    (hc : th.causticDone = (RenderFunc.snapshotDone pgic0 th0).causticDone) :
    ((TracePhotonPath pgic th rndGen samples).photons.newDirectPhotons ≠ [] →
      (pgic0.params.direct.enabled = true ∨ pgic0.params.indirect.enabled = true) ∧
        th.directDone = false ∧
        pgic0.globalDirectSize < pgic0.params.direct.maxSize) ∧
    ((TracePhotonPath pgic th rndGen samples).photons.newCausticPhotons ≠ [] →
      pgic0.params.caustic.enabled = true ∧
        th.causticDone = false ∧
        pgic0.globalCausticSize < pgic0.params.caustic.maxSize) ∧
    ((TracePhotonPath pgic th rndGen samples).photons.newIndirectPhotons ≠ [] →
      pgic0.params.indirect.enabled = true ∧
        th.indirectDone = false ∧
        pgic0.globalIndirectSize < pgic0.params.indirect.maxSize) := by
  obtain ⟨h1, h2, h3⟩ := TracePhotonPath_nonempty_lists pgic th rndGen samples
  rw [hparams] at h1 h2 h3
  refine ⟨fun h => ?_, fun h => ?_, fun h => ?_⟩
  · obtain ⟨a, b⟩ := h1 h
    refine ⟨a, b, ?_⟩
    rw [hd] at b
    simpa [RenderFunc.snapshotDone] using b
  · obtain ⟨a, b⟩ := h2 h
    refine ⟨a, b, ?_⟩
    rw [hc] at b
    simpa [RenderFunc.snapshotDone] using b
  · obtain ⟨a, b⟩ := h3 h
    refine ⟨a, b, ?_⟩
    rw [hi] at b
    simpa [RenderFunc.snapshotDone] using b

/-- C2 fails as stated: in the cache constructed with only indirect enabled,
direct is disabled, and a path traced with the flags snapshotted from the fresh
counters still pushes a direct photon. -/
theorem direct_photon_pushed_while_direct_disabled :
    (PhotonGICache.construct floorScene indirectOnlyParams).params.direct.enabled = false ∧
    (TracePhotonPath (PhotonGICache.construct floorScene indirectOnlyParams)
        (RenderFunc.snapshotDone (PhotonGICache.construct floorScene indirectOnlyParams) freshThread)
        freshThread.rndGen halfSamples).photons.newDirectPhotons =
      [⟨⟨0, 0, -1⟩, ⟨0, 0, -1⟩, whiteSpectrum, ⟨0, 0, 1⟩⟩] := by
  decide!

/-- C2 (amended) on the floor scene with only indirect enabled: the pushed direct
photon comes with indirect enabled, the direct flag open and the direct counter
(0) below the derived direct budget (25). -/
theorem TracePhotonPath_pushes_only_open_classes_witness :
    ((PhotonGICache.construct floorScene indirectOnlyParams).params.direct.enabled = true ∨
      (PhotonGICache.construct floorScene indirectOnlyParams).params.indirect.enabled = true) ∧
    (RenderFunc.snapshotDone (PhotonGICache.construct floorScene indirectOnlyParams)
      freshThread).directDone = false ∧
    (PhotonGICache.construct floorScene indirectOnlyParams).globalDirectSize <
      (PhotonGICache.construct floorScene indirectOnlyParams).params.direct.maxSize :=
  (TracePhotonPath_pushes_only_open_classes
    (PhotonGICache.construct floorScene indirectOnlyParams)
    (PhotonGICache.construct floorScene indirectOnlyParams) freshThread
    (RenderFunc.snapshotDone (PhotonGICache.construct floorScene indirectOnlyParams) freshThread)
    freshThread.rndGen halfSamples rfl rfl rfl rfl).1 (by decide!)

/-- The landing normal is the shading normal or its opposite, whichever faces
the incoming ray. -/
theorem landingSurfaceNormal_eq (bsdf : BSDF) (ray : Ray) :
    landingSurfaceNormal bsdf ray =
      (if Dot bsdf.hitPoint.shadeN ray.d.neg > 0 then bsdf.hitPoint.shadeN
        else bsdf.hitPoint.shadeN.neg) := by
  unfold landingSurfaceNormal
  split_ifs <;> simp [Vec3.smul, Vec3.neg]

/-- The landing normal never faces away from the incoming ray. -/
theorem landingSurfaceNormal_dot (bsdf : BSDF) (ray : Ray) :
    0 ≤ Dot (landingSurfaceNormal bsdf ray) ray.d.neg := by
  rw [landingSurfaceNormal_eq]
  split_ifs with h
  · exact le_of_lt h
  · have : Dot bsdf.hitPoint.shadeN.neg ray.d.neg = - Dot bsdf.hitPoint.shadeN ray.d.neg := by
      simp [Dot, Vec3.neg]; ring
    rw [this]
    linarith [not_lt.mp h]

/-- When the photon deposit reports a used photon, that photon is in one of the
three lists afterwards. -/
theorem depositPhoton_used (pgic : PhotonGICache) (th : TracePhotonsThread) (bsdf : BSDF)
    (n : Normal) (s : PathState) (h : (depositPhoton pgic th bsdf n s).2 = true) :
    (⟨bsdf.hitPoint.p, s.nextEventRay.d, s.lightPathFlux, n⟩ : Photon) ∈
      (depositPhoton pgic th bsdf n s).1.photons.newDirectPhotons ++
        (depositPhoton pgic th bsdf n s).1.photons.newIndirectPhotons ++
        (depositPhoton pgic th bsdf n s).1.photons.newCausticPhotons := by
  unfold depositPhoton at h ⊢
  split_ifs at h ⊢ <;> simp_all

/-- The radiance photons after the deposit at a visible vertex: unchanged, or one
more, and then a photon was used. -/
theorem depositRadiancePhoton_list (pgic : PhotonGICache) (bsdf : BSDF) (n : Normal)
    (used : Bool) (s : PathState) :
    (depositRadiancePhoton pgic bsdf n used s).photons.newRadiancePhotons =
        s.photons.newRadiancePhotons ∨
    (used = true ∧ pgic.params.indirect.enabled = true ∧
      (depositRadiancePhoton pgic bsdf n used s).photons.newRadiancePhotons =
        s.photons.newRadiancePhotons ++ [⟨bsdf.hitPoint.p, n, bsdf.EvaluateTotal⟩]) := by
  simp only [depositRadiancePhoton]
  split_ifs with h1 h2
  · exact Or.inr ⟨h1.1, h1.2, rfl⟩
  · exact Or.inl rfl
  · exact Or.inl rfl

/-- The photon deposit leaves the radiance photons as they are. -/
theorem depositPhoton_radiance (pgic : PhotonGICache) (th : TracePhotonsThread) (bsdf : BSDF)
    (n : Normal) (s : PathState) :
    (depositPhoton pgic th bsdf n s).1.photons.newRadiancePhotons =
      s.photons.newRadiancePhotons := by
  unfold depositPhoton
  split_ifs <;> rfl

/-- C6: the landing normal is `shadeN` when `Dot(shadeN, -ray.d) > 0` and
`-shadeN` otherwise, and `Dot(n, -ray.d) ≥ 0`; every Photon that
`TracePhotonPath` deposits stores the direction `d` of the ray that hit and a
normal `n` with `Dot(n, -d) ≥ 0`; every RadiancePhoton it deposits has the
position and normal of a Photon deposited by the same call. -/
theorem TracePhotonPath_landing_normal (pgic : PhotonGICache) (th : TracePhotonsThread)
    (rndGen : RandomGenerator) (samples : List ℚ) :
    (∀ (bsdf : BSDF) (ray : Ray),
      landingSurfaceNormal bsdf ray =
        (if Dot bsdf.hitPoint.shadeN ray.d.neg > 0 then bsdf.hitPoint.shadeN
          else bsdf.hitPoint.shadeN.neg) ∧
      0 ≤ Dot (landingSurfaceNormal bsdf ray) ray.d.neg) ∧
    (∀ ph ∈ (TracePhotonPath pgic th rndGen samples).photons.newDirectPhotons ++
        (TracePhotonPath pgic th rndGen samples).photons.newIndirectPhotons ++
        (TracePhotonPath pgic th rndGen samples).photons.newCausticPhotons,
      0 ≤ Dot ph.landingSurfaceNormal ph.d.neg) ∧
    (∀ rp ∈ (TracePhotonPath pgic th rndGen samples).photons.newRadiancePhotons,
      ∃ ph ∈ (TracePhotonPath pgic th rndGen samples).photons.newDirectPhotons ++
          (TracePhotonPath pgic th rndGen samples).photons.newIndirectPhotons ++
          (TracePhotonPath pgic th rndGen samples).photons.newCausticPhotons,
        ph.p = rp.p ∧ ph.landingSurfaceNormal = rp.n ∧ 0 ≤ Dot rp.n ph.d.neg) := by
  refine ⟨fun bsdf ray => ⟨landingSurfaceNormal_eq bsdf ray, landingSurfaceNormal_dot bsdf ray⟩, ?_⟩
  apply TracePhotonPath_preserves pgic th
    (fun photons _ =>
      (∀ ph ∈ photons.newDirectPhotons ++ photons.newIndirectPhotons ++ photons.newCausticPhotons,
        0 ≤ Dot ph.landingSurfaceNormal ph.d.neg) ∧
      (∀ rp ∈ photons.newRadiancePhotons,
        ∃ ph ∈ photons.newDirectPhotons ++ photons.newIndirectPhotons ++ photons.newCausticPhotons,
          ph.p = rp.p ∧ ph.landingSurfaceNormal = rp.n ∧ 0 ≤ Dot rp.n ph.d.neg))
  · simp [PathPhotons.empty]
  · intro bsdf s hs
    rcases depositVertex_cases pgic th bsdf s with h | h
    · rw [h]; exact hs
    · rw [h]
      set n := landingSurfaceNormal bsdf s.nextEventRay with hn
      have hdot : 0 ≤ Dot n s.nextEventRay.d.neg := landingSurfaceNormal_dot bsdf s.nextEventRay
      obtain ⟨e1, e2, e3⟩ := depositPhotons_lists pgic th bsdf n s
      -- every photon of the new lists is an old one or the new photon
      have hmem : ∀ ph ∈ (depositPhotons pgic th bsdf n s).photons.newDirectPhotons ++
          (depositPhotons pgic th bsdf n s).photons.newIndirectPhotons ++
          (depositPhotons pgic th bsdf n s).photons.newCausticPhotons,
          ph ∈ s.photons.newDirectPhotons ++ s.photons.newIndirectPhotons ++
            s.photons.newCausticPhotons ∨
          ph = ⟨bsdf.hitPoint.p, s.nextEventRay.d, s.lightPathFlux, n⟩ := by
        intro ph hph
        rw [e1, e2, e3] at hph
        simp only [List.mem_append] at hph ⊢
        rcases hph with (hph | hph) | hph
        · split_ifs at hph
          · simp only [List.mem_append, List.mem_singleton] at hph
            tauto
          · tauto
        · split_ifs at hph
          · simp only [List.mem_append, List.mem_singleton] at hph
            tauto
          · tauto
        · split_ifs at hph
          · simp only [List.mem_append, List.mem_singleton] at hph
            tauto
          · tauto
      have hold : ∀ ph ∈ s.photons.newDirectPhotons ++ s.photons.newIndirectPhotons ++
            s.photons.newCausticPhotons,
          ph ∈ (depositPhotons pgic th bsdf n s).photons.newDirectPhotons ++
            (depositPhotons pgic th bsdf n s).photons.newIndirectPhotons ++
            (depositPhotons pgic th bsdf n s).photons.newCausticPhotons := by
        intro ph hph
        rw [e1, e2, e3]
        simp only [List.mem_append] at hph ⊢
        rcases hph with (hph | hph) | hph
        · left; left; split_ifs
          · exact List.mem_append_left _ hph
          · exact hph
        · left; right; split_ifs
          · exact List.mem_append_left _ hph
          · exact hph
        · right; split_ifs
          · exact List.mem_append_left _ hph
          · exact hph
      refine ⟨?_, ?_⟩
      · intro ph hph
        rcases hmem ph hph with h1 | h1
        · exact hs.1 ph h1
        · rw [h1]; exact hdot
      · intro rp hrp
        have hfr := depositRadiancePhoton_frame pgic bsdf n (depositPhoton pgic th bsdf n s).2
          (depositPhoton pgic th bsdf n s).1
        have hrl := depositRadiancePhoton_list pgic bsdf n (depositPhoton pgic th bsdf n s).2
          (depositPhoton pgic th bsdf n s).1
        have hrad := depositPhoton_radiance pgic th bsdf n s
        have hdef : depositPhotons pgic th bsdf n s =
            depositRadiancePhoton pgic bsdf n (depositPhoton pgic th bsdf n s).2
              (depositPhoton pgic th bsdf n s).1 := rfl
        rw [hdef] at hrp
        rcases hrl with hrl | ⟨hused, _, hrl⟩
        · rw [hrl, hrad] at hrp
          obtain ⟨ph, hph, hp⟩ := hs.2 rp hrp
          exact ⟨ph, hold ph hph, hp⟩
        · rw [hrl, hrad] at hrp
          simp only [List.mem_append, List.mem_singleton] at hrp
          rcases hrp with hrp | hrp
          · obtain ⟨ph, hph, hp⟩ := hs.2 rp hrp
            exact ⟨ph, hold ph hph, hp⟩
          · refine ⟨⟨bsdf.hitPoint.p, s.nextEventRay.d, s.lightPathFlux, n⟩, ?_, ?_⟩
            · have := depositPhoton_used pgic th bsdf n s hused
              rw [hdef, hfr.1, hfr.2.1, hfr.2.2.1]
              exact this
            · rw [hrp]; exact ⟨rfl, rfl, hdot⟩

/-! ## Counting the photons of a class -/

/-- One vertex adds at most one photon to a class, never removes one, and adds
none to a class that is done. -/
theorem depositVertex_ofClass (pgic : PhotonGICache) (th : TracePhotonsThread) (bsdf : BSDF)
    (s : PathState) (X : PhotonClass) :
    ((depositVertex pgic th bsdf s).photons.ofClass X).length ≤ (s.photons.ofClass X).length + 1 ∧
    (th.doneOf X = true → (depositVertex pgic th bsdf s).photons.ofClass X = s.photons.ofClass X) := by
  rcases depositVertex_cases pgic th bsdf s with h | h
  · rw [h]; exact ⟨Nat.le_succ _, fun _ => rfl⟩
  · rw [h]
    obtain ⟨e1, e2, e3⟩ := depositPhotons_lists pgic th bsdf
      (landingSurfaceNormal bsdf s.nextEventRay) s
    cases X
    · simp only [PathPhotons.ofClass, TracePhotonsThread.doneOf]
      rw [e1]
      split_ifs with hc
      · exact ⟨by simp, fun hd => by simp [hc.2.2] at hd⟩
      · exact ⟨Nat.le_succ _, fun _ => rfl⟩
    · simp only [PathPhotons.ofClass, TracePhotonsThread.doneOf]
      rw [e3]
      split_ifs with hc
      · exact ⟨by simp, fun hd => by simp [hc.2.2.2] at hd⟩
      · exact ⟨Nat.le_succ _, fun _ => rfl⟩
    · simp only [PathPhotons.ofClass, TracePhotonsThread.doneOf]
      rw [e2]
      split_ifs with hc
      · exact ⟨by simp, fun hd => by simp [hc.2.2.2] at hd⟩
      · exact ⟨Nat.le_succ _, fun _ => rfl⟩

/-- The light path loop adds at most one photon per iteration to a class. -/
theorem TracePhotonPath.loop_length (pgic : PhotonGICache) (th : TracePhotonsThread)
    (samples : List ℚ) (X : PhotonClass) :
    ∀ (fuel : Nat) (s : PathState),
      ((TracePhotonPath.loop pgic th samples fuel s).photons.ofClass X).length ≤
        (s.photons.ofClass X).length + fuel := by
  intro fuel
  induction fuel with
  | zero => intro s; simp [TracePhotonPath.loop]
  | succ fuel ih =>
    intro s
    rw [TracePhotonPath.loop]
    by_cases hd : s.depth ≤ pgic.params.photon.maxPathDepth
    · simp only [hd, if_true]
      cases hI : pgic.scene.Intersect s.volInfo
          (samples.getD (u32 (sampleBootSize + u32 ((s.depth - 1) * sampleStepSize))) 0)
          s.nextEventRay with
      | none => simp
      | some hit =>
        have h2 := (depositVertex_ofClass pgic th hit.bsdf
          { s with
              lightPathFlux := s.lightPathFlux.mul hit.connectionThroughput
              volInfo := hit.volInfo } X).1
        simp only [] at h2 ⊢
        split_ifs with hmax hblack
        · omega
        · omega
        · refine le_trans (ih _) ?_
          simp only []
          omega
    · simp [hd]

/-- A path yields at most `maxPathDepth` photons of a class, and none of a class
that is done. -/
theorem TracePhotonPath_ofClass (pgic : PhotonGICache) (th : TracePhotonsThread)
    (rndGen : RandomGenerator) (samples : List ℚ) (X : PhotonClass) :
    ((TracePhotonPath pgic th rndGen samples).photons.ofClass X).length ≤
        pgic.params.photon.maxPathDepth ∧
    (th.doneOf X = true → (TracePhotonPath pgic th rndGen samples).photons.ofClass X = []) := by
  constructor
  · unfold TracePhotonPath
    cases hL : pgic.scene.SampleLights (samples.getD 1 0) with
    | none => cases X <;> simp [PathPhotons.empty, PathPhotons.ofClass]
    | some lp =>
      obtain ⟨light, lightPickPdf⟩ := lp
      simp only []
      split_ifs
      · refine le_trans (TracePhotonPath.loop_length pgic th samples X _ _) ?_
        cases X <;> simp [PathPhotons.empty, PathPhotons.ofClass]
      · cases X <;> simp [PathPhotons.empty, PathPhotons.ofClass]
  · intro hd
    apply TracePhotonPath_preserves pgic th (fun ph _ => ph.ofClass X = [])
    · cases X <;> rfl
    · intro bsdf s hs
      rw [(depositVertex_ofClass pgic th bsdf s X).2 hd]
      exact hs

/-- Appending a path's photons, class by class. -/
theorem AddPhotons_ofClass (th : TracePhotonsThread) (ph : PathPhotons) (X : PhotonClass) :
    (th.AddPhotons ph).ofClass X = th.ofClass X ++ ph.ofClass X ∧
    (th.AddPhotons ph).doneOf X = th.doneOf X := by
  cases X <;> exact ⟨rfl, rfl⟩

/-- Appending a path's scaled photons, class by class. -/
theorem AddPhotonsScaled_ofClass (th : TracePhotonsThread) (f : ℚ) (ph : PathPhotons)
    (X : PhotonClass) :
    (th.AddPhotonsScaled f ph).ofClass X = th.ofClass X ++ (ph.ofClass X).map (Photon.scaleAlpha f) ∧
    (th.AddPhotonsScaled f ph).doneOf X = th.doneOf X := by
  cases X <;> exact ⟨rfl, rfl⟩

/-- Scaling the tail of a vector keeps its length. -/
theorem scaleFrom_length (start : Nat) (f : ℚ) (photons : List Photon) :
    (scaleFrom start f photons).length = photons.length := by
  simp [scaleFrom]
  omega

/-- The random sampler loop: per class, flags are kept, photons are only added,
at most `maxPathDepth` per path, and none to a class that is done. -/
theorem RenderFunc.randomLoop_ofClass (pgic : PhotonGICache) (X : PhotonClass) :
    ∀ (n : Nat) (s : TracePhotonsThread × RandomGenerator),
      (RenderFunc.randomLoop pgic n s).1.doneOf X = s.1.doneOf X ∧
      (s.1.ofClass X).length ≤ ((RenderFunc.randomLoop pgic n s).1.ofClass X).length ∧
      ((RenderFunc.randomLoop pgic n s).1.ofClass X).length ≤
        (s.1.ofClass X).length + n * pgic.params.photon.maxPathDepth ∧
      (s.1.doneOf X = true →
        ((RenderFunc.randomLoop pgic n s).1.ofClass X).length = (s.1.ofClass X).length) := by
  intro n
  induction n with
  | zero => intro s; simp [RenderFunc.randomLoop]
  | succ n ih =>
    intro s
    rw [RenderFunc.randomLoop]
    set r := TracePhotonPath pgic s.1 (UniformMutate s.2 (sampleSize pgic)).2
      (UniformMutate s.2 (sampleSize pgic)).1 with hr
    obtain ⟨i1, i2, i3, i4⟩ := ih (s.1.AddPhotons r.photons, r.rndGen)
    obtain ⟨a1, a2⟩ := AddPhotons_ofClass s.1 r.photons X
    obtain ⟨p1, p2⟩ := TracePhotonPath_ofClass pgic s.1 (UniformMutate s.2 (sampleSize pgic)).2
      (UniformMutate s.2 (sampleSize pgic)).1 X
    simp only [a1, a2, List.length_append] at i1 i2 i3 i4
    refine ⟨i1, by omega, ?_, ?_⟩
    · rw [Nat.succ_mul]
      have : (r.photons.ofClass X).length ≤ pgic.params.photon.maxPathDepth := p1
      omega
    · intro hd
      have h0 : r.photons.ofClass X = [] := p2 hd
      have := i4 hd
      rw [h0] at this
      simpa using this

/-- The bootstrap loop hands back the photons of a path trace: per class at most
`maxPathDepth`, and none of a class that is done. -/
theorem RenderFunc.bootstrap_ofClass (pgic : PhotonGICache) (th : TracePhotonsThread)
    (X : PhotonClass) :
    ∀ (n : Nat) (g : RandomGenerator) (cs : List ℚ) (cur : PathPhotons),
      (cur.ofClass X).length ≤ pgic.params.photon.maxPathDepth →
      (th.doneOf X = true → cur.ofClass X = []) →
      ((RenderFunc.bootstrap pgic th n g cs cur).2.2.1.ofClass X).length ≤
          pgic.params.photon.maxPathDepth ∧
      (th.doneOf X = true → (RenderFunc.bootstrap pgic th n g cs cur).2.2.1.ofClass X = []) := by
  intro n
  induction n with
  | zero => intro g cs cur h1 h2; exact ⟨h1, h2⟩
  | succ n ih =>
    intro g cs cur _ _
    rw [RenderFunc.bootstrap]
    obtain ⟨p1, p2⟩ := TracePhotonPath_ofClass pgic th (UniformMutate g (sampleSize pgic)).2
      (UniformMutate g (sampleSize pgic)).1 X
    split_ifs
    · exact ⟨p1, p2⟩
    · exact ih _ _ _ p1 p2

/-- One chain iteration keeps the invariant. -/
theorem RenderFunc.chainStep_inv (M : Platform) (pgic : PhotonGICache) (X : PhotonClass)
    (L k : Nat) (done : Bool) (c : ChainState) (h : chainInv pgic X L k done c) :
    chainInv pgic X L (k + 1) done (RenderFunc.chainStep M pgic c) := by
  obtain ⟨hd, hL, hsum, hcur, hdone⟩ := h
  have hmul : (k + 1) * pgic.params.photon.maxPathDepth =
      k * pgic.params.photon.maxPathDepth + pgic.params.photon.maxPathDepth := Nat.succ_mul _ _
  have hsum1 : (c.th.ofClass X).length + (c.current.ofClass X).length ≤
      L + (k + 1) * pgic.params.photon.maxPathDepth := by
    rw [hmul]
    split_ifs at hsum <;> omega
  obtain ⟨a1, a2⟩ := AddPhotonsScaled_ofClass c.th c.currentPhotonsScale c.current X
  unfold RenderFunc.chainStep
  simp only []
  set u := UniformMutate c.rndGen (sampleSize pgic) with hu
  set r := TracePhotonPath pgic c.th u.2 u.1 with hr
  obtain ⟨p1, p2⟩ := TracePhotonPath_ofClass pgic c.th u.2 u.1 X
  by_cases hus : r.usefulPath = true
  · rw [if_pos hus]
    refine ⟨?_, ?_, ?_, ?_, ?_⟩
    · simp only [a2, hd]
    · simp only [a1, List.length_append, List.length_map]; omega
    · simp only [a1, List.length_append, List.length_map]
      simp only [gt_iff_lt, lt_self_iff_false, if_false]
      omega
    · exact p1
    · intro hdt
      obtain ⟨e1, e2⟩ := hdone hdt
      refine ⟨?_, p2 (by rw [hd, hdt])⟩
      simp only [a1, List.length_append, List.length_map, e2, e1]
      simp
  · rw [if_neg hus]
    set m := Mutate M r.rndGen c.currentPathSamples c.mutationSize with hm
    set r2 := TracePhotonPath pgic c.th m.2 m.1 with hr2
    obtain ⟨q1, q2⟩ := TracePhotonPath_ofClass pgic c.th m.2 m.1 X
    by_cases hus2 : r2.usefulPath = true
    · rw [if_pos hus2]
      refine ⟨?_, ?_, ?_, ?_, ?_⟩
      · simp only [a2, hd]
      · simp only [a1, List.length_append, List.length_map]; omega
      · simp only [a1, List.length_append, List.length_map]
        simp only [gt_iff_lt, lt_self_iff_false, if_false]
        omega
      · exact q1
      · intro hdt
        obtain ⟨e1, e2⟩ := hdone hdt
        refine ⟨?_, q2 (by rw [hd, hdt])⟩
        simp only [a1, List.length_append, List.length_map, e2, e1]
        simp
    · rw [if_neg hus2]
      refine ⟨hd, hL, ?_, hcur, hdone⟩
      simp only []
      split_ifs <;> omega

/-- The chain keeps the invariant over its iterations. -/
theorem RenderFunc.chain_inv (M : Platform) (pgic : PhotonGICache) (X : PhotonClass)
    (L : Nat) (done : Bool) :
    ∀ (n k : Nat) (c : ChainState), chainInv pgic X L k done c →
      chainInv pgic X L (k + n) done (RenderFunc.chain M pgic n c) := by
  intro n
  induction n with
  | zero => intro k c h; simpa [RenderFunc.chain] using h
  | succ n ih =>
    intro k c h
    rw [RenderFunc.chain]
    have := ih (k + 1) _ (RenderFunc.chainStep_inv M pgic X L k done c h)
    rwa [show k + (n + 1) = k + 1 + n by omega]

/-- The sampler part of a bucket, per class: flags are kept, photons are only
added, at most `maxPathDepth` per path of the bucket, and none to a class that
is done. -/
theorem RenderFunc.sampleBucket_ofClass (M : Platform) (pgic : PhotonGICache)
    (th th2 : TracePhotonsThread) (workToDo : Nat) (X : PhotonClass)
    (h : RenderFunc.sampleBucket M pgic th workToDo = Except.ok th2) :
    th2.doneOf X = th.doneOf X ∧
    (th.ofClass X).length ≤ (th2.ofClass X).length ∧
    (th2.ofClass X).length ≤ (th.ofClass X).length + workToDo * pgic.params.photon.maxPathDepth ∧
    (th.doneOf X = true → (th2.ofClass X).length = (th.ofClass X).length) := by
  unfold RenderFunc.sampleBucket at h
  cases hs : pgic.params.samplerType with
  | PGIC_SAMPLER_RANDOM =>
    rw [hs] at h
    simp only [Except.ok.injEq] at h
    obtain ⟨r1, r2, r3, r4⟩ := RenderFunc.randomLoop_ofClass pgic X workToDo (th, th.rndGen)
    rw [← h]
    have e1 : ∀ (t : TracePhotonsThread) (g : RandomGenerator),
        ({ t with rndGen := g } : TracePhotonsThread).ofClass X = t.ofClass X := by
      intro t g; cases X <;> rfl
    have e2 : ∀ (t : TracePhotonsThread) (g : RandomGenerator),
        ({ t with rndGen := g } : TracePhotonsThread).doneOf X = t.doneOf X := by
      intro t g; cases X <;> rfl
    rw [e1, e2]
    exact ⟨r1, r2, r3, r4⟩
  | PGIC_SAMPLER_METROPOLIS =>
    rw [hs] at h
    simp only [] at h
    by_cases hb : (!(RenderFunc.bootstrap pgic th 16384 th.rndGen [] PathPhotons.empty).1) = true
    · rw [if_pos hb] at h
      cases h
    rw [if_neg hb] at h
    simp only [Except.ok.injEq] at h
    set b := RenderFunc.bootstrap pgic th 16384 th.rndGen [] PathPhotons.empty with hbdef
    obtain ⟨b1, b2⟩ := RenderFunc.bootstrap_ofClass pgic th X 16384 th.rndGen [] PathPhotons.empty
      (by cases X <;> simp [PathPhotons.empty, PathPhotons.ofClass])
      (by intro _; cases X <;> rfl)
    set c0 : ChainState :=
      { th := th
        rndGen := b.2.2.2
        currentPathSamples := b.2.1
        current := b.2.2.1
        currentPhotonsScale := 1
        mutationSize := 1
        acceptedCount := 1
        mutatedCount := 1
        uniformCount := 1 } with hc0
    have hinv0 : chainInv pgic X (th.ofClass X).length 0 (th.doneOf X) c0 := by
      refine ⟨rfl, le_refl _, ?_, b1, ?_⟩
      · simp [hc0]
      · intro hd; exact ⟨rfl, b2 hd⟩
    have hinv := RenderFunc.chain_inv M pgic X (th.ofClass X).length (th.doneOf X) workToDo 0 c0 hinv0
    set c := RenderFunc.chain M pgic workToDo c0 with hc
    obtain ⟨i1, i2, i3, i4, i5⟩ := hinv
    rw [Nat.zero_add] at i3
    obtain ⟨a1, a2⟩ := AddPhotonsScaled_ofClass c.th c.currentPhotonsScale c.current X
    -- the worker after the last flush
    have hth1 : ∀ t : TracePhotonsThread,
        t = (if c.currentPhotonsScale > 1 then c.th.AddPhotonsScaled c.currentPhotonsScale c.current
          else c.th) →
        t.doneOf X = th.doneOf X ∧ (th.ofClass X).length ≤ (t.ofClass X).length ∧
        (t.ofClass X).length ≤ (th.ofClass X).length + workToDo * pgic.params.photon.maxPathDepth ∧
        (th.doneOf X = true → (t.ofClass X).length = (th.ofClass X).length) := by
      intro t ht
      by_cases hsc : c.currentPhotonsScale > 1
      · rw [if_pos hsc] at ht
        rw [if_pos hsc] at i3
        rw [ht, a1, a2]
        simp only [List.length_append, List.length_map]
        refine ⟨i1, by omega, i3, ?_⟩
        intro hd
        obtain ⟨e1, e2⟩ := i5 hd
        rw [e2, e1]; rfl
      · rw [if_neg hsc] at ht
        rw [if_neg hsc] at i3
        rw [ht]
        exact ⟨i1, i2, by omega, fun hd => (i5 hd).1⟩
    obtain ⟨t1, t2, t3, t4⟩ := hth1 _ rfl
    rw [← h]
    cases X <;>
      simp only [TracePhotonsThread.ofClass, TracePhotonsThread.doneOf, scaleFrom_length] at * <;>
      exact ⟨t1, t2, t3, t4⟩

/-- A bucket never holds more than `workSize` paths. -/
theorem RenderFunc.workToDo_le (pgic : PhotonGICache) (workCounter : Nat)
    (h : workCounter < pgic.params.photon.maxTracedCount) :
    RenderFunc.workToDo pgic workCounter ≤ workSize := by
  unfold RenderFunc.workToDo workSize u32
  split_ifs with hc
  · omega
  · exact le_refl _

/-- Reading the size counter of a class after a counter-only update. -/
theorem snapshotDone_ofClass (pgic : PhotonGICache) (th : TracePhotonsThread) (X : PhotonClass) :
    (RenderFunc.snapshotDone pgic th).ofClass X = th.ofClass X ∧
    ((RenderFunc.snapshotDone pgic th).doneOf X = true ↔
      pgic.params.maxSizeOf X ≤ pgic.sizeOf X) := by
  cases X <;>
    simp [RenderFunc.snapshotDone, TracePhotonsThread.ofClass, TracePhotonsThread.doneOf,
      PhotonGICacheParams.maxSizeOf, PhotonGICache.sizeOf]

/-- One bucket, per class: only the shared counters of the cache change; the
worker's photons are only added to, by at most `workSize * maxPathDepth`, and
not at all when the class's counter had reached its `maxSize`; the class's size
counter advances, modulo `2^32`, by the number of photons added. -/
theorem RenderFunc.bucket_ofClass (M : Platform) (pgic pgic2 : PhotonGICache)
    (th th2 : TracePhotonsThread) (X : PhotonClass)
    (h : RenderFunc.bucket M pgic th = Except.ok (pgic2, th2)) :
    pgic2.sameButCounters pgic ∧
    (th.ofClass X).length ≤ (th2.ofClass X).length ∧
    (th2.ofClass X).length ≤ (th.ofClass X).length + workSize * pgic.params.photon.maxPathDepth ∧
    (pgic.params.maxSizeOf X ≤ pgic.sizeOf X → (th2.ofClass X).length = (th.ofClass X).length) ∧
    pgic2.sizeOf X % 4294967296 =
      (pgic.sizeOf X + ((th2.ofClass X).length - (th.ofClass X).length)) % 4294967296 ∧
    (pgic.sizeOf X < 4294967296 → pgic2.sizeOf X < 4294967296) := by
  unfold RenderFunc.bucket at h
  simp only [] at h
  by_cases hstop : pgic.globalPhotonsCounter ≥ pgic.params.photon.maxTracedCount
  · rw [if_pos hstop] at h
    simp only [Except.ok.injEq, Prod.mk.injEq] at h
    obtain ⟨h1, h2⟩ := h
    subst h1 h2
    refine ⟨⟨rfl, rfl, rfl, rfl, rfl, rfl, rfl, rfl, rfl, rfl, rfl, rfl, rfl, rfl, rfl⟩, ?_⟩
    cases X <;> simp [TracePhotonsThread.ofClass, PhotonGICache.sizeOf]
  · rw [if_neg hstop] at h
    set pgic1 : PhotonGICache :=
      { pgic with globalPhotonsCounter := u32 (pgic.globalPhotonsCounter + workSize) } with hp1
    set th1 := RenderFunc.snapshotDone pgic1 th with hth1
    set w := RenderFunc.workToDo pgic1 pgic.globalPhotonsCounter with hw
    have hwle : w ≤ workSize := RenderFunc.workToDo_le pgic1 _ (by simpa [hp1] using hstop)
    obtain ⟨s1, s2⟩ := snapshotDone_ofClass pgic1 th X
    cases hsb : RenderFunc.sampleBucket M
        { pgic1 with
            globalDirectPhotonsTraced :=
              if !th1.directDone then u32 (pgic1.globalDirectPhotonsTraced + w)
              else pgic1.globalDirectPhotonsTraced
            globalIndirectPhotonsTraced :=
              if !th1.indirectDone then u32 (pgic1.globalIndirectPhotonsTraced + w)
              else pgic1.globalIndirectPhotonsTraced
            globalCausticPhotonsTraced :=
              if !th1.causticDone then u32 (pgic1.globalCausticPhotonsTraced + w)
              else pgic1.globalCausticPhotonsTraced } th1 w with
    | error e => rw [hsb] at h; cases h
    | ok t =>
      rw [hsb] at h
      obtain ⟨b1, b2, b3, b4⟩ := RenderFunc.sampleBucket_ofClass M _ th1 t w X hsb
      simp only [] at b3
      have hD : w * pgic.params.photon.maxPathDepth ≤ workSize * pgic.params.photon.maxPathDepth :=
        Nat.mul_le_mul_right _ hwle
      rw [s1] at b2 b3 b4
      have hdone : pgic.params.maxSizeOf X ≤ pgic.sizeOf X → th1.doneOf X = true := by
        intro hle
        rw [s2]
        cases X <;> simpa [hp1, PhotonGICacheParams.maxSizeOf, PhotonGICache.sizeOf] using hle
      have hfin : ∀ (p : PhotonGICache) (t2 : TracePhotonsThread),
          p.sameButCounters pgic →
          p.sizeOf X = u32 (pgic.sizeOf X + ((t.ofClass X).length - u32 (th.ofClass X).length)) →
          t2.ofClass X = t.ofClass X →
          (p.sameButCounters pgic ∧
            (th.ofClass X).length ≤ (t2.ofClass X).length ∧
            (t2.ofClass X).length ≤ (th.ofClass X).length + workSize * pgic.params.photon.maxPathDepth ∧
            (pgic.params.maxSizeOf X ≤ pgic.sizeOf X → (t2.ofClass X).length = (th.ofClass X).length) ∧
            p.sizeOf X % 4294967296 =
              (pgic.sizeOf X + ((t2.ofClass X).length - (th.ofClass X).length)) % 4294967296 ∧
            (pgic.sizeOf X < 4294967296 → p.sizeOf X < 4294967296)) := by
        intro p t2 hsame hsize ht2
        rw [ht2, hsize]
        refine ⟨hsame, b2, by omega, fun hle => b4 (hdone hle), ?_, ?_⟩
        · unfold u32; omega
        · intro _; unfold u32; omega
      have hsize3 : ∀ p : PhotonGICache,
          p.globalDirectSize = u32 (pgic.globalDirectSize +
            (t.directPhotons.length - u32 th.directPhotons.length)) →
          p.globalIndirectSize = u32 (pgic.globalIndirectSize +
            (t.indirectPhotons.length - u32 th.indirectPhotons.length)) →
          p.globalCausticSize = u32 (pgic.globalCausticSize +
            (t.causticPhotons.length - u32 th.causticPhotons.length)) →
          p.sizeOf X = u32 (pgic.sizeOf X + ((t.ofClass X).length - u32 (th.ofClass X).length)) := by
        intro p e1 e2 e3
        cases X
        · exact e1
        · exact e2
        · exact e3
      simp only [] at h
      by_cases hall : t.directDone = true ∧ t.indirectDone = true ∧ t.causticDone = true
      · rw [if_pos hall] at h
        simp only [Except.ok.injEq, Prod.mk.injEq] at h
        obtain ⟨h1, h2⟩ := h
        subst h1 h2
        exact hfin _ _ ⟨rfl, rfl, rfl, rfl, rfl, rfl, rfl, rfl, rfl, rfl, rfl, rfl, rfl, rfl, rfl⟩
          (hsize3 _ rfl rfl rfl) (by cases X <;> rfl)
      · rw [if_neg hall] at h
        simp only [Except.ok.injEq, Prod.mk.injEq] at h
        obtain ⟨h1, h2⟩ := h
        subst h1 h2
        exact hfin _ _ ⟨rfl, rfl, rfl, rfl, rfl, rfl, rfl, rfl, rfl, rfl, rfl, rfl, rfl, rfl, rfl⟩
          (hsize3 _ rfl rfl rfl) rfl

/-! ## Accounting over workers and buckets -/

/-- Differing at most in the counters is transitive. -/
theorem PhotonGICache.sameButCounters_trans {a b c : PhotonGICache}
    (h1 : a.sameButCounters b) (h2 : b.sameButCounters c) : a.sameButCounters c := by
  obtain ⟨a1, a2, a3, a4, a5, a6, a7, a8, a9, a10, a11, a12, a13, a14, a15⟩ := h1
  obtain ⟨b1, b2, b3, b4, b5, b6, b7, b8, b9, b10, b11, b12, b13, b14, b15⟩ := h2
  exact ⟨a1.trans b1, a2.trans b2, a3.trans b3, a4.trans b4, a5.trans b5, a6.trans b6,
    a7.trans b7, a8.trans b8, a9.trans b9, a10.trans b10, a11.trans b11, a12.trans b12,
    a13.trans b13, a14.trans b14, a15.trans b15⟩

/-- Replacing one worker changes the stored count by the difference of the two
workers' counts. -/
theorem storedCount_set (X : PhotonClass) (th2 : TracePhotonsThread) :
    ∀ (l : List TracePhotonsThread) (i : Nat) (th : TracePhotonsThread),
      l.get? i = some th →
      storedCount (l.set i th2) X + (th.ofClass X).length =
        storedCount l X + (th2.ofClass X).length := by
  intro l
  induction l with
  | nil => intro i th h; simp at h
  | cons a l ih =>
    intro i th h
    cases i with
    | zero =>
      simp only [List.get?_cons_zero, Option.some.injEq] at h
      subst h
      simp only [storedCount, List.set_cons_zero, List.map_cons, List.sum_cons]
      omega
    | succ j =>
      simp only [List.get?_cons_succ] at h
      have := ih j th h
      simp only [storedCount, List.set_cons_succ, List.map_cons, List.sum_cons] at this ⊢
      omega

/-- A worker's count is part of the stored count. -/
theorem storedCount_ge (X : PhotonClass) :
    ∀ (l : List TracePhotonsThread) (i : Nat) (th : TracePhotonsThread),
      l.get? i = some th → (th.ofClass X).length ≤ storedCount l X := by
  intro l
  induction l with
  | nil => intro i th h; simp at h
  | cons a l ih =>
    intro i th h
    cases i with
    | zero =>
      simp only [List.get?_cons_zero, Option.some.injEq] at h
      subst h
      simp [storedCount]
    | succ j =>
      simp only [List.get?_cons_succ] at h
      have := ih j th h
      simp only [storedCount, List.map_cons, List.sum_cons] at this ⊢
      omega

/-- A property of the shared cache and the per-class totals that every bucket of
every worker preserves is preserved by a whole `RenderFunc` run. -/
theorem RenderFunc_preserves (M : Platform)
    (G : PhotonGICache → (PhotonClass → Nat) → Prop)
    (hb : ∀ (E : PhotonClass → Nat) (pgic pgic2 : PhotonGICache) (th th2 : TracePhotonsThread),
      G pgic (fun X => E X + (th.ofClass X).length) →
      RenderFunc.bucket M pgic th = Except.ok (pgic2, th2) →
      G pgic2 (fun X => E X + (th2.ofClass X).length))
    (E : PhotonClass → Nat) :
    ∀ (fuel : Nat) (pgic : PhotonGICache) (th : TracePhotonsThread)
      (r : PhotonGICache × TracePhotonsThread),
      G pgic (fun X => E X + (th.ofClass X).length) →
      RenderFunc M fuel pgic th = Except.ok r →
      G r.1 (fun X => E X + (r.2.ofClass X).length) := by
  intro fuel
  induction fuel with
  | zero =>
    intro pgic th r hG h
    rw [RenderFunc] at h
    split_ifs at h
    simp only [Except.ok.injEq] at h
    rw [← h]; exact hG
  | succ fuel ih =>
    intro pgic th r hG h
    rw [RenderFunc] at h
    by_cases hrun : th.running = true
    · rw [if_pos hrun] at h
      cases hbk : RenderFunc.bucket M pgic th with
      | error e => rw [hbk] at h; cases h
      | ok r1 =>
        rw [hbk] at h
        simp only [] at h
        exact ih r1.1 r1.2 r (hb E pgic r1.1 th r1.2 hG hbk) h
    · rw [if_neg hrun] at h
      simp only [Except.ok.injEq] at h
      rw [← h]; exact hG

/-- The per-class totals of a worker group, split into one worker and the rest. -/
theorem storedCount_split (l : List TracePhotonsThread) (i : Nat) (th : TracePhotonsThread)
    (h : l.get? i = some th) :
    (fun X => storedCount l X) =
      (fun X => (storedCount l X - (th.ofClass X).length) + (th.ofClass X).length) := by
  funext X
  have := storedCount_ge X l i th h
  omega

/-- The totals after one worker of the group has been replaced. -/
theorem storedCount_split_set (l : List TracePhotonsThread) (i : Nat)
    (th th2 : TracePhotonsThread) (h : l.get? i = some th) :
    (fun X => storedCount (l.set i th2) X) =
      (fun X => (storedCount l X - (th.ofClass X).length) + (th2.ofClass X).length) := by
  funext X
  have h1 := storedCount_ge X l i th h
  have h2 := storedCount_set X th2 l i th h
  omega

/-- A property that every bucket preserves is preserved by one scheduled step. -/
theorem TraceState.step_preserves (M : Platform)
    (G : PhotonGICache → (PhotonClass → Nat) → Prop)
    (hb : ∀ (E : PhotonClass → Nat) (pgic pgic2 : PhotonGICache) (th th2 : TracePhotonsThread),
      G pgic (fun X => E X + (th.ofClass X).length) →
      RenderFunc.bucket M pgic th = Except.ok (pgic2, th2) →
      G pgic2 (fun X => E X + (th2.ofClass X).length))
    (st st2 : TraceState) (i : Nat)
    (hG : G st.pgic (fun X => storedCount st.renderThreads X))
    (h : st.step M i = Except.ok st2) :
    G st2.pgic (fun X => storedCount st2.renderThreads X) := by
  unfold TraceState.step at h
  cases hget : st.renderThreads.get? i with
  | none =>
    rw [hget] at h
    simp only [Except.ok.injEq] at h
    rw [← h]; exact hG
  | some th =>
    rw [hget] at h
    simp only [] at h
    by_cases hrun : th.running = true
    · rw [if_pos hrun] at h
      cases hbk : RenderFunc.bucket M st.pgic th with
      | error e => rw [hbk] at h; cases h
      | ok r =>
        rw [hbk] at h
        simp only [Except.ok.injEq] at h
        rw [← h]
        simp only []
        rw [storedCount_split_set st.renderThreads i th r.2 hget]
        rw [storedCount_split st.renderThreads i th hget] at hG
        exact hb _ st.pgic r.1 th r.2 hG hbk
    · rw [if_neg hrun] at h
      simp only [Except.ok.injEq] at h
      rw [← h]; exact hG

/-- A property that every bucket preserves is preserved by a whole schedule. -/
theorem TraceState.run_preserves (M : Platform)
    (G : PhotonGICache → (PhotonClass → Nat) → Prop)
    (hb : ∀ (E : PhotonClass → Nat) (pgic pgic2 : PhotonGICache) (th th2 : TracePhotonsThread),
      G pgic (fun X => E X + (th.ofClass X).length) →
      RenderFunc.bucket M pgic th = Except.ok (pgic2, th2) →
      G pgic2 (fun X => E X + (th2.ofClass X).length)) :
    ∀ (schedule : List Nat) (st st2 : TraceState),
      G st.pgic (fun X => storedCount st.renderThreads X) →
      TraceState.run M schedule st = Except.ok st2 →
      G st2.pgic (fun X => storedCount st2.renderThreads X) := by
  intro schedule
  induction schedule with
  | nil =>
    intro st st2 hG h
    simp only [TraceState.run, Except.ok.injEq] at h
    rw [← h]; exact hG
  | cons i rest ih =>
    intro st st2 hG h
    rw [TraceState.run] at h
    cases hs : st.step M i with
    | error e => rw [hs] at h; cases h
    | ok st1 =>
      rw [hs] at h
      exact ih st1 st2 (TraceState.step_preserves M G hb st st1 i hG hs) h

/-- A property that every bucket preserves is preserved by joining a worker. -/
theorem TraceState.join_preserves (M : Platform)
    (G : PhotonGICache → (PhotonClass → Nat) → Prop)
    (hb : ∀ (E : PhotonClass → Nat) (pgic pgic2 : PhotonGICache) (th th2 : TracePhotonsThread),
      G pgic (fun X => E X + (th.ofClass X).length) →
      RenderFunc.bucket M pgic th = Except.ok (pgic2, th2) →
      G pgic2 (fun X => E X + (th2.ofClass X).length))
    (fuel : Nat) (st st2 : TraceState) (i : Nat)
    (hG : G st.pgic (fun X => storedCount st.renderThreads X))
    (h : st.join M fuel i = Except.ok st2) :
    G st2.pgic (fun X => storedCount st2.renderThreads X) := by
  unfold TraceState.join at h
  cases hget : st.renderThreads.get? i with
  | none =>
    rw [hget] at h
    simp only [Except.ok.injEq] at h
    rw [← h]; exact hG
  | some th =>
    rw [hget] at h
    simp only [] at h
    cases hr : RenderFunc M fuel st.pgic th with
    | error e => rw [hr] at h; cases h
    | ok r =>
      rw [hr] at h
      simp only [Except.ok.injEq] at h
      rw [← h]
      simp only []
      rw [storedCount_split_set st.renderThreads i th r.2 hget]
      rw [storedCount_split st.renderThreads i th hget] at hG
      exact RenderFunc_preserves M G hb _ fuel st.pgic th r hG hr

/-- A property that every bucket preserves is preserved by joining all workers. -/
theorem TraceState.joinAll_preserves (M : Platform)
    (G : PhotonGICache → (PhotonClass → Nat) → Prop)
    (hb : ∀ (E : PhotonClass → Nat) (pgic pgic2 : PhotonGICache) (th th2 : TracePhotonsThread),
      G pgic (fun X => E X + (th.ofClass X).length) →
      RenderFunc.bucket M pgic th = Except.ok (pgic2, th2) →
      G pgic2 (fun X => E X + (th2.ofClass X).length))
    (fuel : Nat) :
    ∀ (is : List Nat) (st st2 : TraceState),
      G st.pgic (fun X => storedCount st.renderThreads X) →
      TraceState.joinAll M fuel is st = Except.ok st2 →
      G st2.pgic (fun X => storedCount st2.renderThreads X) := by
  intro is
  induction is with
  | nil =>
    intro st st2 hG h
    simp only [TraceState.joinAll, Except.ok.injEq] at h
    rw [← h]; exact hG
  | cons i rest ih =>
    intro st st2 hG h
    rw [TraceState.joinAll] at h
    cases hs : st.join M fuel i with
    | error e => rw [hs] at h; cases h
    | ok st1 =>
      rw [hs] at h
      exact ih st1 st2 (TraceState.join_preserves M G hb fuel st st1 i hG hs) h

/-- Every bucket keeps the size accounting: the cache differs from `c0` at most
in the counters and every size counter is the total of its class modulo `2^32`. -/
theorem RenderFunc.bucket_sizeInv (M : Platform) (c0 : PhotonGICache)
    (E : PhotonClass → Nat) (pgic pgic2 : PhotonGICache) (th th2 : TracePhotonsThread)
    (hG : sizeInv c0 pgic (fun X => E X + (th.ofClass X).length))
    (h : RenderFunc.bucket M pgic th = Except.ok (pgic2, th2)) :
    sizeInv c0 pgic2 (fun X => E X + (th2.ofClass X).length) := by
  obtain ⟨hsame, hsize⟩ := hG
  refine ⟨PhotonGICache.sameButCounters_trans
    (RenderFunc.bucket_ofClass M pgic pgic2 th th2 PhotonClass.direct h).1 hsame, ?_⟩
  intro X
  obtain ⟨_, b2, _, _, b5, b6⟩ := RenderFunc.bucket_ofClass M pgic pgic2 th th2 X h
  have hs := hsize X
  simp only [] at hs ⊢
  have hlt : pgic.sizeOf X < 4294967296 := by rw [hs]; exact Nat.mod_lt _ (by norm_num)
  have h2lt := b6 hlt
  omega

/-- Every bucket keeps the budget accounting when no size counter can overflow. -/
theorem RenderFunc.bucket_boundInv (M : Platform) (c0 : PhotonGICache)
    (hN : ∀ X, c0.params.maxSizeOf X + workSize * c0.params.photon.maxPathDepth ≤ 4294967296)
    (E : PhotonClass → Nat) (pgic pgic2 : PhotonGICache) (th th2 : TracePhotonsThread)
    (hG : boundInv c0 pgic (fun X => E X + (th.ofClass X).length))
    (h : RenderFunc.bucket M pgic th = Except.ok (pgic2, th2)) :
    boundInv c0 pgic2 (fun X => E X + (th2.ofClass X).length) := by
  obtain ⟨hS, hB⟩ := hG
  refine ⟨RenderFunc.bucket_sizeInv M c0 E pgic pgic2 th th2 hS h, ?_⟩
  intro X
  obtain ⟨_, b2, b3, b4, _, _⟩ := RenderFunc.bucket_ofClass M pgic pgic2 th th2 X h
  obtain ⟨hsame, hsize⟩ := hS
  have hparams : pgic.params = c0.params := hsame.2.1
  rw [hparams] at b3 b4
  have hs := hsize X
  obtain ⟨hb1, hb2⟩ := hB X
  have hn := hN X
  simp only [] at hs hb1 hb2 ⊢
  have hmod : (E X + (th.ofClass X).length) % 4294967296 = E X + (th.ofClass X).length := by
    apply Nat.mod_eq_of_lt
    by_cases hz : c0.params.maxSizeOf X = 0
    · have := hb2 hz; omega
    · omega
  rw [hmod] at hs
  by_cases hfull : c0.params.maxSizeOf X ≤ pgic.sizeOf X
  · have := b4 hfull
    constructor
    · omega
    · intro hz; have := hb2 hz; omega
  · constructor
    · omega
    · intro hz; omega

/-- Freshly started workers hold no photons. -/
theorem storedCount_startThreads (M : Platform) (X : PhotonClass) :
    storedCount (TracePhotons.startThreads M) X = 0 := by
  unfold storedCount TracePhotons.startThreads
  rw [List.map_map]
  apply List.sum_eq_zero
  intro n hn
  simp only [List.mem_map, Function.comp] at hn
  obtain ⟨i, _, hi⟩ := hn
  rw [← hi]
  cases X <;> rfl

/-- The concatenation of the workers' vectors of a class has the stored count of
that class as its length. -/
theorem storedCount_flatten (l : List TracePhotonsThread) (X : PhotonClass) :
    ((l.map (fun th => th.ofClass X)).flatten).length = storedCount l X := by
  unfold storedCount
  induction l with
  | nil => rfl
  | cons a l ih => simp [ih]

/-- A property of the shared cache and the per-class totals that holds after the
counter reset and that every bucket preserves holds of the state whose vectors
`TracePhotons` collects. -/
theorem TracePhotons_preserves (M : Platform)
    (G : PhotonGICache → (PhotonClass → Nat) → Prop)
    (hb : ∀ (E : PhotonClass → Nat) (pgic pgic2 : PhotonGICache) (th th2 : TracePhotonsThread),
      G pgic (fun X => E X + (th.ofClass X).length) →
      RenderFunc.bucket M pgic th = Except.ok (pgic2, th2) →
      G pgic2 (fun X => E X + (th2.ofClass X).length))
    (schedule : List Nat) (fuel : Nat) (c t : PhotonGICache)
    (h0 : G c.resetCounters (fun _ => 0))
    (h : PhotonGICache.TracePhotons M schedule fuel c = Except.ok t) :
    ∃ st : TraceState, G st.pgic (fun X => storedCount st.renderThreads X) ∧ t = st.collect := by
  unfold PhotonGICache.TracePhotons at h
  cases h1 : TraceState.run M schedule ⟨c.resetCounters, TracePhotons.startThreads M⟩ with
  | error e => rw [h1] at h; cases h
  | ok st1 =>
    rw [h1] at h
    simp only [] at h
    cases h2 : TraceState.joinAll M fuel (List.range M.hardware_concurrency) st1 with
    | error e => rw [h2] at h; cases h
    | ok st2 =>
      rw [h2] at h
      simp only [Except.ok.injEq] at h
      refine ⟨st2, ?_, h.symm⟩
      have hstart : G (TraceState.mk c.resetCounters (TracePhotons.startThreads M)).pgic
          (fun X => storedCount
            (TraceState.mk c.resetCounters (TracePhotons.startThreads M)).renderThreads X) := by
        have : (fun X => storedCount (TracePhotons.startThreads M) X) = (fun _ => 0) := by
          funext X; exact storedCount_startThreads M X
        simp only [this]
        exact h0
      exact TraceState.joinAll_preserves M G hb fuel _ st1 st2
        (TraceState.run_preserves M G hb schedule _ st1 hstart h1) h2

/-- The size accounting holds after the counter reset. -/
theorem sizeInv_resetCounters (c : PhotonGICache) : sizeInv c.resetCounters c.resetCounters (fun _ => 0) := by
  refine ⟨⟨rfl, rfl, rfl, rfl, rfl, rfl, rfl, rfl, rfl, rfl, rfl, rfl, rfl, rfl, rfl⟩, ?_⟩
  intro X
  cases X <;> rfl

/-- Every bucket keeps the size accounting together with the budget accounting
that holds when no size counter can overflow. -/
theorem RenderFunc.bucket_sizeInv_boundInv (M : Platform) (c0 : PhotonGICache)
    (E : PhotonClass → Nat) (pgic pgic2 : PhotonGICache) (th th2 : TracePhotonsThread)
    (hG : sizeInv c0 pgic (fun X => E X + (th.ofClass X).length) ∧
      ((∀ X, c0.params.maxSizeOf X + workSize * c0.params.photon.maxPathDepth ≤ 4294967296) →
        boundInv c0 pgic (fun X => E X + (th.ofClass X).length)))
    (h : RenderFunc.bucket M pgic th = Except.ok (pgic2, th2)) :
    sizeInv c0 pgic2 (fun X => E X + (th2.ofClass X).length) ∧
      ((∀ X, c0.params.maxSizeOf X + workSize * c0.params.photon.maxPathDepth ≤ 4294967296) →
        boundInv c0 pgic2 (fun X => E X + (th2.ofClass X).length)) :=
  ⟨RenderFunc.bucket_sizeInv M c0 E pgic pgic2 th th2 hG.1 h,
    fun hN => RenderFunc.bucket_boundInv M c0 hN E pgic pgic2 th th2 (hG.2 hN) h⟩

/-- C4: when `TracePhotons` has joined all workers (any number of workers, any
bucket-granular interleaving, none failing), the direct, indirect and caustic
vectors of the cache are its previous vectors followed by the concatenation of
the workers' vectors, and `globalDirectSize`, `globalIndirectSize` and
`globalCausticSize` are the lengths of these concatenations as 32 bit unsigned
numbers: equal to the lengths whenever the lengths are below `2^32`, which is
the case for every parameter block with `maxSize + 4096 * maxPathDepth ≤ 2^32`
in each class. -/
theorem TracePhotons_size_counters (M : Platform) (schedule : List Nat) (fuel : Nat)
    (c t : PhotonGICache)
    (h : PhotonGICache.TracePhotons M schedule fuel c = Except.ok t) :
    ∃ d i k : List Photon,
      t.directPhotons = c.directPhotons ++ d ∧
      t.indirectPhotons = c.indirectPhotons ++ i ∧
      t.causticPhotons = c.causticPhotons ++ k ∧
      t.globalDirectSize = d.length % 4294967296 ∧
      t.globalIndirectSize = i.length % 4294967296 ∧
      t.globalCausticSize = k.length % 4294967296 ∧
      (d.length < 4294967296 → t.globalDirectSize = d.length) ∧
      (i.length < 4294967296 → t.globalIndirectSize = i.length) ∧
      (k.length < 4294967296 → t.globalCausticSize = k.length) ∧
      ((c.params.direct.maxSize + workSize * c.params.photon.maxPathDepth ≤ 4294967296 ∧
          c.params.indirect.maxSize + workSize * c.params.photon.maxPathDepth ≤ 4294967296 ∧
          c.params.caustic.maxSize + workSize * c.params.photon.maxPathDepth ≤ 4294967296) →
        t.globalDirectSize = d.length ∧ t.globalIndirectSize = i.length ∧
          t.globalCausticSize = k.length) := by
  obtain ⟨st, ⟨⟨hsame, hsize⟩, hbnd⟩, ht⟩ := TracePhotons_preserves M
    (fun pgic tot => sizeInv c.resetCounters pgic tot ∧
      ((∀ X, c.resetCounters.params.maxSizeOf X +
          workSize * c.resetCounters.params.photon.maxPathDepth ≤ 4294967296) →
        boundInv c.resetCounters pgic tot))
    (RenderFunc.bucket_sizeInv_boundInv M c.resetCounters) schedule fuel c t
    ⟨sizeInv_resetCounters c,
      fun _ => ⟨sizeInv_resetCounters c, fun X => ⟨Nat.zero_le _, fun _ => rfl⟩⟩⟩ h
  have hd := hsize PhotonClass.direct
  have hi := hsize PhotonClass.indirect
  have hk := hsize PhotonClass.caustic
  simp only [← storedCount_flatten, TracePhotonsThread.ofClass] at hd hi hk
  obtain ⟨_, _, _, _, _, _, _, e8, e9, e10, _⟩ := hsame
  refine ⟨(st.renderThreads.map (fun th => th.directPhotons)).flatten,
    (st.renderThreads.map (fun th => th.indirectPhotons)).flatten,
    (st.renderThreads.map (fun th => th.causticPhotons)).flatten,
    ?_, ?_, ?_, ?_, ?_, ?_, ?_, ?_, ?_, ?_⟩
  · rw [ht]; simp only [TraceState.collect]; rw [e8]; rfl
  · rw [ht]; simp only [TraceState.collect]; rw [e9]; rfl
  · rw [ht]; simp only [TraceState.collect]; rw [e10]; rfl
  · rw [ht]; exact hd
  · rw [ht]; exact hi
  · rw [ht]; exact hk
  · intro hlt; rw [ht]; exact hd.trans (Nat.mod_eq_of_lt hlt)
  · intro hlt; rw [ht]; exact hi.trans (Nat.mod_eq_of_lt hlt)
  · intro hlt; rw [ht]; exact hk.trans (Nat.mod_eq_of_lt hlt)
  · rintro ⟨n1, n2, n3⟩
    have hN : ∀ X, c.resetCounters.params.maxSizeOf X +
        workSize * c.resetCounters.params.photon.maxPathDepth ≤ 4294967296 := by
      intro X
      cases X
      · exact n1
      · exact n2
      · exact n3
    obtain ⟨_, hb⟩ := hbnd hN
    have bd := (hb PhotonClass.direct).1
    have bi := (hb PhotonClass.indirect).1
    have bk := (hb PhotonClass.caustic).1
    simp only [← storedCount_flatten, TracePhotonsThread.ofClass] at bd bi bk
    have m1 := hN PhotonClass.direct
    have m2 := hN PhotonClass.indirect
    have m3 := hN PhotonClass.caustic
    rw [ht]
    refine ⟨hd.trans (Nat.mod_eq_of_lt ?_), hi.trans (Nat.mod_eq_of_lt ?_),
      hk.trans (Nat.mod_eq_of_lt ?_)⟩
    · have hw : 0 < workSize := by decide
      by_cases hz : c.resetCounters.params.maxSizeOf PhotonClass.direct = 0
      · have := (hb PhotonClass.direct).2 hz
        simp only [← storedCount_flatten, TracePhotonsThread.ofClass] at this
        omega
      · omega
    · by_cases hz : c.resetCounters.params.maxSizeOf PhotonClass.indirect = 0
      · have := (hb PhotonClass.indirect).2 hz
        simp only [← storedCount_flatten, TracePhotonsThread.ofClass] at this
        omega
      · omega
    · by_cases hz : c.resetCounters.params.maxSizeOf PhotonClass.caustic = 0
      · have := (hb PhotonClass.caustic).2 hz
        simp only [← storedCount_flatten, TracePhotonsThread.ofClass] at this
        omega
      · omega

/-- C3 (amended): when photon tracing has completed (any number of workers, any
bucket-granular interleaving) and no size counter can overflow
(`maxSize + 4096 * maxPathDepth ≤ 2^32`), the photons of a class appended to the
cache number at most `maxSize - 1 + 4096 * maxPathDepth`, and none is appended
when `maxSize = 0`: the budget is only checked between buckets, so the last
bucket that found room may exceed it. -/
theorem TracePhotons_budget (M : Platform) (schedule : List Nat) (fuel : Nat)
    (c t : PhotonGICache)
    (hN : ∀ X, c.params.maxSizeOf X + workSize * c.params.photon.maxPathDepth ≤ 4294967296)
    (h : PhotonGICache.TracePhotons M schedule fuel c = Except.ok t) :
    (t.directPhotons.length ≤ c.directPhotons.length +
        ((c.params.direct.maxSize - 1) + workSize * c.params.photon.maxPathDepth) ∧
      (c.params.direct.maxSize = 0 → t.directPhotons = c.directPhotons)) ∧
    (t.indirectPhotons.length ≤ c.indirectPhotons.length +
        ((c.params.indirect.maxSize - 1) + workSize * c.params.photon.maxPathDepth) ∧
      (c.params.indirect.maxSize = 0 → t.indirectPhotons = c.indirectPhotons)) ∧
    (t.causticPhotons.length ≤ c.causticPhotons.length +
        ((c.params.caustic.maxSize - 1) + workSize * c.params.photon.maxPathDepth) ∧
      (c.params.caustic.maxSize = 0 → t.causticPhotons = c.causticPhotons)) := by
  obtain ⟨st, ⟨⟨hsame, _⟩, hbound⟩, ht⟩ := TracePhotons_preserves M (boundInv c.resetCounters)
    (RenderFunc.bucket_boundInv M c.resetCounters hN) schedule fuel c t
    ⟨sizeInv_resetCounters c, fun X => ⟨Nat.zero_le _, fun _ => rfl⟩⟩ h
  obtain ⟨_, _, _, _, _, _, _, e8, e9, e10, _⟩ := hsame
  have hd := hbound PhotonClass.direct
  have hi := hbound PhotonClass.indirect
  have hk := hbound PhotonClass.caustic
  simp only [← storedCount_flatten, TracePhotonsThread.ofClass] at hd hi hk
  have hnil : ∀ l : List Photon, l.length = 0 → l = [] := fun l hl => List.length_eq_zero.mp hl
  refine ⟨⟨?_, ?_⟩, ⟨?_, ?_⟩, ⟨?_, ?_⟩⟩
  · rw [ht]; simp only [TraceState.collect, List.length_append]; rw [e8]
    exact Nat.add_le_add_left hd.1 _
  · intro hz; rw [ht]; simp only [TraceState.collect]; rw [e8]
    have := hnil _ (hd.2 hz)
    rw [this]; exact List.append_nil _
  · rw [ht]; simp only [TraceState.collect, List.length_append]; rw [e9]
    exact Nat.add_le_add_left hi.1 _
  · intro hz; rw [ht]; simp only [TraceState.collect]; rw [e9]
    have := hnil _ (hi.2 hz)
    rw [this]; exact List.append_nil _
  · rw [ht]; simp only [TraceState.collect, List.length_append]; rw [e10]
    exact Nat.add_le_add_left hk.1 _
  · intro hz; rw [ht]; simp only [TraceState.collect]; rw [e10]
    have := hnil _ (hk.2 hz)
    rw [this]; exact List.append_nil _

/-- C4 on the floor scene with every class enabled, one worker, two paths: the
trace succeeds, stores two direct photons, and the three size counters are the
lengths of the three vectors. -/
theorem TracePhotons_size_counters_witness :
    ∃ t, PhotonGICache.TracePhotons exactPlatform [0] 3
        (PhotonGICache.construct floorScene allEnabledParams) = Except.ok t ∧
      t.directPhotons.length = 2 ∧ t.globalDirectSize = 2 ∧
      ∃ d i k : List Photon,
        t.directPhotons = [] ++ d ∧ t.indirectPhotons = [] ++ i ∧ t.causticPhotons = [] ++ k ∧
        t.globalDirectSize = d.length % 4294967296 ∧
        t.globalIndirectSize = i.length % 4294967296 ∧
        t.globalCausticSize = k.length % 4294967296 ∧
        (d.length < 4294967296 → t.globalDirectSize = d.length) ∧
        (i.length < 4294967296 → t.globalIndirectSize = i.length) ∧
        (k.length < 4294967296 → t.globalCausticSize = k.length) ∧
        ((100 + workSize * 4 ≤ 4294967296 ∧ 100 + workSize * 4 ≤ 4294967296 ∧
            100 + workSize * 4 ≤ 4294967296) →
          t.globalDirectSize = d.length ∧ t.globalIndirectSize = i.length ∧
            t.globalCausticSize = k.length) :=
  ⟨_, by with_unfolding_all rfl, by decide!, by decide!,
    TracePhotons_size_counters exactPlatform [0] 3
      (PhotonGICache.construct floorScene allEnabledParams) _ (by with_unfolding_all rfl)⟩

/-- C3 fails as stated: a single worker, the floor scene, only direct enabled with
`direct.maxSize = 100` and 101 paths to trace: `Preprocess` succeeds and leaves
101 direct photons; with `direct.maxSize = 1` and 2 paths it leaves 2. -/
theorem direct_photons_exceed_maxSize :
    exactPlatform.hardware_concurrency = 1 ∧
    (∃ c, PhotonGICache.Preprocess exactPlatform [] 3
        (PhotonGICache.construct floorScene budget100Params) = Except.ok c ∧
      c.params.direct.enabled = true ∧ c.params.direct.maxSize = 100 ∧
      c.directPhotons.length = 101) ∧
    (∃ c, PhotonGICache.Preprocess exactPlatform [] 3
        (PhotonGICache.construct floorScene directOnlyParams) = Except.ok c ∧
      c.params.direct.enabled = true ∧ c.params.direct.maxSize = 1 ∧
      c.directPhotons.length = 2) :=
  ⟨rfl, ⟨_, by with_unfolding_all rfl, by decide!⟩, ⟨_, by with_unfolding_all rfl, by decide!⟩⟩

/-- C3 (amended) on the floor scene with `direct.maxSize = 100` and 101 paths: the
101 direct photons stay within `100 - 1 + 4096 * 4`, and no indirect or caustic
photon is stored (their `maxSize` is 0). -/
theorem TracePhotons_budget_witness :
    ∃ t, PhotonGICache.TracePhotons exactPlatform [] 3
        (PhotonGICache.construct floorScene budget100Params) = Except.ok t ∧
      t.directPhotons.length = 101 ∧
      t.directPhotons.length ≤ 0 + ((100 - 1) + 4096 * 4) ∧
      t.indirectPhotons = [] ∧ t.causticPhotons = [] :=
  have h := TracePhotons_budget exactPlatform [] 3
    (PhotonGICache.construct floorScene budget100Params) _
    (by intro X; cases X <;> decide) (by with_unfolding_all rfl)
  ⟨_, by with_unfolding_all rfl, by decide!, h.1.1, h.2.1.2 rfl, h.2.2.2 rfl⟩

/-- `TracePhotons` changes the vectors, the counters and the traced counts only. -/
theorem TracePhotons_frame (M : Platform) (schedule : List Nat) (fuel : Nat)
    (c t : PhotonGICache)
    (h : PhotonGICache.TracePhotons M schedule fuel c = Except.ok t) :
    t.scene = c.scene ∧ t.params = c.params ∧
    t.directPhotonsBVH = c.directPhotonsBVH ∧ t.indirectPhotonsBVH = c.indirectPhotonsBVH ∧
    t.causticPhotonsBVH = c.causticPhotonsBVH ∧ t.radiancePhotonsBVH = c.radiancePhotonsBVH ∧
    t.visibilityParticles = c.visibilityParticles ∧
    t.visibilityParticlesOctree = c.visibilityParticlesOctree := by
  obtain ⟨st, ⟨hsame, _⟩, ht⟩ := TracePhotons_preserves M (sizeInv c.resetCounters)
    (RenderFunc.bucket_sizeInv M c.resetCounters) schedule fuel c t
    (sizeInv_resetCounters c) h
  obtain ⟨e1, e2, _, _, _, e6, e7, _, _, _, _, e12, e13, e14, e15⟩ := hsame
  rw [ht]
  exact ⟨e1, e2, e12, e13, e14, e15, e6, e7⟩

/-- Freeing the visibility map touches neither parameters, photon vectors nor BVHs. -/
theorem freeVisibilityMap_fields (c : PhotonGICache) :
    c.freeVisibilityMap.params = c.params ∧
    c.freeVisibilityMap.directPhotons = c.directPhotons ∧
    c.freeVisibilityMap.indirectPhotons = c.indirectPhotons ∧
    c.freeVisibilityMap.causticPhotons = c.causticPhotons ∧
    c.freeVisibilityMap.radiancePhotons = c.radiancePhotons ∧
    c.freeVisibilityMap.directPhotonsBVH = c.directPhotonsBVH ∧
    c.freeVisibilityMap.indirectPhotonsBVH = c.indirectPhotonsBVH ∧
    c.freeVisibilityMap.causticPhotonsBVH = c.causticPhotonsBVH ∧
    c.freeVisibilityMap.radiancePhotonsBVH = c.radiancePhotonsBVH := by
  unfold PhotonGICache.freeVisibilityMap
  split_ifs <;> exact ⟨rfl, rfl, rfl, rfl, rfl, rfl, rfl, rfl, rfl⟩

/-- Building the direct map sets `directPhotonsBVH` when there are direct photons
and direct or indirect is enabled, and touches nothing else. -/
theorem buildDirectMap_fields (c : PhotonGICache) :
    c.buildDirectMap.params = c.params ∧
    c.buildDirectMap.directPhotons = c.directPhotons ∧
    c.buildDirectMap.indirectPhotons = c.indirectPhotons ∧
    c.buildDirectMap.causticPhotons = c.causticPhotons ∧
    c.buildDirectMap.radiancePhotons = c.radiancePhotons ∧
    (c.directPhotonsBVH = none →
      (c.buildDirectMap.directPhotonsBVH.isSome = true ↔
        c.directPhotons ≠ [] ∧ (c.params.direct.enabled = true ∨ c.params.indirect.enabled = true))) ∧
    c.buildDirectMap.indirectPhotonsBVH = c.indirectPhotonsBVH ∧
    c.buildDirectMap.causticPhotonsBVH = c.causticPhotonsBVH ∧
    c.buildDirectMap.radiancePhotonsBVH = c.radiancePhotonsBVH := by
  unfold PhotonGICache.buildDirectMap
  split_ifs with hc
  · refine ⟨rfl, rfl, rfl, rfl, rfl, ?_, rfl, rfl, rfl⟩
    intro _
    simp only [Option.isSome_some, true_iff]
    exact ⟨List.length_pos.mp hc.1, hc.2⟩
  · refine ⟨rfl, rfl, rfl, rfl, rfl, ?_, rfl, rfl, rfl⟩
    intro hn
    rw [hn]
    simp only [Option.isSome_none, Bool.false_eq_true, false_iff]
    intro h
    exact hc ⟨List.length_pos.mpr h.1, h.2⟩

/-- Building the indirect map touches only `indirectPhotonsBVH`. -/
theorem buildIndirectMap_fields (c : PhotonGICache) :
    c.buildIndirectMap.params = c.params ∧
    c.buildIndirectMap.directPhotons = c.directPhotons ∧
    c.buildIndirectMap.indirectPhotons = c.indirectPhotons ∧
    c.buildIndirectMap.causticPhotons = c.causticPhotons ∧
    c.buildIndirectMap.radiancePhotons = c.radiancePhotons ∧
    c.buildIndirectMap.directPhotonsBVH = c.directPhotonsBVH ∧
    c.buildIndirectMap.causticPhotonsBVH = c.causticPhotonsBVH ∧
    c.buildIndirectMap.radiancePhotonsBVH = c.radiancePhotonsBVH := by
  unfold PhotonGICache.buildIndirectMap
  split_ifs <;> exact ⟨rfl, rfl, rfl, rfl, rfl, rfl, rfl, rfl⟩

/-- Building the caustic map sets `causticPhotonsBVH` when there are caustic
photons and caustic is enabled, and touches nothing else. -/
theorem buildCausticMap_fields (c : PhotonGICache) :
    c.buildCausticMap.params = c.params ∧
    c.buildCausticMap.directPhotons = c.directPhotons ∧
    c.buildCausticMap.indirectPhotons = c.indirectPhotons ∧
    c.buildCausticMap.causticPhotons = c.causticPhotons ∧
    c.buildCausticMap.radiancePhotons = c.radiancePhotons ∧
    c.buildCausticMap.directPhotonsBVH = c.directPhotonsBVH ∧
    (c.causticPhotonsBVH = none →
      (c.buildCausticMap.causticPhotonsBVH.isSome = true ↔
        c.causticPhotons ≠ [] ∧ c.params.caustic.enabled = true)) ∧
    c.buildCausticMap.radiancePhotonsBVH = c.radiancePhotonsBVH := by
  unfold PhotonGICache.buildCausticMap
  split_ifs with hc
  · refine ⟨rfl, rfl, rfl, rfl, rfl, rfl, ?_, rfl⟩
    intro _
    simp only [Option.isSome_some, true_iff]
    exact ⟨List.length_pos.mp hc.1, hc.2⟩
  · refine ⟨rfl, rfl, rfl, rfl, rfl, rfl, ?_, rfl⟩
    intro hn
    rw [hn]
    simp only [Option.isSome_none, Bool.false_eq_true, false_iff]
    intro h
    exact hc ⟨List.length_pos.mpr h.1, h.2⟩

/-- Building the radiance map sets `radiancePhotonsBVH` when there are radiance
photons and indirect is enabled; it keeps the parameters and the direct and
caustic BVHs. -/
theorem buildRadianceMap_fields (M : Platform) (c : PhotonGICache) :
    (PhotonGICache.buildRadianceMap M c).params = c.params ∧
    (PhotonGICache.buildRadianceMap M c).directPhotonsBVH = c.directPhotonsBVH ∧
    (PhotonGICache.buildRadianceMap M c).causticPhotonsBVH = c.causticPhotonsBVH ∧
    (c.radiancePhotonsBVH = none →
      ((PhotonGICache.buildRadianceMap M c).radiancePhotonsBVH.isSome = true ↔
        c.radiancePhotons ≠ [] ∧ c.params.indirect.enabled = true)) := by
  unfold PhotonGICache.buildRadianceMap
  split_ifs with hc
  · refine ⟨rfl, rfl, rfl, ?_⟩
    intro _
    simp only [Option.isSome_some, true_iff]
    exact ⟨List.length_pos.mp hc.1, hc.2⟩
  · refine ⟨rfl, rfl, rfl, ?_⟩
    intro hn
    rw [hn]
    simp only [Option.isSome_none, Bool.false_eq_true, false_iff]
    intro h
    exact hc ⟨List.length_pos.mpr h.1, h.2⟩

/-- The final freeing: the indirect BVH and vector always go, the direct and
caustic BVHs survive exactly when their class is enabled, the radiance BVH stays. -/
theorem freeUnused_fields (c : PhotonGICache) :
    (c.freeUnused.directPhotonsBVH.isSome = true ↔
      c.params.direct.enabled = true ∧ c.directPhotonsBVH.isSome = true) ∧
    (c.freeUnused.causticPhotonsBVH.isSome = true ↔
      c.params.caustic.enabled = true ∧ c.causticPhotonsBVH.isSome = true) ∧
    c.freeUnused.indirectPhotonsBVH = none ∧ c.freeUnused.indirectPhotons = [] ∧
    c.freeUnused.radiancePhotonsBVH = c.radiancePhotonsBVH := by
  unfold PhotonGICache.freeUnused
  cases hd : c.params.direct.enabled <;> cases hk : c.params.caustic.enabled <;>
    simp [hd, hk]

/-- C7: after `Preprocess` on a freshly constructed cache, with `t` the cache as
the photon trace left it: `directPhotonsBVH` is non-null iff direct is enabled
and the trace stored at least one direct photon; `causticPhotonsBVH` is non-null
iff caustic is enabled and at least one caustic photon was stored;
`indirectPhotonsBVH` is null and the indirect vector is empty;
`radiancePhotonsBVH` is non-null iff indirect is enabled and at least one
radiance photon was produced. -/
theorem Preprocess_bvhs (M : Platform) (schedule : List Nat) (fuel : Nat) (scn : Scene)
    (p : PhotonGICacheParams) (c : PhotonGICache)
    (h : PhotonGICache.Preprocess M schedule fuel (PhotonGICache.construct scn p) = Except.ok c) :
    ∃ t, PhotonGICache.TracePhotons M schedule fuel
        ((PhotonGICache.construct scn p).prepareVisibility M) = Except.ok t ∧
      c = PhotonGICache.buildMaps M t ∧
      (c.directPhotonsBVH.isSome = true ↔ p.direct.enabled = true ∧ t.directPhotons ≠ []) ∧
      (c.causticPhotonsBVH.isSome = true ↔ p.caustic.enabled = true ∧ t.causticPhotons ≠ []) ∧
      c.indirectPhotonsBVH = none ∧ c.indirectPhotons = [] ∧
      (c.radiancePhotonsBVH.isSome = true ↔
        p.indirect.enabled = true ∧ t.radiancePhotons ≠ []) := by
  unfold PhotonGICache.Preprocess at h
  cases htr : PhotonGICache.TracePhotons M schedule fuel
      ((PhotonGICache.construct scn p).prepareVisibility M) with
  | error e => rw [htr] at h; cases h
  | ok t =>
    rw [htr] at h
    simp only [Except.ok.injEq] at h
    refine ⟨t, rfl, h.symm, ?_⟩
    obtain ⟨_, f2, f3, f4, f5, f6, _, _⟩ := TracePhotons_frame M schedule fuel _ t htr
    have hprep : ((PhotonGICache.construct scn p).prepareVisibility M).params =
        (PhotonGICache.construct scn p).params ∧
        ((PhotonGICache.construct scn p).prepareVisibility M).directPhotonsBVH = none ∧
        ((PhotonGICache.construct scn p).prepareVisibility M).indirectPhotonsBVH = none ∧
        ((PhotonGICache.construct scn p).prepareVisibility M).causticPhotonsBVH = none ∧
        ((PhotonGICache.construct scn p).prepareVisibility M).radiancePhotonsBVH = none := by
      unfold PhotonGICache.prepareVisibility
      split_ifs <;> exact ⟨rfl, rfl, rfl, rfl, rfl⟩
    obtain ⟨g1, g2, g3, g4, g5⟩ := hprep
    rw [g1] at f2
    rw [g2] at f3
    rw [g4] at f5
    rw [g5] at f6
    obtain ⟨k1, k2, k3, _, _⟩ := construct_keeps_flags scn p
    have hd : t.params.direct.enabled = p.direct.enabled := by rw [f2]; exact k1
    have hi : t.params.indirect.enabled = p.indirect.enabled := by rw [f2]; exact k2
    have hc : t.params.caustic.enabled = p.caustic.enabled := by rw [f2]; exact k3
    -- the cache after each section
    obtain ⟨a1, a2, _, a4, a5, a6, _, a8, a9⟩ := freeVisibilityMap_fields t
    obtain ⟨b1, _, _, b4, b5, b6, _, b8, b9⟩ := buildDirectMap_fields t.freeVisibilityMap
    obtain ⟨c1, _, _, c4, c5, c6, c8, c9⟩ :=
      buildIndirectMap_fields t.freeVisibilityMap.buildDirectMap
    obtain ⟨d1, _, _, _, d5, d6, d8, d9⟩ :=
      buildCausticMap_fields t.freeVisibilityMap.buildDirectMap.buildIndirectMap
    obtain ⟨e1, e2, e3, e4⟩ := buildRadianceMap_fields M
      t.freeVisibilityMap.buildDirectMap.buildIndirectMap.buildCausticMap
    obtain ⟨u1, u2, u3, u4, u5⟩ := freeUnused_fields (PhotonGICache.buildRadianceMap M
      t.freeVisibilityMap.buildDirectMap.buildIndirectMap.buildCausticMap)
    have hparams : (PhotonGICache.buildRadianceMap M
        t.freeVisibilityMap.buildDirectMap.buildIndirectMap.buildCausticMap).params = t.params := by
      rw [e1, d1, c1, b1, a1]
    have hdir := b6 (by rw [a6]; exact f3)
    rw [a2, a1] at hdir
    have hcau := d8 (by rw [c8, b8, a8]; exact f5)
    rw [c4, b4, a4, c1, b1, a1] at hcau
    have hrad := e4 (by rw [d9, c9, b9, a9]; exact f6)
    rw [d5, c5, b5, a5, d1, c1, b1, a1] at hrad
    rw [← h]
    unfold PhotonGICache.buildMaps
    refine ⟨?_, ?_, u3, u4, ?_⟩
    · rw [u1, hparams, e2, d6, c6, hdir, hd, hi]
      constructor
      · rintro ⟨x, y, _⟩; exact ⟨x, y⟩
      · rintro ⟨x, y⟩; exact ⟨x, y, Or.inl x⟩
    · rw [u2, hparams, e3, hcau, hc]
      constructor
      · rintro ⟨x, y, _⟩; exact ⟨x, y⟩
      · rintro ⟨x, y⟩; exact ⟨x, y, x⟩
    · rw [u5, hrad, hi]
      exact and_comm

/-- C7 on the floor scene with every class enabled, one worker, two paths: the
direct and radiance BVHs exist, the caustic and indirect BVHs do not. -/
theorem Preprocess_bvhs_witness :
    ∃ c, PhotonGICache.Preprocess exactPlatform [] 3
        (PhotonGICache.construct floorScene allEnabledParams) = Except.ok c ∧
      c.directPhotonsBVH.isSome = true ∧ c.causticPhotonsBVH.isSome = false ∧
      c.radiancePhotonsBVH.isSome = true ∧
      ∃ t, PhotonGICache.TracePhotons exactPlatform [] 3
          ((PhotonGICache.construct floorScene allEnabledParams).prepareVisibility exactPlatform) =
            Except.ok t ∧
        c = PhotonGICache.buildMaps exactPlatform t ∧
        (c.directPhotonsBVH.isSome = true ↔ allEnabledParams.direct.enabled = true ∧
          t.directPhotons ≠ []) ∧
        (c.causticPhotonsBVH.isSome = true ↔ allEnabledParams.caustic.enabled = true ∧
          t.causticPhotons ≠ []) ∧
        c.indirectPhotonsBVH = none ∧ c.indirectPhotons = [] ∧
        (c.radiancePhotonsBVH.isSome = true ↔
          allEnabledParams.indirect.enabled = true ∧ t.radiancePhotons ≠ []) :=
  ⟨_, by with_unfolding_all rfl, by decide!, by decide!, by decide!,
    Preprocess_bvhs exactPlatform [] 3 floorScene allEnabledParams _ (by with_unfolding_all rfl)⟩

/-! ## The queries of the render pass -/

theorem Spectrum.ext_iff3 (a b : Spectrum) : a = b ↔ a.r = b.r ∧ a.g = b.g ∧ a.b = b.b := by
  cases a; cases b; simp

theorem Spectrum.add_assoc3 (a b c : Spectrum) : (a.add b).add c = a.add (b.add c) := by
  simp [Spectrum.ext_iff3, Spectrum.add, add_assoc]

theorem Spectrum.add_zero3 (a : Spectrum) : a.add Spectrum.zero = a := by
  simp [Spectrum.ext_iff3, Spectrum.add, Spectrum.zero]

theorem Spectrum.zero_add3 (a : Spectrum) : Spectrum.zero.add a = a := by
  simp [Spectrum.ext_iff3, Spectrum.add, Spectrum.zero]

theorem SimpsonKernel_eq (M : Platform) (p1 p2 : Point) (maxDist2 : ℚ) :
    SimpsonKernel M p1 p2 maxDist2 =
      if DistanceSquared p1 p2 ≤ maxDist2 then
        some (simpsonWeight M (DistanceSquared p1 p2) maxDist2)
      else none := by
  unfold SimpsonKernel simpsonWeight
  by_cases h : DistanceSquared p1 p2 ≤ maxDist2
  · simp only [if_pos h]; congr 1; ring
  · simp only [if_neg h]

theorem nearPhotons_cons_none {α : Type} (allEntries : List α) (e : NearPhoton)
    (rest : List NearPhoton) (h : allEntries.get? e.photon = none) :
    nearPhotons allEntries (e :: rest) = nearPhotons allEntries rest := by
  unfold nearPhotons
  rw [List.filterMap_cons]
  simp only [h]

theorem nearPhotons_cons_some {α : Type} (allEntries : List α) (e : NearPhoton)
    (rest : List NearPhoton) (a : α) (h : allEntries.get? e.photon = some a) :
    nearPhotons allEntries (e :: rest) = a :: nearPhotons allEntries rest := by
  unfold nearPhotons
  rw [List.filterMap_cons]
  simp only [h]

theorem matteLoop_eq (M : Platform) (photons : List Photon) (maxDistance2 : ℚ) (bsdf : BSDF)
    (entries : List NearPhoton) (result : Spectrum) :
    ProcessCacheEntries.matteLoop M photons maxDistance2 bsdf entries result =
      if ∀ photon ∈ nearPhotons photons entries,
          DistanceSquared bsdf.hitPoint.p photon.p ≤ maxDistance2 then
        some (result.add (Spectrum.sum ((nearPhotons photons entries).map (fun photon =>
          (photon.alpha.scale (AbsDot bsdf.hitPoint.shadeN photon.d.neg)).scale
            (simpsonWeight M (DistanceSquared bsdf.hitPoint.p photon.p) maxDistance2)))))
      else none := by
  induction entries generalizing result with
  | nil => simp [ProcessCacheEntries.matteLoop, nearPhotons, Spectrum.sum, Spectrum.add_zero3]
  | cons e rest ih =>
    unfold ProcessCacheEntries.matteLoop
    cases hg : photons.get? e.photon with
    | none =>
      simp only []
      rw [ih, nearPhotons_cons_none _ _ _ hg]
    | some photon =>
      simp only [SimpsonKernel_eq]
      by_cases hd : DistanceSquared bsdf.hitPoint.p photon.p ≤ maxDistance2
      · rw [if_pos hd]
        simp only []
        rw [ih]
        have hnp := nearPhotons_cons_some photons e rest photon hg
        rw [hnp]
        by_cases hall : ∀ photon ∈ nearPhotons photons rest,
            DistanceSquared bsdf.hitPoint.p photon.p ≤ maxDistance2
        · rw [if_pos hall, if_pos (by
            intro q hq
            rcases List.mem_cons.1 hq with h | h
            · rw [h]; exact hd
            · exact hall q h)]
          congr 1
          simp only [List.map_cons, Spectrum.sum, List.foldr_cons]
          rw [Spectrum.add_assoc3]
          congr 1
          congr 1
          simp [Spectrum.ext_iff3, Spectrum.scale]
          refine ⟨by ring, by ring, by ring⟩
        · rw [if_neg hall, if_neg (by
            intro h
            exact hall (fun q hq => h q (List.mem_cons_of_mem _ hq)))]
      · rw [if_neg hd]
        simp only []
        have hnp := nearPhotons_cons_some photons e rest photon hg
        rw [hnp, if_neg (by
          intro h
          exact hd (h photon (List.mem_cons_self _ _)))]

theorem genericLoop_eq (M : Platform) (photons : List Photon) (maxDistance2 : ℚ) (bsdf : BSDF)
    (entries : List NearPhoton) (result : Spectrum) :
    ProcessCacheEntries.genericLoop M photons maxDistance2 bsdf entries result =
      if ∀ photon ∈ nearPhotons photons entries,
          DistanceSquared bsdf.hitPoint.p photon.p ≤ maxDistance2 then
        some (result.add (Spectrum.sum ((nearPhotons photons entries).map (fun photon =>
          ((bsdf.Evaluate photon.d.neg).mul photon.alpha).scale
            (simpsonWeight M (DistanceSquared bsdf.hitPoint.p photon.p) maxDistance2)))))
      else none := by
  induction entries generalizing result with
  | nil => simp [ProcessCacheEntries.genericLoop, nearPhotons, Spectrum.sum, Spectrum.add_zero3]
  | cons e rest ih =>
    unfold ProcessCacheEntries.genericLoop
    cases hg : photons.get? e.photon with
    | none =>
      simp only []
      rw [ih, nearPhotons_cons_none _ _ _ hg]
    | some photon =>
      simp only [SimpsonKernel_eq]
      have hnp := nearPhotons_cons_some photons e rest photon hg
      by_cases hd : DistanceSquared bsdf.hitPoint.p photon.p ≤ maxDistance2
      · rw [if_pos hd]
        simp only []
        rw [ih, hnp]
        by_cases hall : ∀ photon ∈ nearPhotons photons rest,
            DistanceSquared bsdf.hitPoint.p photon.p ≤ maxDistance2
        · rw [if_pos hall, if_pos (by
            intro q hq
            rcases List.mem_cons.1 hq with h | h
            · rw [h]; exact hd
            · exact hall q h)]
          congr 1
          simp only [List.map_cons, Spectrum.sum, List.foldr_cons]
          rw [Spectrum.add_assoc3]
          congr 1
          congr 1
          simp [Spectrum.ext_iff3, Spectrum.scale, Spectrum.mul]
          refine ⟨by ring, by ring, by ring⟩
        · rw [if_neg hall, if_neg (by
            intro h
            exact hall (fun q hq => h q (List.mem_cons_of_mem _ hq)))]
      · rw [if_neg hd]
        simp only []
        rw [hnp, if_neg (by
          intro h
          exact hd (h photon (List.mem_cons_self _ _)))]

theorem nearPhotons_nil {α : Type} (allEntries : List α) :
    nearPhotons allEntries [] = [] := rfl

theorem ProcessCacheEntries_eq (M : Platform) (photons : List Photon)
    (entries : List NearPhoton) (photonTracedCount : Nat) (maxDistance2 : ℚ) (bsdf : BSDF) :
    PhotonGICache.ProcessCacheEntries M photons entries photonTracedCount maxDistance2 bsdf =
      if ∀ photon ∈ nearPhotons photons entries,
          DistanceSquared bsdf.hitPoint.p photon.p ≤ maxDistance2 then
        some (referenceEstimator M (nearPhotons photons entries) photonTracedCount
          maxDistance2 bsdf)
      else none := by
  unfold PhotonGICache.ProcessCacheEntries referenceEstimator
  cases entries with
  | nil =>
    cases hm : bsdf.GetMaterialType <;>
      simp [nearPhotons_nil, Spectrum.sum, Spectrum.divf, Spectrum.zero, Spectrum.mul,
        Spectrum.scale]
  | cons e rest =>
    have hpos : (e :: rest).length > 0 := by simp
    rw [if_pos hpos]
    cases hm : bsdf.GetMaterialType with
    | MATTE =>
      rw [if_pos rfl, matteLoop_eq]
      by_cases hall : ∀ photon ∈ nearPhotons photons (e :: rest),
          DistanceSquared bsdf.hitPoint.p photon.p ≤ maxDistance2
      · rw [if_pos hall, if_pos hall]
        simp only [Spectrum.zero_add3]
        congr 1
        simp only [Spectrum.ext_iff3, Spectrum.divf, Spectrum.mul, Spectrum.scale]
        refine ⟨by ring, by ring, by ring⟩
      · rw [if_neg hall, if_neg hall]
    | OTHER =>
      rw [if_neg (by intro h; cases h), genericLoop_eq]
      by_cases hall : ∀ photon ∈ nearPhotons photons (e :: rest),
          DistanceSquared bsdf.hitPoint.p photon.p ≤ maxDistance2
      · rw [if_pos hall, if_pos hall]
        simp only [Spectrum.zero_add3]
      · rw [if_neg hall, if_neg hall]

theorem Spectrum.divf_scale (a : Spectrum) (f : ℚ) (hf : f ≠ 0) : (a.divf f).scale f = a := by
  simp only [Spectrum.ext_iff3, Spectrum.divf, Spectrum.scale]
  exact ⟨div_mul_cancel₀ _ hf, div_mul_cancel₀ _ hf, div_mul_cancel₀ _ hf⟩

theorem referenceEstimator_eq_divf (M : Platform) (near : List Photon) (photonTracedCount : Nat)
    (maxDistance2 : ℚ) (bsdf : BSDF) :
    referenceEstimator M near photonTracedCount maxDistance2 bsdf =
      (referenceSum M near maxDistance2 bsdf).divf ((photonTracedCount : ℚ) * maxDistance2) := by
  unfold referenceEstimator referenceSum
  cases bsdf.GetMaterialType <;> rfl

/-- C11: for a divisor `photonTracedCount · maxDistance2` that is not zero,
`ProcessCacheEntries` returns the reference density estimate over the photons its
records point to (the matte sum times `EvaluateTotal` times `1/π`, otherwise the
sum of kernel · `Evaluate(−d)` · alpha, both divided by
`photonTracedCount · maxDistance2`, so that the estimate times the divisor is the
sum) exactly when every kernel assertion holds, and the zero spectrum for an
empty list. -/
theorem ProcessCacheEntries_reference (M : Platform) (photons : List Photon)
    (entries : List NearPhoton) (photonTracedCount : Nat) (maxDistance2 : ℚ) (bsdf : BSDF)
    (hdiv : (photonTracedCount : ℚ) * maxDistance2 ≠ 0) :
    PhotonGICache.ProcessCacheEntries M photons entries photonTracedCount maxDistance2 bsdf =
        (if ∀ photon ∈ nearPhotons photons entries,
            DistanceSquared bsdf.hitPoint.p photon.p ≤ maxDistance2 then
          some (referenceEstimator M (nearPhotons photons entries) photonTracedCount
            maxDistance2 bsdf)
        else none) ∧
      (referenceEstimator M (nearPhotons photons entries) photonTracedCount maxDistance2
          bsdf).scale ((photonTracedCount : ℚ) * maxDistance2) =
        referenceSum M (nearPhotons photons entries) maxDistance2 bsdf ∧
      PhotonGICache.ProcessCacheEntries M photons [] photonTracedCount maxDistance2 bsdf =
        some Spectrum.zero :=
  ⟨ProcessCacheEntries_eq M photons entries photonTracedCount maxDistance2 bsdf, by
    rw [referenceEstimator_eq_divf, Spectrum.divf_scale _ _ hdiv], by
    simp [PhotonGICache.ProcessCacheEntries, Spectrum.divf, Spectrum.zero]⟩

theorem ProcessCacheEntries_reference_witness :
    ((4 : Nat) : ℚ) * 1 ≠ 0 ∧
      (PhotonGICache.ProcessCacheEntries searchPlatform
          [floorPhoton 0 1, floorPhoton (1 / 2) 2, floorPhoton 3 1] [⟨0, 0⟩, ⟨1, 1 / 4⟩] 4 1
          floorBSDF =
        (if ∀ photon ∈ nearPhotons [floorPhoton 0 1, floorPhoton (1 / 2) 2, floorPhoton 3 1]
              [⟨0, 0⟩, ⟨1, 1 / 4⟩],
            DistanceSquared floorBSDF.hitPoint.p photon.p ≤ 1 then
          some (referenceEstimator searchPlatform
            (nearPhotons [floorPhoton 0 1, floorPhoton (1 / 2) 2, floorPhoton 3 1]
              [⟨0, 0⟩, ⟨1, 1 / 4⟩]) 4 1 floorBSDF)
        else none)) ∧
      (PhotonGICache.ProcessCacheEntries searchPlatform
          [floorPhoton 0 1, floorPhoton (1 / 2) 2, floorPhoton 3 1] [⟨0, 0⟩, ⟨1, 1 / 4⟩] 4 1
          floorBSDF).isSome = true ∧
      PhotonGICache.ProcessCacheEntries searchPlatform
          [floorPhoton 0 1, floorPhoton (1 / 2) 2, floorPhoton 3 1] [] 4 1 floorBSDF =
        some Spectrum.zero :=
  ⟨by decide!,
    (ProcessCacheEntries_reference searchPlatform
      [floorPhoton 0 1, floorPhoton (1 / 2) 2, floorPhoton 3 1] [⟨0, 0⟩, ⟨1, 1 / 4⟩] 4 1
      floorBSDF (by decide!)).1,
    by decide!,
    (ProcessCacheEntries_reference searchPlatform
      [floorPhoton 0 1, floorPhoton (1 / 2) 2, floorPhoton 3 1] [⟨0, 0⟩, ⟨1, 1 / 4⟩] 4 1
      floorBSDF (by decide!)).2.2⟩

theorem flippedNormal_eq (bsdf : BSDF) : flippedNormal bsdf = lookupNormal bsdf := by
  unfold flippedNormal lookupNormal
  cases bsdf.hitPoint.intoObject <;> simp [Vec3.smul, Vec3.neg]

theorem foldl_nearPhotons {α : Type} (allEntries : List α) (f : α → Spectrum)
    (g : Spectrum → NearPhoton → Spectrum)
    (hg : ∀ acc nearPhoton, g acc nearPhoton =
      match allEntries.get? nearPhoton.photon with
      | some a => acc.add (f a)
      | none => acc)
    (entries : List NearPhoton) (acc : Spectrum) :
    entries.foldl g acc = acc.add (Spectrum.sum ((nearPhotons allEntries entries).map f)) := by
  induction entries generalizing acc with
  | nil => simp [nearPhotons, Spectrum.sum, Spectrum.add_zero3]
  | cons e rest ih =>
    rw [List.foldl_cons, ih, hg]
    cases hg2 : allEntries.get? e.photon with
    | none => rw [nearPhotons_cons_none _ _ _ hg2]
    | some a =>
      rw [nearPhotons_cons_some _ _ _ a hg2]
      simp only [List.map_cons, Spectrum.sum, List.foldr_cons, Spectrum.add_assoc3]

theorem nearPhotons_length {α : Type} (allEntries : List α) (entries : List NearPhoton)
    (h : ∀ e ∈ entries, e.photon < allEntries.length) :
    (nearPhotons allEntries entries).length = entries.length := by
  induction entries with
  | nil => rfl
  | cons e rest ih =>
    have he := h e (List.mem_cons_self _ _)
    have hg : allEntries.get? e.photon = some (allEntries.get ⟨e.photon, he⟩) :=
      List.get?_eq_get he
    rw [nearPhotons_cons_some _ _ _ _ hg, List.length_cons, List.length_cons,
      ih (fun e2 h2 => h e2 (List.mem_cons_of_mem _ h2))]

/-- C12: when the lookups of the direct and of the caustic BVH keep their contract
at the query of `bsdf`, every `SimpsonKernel` call made for `GetDirectRadiance`
and `GetCausticRadiance` passes its assertion and returns
`3 · INV_PI · (1 − dist2/maxDist2)²`, and both functions return a spectrum. -/
theorem radiance_kernel_in_domain (M : Platform) (pgic : PhotonGICache) (bsdf : BSDF)
    (hEnabled : bsdf.IsPhotonGIEnabled = true)
    (hdirect : ∀ bvh, pgic.directPhotonsBVH = some bvh →
      bvh.lookupContract M bsdf.hitPoint.p (flippedNormal bsdf))
    (hcaustic : ∀ bvh, pgic.causticPhotonsBVH = some bvh →
      bvh.lookupContract M bsdf.hitPoint.p (flippedNormal bsdf)) :
    (∀ bvh, pgic.directPhotonsBVH = some bvh ∨ pgic.causticPhotonsBVH = some bvh →
      ∀ photon ∈ nearPhotons bvh.allEntries
          (M.GetAllNearEntries bvh bsdf.hitPoint.p (flippedNormal bsdf)).1,
        SimpsonKernel M bsdf.hitPoint.p photon.p
            (M.GetAllNearEntries bvh bsdf.hitPoint.p (flippedNormal bsdf)).2 =
          some (3 * M.INV_PI *
            (1 - DistanceSquared bsdf.hitPoint.p photon.p /
              (M.GetAllNearEntries bvh bsdf.hitPoint.p (flippedNormal bsdf)).2) ^ 2)) ∧
      (∃ s, PhotonGICache.GetDirectRadiance M pgic bsdf = some s) ∧
      (∃ s, PhotonGICache.GetCausticRadiance M pgic bsdf = some s) := by
  refine ⟨?_, ?_, ?_⟩
  · intro bvh hb photon hp
    have hc : bvh.lookupContract M bsdf.hitPoint.p (flippedNormal bsdf) := by
      rcases hb with hb | hb
      · exact hdirect bvh hb
      · exact hcaustic bvh hb
    rw [SimpsonKernel_eq, if_pos (hc photon hp)]
    rfl
  · unfold PhotonGICache.GetDirectRadiance
    rw [if_pos hEnabled]
    cases hb : pgic.directPhotonsBVH with
    | none => exact ⟨_, rfl⟩
    | some bvh =>
      simp only []
      have h := hdirect bvh hb
      unfold PGICPhotonBvh.lookupContract at h
      rw [ProcessCacheEntries_eq, if_pos h]
      exact ⟨_, rfl⟩
  · unfold PhotonGICache.GetCausticRadiance
    rw [if_pos hEnabled]
    cases hb : pgic.causticPhotonsBVH with
    | none => exact ⟨_, rfl⟩
    | some bvh =>
      simp only []
      have h := hcaustic bvh hb
      unfold PGICPhotonBvh.lookupContract at h
      rw [ProcessCacheEntries_eq, if_pos h]
      exact ⟨_, rfl⟩

theorem radiance_kernel_in_domain_witness :
    floorBSDF.IsPhotonGIEnabled = true ∧
      (∀ bvh, litCache.directPhotonsBVH = some bvh →
        bvh.lookupContract searchPlatform floorBSDF.hitPoint.p (flippedNormal floorBSDF)) ∧
      (∀ bvh, litCache.causticPhotonsBVH = some bvh →
        bvh.lookupContract searchPlatform floorBSDF.hitPoint.p (flippedNormal floorBSDF)) ∧
      PhotonGICache.GetDirectRadiance searchPlatform litCache floorBSDF =
        some ⟨651219 / 8065600, 651219 / 8065600, 651219 / 8065600⟩ ∧
      (∃ s, PhotonGICache.GetDirectRadiance searchPlatform litCache floorBSDF = some s) ∧
      (∃ s, PhotonGICache.GetCausticRadiance searchPlatform litCache floorBSDF = some s) :=
  ⟨rfl,
    by intro bvh h; cases h; unfold PGICPhotonBvh.lookupContract; decide!,
    by intro bvh h; cases h; unfold PGICPhotonBvh.lookupContract; decide!,
    by decide!,
    (radiance_kernel_in_domain searchPlatform litCache floorBSDF rfl
      (by intro bvh h; cases h; unfold PGICPhotonBvh.lookupContract; decide!)
      (by intro bvh h; cases h; unfold PGICPhotonBvh.lookupContract; decide!)).2⟩

/-- C13: for a surface enabled for the cache, `GetDirectRadiance` is the zero
spectrum when `directPhotonsBVH` is absent and otherwise `ProcessCacheEntries`
applied to what `GetAllNearEntries` returns at the hit point with the normal
`shadeN` (into the object) or `−shadeN`, with `directPhotonTracedCount`;
`GetCausticRadiance` is the same over `causticPhotonsBVH` and
`causticPhotonTracedCount`. -/
theorem GetDirectRadiance_GetCausticRadiance_eq (M : Platform) (pgic : PhotonGICache)
    (bsdf : BSDF) (hEnabled : bsdf.IsPhotonGIEnabled = true) :
    PhotonGICache.GetDirectRadiance M pgic bsdf =
        (match pgic.directPhotonsBVH with
          | none => some Spectrum.zero
          | some bvh =>
            PhotonGICache.ProcessCacheEntries M bvh.allEntries
              (M.GetAllNearEntries bvh bsdf.hitPoint.p (lookupNormal bsdf)).1
              pgic.directPhotonTracedCount
              (M.GetAllNearEntries bvh bsdf.hitPoint.p (lookupNormal bsdf)).2 bsdf) ∧
      PhotonGICache.GetCausticRadiance M pgic bsdf =
        (match pgic.causticPhotonsBVH with
          | none => some Spectrum.zero
          | some bvh =>
            PhotonGICache.ProcessCacheEntries M bvh.allEntries
              (M.GetAllNearEntries bvh bsdf.hitPoint.p (lookupNormal bsdf)).1
              pgic.causticPhotonTracedCount
              (M.GetAllNearEntries bvh bsdf.hitPoint.p (lookupNormal bsdf)).2 bsdf) := by
  constructor
  · unfold PhotonGICache.GetDirectRadiance
    rw [if_pos hEnabled, flippedNormal_eq]
    cases pgic.directPhotonsBVH <;> rfl
  · unfold PhotonGICache.GetCausticRadiance
    rw [if_pos hEnabled, flippedNormal_eq]
    cases pgic.causticPhotonsBVH <;> rfl

theorem GetDirectRadiance_GetCausticRadiance_eq_witness :
    floorBSDF.IsPhotonGIEnabled = true ∧
      PhotonGICache.GetDirectRadiance searchPlatform litCache floorBSDF =
        PhotonGICache.ProcessCacheEntries searchPlatform
          [floorPhoton 0 1, floorPhoton (1 / 2) 2, floorPhoton 3 1] [⟨0, 0⟩, ⟨1, 1 / 4⟩] 4 1
          floorBSDF ∧
      PhotonGICache.GetCausticRadiance searchPlatform litCache floorBSDF =
        PhotonGICache.ProcessCacheEntries searchPlatform
          [floorPhoton (1 / 2) 1, floorPhoton (-1 / 2) 3] [⟨0, 1 / 4⟩, ⟨1, 1 / 4⟩] 2 1
          floorBSDF :=
  ⟨rfl,
    (GetDirectRadiance_GetCausticRadiance_eq searchPlatform litCache floorBSDF rfl).1.trans
      (by decide!),
    (GetDirectRadiance_GetCausticRadiance_eq searchPlatform litCache floorBSDF rfl).2.trans
      (by decide!)⟩

/-- C14: for a surface enabled for the cache, `GetIndirectRadiance` is the
`outgoingRadiance` of the entry that `GetNearestEntry` of `radiancePhotonsBVH`
returns at the hit point with the normal `shadeN` or `−shadeN`, and the zero
spectrum when the BVH is absent or returns no entry. -/
theorem GetIndirectRadiance_eq (M : Platform) (pgic : PhotonGICache) (bsdf : BSDF)
    (hEnabled : bsdf.IsPhotonGIEnabled = true) :
    PhotonGICache.GetIndirectRadiance M pgic bsdf =
      some (match pgic.radiancePhotonsBVH with
        | none => Spectrum.zero
        | some bvh =>
          match M.RadianceGetNearestEntry bvh bsdf.hitPoint.p (lookupNormal bsdf) with
          | some radiancePhoton => radiancePhoton.outgoingRadiance
          | none => Spectrum.zero) := by
  unfold PhotonGICache.GetIndirectRadiance
  rw [if_pos hEnabled, flippedNormal_eq]
  cases pgic.radiancePhotonsBVH with
  | none => rfl
  | some bvh =>
    simp only []
    cases M.RadianceGetNearestEntry bvh bsdf.hitPoint.p (lookupNormal bsdf) <;> rfl

theorem GetIndirectRadiance_eq_witness :
    floorBSDF.IsPhotonGIEnabled = true ∧
      PhotonGICache.GetIndirectRadiance searchPlatform litCache floorBSDF =
        some (floorRadiancePhoton (1 / 2) 1).outgoingRadiance :=
  ⟨rfl, (GetIndirectRadiance_eq searchPlatform litCache floorBSDF rfl).trans (by decide!)⟩

/-- C15: for a surface enabled for the cache, `GetAllRadiance` is the arithmetic
mean of the `outgoingRadiance` of the entries that `GetAllNearEntries` of
`radiancePhotonsBVH` returns (each record pointing to an entry of the BVH), and
the zero spectrum when the BVH is absent or returns no entry. -/
theorem GetAllRadiance_mean (M : Platform) (pgic : PhotonGICache) (bsdf : BSDF)
    (hEnabled : bsdf.IsPhotonGIEnabled = true)
    (hvalid : ∀ bvh, pgic.radiancePhotonsBVH = some bvh →
      ∀ e ∈ (M.RadianceGetAllNearEntries bvh bsdf.hitPoint.p (lookupNormal bsdf)).1,
        e.photon < bvh.allEntries.length) :
    PhotonGICache.GetAllRadiance M pgic bsdf =
        some (match pgic.radiancePhotonsBVH with
          | none => Spectrum.zero
          | some bvh =>
            Spectrum.mean ((nearPhotons bvh.allEntries
              (M.RadianceGetAllNearEntries bvh bsdf.hitPoint.p (lookupNormal bsdf)).1).map
              (fun radiancePhoton => radiancePhoton.outgoingRadiance))) ∧
      (∀ bvh, pgic.radiancePhotonsBVH = some bvh →
        (M.RadianceGetAllNearEntries bvh bsdf.hitPoint.p (lookupNormal bsdf)).1 = [] →
        PhotonGICache.GetAllRadiance M pgic bsdf = some Spectrum.zero) := by
  unfold PhotonGICache.GetAllRadiance
  rw [if_pos hEnabled, flippedNormal_eq]
  cases hb : pgic.radiancePhotonsBVH with
  | none => exact ⟨rfl, fun bvh h => by cases h⟩
  | some bvh =>
    simp only []
    refine ⟨?_, ?_⟩
    · by_cases hlen :
          (M.RadianceGetAllNearEntries bvh bsdf.hitPoint.p (lookupNormal bsdf)).1.length > 0
      · rw [if_pos hlen]
        rw [foldl_nearPhotons bvh.allEntries
          (fun radiancePhoton => radiancePhoton.outgoingRadiance) _
          (fun acc nearPhoton => by cases bvh.allEntries.get? nearPhoton.photon <;> rfl),
          Spectrum.zero_add3]
        unfold Spectrum.mean
        rw [List.length_map, nearPhotons_length _ _ (hvalid bvh hb)]
      · rw [if_neg hlen]
        have hnil : (M.RadianceGetAllNearEntries bvh bsdf.hitPoint.p (lookupNormal bsdf)).1 = [] :=
          List.length_eq_zero.1 (by omega)
        rw [hnil]
        simp [Spectrum.mean, nearPhotons_nil, Spectrum.sum, Spectrum.divf, Spectrum.zero]
    · intro bvh2 h2 hnil
      cases h2
      rw [hnil]
      rfl

theorem GetAllRadiance_mean_witness :
    floorBSDF.IsPhotonGIEnabled = true ∧
      PhotonGICache.GetAllRadiance searchPlatform litCache floorBSDF =
        some (Spectrum.mean [(floorRadiancePhoton (1 / 2) 1).outgoingRadiance,
          (floorRadiancePhoton 0 3).outgoingRadiance]) :=
  ⟨rfl,
    (GetAllRadiance_mean searchPlatform litCache floorBSDF rfl
      (by intro bvh h; cases h; decide!)).1.trans (by decide!)⟩

theorem AddOutgoingRadiance_eq (M : Platform) (r : RadiancePhoton)
    (photonsBVH : Option PGICPhotonBvh) (photonTracedCount : Nat) :
    PhotonGICache.AddOutgoingRadiance M r photonsBVH photonTracedCount =
      { p := r.p, n := r.n
        outgoingRadiance :=
          r.outgoingRadiance.add (radianceContribution M r photonsBVH photonTracedCount) } := by
  unfold PhotonGICache.AddOutgoingRadiance radianceContribution
  cases photonsBVH with
  | none => simp only [Spectrum.add_zero3]
  | some bvh =>
    simp only []
    by_cases hlen : (M.GetAllNearEntries bvh r.p r.n).1.length > 0
    · have hne : (M.GetAllNearEntries bvh r.p r.n).1 ≠ [] := by
        intro h
        rw [h] at hlen
        exact Nat.lt_irrefl 0 hlen
      rw [if_pos hlen, if_neg hne, foldl_nearPhotons bvh.allEntries
        (fun photon => photon.alpha.scale (AbsDot r.n photon.d.neg)) _
        (fun acc nearPhoton => by cases bvh.allEntries.get? nearPhoton.photon <;> rfl),
        Spectrum.zero_add3]
    · have hnil : (M.GetAllNearEntries bvh r.p r.n).1 = [] :=
        List.length_eq_zero.1 (by omega)
      rw [if_neg hlen, if_pos hnil, Spectrum.add_zero3]

/-- C16: `FillRadiancePhotonData` leaves `p` and `n` of the radiance photon as
they are and sets `outgoingRadiance` to (`bsdfTotal` · `1/π`), the scratch value
it found there, times the sum of the contributions of the direct, indirect and
caustic maps, each being the sum of alpha · |dot(n, −d)| over the entries found
divided by `photonTracedCount · maxDistance2 · π`, or nothing when the BVH is
absent or finds no entry; when no map contributes the result is the zero
spectrum. -/
theorem FillRadiancePhotonData_eq (M : Platform) (pgic : PhotonGICache)
    (radiancePhoton : RadiancePhoton) :
    PhotonGICache.FillRadiancePhotonData M pgic radiancePhoton =
        { p := radiancePhoton.p, n := radiancePhoton.n
          outgoingRadiance :=
            (radiancePhoton.outgoingRadiance.scale M.INV_PI).mul (Spectrum.sum
              [radianceContribution M radiancePhoton pgic.directPhotonsBVH
                pgic.directPhotonTracedCount,
               radianceContribution M radiancePhoton pgic.indirectPhotonsBVH
                pgic.indirectPhotonTracedCount,
               radianceContribution M radiancePhoton pgic.causticPhotonsBVH
                pgic.causticPhotonTracedCount]) } ∧
      ((∀ photonsBVH ∈ [pgic.directPhotonsBVH, pgic.indirectPhotonsBVH, pgic.causticPhotonsBVH],
          ∀ bvh, photonsBVH = some bvh →
            (M.GetAllNearEntries bvh radiancePhoton.p radiancePhoton.n).1 = []) →
        (PhotonGICache.FillRadiancePhotonData M pgic radiancePhoton).outgoingRadiance =
          Spectrum.zero) := by
  have hmain : PhotonGICache.FillRadiancePhotonData M pgic radiancePhoton =
        { p := radiancePhoton.p, n := radiancePhoton.n
          outgoingRadiance :=
            (radiancePhoton.outgoingRadiance.scale M.INV_PI).mul (Spectrum.sum
              [radianceContribution M radiancePhoton pgic.directPhotonsBVH
                pgic.directPhotonTracedCount,
               radianceContribution M radiancePhoton pgic.indirectPhotonsBVH
                pgic.indirectPhotonTracedCount,
               radianceContribution M radiancePhoton pgic.causticPhotonsBVH
                pgic.causticPhotonTracedCount]) } := by
    unfold PhotonGICache.FillRadiancePhotonData
    simp only [AddOutgoingRadiance_eq]
    have hc : ∀ (out : Spectrum) (b : Option PGICPhotonBvh) (k : Nat),
        radianceContribution M ⟨radiancePhoton.p, radiancePhoton.n, out⟩ b k =
          radianceContribution M radiancePhoton b k := fun _ _ _ => rfl
    simp only [hc, Spectrum.sum, List.foldr_cons, List.foldr_nil, Spectrum.add_zero3,
      Spectrum.zero_add3]
    congr 1
    simp only [Spectrum.ext_iff3, Spectrum.mul, Spectrum.add, Spectrum.scale]
    refine ⟨by ring, by ring, by ring⟩
  refine ⟨hmain, ?_⟩
  intro hnone
  have hz : ∀ (b : Option PGICPhotonBvh) (k : Nat),
      b ∈ [pgic.directPhotonsBVH, pgic.indirectPhotonsBVH, pgic.causticPhotonsBVH] →
      radianceContribution M radiancePhoton b k = Spectrum.zero := by
    intro b k hb
    unfold radianceContribution
    cases hbv : b with
    | none => rfl
    | some bvh =>
      simp only []
      rw [if_pos (hnone b hb bvh hbv)]
  rw [hmain]
  simp only [hz _ _ (List.mem_cons_self _ _),
    hz _ _ (List.mem_cons_of_mem _ (List.mem_cons_self _ _)),
    hz _ _ (List.mem_cons_of_mem _ (List.mem_cons_of_mem _ (List.mem_cons_self _ _)))]
  simp [Spectrum.sum, Spectrum.add, Spectrum.zero, Spectrum.mul]

/-! ## The return value of `TracePhotonPath` -/

theorem depositPhoton_useful (pgic : PhotonGICache) (th : TracePhotonsThread) (bsdf : BSDF)
    (n : Normal) (s : PathState) :
    ((depositPhoton pgic th bsdf n s).1.photons.pushedPhoton = true →
        s.photons.pushedPhoton = true ∨ (depositPhoton pgic th bsdf n s).1.usefulPath = true) ∧
      (s.usefulPath = true → (depositPhoton pgic th bsdf n s).1.usefulPath = true) ∧
      (th.directDone = false → th.indirectDone = false → th.causticDone = false →
        (depositPhoton pgic th bsdf n s).1.usefulPath = true →
        s.usefulPath = true ∨ (depositPhoton pgic th bsdf n s).1.photons.pushedPhoton = true) ∧
      (s.photons.pushedPhoton = true →
        (depositPhoton pgic th bsdf n s).1.photons.pushedPhoton = true) := by
  unfold depositPhoton
  simp only []
  split_ifs <;> simp_all [PathPhotons.pushedPhoton]

theorem depositRadiancePhoton_pushed (pgic : PhotonGICache) (bsdf : BSDF) (n : Normal)
    (used : Bool) (s : PathState) :
    (depositRadiancePhoton pgic bsdf n used s).photons.pushedPhoton = s.photons.pushedPhoton ∧
      (depositRadiancePhoton pgic bsdf n used s).usefulPath = s.usefulPath := by
  obtain ⟨h1, h2, h3, h4⟩ := depositRadiancePhoton_frame pgic bsdf n used s
  exact ⟨by simp only [PathPhotons.pushedPhoton, h1, h2, h3], h4⟩

theorem depositVertex_useful (pgic : PhotonGICache) (th : TracePhotonsThread) (bsdf : BSDF)
    (s : PathState) :
    ((depositVertex pgic th bsdf s).photons.pushedPhoton = true →
        s.photons.pushedPhoton = true ∨ (depositVertex pgic th bsdf s).usefulPath = true) ∧
      (s.usefulPath = true → (depositVertex pgic th bsdf s).usefulPath = true) ∧
      (th.directDone = false → th.indirectDone = false → th.causticDone = false →
        (depositVertex pgic th bsdf s).usefulPath = true →
        s.usefulPath = true ∨ (depositVertex pgic th bsdf s).photons.pushedPhoton = true) ∧
      (s.photons.pushedPhoton = true →
        (depositVertex pgic th bsdf s).photons.pushedPhoton = true) := by
  unfold depositVertex
  by_cases hE : bsdf.IsPhotonGIEnabled = true
  · rw [if_pos hE]
    simp only []
    by_cases hV : visiblePoint pgic bsdf (landingSurfaceNormal bsdf s.nextEventRay) = true
    · rw [if_pos hV]
      unfold depositPhotons
      simp only []
      obtain ⟨r1, r2⟩ := depositRadiancePhoton_pushed pgic bsdf
        (landingSurfaceNormal bsdf s.nextEventRay)
        (depositPhoton pgic th bsdf (landingSurfaceNormal bsdf s.nextEventRay) s).2
        (depositPhoton pgic th bsdf (landingSurfaceNormal bsdf s.nextEventRay) s).1
      rw [r1, r2]
      exact depositPhoton_useful pgic th bsdf _ s
    · rw [if_neg hV]
      exact ⟨fun h => Or.inl h, fun h => h, fun _ _ _ h => Or.inl h, fun h => h⟩
  · rw [if_neg hE]
    exact ⟨fun h => Or.inl h, fun h => h, fun _ _ _ h => Or.inl h, fun h => h⟩

/-- C20 fails as stated: on the floor scene, with the direct population full at
the snapshot, the path lands on the floor at depth 1 and `TracePhotonPath`
returns `true` although it pushed no photon into any vector. -/
theorem useful_path_without_photon :
    (RenderFunc.snapshotDone directFullCache freshThread).directDone = true ∧
      (TracePhotonPath directFullCache (RenderFunc.snapshotDone directFullCache freshThread)
        freshThread.rndGen halfSamples).usefulPath = true ∧
      (TracePhotonPath directFullCache (RenderFunc.snapshotDone directFullCache freshThread)
        freshThread.rndGen halfSamples).photons = PathPhotons.empty := by
  decide!

/-- C20 (amended): `TracePhotonPath` returns `true` whenever it pushed a photon
into the direct, indirect or caustic vector, and, when none of the three "done"
flags of the snapshot is set, only then. -/
theorem TracePhotonPath_useful (pgic : PhotonGICache) (th : TracePhotonsThread)
    (rndGen : RandomGenerator) (samples : List ℚ) :
    ((TracePhotonPath pgic th rndGen samples).photons.pushedPhoton = true →
        (TracePhotonPath pgic th rndGen samples).usefulPath = true) ∧
      (th.directDone = false → th.indirectDone = false → th.causticDone = false →
        ((TracePhotonPath pgic th rndGen samples).usefulPath = true ↔
          (TracePhotonPath pgic th rndGen samples).photons.pushedPhoton = true)) := by
  have h1 := TracePhotonPath_preserves pgic th
    (fun ph useful => ph.pushedPhoton = true → useful = true)
    (by intro h; exact absurd h (by decide))
    (by
      intro bsdf s hs hp
      obtain ⟨a, b, _, _⟩ := depositVertex_useful pgic th bsdf s
      rcases a hp with h | h
      · exact b (hs h)
      · exact h)
    rndGen samples
  refine ⟨h1, ?_⟩
  intro hd hi hc
  refine ⟨?_, h1⟩
  exact TracePhotonPath_preserves pgic th
    (fun ph useful => useful = true → ph.pushedPhoton = true)
    (by intro h; exact absurd h (by decide))
    (by
      intro bsdf s hs hu
      obtain ⟨_, _, c, d⟩ := depositVertex_useful pgic th bsdf s
      rcases c hd hi hc hu with h | h
      · exact d (hs h)
      · exact h)
    rndGen samples

/-! ## The Metropolis sampler -/

theorem RenderFunc.sampleBucket_metropolis (M : Platform) (pgic : PhotonGICache)
    (th : TracePhotonsThread) (workToDo : Nat)
    (hM : pgic.params.samplerType = PhotonGISamplerType.PGIC_SAMPLER_METROPOLIS) :
    RenderFunc.sampleBucket M pgic th workToDo =
      if (RenderFunc.bootstrap pgic th 16384 th.rndGen [] PathPhotons.empty).1 = true then
        Except.ok (RenderFunc.afterBootstrap M pgic th workToDo
          (RenderFunc.chainStart th
            (RenderFunc.bootstrap pgic th 16384 th.rndGen [] PathPhotons.empty).2.1
            (RenderFunc.bootstrap pgic th 16384 th.rndGen [] PathPhotons.empty).2.2.1
            (RenderFunc.bootstrap pgic th 16384 th.rndGen [] PathPhotons.empty).2.2.2))
      else Except.error RenderError.noUsefulPath := by
  unfold RenderFunc.sampleBucket
  simp only [hM]
  cases hb : (RenderFunc.bootstrap pgic th 16384 th.rndGen [] PathPhotons.empty).1
  · simp
  · simp [RenderFunc.afterBootstrap, RenderFunc.chainStart]

theorem RenderFunc.bootstrap_none (pgic : PhotonGICache) (th : TracePhotonsThread) :
    ∀ (n : Nat) (g : RandomGenerator) (cs : List ℚ) (cur : PathPhotons),
      (∀ k < n, (RenderFunc.bootstrapPath pgic th k g).2.usefulPath = false) →
      (RenderFunc.bootstrap pgic th n g cs cur).1 = false := by
  intro n
  induction n with
  | zero => intro g cs cur _; rfl
  | succ n ih =>
    intro g cs cur h
    unfold RenderFunc.bootstrap
    have h0 := h 0 (Nat.succ_pos n)
    simp only [RenderFunc.bootstrapPath] at h0
    simp only [h0]
    exact ih _ _ _ (fun k hk => by
      have := h (k + 1) (Nat.succ_lt_succ hk)
      simpa only [RenderFunc.bootstrapPath] using this)

theorem RenderFunc.bootstrap_first (pgic : PhotonGICache) (th : TracePhotonsThread) :
    ∀ (k n : Nat) (g : RandomGenerator) (cs : List ℚ) (cur : PathPhotons), k < n →
      (RenderFunc.bootstrapPath pgic th k g).2.usefulPath = true →
      (∀ j < k, (RenderFunc.bootstrapPath pgic th j g).2.usefulPath = false) →
      RenderFunc.bootstrap pgic th n g cs cur =
        (true, (RenderFunc.bootstrapPath pgic th k g).1,
          (RenderFunc.bootstrapPath pgic th k g).2.photons,
          (RenderFunc.bootstrapPath pgic th k g).2.rndGen) := by
  intro k
  induction k with
  | zero =>
    intro n g cs cur hn hu _
    obtain ⟨m, rfl⟩ : ∃ m, n = m + 1 := ⟨n - 1, by omega⟩
    unfold RenderFunc.bootstrap
    simp only [RenderFunc.bootstrapPath] at hu ⊢
    simp only [hu, if_true]
  | succ k ih =>
    intro n g cs cur hn hu hnot
    obtain ⟨m, rfl⟩ : ∃ m, n = m + 1 := ⟨n - 1, by omega⟩
    unfold RenderFunc.bootstrap
    have h0 := hnot 0 (Nat.succ_pos k)
    simp only [RenderFunc.bootstrapPath] at h0
    simp only [h0]
    simp only [RenderFunc.bootstrapPath] at hu ⊢
    exact ih m _ _ _ (by omega) hu (fun j hj => by
      have := hnot (j + 1) (Nat.succ_lt_succ hj)
      simpa only [RenderFunc.bootstrapPath] using this)

theorem RenderFunc.exists_first_useful (pgic : PhotonGICache) (th : TracePhotonsThread)
    (g : RandomGenerator) (n : Nat)
    (h : ∃ k < n, (RenderFunc.bootstrapPath pgic th k g).2.usefulPath = true) :
    ∃ k < n, (RenderFunc.bootstrapPath pgic th k g).2.usefulPath = true ∧
      ∀ j < k, (RenderFunc.bootstrapPath pgic th j g).2.usefulPath = false := by
  classical
  let P : Nat → Prop := fun k => k < n ∧ (RenderFunc.bootstrapPath pgic th k g).2.usefulPath = true
  have hP : ∃ k, P k := by
    obtain ⟨k, hk, hu⟩ := h
    exact ⟨k, hk, hu⟩
  refine ⟨Nat.find hP, (Nat.find_spec hP).1, (Nat.find_spec hP).2, ?_⟩
  intro j hj
  have := Nat.find_min hP hj
  have hjn : j < n := lt_trans hj (Nat.find_spec hP).1
  cases hu : (RenderFunc.bootstrapPath pgic th j g).2.usefulPath
  · rfl
  · exact absurd ⟨hjn, hu⟩ this

/-- C17: a Metropolis bucket ends with an error exactly when none of the 16384
consecutive uniformly drawn bootstrap paths is useful; otherwise the chain starts
from the first useful bootstrap path, with the generator as that path left it, so
that no later bootstrap path is traced. -/
theorem RenderFunc.sampleBucket_bootstrap (M : Platform) (pgic : PhotonGICache)
    (th : TracePhotonsThread) (workToDo : Nat)
    (hM : pgic.params.samplerType = PhotonGISamplerType.PGIC_SAMPLER_METROPOLIS) :
    ((∃ e, RenderFunc.sampleBucket M pgic th workToDo = Except.error e) ↔
        ∀ k < 16384, (RenderFunc.bootstrapPath pgic th k th.rndGen).2.usefulPath = false) ∧
      (∀ k < 16384, (RenderFunc.bootstrapPath pgic th k th.rndGen).2.usefulPath = true →
        (∀ j < k, (RenderFunc.bootstrapPath pgic th j th.rndGen).2.usefulPath = false) →
        RenderFunc.sampleBucket M pgic th workToDo =
          Except.ok (RenderFunc.afterBootstrap M pgic th workToDo
            (RenderFunc.chainStart th (RenderFunc.bootstrapPath pgic th k th.rndGen).1
              (RenderFunc.bootstrapPath pgic th k th.rndGen).2.photons
              (RenderFunc.bootstrapPath pgic th k th.rndGen).2.rndGen))) := by
  have hfirst : ∀ k < 16384, (RenderFunc.bootstrapPath pgic th k th.rndGen).2.usefulPath = true →
      (∀ j < k, (RenderFunc.bootstrapPath pgic th j th.rndGen).2.usefulPath = false) →
      RenderFunc.sampleBucket M pgic th workToDo =
        Except.ok (RenderFunc.afterBootstrap M pgic th workToDo
          (RenderFunc.chainStart th (RenderFunc.bootstrapPath pgic th k th.rndGen).1
            (RenderFunc.bootstrapPath pgic th k th.rndGen).2.photons
            (RenderFunc.bootstrapPath pgic th k th.rndGen).2.rndGen)) := by
    intro k hk hu hnot
    rw [RenderFunc.sampleBucket_metropolis M pgic th workToDo hM,
      RenderFunc.bootstrap_first pgic th k 16384 th.rndGen [] PathPhotons.empty hk hu hnot]
    simp
  refine ⟨⟨?_, ?_⟩, hfirst⟩
  · rintro ⟨e, he⟩ k hk
    by_contra hu
    have hu2 : (RenderFunc.bootstrapPath pgic th k th.rndGen).2.usefulPath = true := by
      cases h : (RenderFunc.bootstrapPath pgic th k th.rndGen).2.usefulPath
      · exact absurd h hu
      · rfl
    obtain ⟨k0, hk0, hu0, hnot0⟩ :=
      RenderFunc.exists_first_useful pgic th th.rndGen 16384 ⟨k, hk, hu2⟩
    rw [hfirst k0 hk0 hu0 hnot0] at he
    cases he
  · intro hall
    refine ⟨RenderError.noUsefulPath, ?_⟩
    rw [RenderFunc.sampleBucket_metropolis M pgic th workToDo hM,
      RenderFunc.bootstrap_none pgic th 16384 th.rndGen [] PathPhotons.empty hall]
    simp

theorem bootstrapPath_darkCache (th : TracePhotonsThread) :
    ∀ (k : Nat) (g : RandomGenerator),
      (RenderFunc.bootstrapPath darkCache th k g).2.usefulPath = false := by
  intro k
  induction k with
  | zero => intro g; rfl
  | succ k ih =>
    intro g
    unfold RenderFunc.bootstrapPath
    exact ih _

theorem RenderFunc.sampleBucket_bootstrap_witness :
    metropolisCache.params.samplerType = PhotonGISamplerType.PGIC_SAMPLER_METROPOLIS ∧
      (RenderFunc.bootstrapPath metropolisCache freshThread 0 freshThread.rndGen).2.usefulPath =
        true ∧
      RenderFunc.sampleBucket exactPlatform metropolisCache freshThread 2 =
        Except.ok (RenderFunc.afterBootstrap exactPlatform metropolisCache freshThread 2
          (RenderFunc.chainStart freshThread
            (RenderFunc.bootstrapPath metropolisCache freshThread 0 freshThread.rndGen).1
            (RenderFunc.bootstrapPath metropolisCache freshThread 0 freshThread.rndGen).2.photons
            (RenderFunc.bootstrapPath metropolisCache freshThread 0
              freshThread.rndGen).2.rndGen)) ∧
      (∃ e, RenderFunc.sampleBucket exactPlatform darkCache freshThread 2 = Except.error e) :=
  ⟨by decide!, by decide!,
    (RenderFunc.sampleBucket_bootstrap exactPlatform metropolisCache freshThread 2
      (by decide!)).2 0 (by decide) (by decide!) (fun j hj => absurd hj (Nat.not_lt_zero j)),
    (RenderFunc.sampleBucket_bootstrap exactPlatform darkCache freshThread 2
      (by decide!)).1.2 (fun k _ => bootstrapPath_darkCache freshThread k freshThread.rndGen)⟩

theorem RenderFunc.chainStep_th (M : Platform) (pgic : PhotonGICache) (c : ChainState) :
    (RenderFunc.chainStep M pgic c).th =
        (if RenderFunc.replacesCurrent M pgic c then
          c.th.AddPhotonsScaled c.currentPhotonsScale c.current
        else c.th) ∧
      (RenderFunc.chainStep M pgic c).uniformCount =
        c.uniformCount + (if RenderFunc.adoptsUniform pgic c then 1 else 0) := by
  unfold RenderFunc.chainStep RenderFunc.replacesCurrent RenderFunc.acceptsMutation
    RenderFunc.adoptsUniform
  simp only []
  by_cases h1 : (TracePhotonPath pgic c.th (UniformMutate c.rndGen (sampleSize pgic)).2
      (UniformMutate c.rndGen (sampleSize pgic)).1).usefulPath = true
  · rw [if_pos h1, h1]
    exact ⟨rfl, rfl⟩
  · have h1f : (TracePhotonPath pgic c.th (UniformMutate c.rndGen (sampleSize pgic)).2
        (UniformMutate c.rndGen (sampleSize pgic)).1).usefulPath = false := by
      simpa using h1
    simp only [h1f, Bool.false_or, Bool.false_eq_true, if_false]
    split_ifs <;> exact ⟨rfl, rfl⟩

theorem flushedPhotons_append (X : PhotonClass) (a b : List (Nat × PathPhotons)) :
    flushedPhotons X (a ++ b) = flushedPhotons X a ++ flushedPhotons X b := by
  simp [flushedPhotons]

theorem flushedRadiancePhotons_append (a b : List (Nat × PathPhotons)) :
    flushedRadiancePhotons (a ++ b) = flushedRadiancePhotons a ++ flushedRadiancePhotons b := by
  simp [flushedRadiancePhotons]

theorem RenderFunc.chain_flushes (M : Platform) (pgic : PhotonGICache) :
    ∀ (n : Nat) (c : ChainState),
      (∀ X, (RenderFunc.chain M pgic n c).th.ofClass X =
        c.th.ofClass X ++ flushedPhotons X (RenderFunc.chainFlushes M pgic n c)) ∧
      (RenderFunc.chain M pgic n c).th.radiancePhotons =
        c.th.radiancePhotons ++ flushedRadiancePhotons (RenderFunc.chainFlushes M pgic n c) ∧
      (RenderFunc.chain M pgic n c).uniformCount =
        c.uniformCount + RenderFunc.uniformAdopted M pgic n c := by
  intro n
  induction n with
  | zero =>
    intro c
    simp [RenderFunc.chain, RenderFunc.chainFlushes, RenderFunc.uniformAdopted, flushedPhotons,
      flushedRadiancePhotons]
  | succ n ih =>
    intro c
    obtain ⟨i1, i2, i3⟩ := ih (RenderFunc.chainStep M pgic c)
    obtain ⟨s1, s2⟩ := RenderFunc.chainStep_th M pgic c
    simp only [RenderFunc.chain, RenderFunc.chainFlushes, RenderFunc.uniformAdopted]
    refine ⟨?_, ?_, ?_⟩
    · intro X
      rw [i1 X, s1, flushedPhotons_append]
      by_cases hr : RenderFunc.replacesCurrent M pgic c = true
      · simp only [hr, if_true, (AddPhotonsScaled_ofClass c.th _ c.current X).1]
        simp [flushedPhotons]
      · simp only [hr, if_false]
        simp [flushedPhotons]
    · rw [i2, s1, flushedRadiancePhotons_append]
      by_cases hr : RenderFunc.replacesCurrent M pgic c = true
      · simp only [hr, if_true]
        simp [flushedRadiancePhotons, TracePhotonsThread.AddPhotonsScaled]
      · simp only [hr, if_false]
        simp [flushedRadiancePhotons]
    · rw [i3, s2]
      omega

theorem scaleFrom_append (f : ℚ) (old new : List Photon) (start : Nat)
    (h : start = old.length) :
    scaleFrom start f (old ++ new) = old ++ new.map (Photon.scaleAlpha f) := by
  subst h
  simp [scaleFrom]

theorem RenderFunc.afterBootstrap_flushes (M : Platform) (pgic : PhotonGICache)
    (th : TracePhotonsThread) (workToDo : Nat) (c0 : ChainState) (h0 : c0.th = th)
    (hlen : ∀ X, (th.ofClass X).length < 4294967296) :
    (∀ X, (RenderFunc.afterBootstrap M pgic th workToDo c0).ofClass X =
        th.ofClass X ++ (flushedPhotons X (RenderFunc.bucketFlushes M pgic workToDo c0)).map
          (Photon.scaleAlpha
            (((c0.uniformCount + RenderFunc.uniformAdopted M pgic workToDo c0 : Nat) : ℚ) /
              (workToDo : ℚ)))) ∧
      (RenderFunc.afterBootstrap M pgic th workToDo c0).radiancePhotons =
        th.radiancePhotons ++
          flushedRadiancePhotons (RenderFunc.bucketFlushes M pgic workToDo c0) := by
  obtain ⟨i1, i2, i3⟩ := RenderFunc.chain_flushes M pgic workToDo c0
  have hth1 : ∀ X,
      (if (RenderFunc.chain M pgic workToDo c0).currentPhotonsScale > 1 then
          (RenderFunc.chain M pgic workToDo c0).th.AddPhotonsScaled
            (RenderFunc.chain M pgic workToDo c0).currentPhotonsScale
            (RenderFunc.chain M pgic workToDo c0).current
        else (RenderFunc.chain M pgic workToDo c0).th).ofClass X =
      th.ofClass X ++ flushedPhotons X (RenderFunc.bucketFlushes M pgic workToDo c0) := by
    intro X
    unfold RenderFunc.bucketFlushes
    rw [flushedPhotons_append]
    by_cases hs : (RenderFunc.chain M pgic workToDo c0).currentPhotonsScale > 1
    · simp only [hs, if_true, (AddPhotonsScaled_ofClass _ _ _ X).1, i1 X, h0]
      simp [flushedPhotons]
    · simp only [hs, if_false, i1 X, h0]
      simp [flushedPhotons]
  have hu32 : ∀ X, u32 (th.ofClass X).length = (th.ofClass X).length := fun X =>
    Nat.mod_eq_of_lt (hlen X)
  refine ⟨?_, ?_⟩
  · intro X
    rw [← i3]
    cases X
    · have := hth1 PhotonClass.direct
      have hu := hu32 PhotonClass.direct
      simp only [TracePhotonsThread.ofClass] at this hu ⊢
      simp only [RenderFunc.afterBootstrap]
      rw [this]
      exact scaleFrom_append _ _ _ _ hu
    · have := hth1 PhotonClass.indirect
      have hu := hu32 PhotonClass.indirect
      simp only [TracePhotonsThread.ofClass] at this hu ⊢
      simp only [RenderFunc.afterBootstrap]
      rw [this]
      exact scaleFrom_append _ _ _ _ hu
    · have := hth1 PhotonClass.caustic
      have hu := hu32 PhotonClass.caustic
      simp only [TracePhotonsThread.ofClass] at this hu ⊢
      simp only [RenderFunc.afterBootstrap]
      rw [this]
      exact scaleFrom_append _ _ _ _ hu
  · simp only [RenderFunc.afterBootstrap]
    unfold RenderFunc.bucketFlushes
    rw [flushedRadiancePhotons_append]
    by_cases hs : (RenderFunc.chain M pgic workToDo c0).currentPhotonsScale > 1
    · rw [if_pos hs, if_pos hs]
      simp only [TracePhotonsThread.AddPhotonsScaled, i2, h0]
      simp [flushedRadiancePhotons]
    · rw [if_neg hs, if_neg hs, i2, h0]
      simp [flushedRadiancePhotons]

theorem RenderFunc.currentStates_eq (M : Platform) (pgic : PhotonGICache) :
    ∀ (n : Nat) (c : ChainState),
      RenderFunc.currentStates M pgic n c =
        RenderFunc.chainFlushes M pgic n c ++
          [((RenderFunc.chain M pgic n c).currentPhotonsScale,
            (RenderFunc.chain M pgic n c).current)] := by
  intro n
  induction n with
  | zero => intro c; rfl
  | succ n ih =>
    intro c
    simp only [RenderFunc.currentStates, RenderFunc.chainFlushes, RenderFunc.chain]
    by_cases hr : RenderFunc.replacesCurrent M pgic c = true
    · simp only [hr, if_true, ih]
      rfl
    · simp only [hr, if_false, ih]
      rfl

/-- C18 fails as stated: on the sliding scene a Metropolis bucket of two paths
rejects in its first iteration and adopts a uniform draw in its second; the path
adopted last is the current state when the chain ends, with multiplicity 1, and
its photon (abscissa 3/10) never reaches the worker, whose only direct photon is
the one of the bootstrap path (abscissa 1/5, multiplicity 2). -/
theorem last_current_path_dropped :
    (RenderFunc.chain steppingPlatform slideCache 2
        (RenderFunc.bootstrapStart slideCache slideThread)).current.newDirectPhotons =
        [⟨⟨3 / 10, 0, -1⟩, ⟨0, 0, -1⟩, ⟨1, 1, 1⟩, ⟨0, 0, 1⟩⟩] ∧
      (RenderFunc.chain steppingPlatform slideCache 2
        (RenderFunc.bootstrapStart slideCache slideThread)).currentPhotonsScale = 1 ∧
      (RenderFunc.chain steppingPlatform slideCache 2
        (RenderFunc.bootstrapStart slideCache slideThread)).uniformCount = 2 ∧
      (RenderFunc.sampleBucket steppingPlatform slideCache slideThread 2).toOption.map
          (fun th2 => (th2.directPhotons, th2.indirectPhotons, th2.causticPhotons)) =
        some ([⟨⟨1 / 5, 0, -1⟩, ⟨0, 0, -1⟩, ⟨2, 2, 2⟩, ⟨0, 0, 1⟩⟩], [], []) := by
  decide!

/-- C18 (amended): when the chain of a Metropolis bucket has ended and the last
flush is done, before `scaleFactor` is applied, the worker's vectors are what
they were followed by the photons of the paths that were the current state, in
order, each path once with `alpha` times the multiplicity it had reached
(radiance photons as traced); the last current state is among them when its
multiplicity is above 1 and is left out when it is 1.  The bucket ends by scaling
what was appended by `scaleFactor`. -/
theorem RenderFunc.lastFlush_current_states (M : Platform) (pgic : PhotonGICache)
    (workToDo : Nat) (c0 : ChainState) :
    (∀ th : TracePhotonsThread, RenderFunc.afterBootstrap M pgic th workToDo c0 =
        { RenderFunc.lastFlush (RenderFunc.chain M pgic workToDo c0) with
            rndGen := (RenderFunc.chain M pgic workToDo c0).rndGen
            directPhotons := scaleFrom (u32 th.directPhotons.length)
              (((RenderFunc.chain M pgic workToDo c0).uniformCount : ℚ) / (workToDo : ℚ))
              (RenderFunc.lastFlush (RenderFunc.chain M pgic workToDo c0)).directPhotons
            indirectPhotons := scaleFrom (u32 th.indirectPhotons.length)
              (((RenderFunc.chain M pgic workToDo c0).uniformCount : ℚ) / (workToDo : ℚ))
              (RenderFunc.lastFlush (RenderFunc.chain M pgic workToDo c0)).indirectPhotons
            causticPhotons := scaleFrom (u32 th.causticPhotons.length)
              (((RenderFunc.chain M pgic workToDo c0).uniformCount : ℚ) / (workToDo : ℚ))
              (RenderFunc.lastFlush (RenderFunc.chain M pgic workToDo c0)).causticPhotons }) ∧
      (∀ X, (RenderFunc.lastFlush (RenderFunc.chain M pgic workToDo c0)).ofClass X =
        c0.th.ofClass X ++ flushedPhotons X
          (if (RenderFunc.chain M pgic workToDo c0).currentPhotonsScale > 1 then
            RenderFunc.currentStates M pgic workToDo c0
          else (RenderFunc.currentStates M pgic workToDo c0).dropLast)) ∧
      (RenderFunc.lastFlush (RenderFunc.chain M pgic workToDo c0)).radiancePhotons =
        c0.th.radiancePhotons ++ flushedRadiancePhotons
          (if (RenderFunc.chain M pgic workToDo c0).currentPhotonsScale > 1 then
            RenderFunc.currentStates M pgic workToDo c0
          else (RenderFunc.currentStates M pgic workToDo c0).dropLast) ∧
      (RenderFunc.currentStates M pgic workToDo c0).getLast? =
        some ((RenderFunc.chain M pgic workToDo c0).currentPhotonsScale,
          (RenderFunc.chain M pgic workToDo c0).current) := by
  obtain ⟨i1, i2, _⟩ := RenderFunc.chain_flushes M pgic workToDo c0
  rw [RenderFunc.currentStates_eq]
  refine ⟨fun th => rfl, ?_, ?_, ?_⟩
  · intro X
    unfold RenderFunc.lastFlush
    by_cases hs : (RenderFunc.chain M pgic workToDo c0).currentPhotonsScale > 1
    · rw [if_pos hs, if_pos hs, (AddPhotonsScaled_ofClass _ _ _ X).1, i1 X,
        flushedPhotons_append]
      simp [flushedPhotons]
    · rw [if_neg hs, if_neg hs, i1 X, List.dropLast_concat]
  · unfold RenderFunc.lastFlush
    by_cases hs : (RenderFunc.chain M pgic workToDo c0).currentPhotonsScale > 1
    · rw [if_pos hs, if_pos hs, flushedRadiancePhotons_append]
      simp only [TracePhotonsThread.AddPhotonsScaled, i2]
      simp [flushedRadiancePhotons]
    · rw [if_neg hs, if_neg hs, i2, List.dropLast_concat]
  · simp

/-- C19: at the end of a Metropolis bucket that starts with fewer than 2^32
photons in each vector, every vector of the worker is what it was before the
bucket followed by the photons flushed in the bucket with `alpha` times
`scaleFactor = uniformCount / workToDo`, where `uniformCount` is 1 for the
bootstrap path plus the number of uniform draws adopted; scaling changes `alpha`
only; the radiance photons of the flushed paths are appended as traced. -/
theorem RenderFunc.sampleBucket_scaleFactor (M : Platform) (pgic : PhotonGICache)
    (th th2 : TracePhotonsThread) (workToDo : Nat)
    (hM : pgic.params.samplerType = PhotonGISamplerType.PGIC_SAMPLER_METROPOLIS)
    (hok : RenderFunc.sampleBucket M pgic th workToDo = Except.ok th2)
    (hlen : ∀ X, (th.ofClass X).length < 4294967296) :
    (∀ X, th2.ofClass X =
        th.ofClass X ++
          (flushedPhotons X
            (RenderFunc.bucketFlushes M pgic workToDo (RenderFunc.bootstrapStart pgic th))).map
            (Photon.scaleAlpha
              (((1 + RenderFunc.uniformAdopted M pgic workToDo
                  (RenderFunc.bootstrapStart pgic th) : Nat) : ℚ) / (workToDo : ℚ)))) ∧
      th2.radiancePhotons =
        th.radiancePhotons ++ flushedRadiancePhotons
          (RenderFunc.bucketFlushes M pgic workToDo (RenderFunc.bootstrapStart pgic th)) ∧
      (∀ (f : ℚ) (photon : Photon),
        (Photon.scaleAlpha f photon).p = photon.p ∧ (Photon.scaleAlpha f photon).d = photon.d ∧
        (Photon.scaleAlpha f photon).landingSurfaceNormal = photon.landingSurfaceNormal ∧
        (Photon.scaleAlpha f photon).alpha = photon.alpha.scale f) := by
  rw [RenderFunc.sampleBucket_metropolis M pgic th workToDo hM] at hok
  by_cases hb : (RenderFunc.bootstrap pgic th 16384 th.rndGen [] PathPhotons.empty).1 = true
  · rw [if_pos hb] at hok
    have h2 : th2 = RenderFunc.afterBootstrap M pgic th workToDo
        (RenderFunc.bootstrapStart pgic th) := by
      cases hok
      rfl
    obtain ⟨a, b⟩ := RenderFunc.afterBootstrap_flushes M pgic th workToDo
      (RenderFunc.bootstrapStart pgic th) rfl hlen
    rw [h2]
    exact ⟨a, b, fun _ _ => ⟨rfl, rfl, rfl, rfl⟩⟩
  · rw [if_neg hb] at hok
    cases hok

theorem RenderFunc.sampleBucket_scaleFactor_witness :
    slideCache.params.samplerType = PhotonGISamplerType.PGIC_SAMPLER_METROPOLIS ∧
      RenderFunc.sampleBucket steppingPlatform slideCache slideThread 3 =
        Except.ok (RenderFunc.afterBootstrap steppingPlatform slideCache slideThread 3
          (RenderFunc.bootstrapStart slideCache slideThread)) ∧
      (∀ X, (slideThread.ofClass X).length < 4294967296) ∧
      RenderFunc.uniformAdopted steppingPlatform slideCache 3
          (RenderFunc.bootstrapStart slideCache slideThread) = 1 ∧
      (RenderFunc.afterBootstrap steppingPlatform slideCache slideThread 3
          (RenderFunc.bootstrapStart slideCache slideThread)).ofClass PhotonClass.direct =
        [⟨⟨1 / 5, 0, -1⟩, ⟨0, 0, -1⟩, ⟨4 / 3, 4 / 3, 4 / 3⟩, ⟨0, 0, 1⟩⟩,
         ⟨⟨3 / 10, 0, -1⟩, ⟨0, 0, -1⟩, ⟨4 / 3, 4 / 3, 4 / 3⟩, ⟨0, 0, 1⟩⟩] :=
  ⟨by decide!,
    (RenderFunc.sampleBucket_metropolis steppingPlatform slideCache slideThread 3
      (by decide!)).trans (if_pos (by decide!)),
    fun X => by cases X <;> decide,
    by decide!,
    ((RenderFunc.sampleBucket_scaleFactor steppingPlatform slideCache slideThread _ 3
      (by decide!)
      ((RenderFunc.sampleBucket_metropolis steppingPlatform slideCache slideThread 3
        (by decide!)).trans (if_pos (by decide!)))
      (fun X => by cases X <;> decide)).1 PhotonClass.direct).trans (by decide!)⟩

/-! ## Vertices and photons of one path -/

theorem depositPhoton_count (pgic : PhotonGICache) (th : TracePhotonsThread) (bsdf : BSDF)
    (n : Normal) (s : PathState) :
    (depositPhoton pgic th bsdf n s).1.photons.photonCount =
      s.photons.photonCount + (if (depositPhoton pgic th bsdf n s).2 = true then 1 else 0) := by
  unfold depositPhoton
  simp only []
  split_ifs <;> simp_all [PathPhotons.photonCount] <;> omega

theorem depositRadiancePhoton_count (pgic : PhotonGICache) (bsdf : BSDF) (n : Normal)
    (used : Bool) (s : PathState) :
    (depositRadiancePhoton pgic bsdf n used s).photons.photonCount = s.photons.photonCount := by
  obtain ⟨h1, h2, h3, _⟩ := depositRadiancePhoton_frame pgic bsdf n used s
  simp only [PathPhotons.photonCount, h1, h2, h3]

theorem depositVertex_count (pgic : PhotonGICache) (th : TracePhotonsThread) (bsdf : BSDF)
    (s : PathState) :
    ((depositVertex pgic th bsdf s).photons.photonCount = s.photons.photonCount ∧
        (depositVertex pgic th bsdf s).photons.newRadiancePhotons =
          s.photons.newRadiancePhotons) ∨
      ((depositVertex pgic th bsdf s).photons.photonCount = s.photons.photonCount + 1 ∧
        ((depositVertex pgic th bsdf s).photons.newRadiancePhotons =
            s.photons.newRadiancePhotons ∨
          (pgic.params.indirect.enabled = true ∧
            (depositVertex pgic th bsdf s).photons.newRadiancePhotons =
              s.photons.newRadiancePhotons ++
                [⟨bsdf.hitPoint.p, landingSurfaceNormal bsdf s.nextEventRay,
                  bsdf.EvaluateTotal⟩]))) := by
  rcases depositVertex_cases pgic th bsdf s with h | h
  · rw [h]; exact Or.inl ⟨rfl, rfl⟩
  · rw [h]
    unfold depositPhotons
    simp only []
    have hc := depositPhoton_count pgic th bsdf (landingSurfaceNormal bsdf s.nextEventRay) s
    have hr := depositPhoton_radiance pgic th bsdf (landingSurfaceNormal bsdf s.nextEventRay) s
    have hrc := depositRadiancePhoton_count pgic bsdf (landingSurfaceNormal bsdf s.nextEventRay)
      (depositPhoton pgic th bsdf (landingSurfaceNormal bsdf s.nextEventRay) s).2
      (depositPhoton pgic th bsdf (landingSurfaceNormal bsdf s.nextEventRay) s).1
    rcases depositRadiancePhoton_list pgic bsdf (landingSurfaceNormal bsdf s.nextEventRay)
      (depositPhoton pgic th bsdf (landingSurfaceNormal bsdf s.nextEventRay) s).2
      (depositPhoton pgic th bsdf (landingSurfaceNormal bsdf s.nextEventRay) s).1 with hl | hl
    · rw [hl, hr, hrc, hc]
      by_cases hu : (depositPhoton pgic th bsdf (landingSurfaceNormal bsdf s.nextEventRay) s).2 = true
      · rw [if_pos hu]; exact Or.inr ⟨rfl, Or.inl rfl⟩
      · rw [if_neg hu]; exact Or.inl ⟨rfl, rfl⟩
    · obtain ⟨hu, hi, hl⟩ := hl
      rw [hl, hr, hrc, hc, if_pos hu]
      exact Or.inr ⟨rfl, Or.inr ⟨hi, rfl⟩⟩

theorem TracePhotonPath.loop_measure (pgic : PhotonGICache) (th : TracePhotonsThread)
    (samples : List ℚ) (m : PathPhotons → Nat)
    (hdep : ∀ (bsdf : BSDF) (s : PathState),
      m (depositVertex pgic th bsdf s).photons ≤ m s.photons + 1) :
    ∀ (fuel : Nat) (s : PathState),
      m (TracePhotonPath.loop pgic th samples fuel s).photons ≤ m s.photons + fuel := by
  intro fuel
  induction fuel with
  | zero => intro s; simp [TracePhotonPath.loop]
  | succ fuel ih =>
    intro s
    rw [TracePhotonPath.loop]
    by_cases hd : s.depth ≤ pgic.params.photon.maxPathDepth
    · simp only [hd, if_true]
      cases hI : pgic.scene.Intersect s.volInfo
          (samples.getD (u32 (sampleBootSize + u32 ((s.depth - 1) * sampleStepSize))) 0)
          s.nextEventRay with
      | none => simp
      | some hit =>
        have h2 := hdep hit.bsdf
          { s with
              lightPathFlux := s.lightPathFlux.mul hit.connectionThroughput
              volInfo := hit.volInfo }
        simp only [] at h2 ⊢
        split_ifs with hmax hblack
        · omega
        · omega
        · refine le_trans (ih _) ?_
          simp only []
          omega
    · simp [hd]

theorem TracePhotonPath_measure (pgic : PhotonGICache) (th : TracePhotonsThread)
    (m : PathPhotons → Nat) (h0 : m PathPhotons.empty = 0)
    (hdep : ∀ (bsdf : BSDF) (s : PathState),
      m (depositVertex pgic th bsdf s).photons ≤ m s.photons + 1)
    (rndGen : RandomGenerator) (samples : List ℚ) :
    m (TracePhotonPath pgic th rndGen samples).photons ≤ pgic.params.photon.maxPathDepth := by
  unfold TracePhotonPath
  cases hL : pgic.scene.SampleLights (samples.getD 1 0) with
  | none => simp [h0]
  | some lp =>
    obtain ⟨light, lightPickPdf⟩ := lp
    simp only []
    split_ifs
    · refine le_trans (TracePhotonPath.loop_measure pgic th samples m hdep _ _) ?_
      simp [h0]
    · simp [h0]

theorem depositVertex_depth (pgic : PhotonGICache) (th : TracePhotonsThread) (bsdf : BSDF)
    (s : PathState) : (depositVertex pgic th bsdf s).depth = s.depth := by
  rcases depositVertex_cases pgic th bsdf s with h | h
  · rw [h]
  · rw [h]
    unfold depositPhotons depositRadiancePhoton depositPhoton
    simp only []
    split_ifs <;> rfl

theorem TracePhotonPath.loop_fuel (pgic : PhotonGICache) (th : TracePhotonsThread)
    (samples : List ℚ) (extra : Nat) :
    ∀ (fuel : Nat) (s : PathState), pgic.params.photon.maxPathDepth < s.depth + fuel →
      TracePhotonPath.loop pgic th samples (fuel + extra) s =
        TracePhotonPath.loop pgic th samples fuel s := by
  intro fuel
  induction fuel with
  | zero =>
    intro s h
    have hd : ¬ s.depth ≤ pgic.params.photon.maxPathDepth := by omega
    cases extra with
    | zero => rfl
    | succ e =>
      rw [Nat.zero_add]
      show TracePhotonPath.loop pgic th samples (e + 1) s = s
      rw [TracePhotonPath.loop]
      simp only [hd, if_false]
  | succ fuel ih =>
    intro s h
    rw [Nat.succ_add, TracePhotonPath.loop, TracePhotonPath.loop]
    by_cases hd : s.depth ≤ pgic.params.photon.maxPathDepth
    · simp only [hd, if_true]
      cases hI : pgic.scene.Intersect s.volInfo
          (samples.getD (u32 (sampleBootSize + u32 ((s.depth - 1) * sampleStepSize))) 0)
          s.nextEventRay with
      | none => rfl
      | some hit =>
        simp only []
        split_ifs with hmax hblack
        · rfl
        · rfl
        · apply ih
          simp only [depositVertex_depth]
          omega
    · simp only [hd, if_false]

/-- C27: a path vertex pushes at most one Photon over the direct, indirect and
caustic lists together and at most one RadiancePhoton; the loop started at depth
1 is over after `maxPathDepth` iterations (more fuel changes nothing); so one
call of `TracePhotonPath` yields at most `maxPathDepth` Photons and at most
`maxPathDepth` RadiancePhotons; a call that finds no light hands back empty
lists, whatever was traced before. -/
theorem TracePhotonPath_at_most_maxPathDepth (pgic : PhotonGICache) (th : TracePhotonsThread)
    (rndGen : RandomGenerator) (samples : List ℚ) :
    (∀ (bsdf : BSDF) (s : PathState),
        (depositVertex pgic th bsdf s).photons.photonCount ≤ s.photons.photonCount + 1 ∧
        (depositVertex pgic th bsdf s).photons.newRadiancePhotons.length ≤
          s.photons.newRadiancePhotons.length + 1) ∧
      (∀ (s : PathState) (extra : Nat), 1 ≤ s.depth →
        TracePhotonPath.loop pgic th samples (pgic.params.photon.maxPathDepth + extra) s =
          TracePhotonPath.loop pgic th samples pgic.params.photon.maxPathDepth s) ∧
      (TracePhotonPath pgic th rndGen samples).photons.photonCount ≤
        pgic.params.photon.maxPathDepth ∧
      (TracePhotonPath pgic th rndGen samples).photons.newRadiancePhotons.length ≤
        pgic.params.photon.maxPathDepth ∧
      (pgic.scene.SampleLights (samples.getD 1 0) = none →
        (TracePhotonPath pgic th rndGen samples).photons = PathPhotons.empty) := by
  have hv : ∀ (bsdf : BSDF) (s : PathState),
      (depositVertex pgic th bsdf s).photons.photonCount ≤ s.photons.photonCount + 1 ∧
      (depositVertex pgic th bsdf s).photons.newRadiancePhotons.length ≤
        s.photons.newRadiancePhotons.length + 1 := by
    intro bsdf s
    rcases depositVertex_count pgic th bsdf s with ⟨h1, h2⟩ | ⟨h1, h2 | ⟨_, h2⟩⟩
    · rw [h1, h2]; exact ⟨Nat.le_succ _, Nat.le_succ _⟩
    · rw [h1, h2]; exact ⟨le_refl _, Nat.le_succ _⟩
    · rw [h1, h2]; exact ⟨le_refl _, by simp⟩
  refine ⟨hv, ?_, ?_, ?_, ?_⟩
  · intro s extra hs
    exact TracePhotonPath.loop_fuel pgic th samples extra _ s (by omega)
  · exact TracePhotonPath_measure pgic th PathPhotons.photonCount rfl
      (fun bsdf s => (hv bsdf s).1) rndGen samples
  · exact TracePhotonPath_measure pgic th (fun ph => ph.newRadiancePhotons.length) rfl
      (fun bsdf s => (hv bsdf s).2) rndGen samples
  · intro hL
    unfold TracePhotonPath
    rw [hL]

/-- C28: at a vertex `TracePhotonPath` pushes a RadiancePhoton only together with
a Photon and only with indirect enabled, and the RadiancePhoton holds the hit
point, the landing normal and `bsdf.EvaluateTotal()`; with indirect disabled a
path yields no radiance photon; a path never yields more radiance photons than
photons. -/
theorem TracePhotonPath_radiance_photons (pgic : PhotonGICache) (th : TracePhotonsThread)
    (rndGen : RandomGenerator) (samples : List ℚ) :
    (∀ (bsdf : BSDF) (s : PathState),
        (depositVertex pgic th bsdf s).photons.newRadiancePhotons =
            s.photons.newRadiancePhotons ∨
          (pgic.params.indirect.enabled = true ∧
            (depositVertex pgic th bsdf s).photons.photonCount = s.photons.photonCount + 1 ∧
            (depositVertex pgic th bsdf s).photons.newRadiancePhotons =
              s.photons.newRadiancePhotons ++
                [⟨bsdf.hitPoint.p, landingSurfaceNormal bsdf s.nextEventRay,
                  bsdf.EvaluateTotal⟩])) ∧
      (pgic.params.indirect.enabled = false →
        (TracePhotonPath pgic th rndGen samples).photons.newRadiancePhotons = []) ∧
      (TracePhotonPath pgic th rndGen samples).photons.newRadiancePhotons.length ≤
        (TracePhotonPath pgic th rndGen samples).photons.photonCount := by
  refine ⟨?_, ?_, ?_⟩
  · intro bsdf s
    rcases depositVertex_count pgic th bsdf s with ⟨_, h2⟩ | ⟨h1, h2 | ⟨hi, h2⟩⟩
    · exact Or.inl h2
    · exact Or.inl h2
    · exact Or.inr ⟨hi, h1, h2⟩
  · intro hi
    apply TracePhotonPath_preserves pgic th (fun ph _ => ph.newRadiancePhotons = [])
    · rfl
    · intro bsdf s hs
      rcases depositVertex_count pgic th bsdf s with ⟨_, h2⟩ | ⟨_, h2 | ⟨hi2, _⟩⟩
      · rw [h2]; exact hs
      · rw [h2]; exact hs
      · rw [hi] at hi2; cases hi2
  · apply TracePhotonPath_preserves pgic th
      (fun ph _ => ph.newRadiancePhotons.length ≤ ph.photonCount)
    · exact Nat.le_refl 0
    · intro bsdf s hs
      rcases depositVertex_count pgic th bsdf s with ⟨h1, h2⟩ | ⟨h1, h2 | ⟨_, h2⟩⟩
      · rw [h1, h2]; exact hs
      · rw [h1, h2]; exact Nat.le_succ_of_le hs
      · rw [h1, h2, List.length_append]
        simp only [List.length_singleton]
        omega

/-- C29: a vertex for which the visibility octree exists and answers `NULL_INDEX`
leaves the path state as it is: no Photon, no RadiancePhoton, `usefulPath`
untouched; so does a vertex whose bsdf is not enabled for the cache; without an
octree every enabled vertex goes through the deposit, as does an enabled vertex
for which the octree answers an entry. -/
theorem depositVertex_visibility (pgic : PhotonGICache) (th : TracePhotonsThread) (bsdf : BSDF)
    (s : PathState) :
    (∀ octree, pgic.visibilityParticlesOctree = some octree →
        octree.GetNearestEntry bsdf.hitPoint.p (landingSurfaceNormal bsdf s.nextEventRay) =
          NULL_INDEX →
        depositVertex pgic th bsdf s = s) ∧
      (bsdf.IsPhotonGIEnabled = false → depositVertex pgic th bsdf s = s) ∧
      (pgic.visibilityParticlesOctree = none → bsdf.IsPhotonGIEnabled = true →
        depositVertex pgic th bsdf s =
          depositPhotons pgic th bsdf (landingSurfaceNormal bsdf s.nextEventRay) s) ∧
      (∀ octree, pgic.visibilityParticlesOctree = some octree →
        octree.GetNearestEntry bsdf.hitPoint.p (landingSurfaceNormal bsdf s.nextEventRay) ≠
          NULL_INDEX →
        bsdf.IsPhotonGIEnabled = true →
        depositVertex pgic th bsdf s =
          depositPhotons pgic th bsdf (landingSurfaceNormal bsdf s.nextEventRay) s) := by
  refine ⟨?_, ?_, ?_, ?_⟩
  · intro octree ho hn
    unfold depositVertex
    by_cases hE : bsdf.IsPhotonGIEnabled = true
    · rw [if_pos hE]
      simp only [visiblePoint, ho, hn]
      simp
    · rw [if_neg hE]
  · intro hE
    unfold depositVertex
    rw [if_neg (by rw [hE]; exact Bool.false_ne_true)]
  · intro ho hE
    unfold depositVertex
    rw [if_pos hE]
    simp only [visiblePoint, ho, if_true]
  · intro octree ho hn hE
    unfold depositVertex
    rw [if_pos hE]
    simp only [visiblePoint, ho]
    simp [hn]

/-! ## The outer loop of a worker -/

theorem AddPhotonsScaled_running (th : TracePhotonsThread) (f : ℚ) (ph : PathPhotons) :
    (th.AddPhotonsScaled f ph).running = th.running := rfl

theorem RenderFunc.chainStep_running (M : Platform) (pgic : PhotonGICache) (c : ChainState) :
    (RenderFunc.chainStep M pgic c).th.running = c.th.running := by
  rw [(RenderFunc.chainStep_th M pgic c).1]
  split_ifs <;> rfl

theorem RenderFunc.chain_running (M : Platform) (pgic : PhotonGICache) :
    ∀ (n : Nat) (c : ChainState), (RenderFunc.chain M pgic n c).th.running = c.th.running := by
  intro n
  induction n with
  | zero => intro c; rfl
  | succ n ih =>
    intro c
    rw [RenderFunc.chain, ih, RenderFunc.chainStep_running]

theorem RenderFunc.randomLoop_running (pgic : PhotonGICache) :
    ∀ (n : Nat) (s : TracePhotonsThread × RandomGenerator),
      (RenderFunc.randomLoop pgic n s).1.running = s.1.running := by
  intro n
  induction n with
  | zero => intro s; rfl
  | succ n ih =>
    intro s
    rw [RenderFunc.randomLoop, ih]
    rfl

theorem RenderFunc.sampleBucket_cases (M : Platform) (pgic : PhotonGICache)
    (th : TracePhotonsThread) (workToDo : Nat) :
    (∃ th2, RenderFunc.sampleBucket M pgic th workToDo = Except.ok th2 ∧
        th2.running = th.running ∧ th2.directDone = th.directDone ∧
        th2.indirectDone = th.indirectDone ∧ th2.causticDone = th.causticDone) ∨
      (RenderFunc.sampleBucket M pgic th workToDo = Except.error RenderError.noUsefulPath ∧
        pgic.params.samplerType = PhotonGISamplerType.PGIC_SAMPLER_METROPOLIS) := by
  cases hs : pgic.params.samplerType with
  | PGIC_SAMPLER_METROPOLIS =>
    rw [RenderFunc.sampleBucket_metropolis M pgic th workToDo hs]
    by_cases hb : (RenderFunc.bootstrap pgic th 16384 th.rndGen [] PathPhotons.empty).1 = true
    · rw [if_pos hb]
      refine Or.inl ⟨_, rfl, ?_⟩
      have hX := fun X => (RenderFunc.sampleBucket_ofClass M pgic th _ workToDo X
        (by rw [RenderFunc.sampleBucket_metropolis M pgic th workToDo hs, if_pos hb])).1
      refine ⟨?_, hX PhotonClass.direct, hX PhotonClass.indirect, hX PhotonClass.caustic⟩
      simp only [RenderFunc.afterBootstrap]
      split_ifs
      · rw [AddPhotonsScaled_running, RenderFunc.chain_running]; rfl
      · rw [RenderFunc.chain_running]; rfl
    · rw [if_neg hb]
      exact Or.inr ⟨rfl, rfl⟩
  | PGIC_SAMPLER_RANDOM =>
    have hok : RenderFunc.sampleBucket M pgic th workToDo =
        Except.ok { (RenderFunc.randomLoop pgic workToDo (th, th.rndGen)).1 with
          rndGen := (RenderFunc.randomLoop pgic workToDo (th, th.rndGen)).2 } := by
      unfold RenderFunc.sampleBucket
      simp only [hs]
    refine Or.inl ⟨_, hok, ?_⟩
    have hX := fun X => (RenderFunc.sampleBucket_ofClass M pgic th _ workToDo X hok).1
    exact ⟨RenderFunc.randomLoop_running pgic workToDo (th, th.rndGen),
      hX PhotonClass.direct, hX PhotonClass.indirect, hX PhotonClass.caustic⟩

theorem RenderFunc.bucket_stop (M : Platform) (pgic : PhotonGICache) (th : TracePhotonsThread)
    (h : pgic.globalPhotonsCounter ≥ pgic.params.photon.maxTracedCount) :
    RenderFunc.bucket M pgic th =
      Except.ok ({ pgic with globalPhotonsCounter := u32 (pgic.globalPhotonsCounter + workSize) },
        { th with running := false }) := by
  unfold RenderFunc.bucket
  simp only []
  rw [if_pos h]

theorem RenderFunc.bucket_work (M : Platform) (pgic : PhotonGICache) (th : TracePhotonsThread)
    (h : pgic.globalPhotonsCounter < pgic.params.photon.maxTracedCount) :
    (RenderFunc.bucket M pgic th = Except.error RenderError.noUsefulPath ∧
        pgic.params.samplerType = PhotonGISamplerType.PGIC_SAMPLER_METROPOLIS) ∨
      ∃ pgic2 th2, RenderFunc.bucket M pgic th = Except.ok (pgic2, th2) ∧
        pgic2.params = pgic.params ∧
        pgic2.globalPhotonsCounter = u32 (pgic.globalPhotonsCounter + workSize) ∧
        (∀ X, th2.doneOf X = decide (pgic.params.maxSizeOf X ≤ pgic.sizeOf X)) ∧
        th2.running = (th.running && !(th2.directDone && th2.indirectDone && th2.causticDone)) ∧
        (∀ X, pgic2.tracedOf X =
          if th2.doneOf X = true then pgic.tracedOf X
          else u32 (pgic.tracedOf X +
            RenderFunc.workToDo pgic pgic.globalPhotonsCounter)) := by
  unfold RenderFunc.bucket
  simp only []
  rw [if_neg (Nat.not_le.2 h)]
  set pgic1 : PhotonGICache :=
    { pgic with globalPhotonsCounter := u32 (pgic.globalPhotonsCounter + workSize) } with hp1
  set th1 := RenderFunc.snapshotDone pgic1 th with hth1
  set w := RenderFunc.workToDo pgic1 pgic.globalPhotonsCounter with hw
  have hw2 : w = RenderFunc.workToDo pgic pgic.globalPhotonsCounter := by
    rw [hw]
    unfold RenderFunc.workToDo
    rfl
  rcases RenderFunc.sampleBucket_cases M
      { pgic1 with
          globalDirectPhotonsTraced :=
            if !th1.directDone then u32 (pgic1.globalDirectPhotonsTraced + w)
            else pgic1.globalDirectPhotonsTraced
          globalIndirectPhotonsTraced :=
            if !th1.indirectDone then u32 (pgic1.globalIndirectPhotonsTraced + w)
            else pgic1.globalIndirectPhotonsTraced
          globalCausticPhotonsTraced :=
            if !th1.causticDone then u32 (pgic1.globalCausticPhotonsTraced + w)
            else pgic1.globalCausticPhotonsTraced } th1 w with
    ⟨t, hsb, r1, r2, r3, r4⟩ | ⟨hsb, hm⟩
  · right
    rw [hsb]
    simp only []
    have hflags : ∀ X, t.doneOf X = decide (pgic.params.maxSizeOf X ≤ pgic.sizeOf X) := by
      intro X
      cases X
      · simp only [TracePhotonsThread.doneOf, r2]; rfl
      · simp only [TracePhotonsThread.doneOf, r3]; rfl
      · simp only [TracePhotonsThread.doneOf, r4]; rfl
    have htr : ∀ (X : PhotonClass) (c : PhotonGICache),
        c.globalDirectPhotonsTraced =
          (if !th1.directDone then u32 (pgic1.globalDirectPhotonsTraced + w)
            else pgic1.globalDirectPhotonsTraced) →
        c.globalIndirectPhotonsTraced =
          (if !th1.indirectDone then u32 (pgic1.globalIndirectPhotonsTraced + w)
            else pgic1.globalIndirectPhotonsTraced) →
        c.globalCausticPhotonsTraced =
          (if !th1.causticDone then u32 (pgic1.globalCausticPhotonsTraced + w)
            else pgic1.globalCausticPhotonsTraced) →
        c.tracedOf X =
          if t.doneOf X = true then pgic.tracedOf X
          else u32 (pgic.tracedOf X + RenderFunc.workToDo pgic pgic.globalPhotonsCounter) := by
      intro X c e1 e2 e3
      cases X
      · simp only [PhotonGICache.tracedOf, TracePhotonsThread.doneOf, e1, r2, ← hw2]
        cases th1.directDone <;> rfl
      · simp only [PhotonGICache.tracedOf, TracePhotonsThread.doneOf, e2, r3, ← hw2]
        cases th1.indirectDone <;> rfl
      · simp only [PhotonGICache.tracedOf, TracePhotonsThread.doneOf, e3, r4, ← hw2]
        cases th1.causticDone <;> rfl
    by_cases hall : t.directDone = true ∧ t.indirectDone = true ∧ t.causticDone = true
    · rw [if_pos hall]
      refine ⟨_, _, rfl, rfl, rfl, hflags, ?_, fun X => htr X _ rfl rfl rfl⟩
      simp [hall.1, hall.2.1, hall.2.2]
    · rw [if_neg hall]
      refine ⟨_, _, rfl, rfl, rfl, hflags, ?_, fun X => htr X _ rfl rfl rfl⟩
      rw [r1]
      have : (t.directDone && t.indirectDone && t.causticDone) = false := by
        cases h1 : t.directDone <;> cases h2 : t.indirectDone <;> cases h3 : t.causticDone <;>
          simp_all
      rw [this]
      simp [hth1, RenderFunc.snapshotDone]
  · left
    rw [hsb]
    exact ⟨rfl, hm⟩

theorem RenderFunc.workToDo_eq_min (pgic : PhotonGICache) (workCounter : Nat)
    (h : workCounter < pgic.params.photon.maxTracedCount)
    (hw : workCounter + 4096 < 4294967296) :
    RenderFunc.workToDo pgic workCounter =
      min 4096 (pgic.params.photon.maxTracedCount - workCounter) := by
  unfold RenderFunc.workToDo workSize u32
  rw [Nat.mod_eq_of_lt hw]
  split_ifs with hc
  · rw [Nat.min_def, if_neg (by omega)]
  · rw [Nat.min_def, if_pos (by omega)]

/-- C22: in a bucket that a worker processes (the work counter observed is below
`maxTracedCount`, and adding 4096 to it does not wrap), the done flag of every
class is the comparison of its size counter at entry with `maxSize`, and the
traced counter of the class is afterwards what it was when the flag is set, and
what it was plus `workToDo = min(4096, maxTracedCount − workCounter)`, as a
`u_int`, when it is not. -/
theorem RenderFunc.bucket_traced_counters (M : Platform) (pgic pgic2 : PhotonGICache)
    (th th2 : TracePhotonsThread)
    (h : RenderFunc.bucket M pgic th = Except.ok (pgic2, th2))
    (hwork : pgic.globalPhotonsCounter < pgic.params.photon.maxTracedCount)
    (hnowrap : pgic.globalPhotonsCounter + 4096 < 4294967296) :
    ∀ X : PhotonClass,
      th2.doneOf X = decide (pgic.params.maxSizeOf X ≤ pgic.sizeOf X) ∧
      pgic2.tracedOf X =
        (if th2.doneOf X = true then pgic.tracedOf X
          else u32 (pgic.tracedOf X +
            min 4096 (pgic.params.photon.maxTracedCount - pgic.globalPhotonsCounter))) ∧
      (th2.doneOf X = false →
        pgic.tracedOf X +
            min 4096 (pgic.params.photon.maxTracedCount - pgic.globalPhotonsCounter) <
          4294967296 →
        pgic2.tracedOf X = pgic.tracedOf X +
          min 4096 (pgic.params.photon.maxTracedCount - pgic.globalPhotonsCounter)) := by
  intro X
  rcases RenderFunc.bucket_work M pgic th hwork with ⟨he, _⟩ | ⟨p, t, hok, _, _, hflags, _, htr⟩
  · rw [he] at h; cases h
  · rw [hok] at h
    simp only [Except.ok.injEq, Prod.mk.injEq] at h
    obtain ⟨h1, h2⟩ := h
    subst h1 h2
    have ht := htr X
    rw [RenderFunc.workToDo_eq_min pgic _ hwork hnowrap] at ht
    refine ⟨hflags X, ht, ?_⟩
    intro hd hlt
    rw [ht, if_neg (by rw [hd]; exact Bool.false_ne_true)]
    exact Nat.mod_eq_of_lt hlt

theorem RenderFunc_stopped (M : Platform) (fuel : Nat) (pgic : PhotonGICache)
    (th : TracePhotonsThread) (h : th.running = false) :
    RenderFunc M fuel pgic th = Except.ok (pgic, th) := by
  cases fuel with
  | zero => rw [RenderFunc, if_neg (by rw [h]; exact Bool.false_ne_true)]
  | succ fuel => rw [RenderFunc, if_neg (by rw [h]; exact Bool.false_ne_true)]

theorem RenderFunc_ends (M : Platform) :
    ∀ (fuel : Nat) (pgic : PhotonGICache) (th : TracePhotonsThread),
      pgic.params.photon.maxTracedCount + 4096 < 4294967296 →
      (pgic.params.photon.maxTracedCount - pgic.globalPhotonsCounter + 4095) / 4096 < fuel →
      (∃ r, RenderFunc M fuel pgic th = Except.ok r ∧ r.2.running = false) ∨
        (RenderFunc M fuel pgic th = Except.error RenderError.noUsefulPath ∧
          pgic.params.samplerType = PhotonGISamplerType.PGIC_SAMPLER_METROPOLIS) := by
  intro fuel
  induction fuel with
  | zero => intro pgic th _ h; exact absurd h (Nat.not_lt_zero _)
  | succ fuel ih =>
    intro pgic th hmax hfuel
    by_cases hrun : th.running = true
    · rw [RenderFunc, if_pos hrun]
      by_cases hstop : pgic.globalPhotonsCounter ≥ pgic.params.photon.maxTracedCount
      · rw [RenderFunc.bucket_stop M pgic th hstop]
        simp only []
        rw [RenderFunc_stopped M fuel _ _ rfl]
        exact Or.inl ⟨_, rfl, rfl⟩
      · have hlt : pgic.globalPhotonsCounter < pgic.params.photon.maxTracedCount :=
          Nat.not_le.1 hstop
        rcases RenderFunc.bucket_work M pgic th hlt with
          ⟨he, hm⟩ | ⟨p, t, hok, hpar, hcnt, _, _, _⟩
        · rw [he]
          exact Or.inr ⟨rfl, hm⟩
        · rw [hok]
          simp only []
          have hc : p.globalPhotonsCounter = pgic.globalPhotonsCounter + 4096 := by
            rw [hcnt]
            unfold u32 workSize
            exact Nat.mod_eq_of_lt (by omega)
          have := ih p t (by rw [hpar]; exact hmax) (by rw [hpar, hc]; omega)
          rw [hpar] at this
          exact this
    · have hr : th.running = false := by
        cases h : th.running
        · rfl
        · exact absurd h hrun
      rw [RenderFunc_stopped M _ pgic th hr]
      exact Or.inl ⟨_, rfl, hr⟩

theorem RenderFunc.processed_le (M : Platform) :
    ∀ (fuel : Nat) (pgic : PhotonGICache) (th : TracePhotonsThread),
      pgic.params.photon.maxTracedCount + 4096 < 4294967296 →
      RenderFunc.processed M fuel pgic th ≤
        (pgic.params.photon.maxTracedCount - pgic.globalPhotonsCounter + 4095) / 4096 := by
  intro fuel
  induction fuel with
  | zero => intro pgic th _; exact Nat.zero_le _
  | succ fuel ih =>
    intro pgic th hmax
    rw [RenderFunc.processed]
    by_cases hrun : th.running = true
    · rw [if_pos hrun]
      by_cases hstop : pgic.globalPhotonsCounter ≥ pgic.params.photon.maxTracedCount
      · rw [if_neg (Nat.not_lt.2 hstop), RenderFunc.bucket_stop M pgic th hstop]
        simp only []
        cases fuel with
        | zero => simp [RenderFunc.processed]
        | succ f => simp [RenderFunc.processed]
      · have hlt : pgic.globalPhotonsCounter < pgic.params.photon.maxTracedCount :=
          Nat.not_le.1 hstop
        rw [if_pos hlt]
        rcases RenderFunc.bucket_work M pgic th hlt with
          ⟨he, _⟩ | ⟨p, t, hok, hpar, hcnt, _, _, _⟩
        · rw [he]
          simp only []
          omega
        · rw [hok]
          simp only []
          have hc : p.globalPhotonsCounter = pgic.globalPhotonsCounter + 4096 := by
            rw [hcnt]
            unfold u32 workSize
            exact Nat.mod_eq_of_lt (by omega)
          have := ih p t (by rw [hpar]; exact hmax)
          rw [hpar, hc] at this
          omega
    · rw [if_neg hrun]
      exact Nat.zero_le _

/-- C21: with `maxTracedCount + 4096 < 2^32` the outer loop of a worker run on its
own is over after at most `ceil(maxTracedCount / 4096) + 1` bucket acquisitions:
it hands back the worker, out of its loop, or (Metropolis sampler only) ends with
the error of a bucket whose bootstrap found no useful path; it processes at most
`ceil(maxTracedCount / 4096)` buckets; and a worker leaves its loop in a bucket
acquisition exactly when it observes `workCounter >= maxTracedCount` or when the
three done flags of the bucket it has just processed are all set. -/
theorem RenderFunc_terminates (M : Platform) (pgic : PhotonGICache) (th : TracePhotonsThread)
    (hmax : pgic.params.photon.maxTracedCount + 4096 < 4294967296) :
    (∀ fuel, (pgic.params.photon.maxTracedCount + 4095) / 4096 < fuel →
        (∃ r, RenderFunc M fuel pgic th = Except.ok r ∧ r.2.running = false) ∨
          (RenderFunc M fuel pgic th = Except.error RenderError.noUsefulPath ∧
            pgic.params.samplerType = PhotonGISamplerType.PGIC_SAMPLER_METROPOLIS)) ∧
      (∀ fuel, RenderFunc.processed M fuel pgic th ≤
        (pgic.params.photon.maxTracedCount + 4095) / 4096) ∧
      (∀ (pgic1 pgic2 : PhotonGICache) (th1 th2 : TracePhotonsThread), th1.running = true →
        RenderFunc.bucket M pgic1 th1 = Except.ok (pgic2, th2) →
        (th2.running = false ↔
          pgic1.globalPhotonsCounter ≥ pgic1.params.photon.maxTracedCount ∨
            (th2.directDone = true ∧ th2.indirectDone = true ∧ th2.causticDone = true))) := by
  refine ⟨?_, ?_, ?_⟩
  · intro fuel hfuel
    refine RenderFunc_ends M fuel pgic th hmax (lt_of_le_of_lt ?_ hfuel)
    exact Nat.div_le_div_right (by omega)
  · intro fuel
    refine le_trans (RenderFunc.processed_le M fuel pgic th hmax) ?_
    exact Nat.div_le_div_right (by omega)
  · intro pgic1 pgic2 th1 th2 hrun hok
    by_cases hstop : pgic1.globalPhotonsCounter ≥ pgic1.params.photon.maxTracedCount
    · rw [RenderFunc.bucket_stop M pgic1 th1 hstop] at hok
      simp only [Except.ok.injEq, Prod.mk.injEq] at hok
      rw [← hok.2]
      exact ⟨fun _ => Or.inl hstop, fun _ => rfl⟩
    · rcases RenderFunc.bucket_work M pgic1 th1 (Nat.not_le.1 hstop) with
        ⟨he, _⟩ | ⟨p, t, hok2, _, _, _, hr, _⟩
      · rw [he] at hok; cases hok
      · rw [hok2] at hok
        simp only [Except.ok.injEq, Prod.mk.injEq] at hok
        obtain ⟨_, h2⟩ := hok
        subst h2
        rw [hr, hrun]
        cases t.directDone <;> cases t.indirectDone <;> cases t.causticDone <;> simp [hstop]

theorem RenderFunc.bucket_traced_counters_witness :
    ∃ pgic2 th2, RenderFunc.bucket exactPlatform directFullCache freshThread =
        Except.ok (pgic2, th2) ∧
      directFullCache.globalPhotonsCounter < directFullCache.params.photon.maxTracedCount ∧
      directFullCache.globalPhotonsCounter + 4096 < 4294967296 ∧
      th2.directDone = true ∧ th2.indirectDone = false ∧
      pgic2.globalDirectPhotonsTraced = 0 ∧ pgic2.globalIndirectPhotonsTraced = 2 ∧
      ∀ X : PhotonClass,
        th2.doneOf X = decide (directFullCache.params.maxSizeOf X ≤ directFullCache.sizeOf X) ∧
        pgic2.tracedOf X =
          (if th2.doneOf X = true then directFullCache.tracedOf X
            else u32 (directFullCache.tracedOf X +
              min 4096 (directFullCache.params.photon.maxTracedCount -
                directFullCache.globalPhotonsCounter))) ∧
        (th2.doneOf X = false →
          directFullCache.tracedOf X +
              min 4096 (directFullCache.params.photon.maxTracedCount -
                directFullCache.globalPhotonsCounter) < 4294967296 →
          pgic2.tracedOf X = directFullCache.tracedOf X +
            min 4096 (directFullCache.params.photon.maxTracedCount -
              directFullCache.globalPhotonsCounter)) :=
  ⟨_, _, by with_unfolding_all rfl, by decide!, by decide!, by decide!, by decide!, by decide!,
    by decide!,
    RenderFunc.bucket_traced_counters exactPlatform directFullCache _ freshThread _
      (by with_unfolding_all rfl) (by decide!) (by decide!)⟩

theorem RenderFunc_terminates_witness :
    (PhotonGICache.construct floorScene allEnabledParams).params.photon.maxTracedCount + 4096 <
        4294967296 ∧
      RenderFunc.processed exactPlatform 5 (PhotonGICache.construct floorScene allEnabledParams)
        freshThread = 1 ∧
      RenderFunc.processed exactPlatform 5 (PhotonGICache.construct floorScene allEnabledParams)
          freshThread ≤
        ((PhotonGICache.construct floorScene allEnabledParams).params.photon.maxTracedCount +
          4095) / 4096 ∧
      ((∃ r, RenderFunc exactPlatform 2 (PhotonGICache.construct floorScene allEnabledParams)
            freshThread = Except.ok r ∧ r.2.running = false) ∨
        (RenderFunc exactPlatform 2 (PhotonGICache.construct floorScene allEnabledParams)
            freshThread = Except.error RenderError.noUsefulPath ∧
          (PhotonGICache.construct floorScene allEnabledParams).params.samplerType =
            PhotonGISamplerType.PGIC_SAMPLER_METROPOLIS)) :=
  ⟨by decide!, by decide!,
    (RenderFunc_terminates exactPlatform (PhotonGICache.construct floorScene allEnabledParams)
      freshThread (by decide!)).2.1 5,
    (RenderFunc_terminates exactPlatform (PhotonGICache.construct floorScene allEnabledParams)
      freshThread (by decide!)).1 2 (by decide!)⟩

/-! ## Preprocess and the queries -/

theorem Preprocess_eq (M : Platform) (schedule : List Nat) (fuel : Nat)
    (c0 c : PhotonGICache) (h : PhotonGICache.Preprocess M schedule fuel c0 = Except.ok c) :
    ∃ t, PhotonGICache.TracePhotons M schedule fuel (c0.prepareVisibility M) = Except.ok t ∧
      c = PhotonGICache.buildMaps M t := by
  unfold PhotonGICache.Preprocess at h
  cases htr : PhotonGICache.TracePhotons M schedule fuel (c0.prepareVisibility M) with
  | error e => rw [htr] at h; cases h
  | ok t =>
    rw [htr] at h
    simp only [Except.ok.injEq] at h
    exact ⟨t, rfl, h.symm⟩

theorem prepareVisibility_fields (M : Platform) (c : PhotonGICache) :
    (c.prepareVisibility M).scene = c.scene ∧
    (c.prepareVisibility M).params = c.params ∧
    (c.prepareVisibility M).directPhotons = c.directPhotons ∧
    (c.prepareVisibility M).indirectPhotons = c.indirectPhotons ∧
    (c.prepareVisibility M).causticPhotons = c.causticPhotons ∧
    (c.prepareVisibility M).radiancePhotons = c.radiancePhotons ∧
    (c.prepareVisibility M).directPhotonsBVH = c.directPhotonsBVH ∧
    (c.prepareVisibility M).indirectPhotonsBVH = c.indirectPhotonsBVH ∧
    (c.prepareVisibility M).causticPhotonsBVH = c.causticPhotonsBVH ∧
    (c.prepareVisibility M).radiancePhotonsBVH = c.radiancePhotonsBVH := by
  unfold PhotonGICache.prepareVisibility
  split_ifs <;> exact ⟨rfl, rfl, rfl, rfl, rfl, rfl, rfl, rfl, rfl, rfl⟩

theorem buildMaps_radianceBVH_none (M : Platform) (t : PhotonGICache)
    (hi : t.params.indirect.enabled = false) (hn : t.radiancePhotonsBVH = none) :
    (PhotonGICache.buildMaps M t).radiancePhotonsBVH = none := by
  obtain ⟨a1, _, _, _, _, _, _, _, a9⟩ := freeVisibilityMap_fields t
  obtain ⟨b1, _, _, _, _, _, _, _, b9⟩ := buildDirectMap_fields t.freeVisibilityMap
  obtain ⟨c1, _, _, _, _, _, _, c9⟩ := buildIndirectMap_fields t.freeVisibilityMap.buildDirectMap
  obtain ⟨d1, _, _, _, _, _, _, d9⟩ :=
    buildCausticMap_fields t.freeVisibilityMap.buildDirectMap.buildIndirectMap
  obtain ⟨_, _, _, e4⟩ := buildRadianceMap_fields M
    t.freeVisibilityMap.buildDirectMap.buildIndirectMap.buildCausticMap
  obtain ⟨_, _, _, _, u5⟩ := freeUnused_fields (PhotonGICache.buildRadianceMap M
    t.freeVisibilityMap.buildDirectMap.buildIndirectMap.buildCausticMap)
  have hrad := e4 (by rw [d9, c9, b9, a9]; exact hn)
  rw [d1, c1, b1, a1, hi] at hrad
  unfold PhotonGICache.buildMaps
  rw [u5]
  cases hr : (PhotonGICache.buildRadianceMap M
      t.freeVisibilityMap.buildDirectMap.buildIndirectMap.buildCausticMap).radiancePhotonsBVH with
  | none => rfl
  | some b =>
    rw [hr] at hrad
    have := hrad.1 rfl
    exact absurd this.2 Bool.false_ne_true

/-- C26: after `Preprocess` on a cache constructed with indirect disabled (direct
enabled or not), `radiancePhotonsBVH` is null, and `GetIndirectRadiance` and
`GetAllRadiance` return the zero spectrum for every bsdf enabled for the cache,
whatever the scene, the platform and the photons traced. -/
theorem Preprocess_indirect_disabled (M : Platform) (schedule : List Nat) (fuel : Nat)
    (scn : Scene) (p : PhotonGICacheParams) (c : PhotonGICache)
    (h : PhotonGICache.Preprocess M schedule fuel (PhotonGICache.construct scn p) = Except.ok c)
    (hi : p.indirect.enabled = false) :
    c.radiancePhotonsBVH = none ∧
      ∀ (M2 : Platform) (bsdf : BSDF), bsdf.IsPhotonGIEnabled = true →
        PhotonGICache.GetIndirectRadiance M2 c bsdf = some Spectrum.zero ∧
        PhotonGICache.GetAllRadiance M2 c bsdf = some Spectrum.zero := by
  obtain ⟨t, htr, hc⟩ := Preprocess_eq M schedule fuel _ c h
  obtain ⟨_, f2, _, _, _, f6, _, _⟩ := TracePhotons_frame M schedule fuel _ t htr
  obtain ⟨_, g2, _, _, _, _, _, _, _, g10⟩ :=
    prepareVisibility_fields M (PhotonGICache.construct scn p)
  obtain ⟨_, k2, _, _, _⟩ := construct_keeps_flags scn p
  have hti : t.params.indirect.enabled = false := by rw [f2, g2, k2]; exact hi
  have htn : t.radiancePhotonsBVH = none := by rw [f6, g10]; rfl
  have hnone : c.radiancePhotonsBVH = none := by
    rw [hc]; exact buildMaps_radianceBVH_none M t hti htn
  refine ⟨hnone, ?_⟩
  intro M2 bsdf hE
  constructor
  · unfold PhotonGICache.GetIndirectRadiance
    rw [if_pos hE, hnone]
  · unfold PhotonGICache.GetAllRadiance
    rw [if_pos hE, hnone]

theorem Preprocess_indirect_disabled_witness :
    ∃ c, PhotonGICache.Preprocess exactPlatform [] 3
        (PhotonGICache.construct floorScene directOnlyParams) = Except.ok c ∧
      directOnlyParams.direct.enabled = true ∧ directOnlyParams.indirect.enabled = false ∧
      c.directPhotonsBVH.isSome = true ∧
      c.radiancePhotonsBVH = none ∧
      ∀ (M2 : Platform) (bsdf : BSDF), bsdf.IsPhotonGIEnabled = true →
        PhotonGICache.GetIndirectRadiance M2 c bsdf = some Spectrum.zero ∧
        PhotonGICache.GetAllRadiance M2 c bsdf = some Spectrum.zero :=
  ⟨_, by with_unfolding_all rfl, by decide!, by decide!, by decide!,
    Preprocess_indirect_disabled exactPlatform [] 3 floorScene directOnlyParams _
      (by with_unfolding_all rfl) (by decide!)⟩

/-! ## The configuration -/

theorem Properties.GetOrDefault_ok {α : Type} (own defaults : List (String × α)) (name : String)
    (v : α) (h : defaults.lookup name = some v) :
    Properties.GetOrDefault own defaults name = Except.ok ((own.lookup name).getD v) := by
  unfold Properties.GetOrDefault
  cases own.lookup name with
  | some w => rfl
  | none => simp only [h]; rfl

theorem Properties.GetBool_enabled (cfg : Properties) :
    cfg.GetBool "path.photongi.direct.enabled" =
        Except.ok ((cfg.bools.lookup "path.photongi.direct.enabled").getD false) ∧
      cfg.GetBool "path.photongi.indirect.enabled" =
        Except.ok ((cfg.bools.lookup "path.photongi.indirect.enabled").getD false) ∧
      cfg.GetBool "path.photongi.caustic.enabled" =
        Except.ok ((cfg.bools.lookup "path.photongi.caustic.enabled").getD false) :=
  ⟨Properties.GetOrDefault_ok _ _ _ _ (by decide),
    Properties.GetOrDefault_ok _ _ _ _ (by decide),
    Properties.GetOrDefault_ok _ _ _ _ (by decide)⟩

theorem FromProperties_cases (params0 : PhotonGICacheParams) (DEFAULT_EPSILON_MIN : ℚ)
    (scn : Scene) (cfg : Properties) (d i c : Bool)
    (hd : cfg.GetBool "path.photongi.direct.enabled" = Except.ok d)
    (hi : cfg.GetBool "path.photongi.indirect.enabled" = Except.ok i)
    (hc : cfg.GetBool "path.photongi.caustic.enabled" = Except.ok c) :
    PhotonGICache.FromProperties params0 DEFAULT_EPSILON_MIN scn cfg =
      if (d || i || c) = true then
        match FromProperties.params DEFAULT_EPSILON_MIN cfg
            { params0 with
                direct := { params0.direct with enabled := d }
                indirect := { params0.indirect with enabled := i }
                caustic := { params0.caustic with enabled := c } } with
        | Except.error e => Except.error e
        | Except.ok p => Except.ok (some (PhotonGICache.construct scn p))
      else Except.ok none := by
  unfold PhotonGICache.FromProperties
  simp only [hd, hi, hc]

theorem FromProperties.params_tags (DEFAULT_EPSILON_MIN : ℚ) (cfg : Properties)
    (params p : PhotonGICacheParams)
    (h : FromProperties.params DEFAULT_EPSILON_MIN cfg params = Except.ok p) :
    (∃ s, cfg.GetString "path.photongi.sampler.type" = Except.ok s ∧
        PhotonGICache.String2SamplerType s = Except.ok p.samplerType) ∧
      (∃ s, cfg.GetString "path.photongi.debug.type" = Except.ok s ∧
        PhotonGICache.String2DebugType s = Except.ok p.debugType) := by
  unfold FromProperties.params at h
  repeat' split at h
  all_goals
    cases h <;> exact ⟨⟨_, by assumption, by assumption⟩, ⟨_, by assumption, by assumption⟩⟩

/-- C23 fails as stated: a configuration that names the sampler "SOBOL" and the
debug type "showall", neither of them known, and enables no class makes
`FromProperties` return the null pointer and not raise an error. -/
theorem unknown_tags_return_null :
    (∃ e, PhotonGICache.String2SamplerType "SOBOL" = Except.error e) ∧
      (∃ e, PhotonGICache.String2DebugType "showall" = Except.error e) ∧
      unknownTagsCfg.GetString "path.photongi.sampler.type" = Except.ok "SOBOL" ∧
      unknownTagsCfg.GetString "path.photongi.debug.type" = Except.ok "showall" ∧
      PhotonGICache.FromProperties allEnabledParams (1 / 1000000000) floorScene unknownTagsCfg =
        Except.ok none :=
  ⟨⟨_, by with_unfolding_all rfl⟩, ⟨_, by with_unfolding_all rfl⟩, by with_unfolding_all rfl,
    by with_unfolding_all rfl, by with_unfolding_all rfl⟩

/-- C23 (amended): when the configuration enables at least one of the three
classes, `FromProperties` raises the error of `String2SamplerType` for a sampler
name that is neither "RANDOM" nor "METROPOLIS", and raises an error for a debug
type that is not one of none, showdirect, showindirect, showcaustic; when it
enables no class it returns the null pointer without reading the two names. -/
theorem FromProperties_unknown_tag (params0 : PhotonGICacheParams) (DEFAULT_EPSILON_MIN : ℚ)
    (scn : Scene) (cfg : Properties) :
    (∀ s, (cfg.GetBool "path.photongi.direct.enabled" = Except.ok true ∨
            cfg.GetBool "path.photongi.indirect.enabled" = Except.ok true ∨
            cfg.GetBool "path.photongi.caustic.enabled" = Except.ok true) →
        cfg.GetString "path.photongi.sampler.type" = Except.ok s →
        s ≠ "RANDOM" → s ≠ "METROPOLIS" →
        PhotonGICache.FromProperties params0 DEFAULT_EPSILON_MIN scn cfg =
          Except.error ("Unknown PhotonGI cache debug type: " ++ s)) ∧
      (∀ s, (cfg.GetBool "path.photongi.direct.enabled" = Except.ok true ∨
            cfg.GetBool "path.photongi.indirect.enabled" = Except.ok true ∨
            cfg.GetBool "path.photongi.caustic.enabled" = Except.ok true) →
        cfg.GetString "path.photongi.debug.type" = Except.ok s →
        s ≠ "none" → s ≠ "showdirect" → s ≠ "showindirect" → s ≠ "showcaustic" →
        ∃ e, PhotonGICache.FromProperties params0 DEFAULT_EPSILON_MIN scn cfg =
          Except.error e) ∧
      (cfg.GetBool "path.photongi.direct.enabled" = Except.ok false →
        cfg.GetBool "path.photongi.indirect.enabled" = Except.ok false →
        cfg.GetBool "path.photongi.caustic.enabled" = Except.ok false →
        PhotonGICache.FromProperties params0 DEFAULT_EPSILON_MIN scn cfg = Except.ok none) := by
  obtain ⟨hd, hi, hc⟩ := Properties.GetBool_enabled cfg
  have hcases := FromProperties_cases params0 DEFAULT_EPSILON_MIN scn cfg _ _ _ hd hi hc
  have hen : (cfg.GetBool "path.photongi.direct.enabled" = Except.ok true ∨
        cfg.GetBool "path.photongi.indirect.enabled" = Except.ok true ∨
        cfg.GetBool "path.photongi.caustic.enabled" = Except.ok true) →
      (((cfg.bools.lookup "path.photongi.direct.enabled").getD false ||
        (cfg.bools.lookup "path.photongi.indirect.enabled").getD false ||
        (cfg.bools.lookup "path.photongi.caustic.enabled").getD false) = true) := by
    rw [hd, hi, hc]
    simp only [Except.ok.injEq]
    rintro (h | h | h) <;> simp [h]
  refine ⟨?_, ?_, ?_⟩
  · intro s he hs h1 h2
    rw [hcases, if_pos (hen he)]
    have hS : PhotonGICache.String2SamplerType s =
        Except.error ("Unknown PhotonGI cache debug type: " ++ s) := by
      unfold PhotonGICache.String2SamplerType
      rw [if_neg h1, if_neg h2]
    unfold FromProperties.params
    simp only [hs, hS]
  · intro s he hs h1 h2 h3 h4
    rw [hcases, if_pos (hen he)]
    cases hp : FromProperties.params DEFAULT_EPSILON_MIN cfg
        { params0 with
            direct := { params0.direct with
              enabled := (cfg.bools.lookup "path.photongi.direct.enabled").getD false }
            indirect := { params0.indirect with
              enabled := (cfg.bools.lookup "path.photongi.indirect.enabled").getD false }
            caustic := { params0.caustic with
              enabled := (cfg.bools.lookup "path.photongi.caustic.enabled").getD false } } with
    | error e => exact ⟨e, rfl⟩
    | ok p =>
      obtain ⟨_, ⟨s2, hs2, hD⟩⟩ := FromProperties.params_tags _ _ _ _ hp
      rw [hs] at hs2
      cases hs2
      unfold PhotonGICache.String2DebugType at hD
      rw [if_neg h2, if_neg h3, if_neg h4, if_neg h1] at hD
      cases hD
  · intro h1 h2 h3
    rw [hd] at h1
    rw [hi] at h2
    rw [hc] at h3
    simp only [Except.ok.injEq] at h1 h2 h3
    rw [hcases, h1, h2, h3]
    rfl

/-- C24: `FromProperties` returns the null pointer exactly when the configuration
reads direct, indirect and caustic as disabled; the default properties disable
the three classes, so `FromProperties` on the empty configuration returns the
null pointer. -/
theorem FromProperties_null (params0 : PhotonGICacheParams) (DEFAULT_EPSILON_MIN : ℚ)
    (scn : Scene) (cfg : Properties) :
    (PhotonGICache.FromProperties params0 DEFAULT_EPSILON_MIN scn cfg = Except.ok none ↔
        cfg.GetBool "path.photongi.direct.enabled" = Except.ok false ∧
        cfg.GetBool "path.photongi.indirect.enabled" = Except.ok false ∧
        cfg.GetBool "path.photongi.caustic.enabled" = Except.ok false) ∧
      PhotonGICache.GetDefaultProps.bools.lookup "path.photongi.direct.enabled" = some false ∧
      PhotonGICache.GetDefaultProps.bools.lookup "path.photongi.indirect.enabled" = some false ∧
      PhotonGICache.GetDefaultProps.bools.lookup "path.photongi.caustic.enabled" = some false ∧
      PhotonGICache.FromProperties params0 DEFAULT_EPSILON_MIN scn emptyCfg = Except.ok none := by
  obtain ⟨hd, hi, hc⟩ := Properties.GetBool_enabled cfg
  have hcases := FromProperties_cases params0 DEFAULT_EPSILON_MIN scn cfg _ _ _ hd hi hc
  refine ⟨?_, by decide, by decide, by decide, ?_⟩
  · rw [hcases, hd, hi, hc]
    simp only [Except.ok.injEq]
    cases (cfg.bools.lookup "path.photongi.direct.enabled").getD false <;>
      cases (cfg.bools.lookup "path.photongi.indirect.enabled").getD false <;>
      cases (cfg.bools.lookup "path.photongi.caustic.enabled").getD false <;>
      simp <;>
      (split <;> simp)
  · obtain ⟨ed, ei, ec⟩ := Properties.GetBool_enabled emptyCfg
    rw [FromProperties_cases params0 DEFAULT_EPSILON_MIN scn emptyCfg _ _ _ ed ei ec]
    rfl

/-- The direct class enabled and the sampler "SOBOL": the error of
`String2SamplerType` comes out of `FromProperties`. -/
theorem FromProperties_unknownSamplerCfg :
    PhotonGICache.FromProperties allEnabledParams (1 / 1000000000) floorScene unknownSamplerCfg =
      Except.error "Unknown PhotonGI cache debug type: SOBOL" := by
  with_unfolding_all rfl

/-- The direct class enabled and nothing else defined: a cache comes out, with the
Metropolis sampler, 500000 photons and depth 4 of the defaults. -/
theorem FromProperties_directCfg :
    (PhotonGICache.FromProperties allEnabledParams (1 / 1000000000) floorScene
        ⟨[("path.photongi.direct.enabled", true)], [], [], []⟩).toOption.map
        (fun c => c.map (fun pgic => (pgic.params.samplerType, pgic.params.photon))) =
      some (some (PhotonGISamplerType.PGIC_SAMPLER_METROPOLIS, ⟨500000, 4⟩)) := by
  decide!

/-! ## The mutation size of the Metropolis chain -/

theorem UniformMutate_rndGen :
    ∀ (n : Nat) (g : RandomGenerator), (UniformMutate g n).2 = ⟨g.draws, g.pos + n⟩ := by
  intro n
  induction n with
  | zero => intro g; rfl
  | succ n ih =>
    intro g
    simp only [UniformMutate, ih, RandomGenerator.floatValue]
    congr 1
    omega

theorem UniformMutate_second (n : Nat) (g : RandomGenerator) :
    (UniformMutate g (n + 2)).1.getD 1 0 = g.draws (g.pos + 1) := by
  simp [UniformMutate, RandomGenerator.floatValue]

theorem Mutate_second (M : Platform) (g : RandomGenerator) (a b : ℚ) (rest : List ℚ) (ms : ℚ) :
    (Mutate M g (a :: b :: rest) ms).1.getD 1 0 =
      (Mutate.component M ⟨g.draws, g.pos + 2⟩ ms b).1 := by
  simp [Mutate, Mutate.component, RandomGenerator.floatValue]

theorem TracePhotonPath_pinhole (th : TracePhotonsThread) (g : RandomGenerator)
    (samples : List ℚ) (h : samples.getD 1 0 ≠ 3 / 4) :
    TracePhotonPath pinholeCache th g samples = ⟨false, PathPhotons.empty, g⟩ := by
  unfold TracePhotonPath
  have hs : pinholeCache.scene.SampleLights (samples.getD 1 0) = none := by
    show (if samples.getD 1 0 = 3 / 4 then some (downLight, 1) else none) = none
    rw [if_neg h]
  rw [hs]

theorem Mutate_rndGen (M : Platform) (ms : ℚ) :
    ∀ (l : List ℚ) (g : RandomGenerator), (Mutate M g l ms).2 = ⟨g.draws, g.pos + 2 * l.length⟩ := by
  intro l
  induction l with
  | nil => intro g; rfl
  | cons a l ih =>
    intro g
    simp only [Mutate, ih, Mutate.component, RandomGenerator.floatValue, List.length_cons]
    congr 1
    omega

theorem RenderFunc.chainStep_reject (M : Platform) (pgic : PhotonGICache) (c : ChainState)
    (h1 : RenderFunc.adoptsUniform pgic c = false)
    (h2 : RenderFunc.acceptsMutation M pgic c = false) :
    RenderFunc.chainStep M pgic c =
      { c with
          rndGen := (TracePhotonPath pgic c.th
            (Mutate M (TracePhotonPath pgic c.th (UniformMutate c.rndGen (sampleSize pgic)).2
              (UniformMutate c.rndGen (sampleSize pgic)).1).rndGen c.currentPathSamples
              c.mutationSize).2
            (Mutate M (TracePhotonPath pgic c.th (UniformMutate c.rndGen (sampleSize pgic)).2
              (UniformMutate c.rndGen (sampleSize pgic)).1).rndGen c.currentPathSamples
              c.mutationSize).1).rndGen
          mutatedCount := c.mutatedCount + 1
          currentPhotonsScale := c.currentPhotonsScale + 1
          mutationSize := c.mutationSize +
            ((c.acceptedCount : ℚ) / ((c.mutatedCount + 1 : Nat) : ℚ) - 234 / 1000) /
              ((c.mutatedCount + 1 : Nat) : ℚ) } := by
  unfold RenderFunc.adoptsUniform at h1
  unfold RenderFunc.acceptsMutation at h2
  simp only at h2
  unfold RenderFunc.chainStep
  simp only [h1, h2]
  rfl

theorem sampleSize_pinhole : sampleSize pinholeCache = 21 + 2 := by
  with_unfolding_all rfl

theorem Mutate_length (M : Platform) (ms : ℚ) :
    ∀ (l : List ℚ) (g : RandomGenerator), (Mutate M g l ms).1.length = l.length := by
  intro l
  induction l with
  | nil => intro g; rfl
  | cons a l ih =>
    intro g
    simp only [Mutate, List.length_cons, ih]

theorem msSeq_step_le (j : Nat) (h : 3 ≤ j) : msSeq (j + 1) ≤ msSeq j := by
  rw [msSeq]
  have hj : (3 : ℚ) ≤ (j : ℚ) := by exact_mod_cast h
  have hpos : (0 : ℚ) < (j : ℚ) + 2 := by linarith
  have h1 : 1 / ((j : ℚ) + 2) ≤ 1 / 5 := by
    apply div_le_div_of_nonneg_left <;> linarith
  have h2 : (1 / ((j : ℚ) + 2) - 234 / 1000) / ((j : ℚ) + 2) ≤ 0 :=
    div_nonpos_of_nonpos_of_nonneg (by linarith) (le_of_lt hpos)
  linarith

theorem msSeq_antitone (j : Nat) (h : 3 ≤ j) : ∀ n, j ≤ n → msSeq n ≤ msSeq j := by
  intro n hn
  induction n, hn using Nat.le_induction with
  | base => exact le_refl _
  | succ n hn ih => exact le_trans (msSeq_step_le n (le_trans h hn)) ih

theorem msSeq_add_pow : ∀ (d a : Nat), msSeq (a + 2 ^ d) = msSeq a + msSum d a := by
  intro d
  induction d with
  | zero => intro a; rfl
  | succ d ih =>
    intro a
    rw [show a + 2 ^ (d + 1) = (a + 2 ^ d) + 2 ^ d by rw [pow_succ]; omega, ih, ih, msSum]
    ring

theorem msSeq_1719_eq :
    msSeq 1719 = 1 + msSum 10 0 + msSum 9 1024 + msSum 7 1536 + msSum 5 1664 + msSum 4 1696 +
      msSum 2 1712 + msSum 1 1716 + msSum 0 1718 := by
  have h0 : msSeq 0 = 1 := rfl
  have h1 := msSeq_add_pow 10 0
  have h2 := msSeq_add_pow 9 1024
  have h3 := msSeq_add_pow 7 1536
  have h4 := msSeq_add_pow 5 1664
  have h5 := msSeq_add_pow 4 1696
  have h6 := msSeq_add_pow 2 1712
  have h7 := msSeq_add_pow 1 1716
  have h8 := msSeq_add_pow 0 1718
  rw [show 0 + 2 ^ 10 = 1024 by norm_num, h0] at h1
  rw [show 1024 + 2 ^ 9 = 1536 by norm_num, h1] at h2
  rw [show 1536 + 2 ^ 7 = 1664 by norm_num, h2] at h3
  rw [show 1664 + 2 ^ 5 = 1696 by norm_num, h3] at h4
  rw [show 1696 + 2 ^ 4 = 1712 by norm_num, h4] at h5
  rw [show 1712 + 2 ^ 2 = 1716 by norm_num, h5] at h6
  rw [show 1716 + 2 ^ 1 = 1718 by norm_num, h6] at h7
  rw [show 1718 + 2 ^ 0 = 1719 by norm_num, h7] at h8
  exact h8

theorem RenderFunc.chain_add (M : Platform) (pgic : PhotonGICache) :
    ∀ (a b : Nat) (c : ChainState),
      RenderFunc.chain M pgic (a + b) c = RenderFunc.chain M pgic b (RenderFunc.chain M pgic a c) := by
  intro a
  induction a with
  | zero => intro b c; rw [Nat.zero_add]; rfl
  | succ a ih =>
    intro b c
    rw [show a + 1 + b = (a + b) + 1 by omega, RenderFunc.chain, RenderFunc.chain, ih]

/-! ## Running Preprocess again -/

/-- `TracePhotons` appends to the four vectors of the cache. -/
theorem TracePhotons_appends (M : Platform) (schedule : List Nat) (fuel : Nat)
    (c t : PhotonGICache)
    (h : PhotonGICache.TracePhotons M schedule fuel c = Except.ok t) :
    ∃ (d i k : List Photon) (r : List RadiancePhoton),
      t.directPhotons = c.directPhotons ++ d ∧
      t.indirectPhotons = c.indirectPhotons ++ i ∧
      t.causticPhotons = c.causticPhotons ++ k ∧
      t.radiancePhotons = c.radiancePhotons ++ r ∧
      t.globalDirectSize = d.length % 4294967296 ∧
      t.globalCausticSize = k.length % 4294967296 := by
  obtain ⟨st, ⟨hsame, hsize⟩, ht⟩ := TracePhotons_preserves M (sizeInv c.resetCounters)
    (RenderFunc.bucket_sizeInv M c.resetCounters) schedule fuel c t
    (sizeInv_resetCounters c) h
  have hd := hsize PhotonClass.direct
  have hk := hsize PhotonClass.caustic
  simp only [← storedCount_flatten, TracePhotonsThread.ofClass] at hd hk
  obtain ⟨_, _, _, _, _, _, _, e8, e9, e10, e11, _⟩ := hsame
  refine ⟨(st.renderThreads.map (fun th => th.directPhotons)).flatten,
    (st.renderThreads.map (fun th => th.indirectPhotons)).flatten,
    (st.renderThreads.map (fun th => th.causticPhotons)).flatten,
    (st.renderThreads.map (fun th => th.radiancePhotons)).flatten,
    ?_, ?_, ?_, ?_, ?_, ?_⟩
  · rw [ht]; simp only [TraceState.collect]; rw [e8]; rfl
  · rw [ht]; simp only [TraceState.collect]; rw [e9]; rfl
  · rw [ht]; simp only [TraceState.collect]; rw [e10]; rfl
  · rw [ht]; simp only [TraceState.collect]; rw [e11]; rfl
  · rw [ht]; exact hd
  · rw [ht]; exact hk

theorem buildSteps_vectors (t : PhotonGICache) :
    t.freeVisibilityMap.buildDirectMap.buildIndirectMap.buildCausticMap.params = t.params ∧
      t.freeVisibilityMap.buildDirectMap.buildIndirectMap.buildCausticMap.directPhotons =
        t.directPhotons ∧
      t.freeVisibilityMap.buildDirectMap.buildIndirectMap.buildCausticMap.causticPhotons =
        t.causticPhotons ∧
      t.freeVisibilityMap.buildDirectMap.buildIndirectMap.buildCausticMap.radiancePhotons =
        t.radiancePhotons := by
  obtain ⟨a1, a2, _, a4, a5, _⟩ := freeVisibilityMap_fields t
  obtain ⟨b1, b2, _, b4, b5, _⟩ := buildDirectMap_fields t.freeVisibilityMap
  obtain ⟨c1, c2, _, c4, c5, _⟩ := buildIndirectMap_fields t.freeVisibilityMap.buildDirectMap
  obtain ⟨d1, d2, _, d4, d5, _⟩ :=
    buildCausticMap_fields t.freeVisibilityMap.buildDirectMap.buildIndirectMap
  exact ⟨by rw [d1, c1, b1, a1], by rw [d2, c2, b2, a2], by rw [d4, c4, b4, a4],
    by rw [d5, c5, b5, a5]⟩

theorem buildRadianceMap_vectors (M : Platform) (c : PhotonGICache) :
    (PhotonGICache.buildRadianceMap M c).directPhotons = c.directPhotons ∧
      (PhotonGICache.buildRadianceMap M c).causticPhotons = c.causticPhotons ∧
      (PhotonGICache.buildRadianceMap M c).radiancePhotons.length = c.radiancePhotons.length := by
  unfold PhotonGICache.buildRadianceMap
  split_ifs
  · exact ⟨rfl, rfl, by simp [PhotonGICache.FillRadiancePhotonsData]⟩
  · exact ⟨rfl, rfl, rfl⟩

theorem freeUnused_vectors (c : PhotonGICache) :
    c.freeUnused.directPhotons = (if c.params.direct.enabled then c.directPhotons else []) ∧
      c.freeUnused.causticPhotons = (if c.params.caustic.enabled then c.causticPhotons else []) ∧
      c.freeUnused.radiancePhotons = c.radiancePhotons := by
  unfold PhotonGICache.freeUnused
  cases hd : c.params.direct.enabled <;> cases hk : c.params.caustic.enabled <;>
    simp [hd, hk]

/-- What the map building of `Preprocess` leaves in the vectors: the direct and
the caustic vector are emptied when their class is disabled and kept otherwise,
and the radiance vector keeps its length. -/
theorem buildMaps_vectors (M : Platform) (t : PhotonGICache) :
    (PhotonGICache.buildMaps M t).directPhotons =
        (if t.params.direct.enabled then t.directPhotons else []) ∧
      (PhotonGICache.buildMaps M t).causticPhotons =
        (if t.params.caustic.enabled then t.causticPhotons else []) ∧
      (PhotonGICache.buildMaps M t).radiancePhotons.length = t.radiancePhotons.length := by
  obtain ⟨s1, s2, s3, s4⟩ := buildSteps_vectors t
  obtain ⟨r0, _⟩ := buildRadianceMap_fields M
    t.freeVisibilityMap.buildDirectMap.buildIndirectMap.buildCausticMap
  obtain ⟨r1, r2, r3⟩ := buildRadianceMap_vectors M
    t.freeVisibilityMap.buildDirectMap.buildIndirectMap.buildCausticMap
  obtain ⟨u1, u2, u3⟩ := freeUnused_vectors (PhotonGICache.buildRadianceMap M
    t.freeVisibilityMap.buildDirectMap.buildIndirectMap.buildCausticMap)
  unfold PhotonGICache.buildMaps
  rw [u1, u2, u3, r0, r1, r2, r3, s1, s2, s3, s4]
  exact ⟨rfl, rfl, rfl⟩

/-- C25 fails as stated: on the floor scene with the three classes enabled and on
the mirror scene, `Preprocess` is run on a fresh cache and then once more on the
cache it left (same platform, a single worker, same seeds).  The first run
leaves 2 direct and 2 radiance photons on the floor scene and 2 caustic photons
on the mirror scene; after the second run the direct vector is the first one
twice over, and there are 4 radiance photons and 4 caustic photons. -/
theorem second_Preprocess_doubles_vectors :
    exactPlatform.hardware_concurrency = 1 ∧
    (∃ c1 c2, PhotonGICache.Preprocess exactPlatform [] 3
          (PhotonGICache.construct floorScene allEnabledParams) = Except.ok c1 ∧
        PhotonGICache.Preprocess exactPlatform [] 3 c1 = Except.ok c2 ∧
        c1.directPhotons.length = 2 ∧ c1.radiancePhotons.length = 2 ∧
        c2.directPhotons = c1.directPhotons ++ c1.directPhotons ∧
        c2.radiancePhotons.length = 4) ∧
    (∃ c1 c2, PhotonGICache.Preprocess exactPlatform [] 3
          (PhotonGICache.construct mirrorScene allEnabledParams) = Except.ok c1 ∧
        PhotonGICache.Preprocess exactPlatform [] 3 c1 = Except.ok c2 ∧
        c1.causticPhotons.length = 2 ∧ c2.causticPhotons.length = 4) :=
  ⟨rfl,
    ⟨_, _, by with_unfolding_all rfl, by with_unfolding_all rfl, by decide!, by decide!,
      by with_unfolding_all rfl, by decide!⟩,
    ⟨_, _, by with_unfolding_all rfl, by with_unfolding_all rfl, by decide!, by decide!⟩⟩

/-- C25 (amended): `Preprocess` appends.  Run on any cache `c1`, in particular on
one that was preprocessed before, it leaves in the direct vector the direct
vector of `c1` followed by the direct photons `d` that this run traced when
direct is enabled (and nothing when it is disabled), likewise in the caustic
vector, and the radiance vector has the length of that of `c1` plus the number
of radiance photons `r` that this run traced.  So a stored vector of an enabled
class is what it was before the run exactly when this run traced no photon of
that class. -/
theorem Preprocess_appends (M : Platform) (schedule : List Nat) (fuel : Nat)
    (c1 c2 : PhotonGICache)
    (h : PhotonGICache.Preprocess M schedule fuel c1 = Except.ok c2) :
    ∃ (d k : List Photon) (r : List RadiancePhoton),
      c2.directPhotons = (if c1.params.direct.enabled then c1.directPhotons ++ d else []) ∧
      c2.causticPhotons = (if c1.params.caustic.enabled then c1.causticPhotons ++ k else []) ∧
      c2.radiancePhotons.length = c1.radiancePhotons.length + r.length ∧
      (c1.params.direct.enabled = true → (c2.directPhotons = c1.directPhotons ↔ d = [])) ∧
      (c1.params.caustic.enabled = true → (c2.causticPhotons = c1.causticPhotons ↔ k = [])) ∧
      (c2.radiancePhotons.length = c1.radiancePhotons.length ↔ r = []) := by
  obtain ⟨t, htr, hc⟩ := Preprocess_eq M schedule fuel c1 c2 h
  obtain ⟨d, i, k, r, hd, _, hk, hr, _, _⟩ := TracePhotons_appends M schedule fuel _ t htr
  obtain ⟨_, hp, -⟩ := TracePhotons_frame M schedule fuel _ t htr
  obtain ⟨_, v2, v3, _, v5, v6, _⟩ := prepareVisibility_fields M c1
  obtain ⟨m1, m2, m3⟩ := buildMaps_vectors M t
  rw [v3] at hd
  rw [v5] at hk
  rw [v6] at hr
  rw [v2] at hp
  rw [hp, hd] at m1
  rw [hp, hk] at m2
  rw [hr, List.length_append] at m3
  rw [← hc] at m1 m2 m3
  refine ⟨d, k, r, m1, m2, m3, ?_, ?_, ?_⟩
  · intro he
    rw [m1, if_pos he]
    exact List.append_right_eq_self
  · intro he
    rw [m2, if_pos he]
    exact List.append_right_eq_self
  · rw [m3]
    constructor
    · intro hl
      exact List.length_eq_zero.mp (by omega)
    · intro hl
      rw [hl]
      rfl

theorem Preprocess_appends_witness :
    ∃ c1 c2, PhotonGICache.Preprocess exactPlatform [] 3
        (PhotonGICache.construct floorScene allEnabledParams) = Except.ok c1 ∧
      PhotonGICache.Preprocess exactPlatform [] 3 c1 = Except.ok c2 ∧
      ∃ (d k : List Photon) (r : List RadiancePhoton),
        c2.directPhotons = (if c1.params.direct.enabled then c1.directPhotons ++ d else []) ∧
        c2.causticPhotons = (if c1.params.caustic.enabled then c1.causticPhotons ++ k else []) ∧
        c2.radiancePhotons.length = c1.radiancePhotons.length + r.length ∧
        (c1.params.direct.enabled = true → (c2.directPhotons = c1.directPhotons ↔ d = [])) ∧
        (c1.params.caustic.enabled = true → (c2.causticPhotons = c1.causticPhotons ↔ k = [])) ∧
        (c2.radiancePhotons.length = c1.radiancePhotons.length ↔ r = []) :=
  ⟨_, _, by with_unfolding_all rfl, by with_unfolding_all rfl,
    Preprocess_appends exactPlatform [] 3 _ _ (by with_unfolding_all rfl)⟩

/-! ## The names of the sampler and debug types -/

/-- C39: `String2SamplerType` and `SamplerType2String` are inverse to each other
on the two sampler types and the strings "RANDOM" and "METROPOLIS", and
`String2DebugType` and `DebugType2String` on the four debug types and the strings
"none", "showdirect", "showindirect" and "showcaustic"; each `String2...`
function raises its error on every other string, for instance on "random" and
"None": the comparison is case-sensitive. -/
theorem String2Type_Type2String_inverse :
    (∀ t, PhotonGICache.String2SamplerType (PhotonGICache.SamplerType2String t) = Except.ok t) ∧
      (∀ s t, PhotonGICache.String2SamplerType s = Except.ok t →
        PhotonGICache.SamplerType2String t = s) ∧
      (∀ s, s ≠ "RANDOM" → s ≠ "METROPOLIS" →
        PhotonGICache.String2SamplerType s =
          Except.error ("Unknown PhotonGI cache debug type: " ++ s)) ∧
      (∀ t, PhotonGICache.String2DebugType (PhotonGICache.DebugType2String t) = Except.ok t) ∧
      (∀ s t, PhotonGICache.String2DebugType s = Except.ok t →
        PhotonGICache.DebugType2String t = s) ∧
      (∀ s, s ≠ "none" → s ≠ "showdirect" → s ≠ "showindirect" → s ≠ "showcaustic" →
        PhotonGICache.String2DebugType s =
          Except.error ("Unknown PhotonGI cache debug type: " ++ s)) ∧
      PhotonGICache.String2SamplerType "random" =
        Except.error "Unknown PhotonGI cache debug type: random" ∧
      PhotonGICache.String2DebugType "None" =
        Except.error "Unknown PhotonGI cache debug type: None" := by
  refine ⟨?_, ?_, ?_, ?_, ?_, ?_, by with_unfolding_all rfl, by with_unfolding_all rfl⟩
  · intro t
    cases t <;> with_unfolding_all rfl
  · intro s t h
    unfold PhotonGICache.String2SamplerType at h
    split_ifs at h with h1 h2
    · cases h; exact h1.symm
    · cases h; exact h2.symm
  · intro s h1 h2
    unfold PhotonGICache.String2SamplerType
    rw [if_neg h1, if_neg h2]
  · intro t
    cases t <;> with_unfolding_all rfl
  · intro s t h
    unfold PhotonGICache.String2DebugType at h
    split_ifs at h with h1 h2 h3 h4
    · cases h; exact h1.symm
    · cases h; exact h2.symm
    · cases h; exact h3.symm
    · cases h; exact h4.symm
  · intro s h1 h2 h3 h4
    unfold PhotonGICache.String2DebugType
    rw [if_neg h2, if_neg h3, if_neg h4, if_neg h1]

/-! ## The clamps of `FromProperties` -/

theorem FromProperties.classParams_clamped (DEFAULT_EPSILON_MIN : ℚ)
    (heps : 0 < DEFAULT_EPSILON_MIN) (cfg : Properties)
    (maxsize maxcount radius normalangle : String) (p q : PhotonClassParams)
    (h : FromProperties.classParams DEFAULT_EPSILON_MIN cfg maxsize maxcount radius normalangle p =
      Except.ok q) :
    q.enabled = p.enabled ∧
      (q.enabled = true →
        1 ≤ q.lookUpMaxCount ∧ 0 < q.lookUpRadius ∧ 0 < q.lookUpNormalAngle) := by
  unfold FromProperties.classParams at h
  by_cases he : p.enabled = true
  · rw [if_pos he] at h
    repeat' split at h
    all_goals first
      | (cases h; done)
      | (cases h
         exact ⟨rfl, fun _ => ⟨le_max_left _ _, lt_of_lt_of_le heps (le_max_left _ _),
           lt_of_lt_of_le heps (le_max_left _ _)⟩⟩)
  · rw [if_neg he] at h
    simp only [Except.ok.injEq] at h
    rw [← h]
    exact ⟨rfl, fun hq => absurd hq he⟩

theorem FromProperties.visibility_random (DEFAULT_EPSILON_MIN : ℚ) (cfg : Properties)
    (samplerType : PhotonGISamplerType) (v w : VisibilityParams)
    (h : FromProperties.visibility DEFAULT_EPSILON_MIN cfg samplerType v = Except.ok w)
    (hr : samplerType = PhotonGISamplerType.PGIC_SAMPLER_RANDOM) : w.enabled = false := by
  unfold FromProperties.visibility at h
  rw [if_neg (by rw [hr]; decide)] at h
  simp only [Except.ok.injEq] at h
  rw [← h]

theorem FromProperties.params_clamped (DEFAULT_EPSILON_MIN : ℚ)
    (heps : 0 < DEFAULT_EPSILON_MIN) (cfg : Properties) (params p : PhotonGICacheParams)
    (h : FromProperties.params DEFAULT_EPSILON_MIN cfg params = Except.ok p) :
    1 ≤ p.photon.maxTracedCount ∧ 1 ≤ p.photon.maxPathDepth ∧
      (p.direct.enabled = true →
        1 ≤ p.direct.lookUpMaxCount ∧ 0 < p.direct.lookUpRadius ∧
          0 < p.direct.lookUpNormalAngle) ∧
      (p.indirect.enabled = true →
        1 ≤ p.indirect.lookUpMaxCount ∧ 0 < p.indirect.lookUpRadius ∧
          0 < p.indirect.lookUpNormalAngle) ∧
      (p.caustic.enabled = true →
        1 ≤ p.caustic.lookUpMaxCount ∧ 0 < p.caustic.lookUpRadius ∧
          0 < p.caustic.lookUpNormalAngle) ∧
      (p.samplerType = PhotonGISamplerType.PGIC_SAMPLER_RANDOM → p.visibility.enabled = false) ∧
      p.direct.enabled = params.direct.enabled ∧ p.indirect.enabled = params.indirect.enabled ∧
      p.caustic.enabled = params.caustic.enabled := by
  unfold FromProperties.params at h
  repeat' split at h
  all_goals first
    | (cases h; done)
    | (cases h
       obtain ⟨d1, d2⟩ := FromProperties.classParams_clamped DEFAULT_EPSILON_MIN heps cfg
         "path.photongi.direct.maxsize" "path.photongi.direct.lookup.maxcount"
         "path.photongi.direct.lookup.radius" "path.photongi.direct.lookup.normalangle"
         params.direct _ (by assumption)
       obtain ⟨i1, i2⟩ := FromProperties.classParams_clamped DEFAULT_EPSILON_MIN heps cfg
         "path.photongi.indirect.maxsize" "path.photongi.indirect.lookup.maxcount"
         "path.photongi.indirect.lookup.radius" "path.photongi.indirect.lookup.normalangle"
         params.indirect _ (by assumption)
       obtain ⟨c1, c2⟩ := FromProperties.classParams_clamped DEFAULT_EPSILON_MIN heps cfg
         "path.photongi.caustic.maxsize" "path.photongi.caustic.lookup.maxcount"
         "path.photongi.caustic.lookup.radius" "path.photongi.caustic.lookup.normalangle"
         params.caustic _ (by assumption)
       exact ⟨le_max_left _ _, le_max_left _ _, d2, i2, c2,
         fun hr => FromProperties.visibility_random DEFAULT_EPSILON_MIN cfg _ params.visibility _
           (by assumption) hr, d1, i1, c1⟩)

theorem Properties.GetUInt_ok (cfg : Properties) (name : String) (v : Nat)
    (h : PhotonGICache.GetDefaultProps.uints.lookup name = some v) :
    cfg.GetUInt name = Except.ok ((cfg.uints.lookup name).getD v) :=
  Properties.GetOrDefault_ok _ _ _ _ h

theorem Properties.GetFloat_ok (cfg : Properties) (name : String) (v : ℚ)
    (h : PhotonGICache.GetDefaultProps.floats.lookup name = some v) :
    cfg.GetFloat name = Except.ok ((cfg.floats.lookup name).getD v) :=
  Properties.GetOrDefault_ok _ _ _ _ h

theorem Properties.GetBool_ok (cfg : Properties) (name : String) (v : Bool)
    (h : PhotonGICache.GetDefaultProps.bools.lookup name = some v) :
    cfg.GetBool name = Except.ok ((cfg.bools.lookup name).getD v) :=
  Properties.GetOrDefault_ok _ _ _ _ h

theorem FromProperties.classParams_ok (DEFAULT_EPSILON_MIN : ℚ) (cfg : Properties)
    (maxsize maxcount radius normalangle : String) (p : PhotonClassParams)
    (v1 v2 : Nat) (v3 v4 : ℚ)
    (h1 : PhotonGICache.GetDefaultProps.uints.lookup maxsize = some v1)
    (h2 : PhotonGICache.GetDefaultProps.uints.lookup maxcount = some v2)
    (h3 : PhotonGICache.GetDefaultProps.floats.lookup radius = some v3)
    (h4 : PhotonGICache.GetDefaultProps.floats.lookup normalangle = some v4) :
    ∃ q, FromProperties.classParams DEFAULT_EPSILON_MIN cfg maxsize maxcount radius normalangle p =
      Except.ok q := by
  unfold FromProperties.classParams
  rw [Properties.GetUInt_ok cfg _ _ h1, Properties.GetUInt_ok cfg _ _ h2,
    Properties.GetFloat_ok cfg _ _ h3, Properties.GetFloat_ok cfg _ _ h4]
  by_cases he : p.enabled = true
  · rw [if_pos he]; exact ⟨_, rfl⟩
  · rw [if_neg he]; exact ⟨_, rfl⟩

theorem FromProperties.visibility_ok (DEFAULT_EPSILON_MIN : ℚ) (cfg : Properties)
    (samplerType : PhotonGISamplerType) (v : VisibilityParams) :
    ∃ w, FromProperties.visibility DEFAULT_EPSILON_MIN cfg samplerType v = Except.ok w := by
  unfold FromProperties.visibility
  rw [Properties.GetBool_ok cfg _ _ (show _ = some true by decide),
    Properties.GetFloat_ok cfg "path.photongi.visibility.targethitrate" _
      (show _ = some (99 / 100) by with_unfolding_all rfl),
    Properties.GetUInt_ok cfg _ _ (show _ = some (1024 * 1024) by decide),
    Properties.GetFloat_ok cfg "path.photongi.visibility.lookup.radius" _
      (show _ = some (15 / 100) by with_unfolding_all rfl),
    Properties.GetFloat_ok cfg "path.photongi.visibility.lookup.normalangle" _
      (show _ = some 10 by with_unfolding_all rfl)]
  by_cases he : samplerType = PhotonGISamplerType.PGIC_SAMPLER_METROPOLIS
  · rw [if_pos he]; exact ⟨_, rfl⟩
  · rw [if_neg he]; exact ⟨_, rfl⟩

theorem FromProperties.params_ok (DEFAULT_EPSILON_MIN : ℚ) (cfg : Properties)
    (params : PhotonGICacheParams) (s1 s2 : String) (t1 : PhotonGISamplerType)
    (t2 : PhotonGIDebugType)
    (hs1 : cfg.GetString "path.photongi.sampler.type" = Except.ok s1)
    (ht1 : PhotonGICache.String2SamplerType s1 = Except.ok t1)
    (hs2 : cfg.GetString "path.photongi.debug.type" = Except.ok s2)
    (ht2 : PhotonGICache.String2DebugType s2 = Except.ok t2) :
    ∃ p, FromProperties.params DEFAULT_EPSILON_MIN cfg params = Except.ok p := by
  obtain ⟨w, hw⟩ := FromProperties.visibility_ok DEFAULT_EPSILON_MIN cfg t1 params.visibility
  obtain ⟨d, hd⟩ := FromProperties.classParams_ok DEFAULT_EPSILON_MIN cfg
    "path.photongi.direct.maxsize" "path.photongi.direct.lookup.maxcount"
    "path.photongi.direct.lookup.radius" "path.photongi.direct.lookup.normalangle"
    params.direct 25000 64 (15 / 100) 10 (by decide) (by decide)
    (by with_unfolding_all rfl) (by with_unfolding_all rfl)
  obtain ⟨i, hi⟩ := FromProperties.classParams_ok DEFAULT_EPSILON_MIN cfg
    "path.photongi.indirect.maxsize" "path.photongi.indirect.lookup.maxcount"
    "path.photongi.indirect.lookup.radius" "path.photongi.indirect.lookup.normalangle"
    params.indirect 100000 64 (15 / 100) 10 (by decide) (by decide)
    (by with_unfolding_all rfl) (by with_unfolding_all rfl)
  obtain ⟨c, hc⟩ := FromProperties.classParams_ok DEFAULT_EPSILON_MIN cfg
    "path.photongi.caustic.maxsize" "path.photongi.caustic.lookup.maxcount"
    "path.photongi.caustic.lookup.radius" "path.photongi.caustic.lookup.normalangle"
    params.caustic 100000 256 (15 / 100) 10 (by decide) (by decide)
    (by with_unfolding_all rfl) (by with_unfolding_all rfl)
  unfold FromProperties.params
  rw [hs1]
  simp only [ht1]
  rw [Properties.GetUInt_ok cfg "path.photongi.photon.maxcount" 500000 (by decide),
    Properties.GetUInt_ok cfg "path.photongi.photon.maxdepth" 4 (by decide)]
  simp only [hw, hd, hi, hc, hs2, ht2]
  exact ⟨_, rfl⟩

/-- C37: with a positive `DEFAULT_EPSILON_MIN`, whenever `FromProperties` builds
a cache, the parameter block `p` it passes to the constructor has
`maxTracedCount >= 1` and `maxPathDepth >= 1`, every enabled class has
`lookUpMaxCount >= 1`, `lookUpRadius > 0` and `lookUpNormalAngle > 0`, and
`visibility.enabled` is false when the sampler is RANDOM; so the constructor
divides `indirect.maxSize` by a `maxPathDepth` that is not zero.  And
`FromProperties` does build a cache for every configuration that enables a class
and names a known sampler and a known debug type. -/
theorem FromProperties_clamps (params0 : PhotonGICacheParams) (DEFAULT_EPSILON_MIN : ℚ)
    (heps : 0 < DEFAULT_EPSILON_MIN) (scn : Scene) (cfg : Properties) :
    (∀ c, PhotonGICache.FromProperties params0 DEFAULT_EPSILON_MIN scn cfg = Except.ok (some c) →
      ∃ p, c = PhotonGICache.construct scn p ∧
        1 ≤ p.photon.maxTracedCount ∧ 1 ≤ p.photon.maxPathDepth ∧
        (p.direct.enabled = true →
          1 ≤ p.direct.lookUpMaxCount ∧ 0 < p.direct.lookUpRadius ∧
            0 < p.direct.lookUpNormalAngle) ∧
        (p.indirect.enabled = true →
          1 ≤ p.indirect.lookUpMaxCount ∧ 0 < p.indirect.lookUpRadius ∧
            0 < p.indirect.lookUpNormalAngle) ∧
        (p.caustic.enabled = true →
          1 ≤ p.caustic.lookUpMaxCount ∧ 0 < p.caustic.lookUpRadius ∧
            0 < p.caustic.lookUpNormalAngle) ∧
        (p.samplerType = PhotonGISamplerType.PGIC_SAMPLER_RANDOM →
          p.visibility.enabled = false) ∧
        (p.direct.enabled = true ∨ p.indirect.enabled = true ∨ p.caustic.enabled = true) ∧
        p.photon.maxPathDepth ≠ 0 ∧
        (p.direct.enabled = false → p.indirect.enabled = true →
          c.params.direct.maxSize = p.indirect.maxSize / p.photon.maxPathDepth)) ∧
      (∀ (s1 s2 : String) (t1 : PhotonGISamplerType) (t2 : PhotonGIDebugType),
        (cfg.GetBool "path.photongi.direct.enabled" = Except.ok true ∨
          cfg.GetBool "path.photongi.indirect.enabled" = Except.ok true ∨
          cfg.GetBool "path.photongi.caustic.enabled" = Except.ok true) →
        cfg.GetString "path.photongi.sampler.type" = Except.ok s1 →
        PhotonGICache.String2SamplerType s1 = Except.ok t1 →
        cfg.GetString "path.photongi.debug.type" = Except.ok s2 →
        PhotonGICache.String2DebugType s2 = Except.ok t2 →
        ∃ c, PhotonGICache.FromProperties params0 DEFAULT_EPSILON_MIN scn cfg =
          Except.ok (some c)) := by
  obtain ⟨hd, hi, hc⟩ := Properties.GetBool_enabled cfg
  have hcases := FromProperties_cases params0 DEFAULT_EPSILON_MIN scn cfg _ _ _ hd hi hc
  constructor
  · intro c h
    rw [hcases] at h
    by_cases hen : ((cfg.bools.lookup "path.photongi.direct.enabled").getD false ||
        (cfg.bools.lookup "path.photongi.indirect.enabled").getD false ||
        (cfg.bools.lookup "path.photongi.caustic.enabled").getD false) = true
    swap
    · rw [if_neg hen] at h
      cases h
    rw [if_pos hen] at h
    split at h
    · cases h
    · rename_i p hp
      simp only [Except.ok.injEq, Option.some.injEq] at h
      obtain ⟨a1, a2, a3, a4, a5, a6, e1, e2, e3⟩ :=
        FromProperties.params_clamped DEFAULT_EPSILON_MIN heps cfg _ p hp
      refine ⟨p, h.symm, a1, a2, a3, a4, a5, a6, ?_, by omega, ?_⟩
      · rw [e1, e2, e3]
        simp only [Bool.or_eq_true] at hen
        rcases hen with (h1 | h1) | h1
        · exact Or.inl h1
        · exact Or.inr (Or.inl h1)
        · exact Or.inr (Or.inr h1)
      · intro hdis hind
        rw [← h]
        cases hk : p.caustic.enabled <;>
          simp [PhotonGICache.construct, PhotonGICache.normalizeParams, hdis, hind, hk]
  · intro s1 s2 t1 t2 hen hs1 ht1 hs2 ht2
    rw [hcases]
    have hen2 : ((cfg.bools.lookup "path.photongi.direct.enabled").getD false ||
        (cfg.bools.lookup "path.photongi.indirect.enabled").getD false ||
        (cfg.bools.lookup "path.photongi.caustic.enabled").getD false) = true := by
      rw [hd, hi, hc] at hen
      simp only [Except.ok.injEq] at hen
      rcases hen with h | h | h <;> simp [h]
    rw [if_pos hen2]
    obtain ⟨p, hp⟩ := FromProperties.params_ok DEFAULT_EPSILON_MIN cfg
      { params0 with
          direct := { params0.direct with
            enabled := (cfg.bools.lookup "path.photongi.direct.enabled").getD false }
          indirect := { params0.indirect with
            enabled := (cfg.bools.lookup "path.photongi.indirect.enabled").getD false }
          caustic := { params0.caustic with
            enabled := (cfg.bools.lookup "path.photongi.caustic.enabled").getD false } }
      s1 s2 t1 t2 hs1 ht1 hs2 ht2
    rw [hp]
    exact ⟨_, rfl⟩

theorem FromProperties_clamps_witness :
    (0 : ℚ) < 1 / 1000000000 ∧
      (PhotonGICache.FromProperties allEnabledParams (1 / 1000000000) floorScene
          clampedCfg).toOption.map (fun c => c.map (fun pgic =>
            (pgic.params.photon.maxTracedCount, pgic.params.photon.maxPathDepth,
              pgic.params.indirect.lookUpMaxCount,
              pgic.params.indirect.lookUpRadius, pgic.params.indirect.lookUpNormalAngle,
              pgic.params.visibility.enabled, pgic.params.direct.maxSize))) =
        some (some (1, 1, 1, 1 / 1000000000, 1 / 1000000000, false, 10)) ∧
      ∃ c, PhotonGICache.FromProperties allEnabledParams (1 / 1000000000) floorScene clampedCfg =
        Except.ok (some c) :=
  ⟨by decide!, by with_unfolding_all rfl,
    (FromProperties_clamps allEnabledParams (1 / 1000000000) (by decide!) floorScene
      clampedCfg).2 "RANDOM" "none" _ _ (Or.inr (Or.inl (by with_unfolding_all rfl)))
      (by with_unfolding_all rfl) (by with_unfolding_all rfl) (by with_unfolding_all rfl)
      (by with_unfolding_all rfl)⟩

/-! ## The multiplicities of a Metropolis bucket -/

theorem RenderFunc.chainStep_scale (M : Platform) (pgic : PhotonGICache) (c : ChainState) :
    (RenderFunc.chainStep M pgic c).currentPhotonsScale =
      (if RenderFunc.replacesCurrent M pgic c then 1 else c.currentPhotonsScale + 1) := by
  unfold RenderFunc.chainStep RenderFunc.replacesCurrent RenderFunc.acceptsMutation
    RenderFunc.adoptsUniform
  simp only []
  by_cases h1 : (TracePhotonPath pgic c.th (UniformMutate c.rndGen (sampleSize pgic)).2
      (UniformMutate c.rndGen (sampleSize pgic)).1).usefulPath = true
  · rw [if_pos h1, h1]
    rfl
  · have h1f : (TracePhotonPath pgic c.th (UniformMutate c.rndGen (sampleSize pgic)).2
        (UniformMutate c.rndGen (sampleSize pgic)).1).usefulPath = false := by
      simpa using h1
    simp only [h1f, Bool.false_or, Bool.false_eq_true, if_false]
    split_ifs <;> rfl

theorem flushedMultiplicity_append (a b : List (Nat × PathPhotons)) :
    flushedMultiplicity (a ++ b) = flushedMultiplicity a + flushedMultiplicity b := by
  simp [flushedMultiplicity]

theorem RenderFunc.chain_scale (M : Platform) (pgic : PhotonGICache) :
    ∀ (k : Nat) (c : ChainState),
      flushedMultiplicity (RenderFunc.chainFlushes M pgic k c) +
          (RenderFunc.chain M pgic k c).currentPhotonsScale = k + c.currentPhotonsScale ∧
        (1 ≤ c.currentPhotonsScale → 1 ≤ (RenderFunc.chain M pgic k c).currentPhotonsScale) := by
  intro k
  induction k with
  | zero =>
    intro c
    simp [RenderFunc.chain, RenderFunc.chainFlushes, flushedMultiplicity]
  | succ k ih =>
    intro c
    obtain ⟨i1, i2⟩ := ih (RenderFunc.chainStep M pgic c)
    have hs := RenderFunc.chainStep_scale M pgic c
    simp only [RenderFunc.chain, RenderFunc.chainFlushes, flushedMultiplicity_append]
    by_cases hr : RenderFunc.replacesCurrent M pgic c = true
    · rw [if_pos hr] at hs ⊢
      rw [hs] at i1 i2
      refine ⟨?_, fun _ => i2 (le_refl 1)⟩
      simp only [flushedMultiplicity, List.map_cons, List.map_nil, List.sum_cons, List.sum_nil]
        at i1 ⊢
      omega
    · rw [if_neg hr] at hs ⊢
      rw [hs] at i1 i2
      refine ⟨?_, fun _ => i2 (by omega)⟩
      simp only [flushedMultiplicity, List.map_nil, List.sum_nil] at i1 ⊢
      omega

/-- C35: in a Metropolis bucket, after `k` chain iterations the multiplicities
with which current states have been flushed so far and the running
`currentPhotonsScale` add up to `k + 1`, and `currentPhotonsScale` is at least 1;
the flushes are what the worker's vectors have received; with the flush of the
last current state (lines 471-475) the bucket has flushed a total multiplicity
of `k + 1` when the last `currentPhotonsScale` is above 1 and of `k` when it
is 1. -/
theorem RenderFunc.bucket_multiplicity (M : Platform) (pgic : PhotonGICache)
    (th : TracePhotonsThread) (currentPathSamples : List ℚ) (current : PathPhotons)
    (rndGen : RandomGenerator) (k : Nat) :
    flushedMultiplicity (RenderFunc.chainFlushes M pgic k
          (RenderFunc.chainStart th currentPathSamples current rndGen)) +
        (RenderFunc.chain M pgic k
          (RenderFunc.chainStart th currentPathSamples current rndGen)).currentPhotonsScale =
        k + 1 ∧
      1 ≤ (RenderFunc.chain M pgic k
          (RenderFunc.chainStart th currentPathSamples current rndGen)).currentPhotonsScale ∧
      (∀ X, (RenderFunc.chain M pgic k
          (RenderFunc.chainStart th currentPathSamples current rndGen)).th.ofClass X =
        th.ofClass X ++ flushedPhotons X (RenderFunc.chainFlushes M pgic k
          (RenderFunc.chainStart th currentPathSamples current rndGen))) ∧
      (∀ X, (RenderFunc.lastFlush (RenderFunc.chain M pgic k
          (RenderFunc.chainStart th currentPathSamples current rndGen))).ofClass X =
        th.ofClass X ++ flushedPhotons X (RenderFunc.bucketFlushes M pgic k
          (RenderFunc.chainStart th currentPathSamples current rndGen))) ∧
      flushedMultiplicity (RenderFunc.bucketFlushes M pgic k
          (RenderFunc.chainStart th currentPathSamples current rndGen)) =
        (if (RenderFunc.chain M pgic k
            (RenderFunc.chainStart th currentPathSamples current rndGen)).currentPhotonsScale > 1
          then k + 1 else k) := by
  obtain ⟨h1, h2⟩ := RenderFunc.chain_scale M pgic k
    (RenderFunc.chainStart th currentPathSamples current rndGen)
  obtain ⟨f1, _, _⟩ := RenderFunc.chain_flushes M pgic k
    (RenderFunc.chainStart th currentPathSamples current rndGen)
  have hs0 : (RenderFunc.chainStart th currentPathSamples current rndGen).currentPhotonsScale = 1 :=
    rfl
  have hth0 : (RenderFunc.chainStart th currentPathSamples current rndGen).th = th := rfl
  rw [hs0] at h1 h2
  refine ⟨h1, h2 (le_refl 1), ?_, ?_, ?_⟩
  · intro X
    rw [f1 X, hth0]
  · intro X
    unfold RenderFunc.lastFlush RenderFunc.bucketFlushes
    rw [flushedPhotons_append]
    by_cases hs : (RenderFunc.chain M pgic k
        (RenderFunc.chainStart th currentPathSamples current rndGen)).currentPhotonsScale > 1
    · simp only [hs, if_true, (AddPhotonsScaled_ofClass _ _ _ X).1, f1 X, hth0]
      simp [flushedPhotons]
    · simp only [hs, if_false, f1 X, hth0]
      simp [flushedPhotons]
  · unfold RenderFunc.bucketFlushes
    rw [flushedMultiplicity_append]
    have h21 := h2 (le_refl 1)
    by_cases hs : (RenderFunc.chain M pgic k
        (RenderFunc.chainStart th currentPathSamples current rndGen)).currentPhotonsScale > 1
    · rw [if_pos hs, if_pos hs]
      simp only [flushedMultiplicity, List.map_cons, List.map_nil, List.sum_cons, List.sum_nil]
        at h1 ⊢
      omega
    · rw [if_neg hs, if_neg hs]
      simp only [flushedMultiplicity, List.map_nil, List.sum_nil] at h1 ⊢
      omega

/-! ## Invariants of the whole group of workers -/

theorem List.set_same_of_get {α : Type} :
    ∀ (l : List α) (i : Nat) (a : α), l.get? i = some a → l.set i a = l := by
  intro l
  induction l with
  | nil => intro i a h; simp at h
  | cons b l ih =>
    intro i a h
    cases i with
    | zero =>
      simp only [List.get?_cons_zero, Option.some.injEq] at h
      subst h
      rfl
    | succ j =>
      simp only [List.get?_cons_succ] at h
      simp only [List.set_cons_succ, ih j a h]

theorem List.get_set_same {α : Type} :
    ∀ (l : List α) (i : Nat) (a b : α), l.get? i = some a → (l.set i b).get? i = some b := by
  intro l
  induction l with
  | nil => intro i a b h; simp at h
  | cons c l ih =>
    intro i a b h
    cases i with
    | zero => rfl
    | succ j =>
      simp only [List.get?_cons_succ] at h
      simp only [List.set_cons_succ, List.get?_cons_succ]
      exact ih j a b h

theorem List.set_set_same {α : Type} :
    ∀ (l : List α) (i : Nat) (a b : α), (l.set i a).set i b = l.set i b := by
  intro l
  induction l with
  | nil => intro i a b; rfl
  | cons c l ih =>
    intro i a b
    cases i with
    | zero => rfl
    | succ j => simp only [List.set_cons_succ, ih j a b]

/-- A property of the shared cache and the group of workers that every bucket of
a running worker preserves is preserved by a whole `RenderFunc` run of one of
the workers. -/
theorem RenderFunc_inv (M : Platform) (I : PhotonGICache → List TracePhotonsThread → Prop)
    (hb : ∀ (pgic pgic2 : PhotonGICache) (renderThreads : List TracePhotonsThread) (i : Nat)
      (th th2 : TracePhotonsThread), renderThreads.get? i = some th → th.running = true →
      I pgic renderThreads → RenderFunc.bucket M pgic th = Except.ok (pgic2, th2) →
      I pgic2 (renderThreads.set i th2)) :
    ∀ (fuel : Nat) (pgic : PhotonGICache) (th : TracePhotonsThread)
      (r : PhotonGICache × TracePhotonsThread) (renderThreads : List TracePhotonsThread) (i : Nat),
      renderThreads.get? i = some th → I pgic renderThreads →
      RenderFunc M fuel pgic th = Except.ok r → I r.1 (renderThreads.set i r.2) := by
  intro fuel
  induction fuel with
  | zero =>
    intro pgic th r l i hget hI h
    rw [RenderFunc] at h
    split_ifs at h
    simp only [Except.ok.injEq] at h
    rw [← h, List.set_same_of_get l i th hget]
    exact hI
  | succ fuel ih =>
    intro pgic th r l i hget hI h
    rw [RenderFunc] at h
    by_cases hrun : th.running = true
    · rw [if_pos hrun] at h
      cases hbk : RenderFunc.bucket M pgic th with
      | error e => rw [hbk] at h; cases h
      | ok r1 =>
        rw [hbk] at h
        simp only [] at h
        have h1 := hb pgic r1.1 l i th r1.2 hget hrun hI hbk
        have h2 := ih r1.1 r1.2 r (l.set i r1.2) i (List.get_set_same l i th r1.2 hget) h1 h
        rwa [List.set_set_same] at h2
    · rw [if_neg hrun] at h
      simp only [Except.ok.injEq] at h
      rw [← h, List.set_same_of_get l i th hget]
      exact hI

theorem TraceState.step_inv (M : Platform) (I : PhotonGICache → List TracePhotonsThread → Prop)
    (hb : ∀ (pgic pgic2 : PhotonGICache) (renderThreads : List TracePhotonsThread) (i : Nat)
      (th th2 : TracePhotonsThread), renderThreads.get? i = some th → th.running = true →
      I pgic renderThreads → RenderFunc.bucket M pgic th = Except.ok (pgic2, th2) →
      I pgic2 (renderThreads.set i th2))
    (st st2 : TraceState) (i : Nat) (hI : I st.pgic st.renderThreads)
    (h : st.step M i = Except.ok st2) : I st2.pgic st2.renderThreads := by
  unfold TraceState.step at h
  cases hget : st.renderThreads.get? i with
  | none =>
    rw [hget] at h
    simp only [Except.ok.injEq] at h
    rw [← h]; exact hI
  | some th =>
    rw [hget] at h
    simp only [] at h
    by_cases hrun : th.running = true
    · rw [if_pos hrun] at h
      cases hbk : RenderFunc.bucket M st.pgic th with
      | error e => rw [hbk] at h; cases h
      | ok r =>
        rw [hbk] at h
        simp only [Except.ok.injEq] at h
        rw [← h]
        exact hb st.pgic r.1 st.renderThreads i th r.2 hget hrun hI hbk
    · rw [if_neg hrun] at h
      simp only [Except.ok.injEq] at h
      rw [← h]; exact hI

theorem TraceState.run_inv (M : Platform) (I : PhotonGICache → List TracePhotonsThread → Prop)
    (hb : ∀ (pgic pgic2 : PhotonGICache) (renderThreads : List TracePhotonsThread) (i : Nat)
      (th th2 : TracePhotonsThread), renderThreads.get? i = some th → th.running = true →
      I pgic renderThreads → RenderFunc.bucket M pgic th = Except.ok (pgic2, th2) →
      I pgic2 (renderThreads.set i th2)) :
    ∀ (schedule : List Nat) (st st2 : TraceState), I st.pgic st.renderThreads →
      TraceState.run M schedule st = Except.ok st2 → I st2.pgic st2.renderThreads := by
  intro schedule
  induction schedule with
  | nil =>
    intro st st2 hI h
    simp only [TraceState.run, Except.ok.injEq] at h
    rw [← h]; exact hI
  | cons i rest ih =>
    intro st st2 hI h
    rw [TraceState.run] at h
    cases hs : st.step M i with
    | error e => rw [hs] at h; cases h
    | ok st1 =>
      rw [hs] at h
      exact ih st1 st2 (TraceState.step_inv M I hb st st1 i hI hs) h

theorem TraceState.joinAll_inv (M : Platform)
    (I : PhotonGICache → List TracePhotonsThread → Prop)
    (hb : ∀ (pgic pgic2 : PhotonGICache) (renderThreads : List TracePhotonsThread) (i : Nat)
      (th th2 : TracePhotonsThread), renderThreads.get? i = some th → th.running = true →
      I pgic renderThreads → RenderFunc.bucket M pgic th = Except.ok (pgic2, th2) →
      I pgic2 (renderThreads.set i th2))
    (fuel : Nat) :
    ∀ (is : List Nat) (st st2 : TraceState), I st.pgic st.renderThreads →
      TraceState.joinAll M fuel is st = Except.ok st2 → I st2.pgic st2.renderThreads := by
  intro is
  induction is with
  | nil =>
    intro st st2 hI h
    simp only [TraceState.joinAll, Except.ok.injEq] at h
    rw [← h]; exact hI
  | cons i rest ih =>
    intro st st2 hI h
    rw [TraceState.joinAll] at h
    cases hs : st.join M fuel i with
    | error e => rw [hs] at h; cases h
    | ok st1 =>
      rw [hs] at h
      refine ih st1 st2 ?_ h
      unfold TraceState.join at hs
      cases hget : st.renderThreads.get? i with
      | none =>
        rw [hget] at hs
        simp only [Except.ok.injEq] at hs
        rw [← hs]; exact hI
      | some th =>
        rw [hget] at hs
        simp only [] at hs
        cases hr : RenderFunc M fuel st.pgic th with
        | error e => rw [hr] at hs; cases hs
        | ok r =>
          rw [hr] at hs
          simp only [Except.ok.injEq] at hs
          rw [← hs]
          exact RenderFunc_inv M I hb fuel st.pgic th r st.renderThreads i hget hI hr

/-- A property of the shared cache and the group of workers that holds at the
start of `TracePhotons` and that every bucket of a running worker preserves
holds of the state whose vectors `TracePhotons` collects. -/
theorem TracePhotons_inv (M : Platform) (I : PhotonGICache → List TracePhotonsThread → Prop)
    (hb : ∀ (pgic pgic2 : PhotonGICache) (renderThreads : List TracePhotonsThread) (i : Nat)
      (th th2 : TracePhotonsThread), renderThreads.get? i = some th → th.running = true →
      I pgic renderThreads → RenderFunc.bucket M pgic th = Except.ok (pgic2, th2) →
      I pgic2 (renderThreads.set i th2))
    (schedule : List Nat) (fuel : Nat) (c t : PhotonGICache)
    (h0 : I c.resetCounters (TracePhotons.startThreads M))
    (h : PhotonGICache.TracePhotons M schedule fuel c = Except.ok t) :
    ∃ st : TraceState, I st.pgic st.renderThreads ∧ t = st.collect := by
  unfold PhotonGICache.TracePhotons at h
  cases h1 : TraceState.run M schedule ⟨c.resetCounters, TracePhotons.startThreads M⟩ with
  | error e => rw [h1] at h; cases h
  | ok st1 =>
    rw [h1] at h
    simp only [] at h
    cases h2 : TraceState.joinAll M fuel (List.range M.hardware_concurrency) st1 with
    | error e => rw [h2] at h; cases h
    | ok st2 =>
      rw [h2] at h
      simp only [Except.ok.injEq] at h
      exact ⟨st2, TraceState.joinAll_inv M I hb fuel _ st1 st2
        (TraceState.run_inv M I hb schedule _ st1 h0 h1) h2, h.symm⟩

/-! ## The traced counters -/

theorem runningCount_le_length :
    ∀ (l : List TracePhotonsThread), runningCount l ≤ l.length := by
  intro l
  induction l with
  | nil => exact le_refl 0
  | cons a l ih =>
    simp only [runningCount, List.map_cons, List.sum_cons, List.length_cons] at ih ⊢
    split_ifs <;> omega

theorem runningCount_set (th2 : TracePhotonsThread) :
    ∀ (l : List TracePhotonsThread) (i : Nat) (th : TracePhotonsThread),
      l.get? i = some th →
      runningCount (l.set i th2) + (if th.running then 1 else 0) =
        runningCount l + (if th2.running then 1 else 0) := by
  intro l
  induction l with
  | nil => intro i th h; simp at h
  | cons a l ih =>
    intro i th h
    cases i with
    | zero =>
      simp only [List.get?_cons_zero, Option.some.injEq] at h
      subst h
      simp only [runningCount, List.set_cons_zero, List.map_cons, List.sum_cons]
      omega
    | succ j =>
      simp only [List.get?_cons_succ] at h
      have := ih j th h
      simp only [runningCount, List.set_cons_succ, List.map_cons, List.sum_cons] at this ⊢
      omega

theorem runningCount_startThreads (M : Platform) :
    runningCount (TracePhotons.startThreads M) = M.hardware_concurrency ∧
      (TracePhotons.startThreads M).length = M.hardware_concurrency := by
  unfold runningCount TracePhotons.startThreads
  rw [List.map_map]
  constructor
  · have : ((fun th : TracePhotonsThread => if th.running = true then 1 else 0) ∘
        TracePhotonsThread.Start M) = fun _ => 1 := by
      funext i
      rfl
    rw [this]
    simp
  · simp

/-- Every bucket of a running worker keeps the accounting of the traced counters
when the work counter cannot wrap while a worker is running. -/
theorem RenderFunc.bucket_tracedInv (M : Platform) (p : PhotonGICacheParams) (W : Nat)
    (hN : p.photon.maxTracedCount + 4096 * W ≤ 4294967296)
    (pgic pgic2 : PhotonGICache) (renderThreads : List TracePhotonsThread) (i : Nat)
    (th th2 : TracePhotonsThread) (hget : renderThreads.get? i = some th)
    (hrun : th.running = true) (hI : tracedInv p W pgic renderThreads)
    (h : RenderFunc.bucket M pgic th = Except.ok (pgic2, th2)) :
    tracedInv p W pgic2 (renderThreads.set i th2) := by
  obtain ⟨hp, hlen, hmax, hpos, hcnt⟩ := hI
  have hrs := runningCount_set th2 renderThreads i th hget
  rw [hrun] at hrs
  simp only [if_true] at hrs
  have hrl := runningCount_le_length renderThreads
  have hrl2 := runningCount_le_length (renderThreads.set i th2)
  rw [List.length_set] at hrl2
  have hr1 : 1 ≤ runningCount renderThreads := by
    have := runningCount_set { th with running := false } renderThreads i th hget
    rw [hrun] at this
    simp only [if_true, Bool.false_eq_true, if_false] at this
    omega
  obtain ⟨hle, hbound⟩ := hcnt hr1
  have hst := fun X => storedCount_set X th2 renderThreads i th hget
  have hof := fun X => RenderFunc.bucket_ofClass M pgic pgic2 th th2 X h
  by_cases hstop : pgic.globalPhotonsCounter ≥ pgic.params.photon.maxTracedCount
  · rw [RenderFunc.bucket_stop M pgic th hstop] at h
    simp only [Except.ok.injEq, Prod.mk.injEq] at h
    obtain ⟨h1, h2⟩ := h
    have htr : ∀ X, pgic2.tracedOf X = pgic.tracedOf X := by
      intro X; subst h1; cases X <;> simp only [PhotonGICache.tracedOf]
    have hth : ∀ X, th2.ofClass X = th.ofClass X := by
      intro X; subst h2; cases X <;> simp only [TracePhotonsThread.ofClass]
    have hrun2 : th2.running = false := by subst h2; rfl
    have hc2 : pgic2.globalPhotonsCounter = u32 (pgic.globalPhotonsCounter + workSize) := by
      subst h1; rfl
    have hp2 : pgic2.params = pgic.params := by subst h1; rfl
    rw [hrun2] at hrs
    simp only [Bool.false_eq_true, if_false] at hrs
    refine ⟨by rw [hp2]; exact hp, by rw [List.length_set]; exact hlen, ?_, ?_, ?_⟩
    · intro X; rw [htr]; exact hmax X
    · intro X hX
      rw [htr]
      apply hpos
      have := hst X
      rw [hth] at this
      omega
    · intro hr2
      have hnw : pgic.globalPhotonsCounter + workSize < 4294967296 := by
        unfold workSize; omega
      have hc3 : pgic2.globalPhotonsCounter = pgic.globalPhotonsCounter + 4096 := by
        rw [hc2]; unfold u32; rw [Nat.mod_eq_of_lt hnw]; rfl
      refine ⟨?_, ?_⟩
      · intro X; rw [htr, hc3]; have := hle X; omega
      · rw [hc3]; omega
  · have hwork : pgic.globalPhotonsCounter < pgic.params.photon.maxTracedCount := Nat.not_le.1 hstop
    rcases RenderFunc.bucket_work M pgic th hwork with ⟨he, _⟩ | ⟨q, t, hok, hq, hc2, hflags, _, htr⟩
    · rw [he] at h; cases h
    · rw [hok] at h
      simp only [Except.ok.injEq, Prod.mk.injEq] at h
      obtain ⟨h1, h2⟩ := h
      subst h1 h2
      rw [hp] at hwork
      have hW : 1 ≤ W := by omega
      have hnw : pgic.globalPhotonsCounter + 4096 < 4294967296 := by omega
      have hc3 : q.globalPhotonsCounter = pgic.globalPhotonsCounter + 4096 := by
        rw [hc2]; unfold u32 workSize; rw [Nat.mod_eq_of_lt hnw]
      have hw := RenderFunc.workToDo_eq_min pgic pgic.globalPhotonsCounter
        (by rw [hp]; exact hwork) hnw
      rw [hp] at hw
      have hw1 : 1 ≤ RenderFunc.workToDo pgic pgic.globalPhotonsCounter := by
        rw [hw, Nat.min_def]; split_ifs <;> omega
      have hw2 : pgic.globalPhotonsCounter + RenderFunc.workToDo pgic pgic.globalPhotonsCounter ≤
          p.photon.maxTracedCount := by
        rw [hw, Nat.min_def]; split_ifs <;> omega
      have hw3 : RenderFunc.workToDo pgic pgic.globalPhotonsCounter ≤ 4096 := by
        rw [hw]; exact Nat.min_le_left _ _
      have htr2 : ∀ X, q.tracedOf X =
          if t.doneOf X = true then pgic.tracedOf X
          else pgic.tracedOf X + RenderFunc.workToDo pgic pgic.globalPhotonsCounter := by
        intro X
        rw [htr X]
        split_ifs
        · rfl
        · unfold u32
          rw [Nat.mod_eq_of_lt]
          have := hle X
          omega
      refine ⟨by rw [hq]; exact hp, by rw [List.length_set]; exact hlen, ?_, ?_, ?_⟩
      · intro X
        rw [htr2 X]
        have := hle X
        have := hmax X
        split_ifs <;> omega
      · intro X hX
        rw [htr2 X]
        by_cases hd : t.doneOf X = true
        · rw [if_pos hd]
          apply hpos
          have hdone : pgic.params.maxSizeOf X ≤ pgic.sizeOf X := by
            have := hflags X
            rw [hd] at this
            exact of_decide_eq_true this.symm
          have := (hof X).2.2.2.1 hdone
          have := hst X
          omega
        · rw [if_neg hd]; omega
      · intro hr2
        refine ⟨?_, ?_⟩
        · intro X
          rw [htr2 X, hc3]
          have := hle X
          split_ifs <;> omega
        · rw [hc3]
          have : runningCount (renderThreads.set i t) - 1 ≤ W - 1 := by omega
          have : 4096 * (runningCount (renderThreads.set i t) - 1) ≤ 4096 * (W - 1) :=
            Nat.mul_le_mul_left _ this
          omega

theorem tracedInv_start (M : Platform) (c : PhotonGICache) :
    tracedInv c.params M.hardware_concurrency c.resetCounters (TracePhotons.startThreads M) := by
  obtain ⟨hr, hl⟩ := runningCount_startThreads M
  refine ⟨rfl, hl, ?_, ?_, ?_⟩
  · intro X; cases X <;> exact Nat.zero_le _
  · intro X hX
    rw [storedCount_startThreads] at hX
    exact absurd hX (lt_irrefl 0)
  · intro h1
    rw [hr]
    refine ⟨?_, ?_⟩
    · intro X; cases X <;> exact le_refl 0
    · show 0 + 4096 * (M.hardware_concurrency - 1) ≤ _
      omega

theorem TraceState.collect_traced (st : TraceState) :
    (∀ X, st.collect.tracedOf X = st.pgic.tracedOf X) ∧
      st.collect.directPhotonTracedCount = st.pgic.tracedOf PhotonClass.direct ∧
      st.collect.indirectPhotonTracedCount = st.pgic.tracedOf PhotonClass.indirect ∧
      st.collect.causticPhotonTracedCount = st.pgic.tracedOf PhotonClass.caustic :=
  ⟨fun X => by cases X <;> rfl, rfl, rfl, rfl⟩

/-- C33: when `maxTracedCount + 4096 * (number of workers)` does not exceed
`2^32` (no bucket acquisition of a running worker wraps the work counter, so the
buckets are obtained at distinct multiples of 4096; for one worker this is
`maxTracedCount + 4096 <= 2^32`), then in every bucket-granular interleaving of
the workers, at every point of it and when `TracePhotons` has joined them, none
of `globalDirectPhotonsTraced`, `globalIndirectPhotonsTraced` and
`globalCausticPhotonsTraced` exceeds `maxTracedCount`, nor do the three traced
counts recorded at the end; a processed bucket has
`workToDo = min(4096, maxTracedCount − workCounter)`, which does not reach past
`maxTracedCount`. -/
theorem TracePhotons_traced_le_maxTracedCount (M : Platform) (schedule : List Nat)
    (fuel : Nat) (c t : PhotonGICache)
    (hN : c.params.photon.maxTracedCount + 4096 * M.hardware_concurrency ≤ 4294967296)
    (h : PhotonGICache.TracePhotons M schedule fuel c = Except.ok t) :
    (∀ X, t.tracedOf X ≤ c.params.photon.maxTracedCount) ∧
      t.directPhotonTracedCount ≤ c.params.photon.maxTracedCount ∧
      t.indirectPhotonTracedCount ≤ c.params.photon.maxTracedCount ∧
      t.causticPhotonTracedCount ≤ c.params.photon.maxTracedCount ∧
      (∀ (interleaving : List Nat) (st : TraceState),
        TraceState.run M interleaving ⟨c.resetCounters, TracePhotons.startThreads M⟩ =
          Except.ok st →
        ∀ X, st.pgic.tracedOf X ≤ c.params.photon.maxTracedCount) ∧
      (∀ pgic : PhotonGICache, pgic.params = c.params →
        pgic.globalPhotonsCounter < c.params.photon.maxTracedCount →
        pgic.globalPhotonsCounter + 4096 < 4294967296 →
        RenderFunc.workToDo pgic pgic.globalPhotonsCounter =
            min 4096 (c.params.photon.maxTracedCount - pgic.globalPhotonsCounter) ∧
          pgic.globalPhotonsCounter + RenderFunc.workToDo pgic pgic.globalPhotonsCounter ≤
            c.params.photon.maxTracedCount) := by
  obtain ⟨st, ⟨_, _, hmax, _, _⟩, ht⟩ := TracePhotons_inv M
    (tracedInv c.params M.hardware_concurrency)
    (RenderFunc.bucket_tracedInv M c.params M.hardware_concurrency hN) schedule fuel c t
    (tracedInv_start M c) h
  obtain ⟨k0, k1, k2, k3⟩ := TraceState.collect_traced st
  refine ⟨?_, ?_, ?_, ?_, ?_, ?_⟩
  · intro X; rw [ht, k0]; exact hmax X
  · rw [ht, k1]; exact hmax _
  · rw [ht, k2]; exact hmax _
  · rw [ht, k3]; exact hmax _
  · intro interleaving st2 hrun X
    exact (TraceState.run_inv M (tracedInv c.params M.hardware_concurrency)
      (RenderFunc.bucket_tracedInv M c.params M.hardware_concurrency hN) interleaving _ st2
      (tracedInv_start M c) hrun).2.2.1 X
  · intro pgic hp hlt hnw
    have hw := RenderFunc.workToDo_eq_min pgic pgic.globalPhotonsCounter (by rw [hp]; exact hlt) hnw
    rw [hp] at hw
    refine ⟨hw, ?_⟩
    rw [hw, Nat.min_def]
    split_ifs <;> omega

theorem TracePhotons_traced_le_maxTracedCount_witness :
    ∃ t, PhotonGICache.TracePhotons twoWorkerPlatform [1, 0, 0, 1] 3
        (PhotonGICache.construct floorScene allEnabledParams) = Except.ok t ∧
      (PhotonGICache.construct floorScene allEnabledParams).params.photon.maxTracedCount +
        4096 * twoWorkerPlatform.hardware_concurrency ≤ 4294967296 ∧
      t.globalPhotonsCounter = 12288 ∧ t.directPhotonTracedCount = 2 ∧
      t.directPhotonTracedCount ≤
        (PhotonGICache.construct floorScene allEnabledParams).params.photon.maxTracedCount :=
  ⟨_, by with_unfolding_all rfl, by decide!, by decide!, by decide!,
    (TracePhotons_traced_le_maxTracedCount twoWorkerPlatform [1, 0, 0, 1] 3
      (PhotonGICache.construct floorScene allEnabledParams) _ (by decide!)
      (by with_unfolding_all rfl)).2.1⟩

/-! ## The traced counts behind the maps -/

/-- The accounting of the traced counters together with the vectors of the cache,
which no bucket touches. -/
theorem RenderFunc.bucket_tracedInv_vectors (M : Platform) (c0 : PhotonGICache)
    (hN : c0.params.photon.maxTracedCount + 4096 * M.hardware_concurrency ≤ 4294967296)
    (pgic pgic2 : PhotonGICache) (renderThreads : List TracePhotonsThread) (i : Nat)
    (th th2 : TracePhotonsThread) (hget : renderThreads.get? i = some th)
    (hrun : th.running = true)
    (hI : tracedInv c0.params M.hardware_concurrency pgic renderThreads ∧
      pgic.sameButCounters c0)
    (h : RenderFunc.bucket M pgic th = Except.ok (pgic2, th2)) :
    tracedInv c0.params M.hardware_concurrency pgic2 (renderThreads.set i th2) ∧
      pgic2.sameButCounters c0 :=
  ⟨RenderFunc.bucket_tracedInv M c0.params M.hardware_concurrency hN pgic pgic2 renderThreads i
      th th2 hget hrun hI.1 h,
    PhotonGICache.sameButCounters_trans
      (RenderFunc.bucket_ofClass M pgic pgic2 th th2 PhotonClass.direct h).1 hI.2⟩

/-- After `TracePhotons` on a cache whose three photon vectors are empty, a class
with a stored photon has a traced count of at least 1, when the work counter
cannot wrap while a worker is running. -/
theorem TracePhotons_traced_pos (M : Platform) (schedule : List Nat) (fuel : Nat)
    (c t : PhotonGICache)
    (hN : c.params.photon.maxTracedCount + 4096 * M.hardware_concurrency ≤ 4294967296)
    (hd : c.directPhotons = []) (hi : c.indirectPhotons = []) (hk : c.causticPhotons = [])
    (h : PhotonGICache.TracePhotons M schedule fuel c = Except.ok t) :
    (t.directPhotons ≠ [] → 1 ≤ t.directPhotonTracedCount) ∧
      (t.indirectPhotons ≠ [] → 1 ≤ t.indirectPhotonTracedCount) ∧
      (t.causticPhotons ≠ [] → 1 ≤ t.causticPhotonTracedCount) := by
  obtain ⟨st, ⟨⟨_, _, _, hpos, _⟩, hsame⟩, ht⟩ := TracePhotons_inv M
    (fun pgic l => tracedInv c.resetCounters.params M.hardware_concurrency pgic l ∧
      pgic.sameButCounters c.resetCounters)
    (RenderFunc.bucket_tracedInv_vectors M c.resetCounters hN) schedule fuel c t
    ⟨tracedInv_start M c,
      ⟨rfl, rfl, rfl, rfl, rfl, rfl, rfl, rfl, rfl, rfl, rfl, rfl, rfl, rfl, rfl⟩⟩ h
  obtain ⟨_, k1, k2, k3⟩ := TraceState.collect_traced st
  obtain ⟨_, _, _, _, _, _, _, e8, e9, e10, _⟩ := hsame
  have key : ∀ X, (st.renderThreads.map (fun th => th.ofClass X)).flatten ≠ [] →
      1 ≤ st.pgic.tracedOf X := by
    intro X hne
    apply hpos
    rw [← storedCount_flatten]
    exact List.length_pos.mpr hne
  refine ⟨?_, ?_, ?_⟩
  · intro hne
    rw [ht, k1]
    apply key
    rw [ht] at hne
    simp only [TraceState.collect] at hne
    rw [e8] at hne
    have : c.resetCounters.directPhotons = [] := hd
    rw [this, List.nil_append] at hne
    exact hne
  · intro hne
    rw [ht, k2]
    apply key
    rw [ht] at hne
    simp only [TraceState.collect] at hne
    rw [e9] at hne
    have : c.resetCounters.indirectPhotons = [] := hi
    rw [this, List.nil_append] at hne
    exact hne
  · intro hne
    rw [ht, k3]
    apply key
    rw [ht] at hne
    simp only [TraceState.collect] at hne
    rw [e10] at hne
    have : c.resetCounters.causticPhotons = [] := hk
    rw [this, List.nil_append] at hne
    exact hne

theorem buildSteps_traced (t : PhotonGICache) :
    t.freeVisibilityMap.buildDirectMap.buildIndirectMap.buildCausticMap.directPhotonTracedCount =
        t.directPhotonTracedCount ∧
      t.freeVisibilityMap.buildDirectMap.buildIndirectMap.buildCausticMap.indirectPhotonTracedCount =
        t.indirectPhotonTracedCount ∧
      t.freeVisibilityMap.buildDirectMap.buildIndirectMap.buildCausticMap.causticPhotonTracedCount =
        t.causticPhotonTracedCount := by
  have h1 : ∀ c : PhotonGICache, c.freeVisibilityMap.directPhotonTracedCount =
      c.directPhotonTracedCount ∧ c.freeVisibilityMap.indirectPhotonTracedCount =
      c.indirectPhotonTracedCount ∧ c.freeVisibilityMap.causticPhotonTracedCount =
      c.causticPhotonTracedCount := by
    intro c; unfold PhotonGICache.freeVisibilityMap; split_ifs <;> exact ⟨rfl, rfl, rfl⟩
  have h2 : ∀ c : PhotonGICache, c.buildDirectMap.directPhotonTracedCount =
      c.directPhotonTracedCount ∧ c.buildDirectMap.indirectPhotonTracedCount =
      c.indirectPhotonTracedCount ∧ c.buildDirectMap.causticPhotonTracedCount =
      c.causticPhotonTracedCount := by
    intro c; unfold PhotonGICache.buildDirectMap; split_ifs <;> exact ⟨rfl, rfl, rfl⟩
  have h3 : ∀ c : PhotonGICache, c.buildIndirectMap.directPhotonTracedCount =
      c.directPhotonTracedCount ∧ c.buildIndirectMap.indirectPhotonTracedCount =
      c.indirectPhotonTracedCount ∧ c.buildIndirectMap.causticPhotonTracedCount =
      c.causticPhotonTracedCount := by
    intro c; unfold PhotonGICache.buildIndirectMap; split_ifs <;> exact ⟨rfl, rfl, rfl⟩
  have h4 : ∀ c : PhotonGICache, c.buildCausticMap.directPhotonTracedCount =
      c.directPhotonTracedCount ∧ c.buildCausticMap.indirectPhotonTracedCount =
      c.indirectPhotonTracedCount ∧ c.buildCausticMap.causticPhotonTracedCount =
      c.causticPhotonTracedCount := by
    intro c; unfold PhotonGICache.buildCausticMap; split_ifs <;> exact ⟨rfl, rfl, rfl⟩
  obtain ⟨a1, a2, a3⟩ := h1 t
  obtain ⟨b1, b2, b3⟩ := h2 t.freeVisibilityMap
  obtain ⟨c1, c2, c3⟩ := h3 t.freeVisibilityMap.buildDirectMap
  obtain ⟨d1, d2, d3⟩ := h4 t.freeVisibilityMap.buildDirectMap.buildIndirectMap
  exact ⟨by rw [d1, c1, b1, a1], by rw [d2, c2, b2, a2], by rw [d3, c3, b3, a3]⟩

theorem buildMaps_traced (M : Platform) (t : PhotonGICache) :
    (PhotonGICache.buildMaps M t).directPhotonTracedCount = t.directPhotonTracedCount ∧
      (PhotonGICache.buildMaps M t).causticPhotonTracedCount = t.causticPhotonTracedCount := by
  have h5 : ∀ c : PhotonGICache,
      (PhotonGICache.buildRadianceMap M c).directPhotonTracedCount = c.directPhotonTracedCount ∧
      (PhotonGICache.buildRadianceMap M c).causticPhotonTracedCount =
        c.causticPhotonTracedCount := by
    intro c
    unfold PhotonGICache.buildRadianceMap
    split_ifs
    · exact ⟨rfl, rfl⟩
    · exact ⟨rfl, rfl⟩
  have h6 : ∀ c : PhotonGICache, c.freeUnused.directPhotonTracedCount =
      c.directPhotonTracedCount ∧ c.freeUnused.causticPhotonTracedCount =
      c.causticPhotonTracedCount := by
    intro c
    unfold PhotonGICache.freeUnused
    cases hd : c.params.direct.enabled <;> cases hk : c.params.caustic.enabled <;>
      simp [hd, hk]
  obtain ⟨s1, _, s3⟩ := buildSteps_traced t
  obtain ⟨r1, r3⟩ := h5 t.freeVisibilityMap.buildDirectMap.buildIndirectMap.buildCausticMap
  obtain ⟨u1, u3⟩ := h6 (PhotonGICache.buildRadianceMap M
    t.freeVisibilityMap.buildDirectMap.buildIndirectMap.buildCausticMap)
  unfold PhotonGICache.buildMaps
  exact ⟨by rw [u1, r1, s1], by rw [u3, r3, s3]⟩

theorem buildSteps_bvh_nonempty (t : PhotonGICache) (hd : t.directPhotonsBVH = none)
    (hi : t.indirectPhotonsBVH = none) (hk : t.causticPhotonsBVH = none) :
    (t.freeVisibilityMap.buildDirectMap.buildIndirectMap.buildCausticMap.directPhotonsBVH.isSome =
        true → t.directPhotons ≠ []) ∧
      (t.freeVisibilityMap.buildDirectMap.buildIndirectMap.buildCausticMap.indirectPhotonsBVH.isSome =
        true → t.indirectPhotons ≠ []) ∧
      (t.freeVisibilityMap.buildDirectMap.buildIndirectMap.buildCausticMap.causticPhotonsBVH.isSome =
        true → t.causticPhotons ≠ []) := by
  obtain ⟨_, a2, a3, a4, _, a6, a7, a8, _⟩ := freeVisibilityMap_fields t
  obtain ⟨_, _, b3, b4, _, b6, b7, b8, _⟩ := buildDirectMap_fields t.freeVisibilityMap
  obtain ⟨_, _, _, c4, _, c6, c8, _⟩ := buildIndirectMap_fields t.freeVisibilityMap.buildDirectMap
  obtain ⟨_, _, _, _, _, d6, d8, _⟩ :=
    buildCausticMap_fields t.freeVisibilityMap.buildDirectMap.buildIndirectMap
  have hind : ∀ c : PhotonGICache, c.indirectPhotonsBVH = none →
      (c.buildIndirectMap.indirectPhotonsBVH.isSome = true → c.indirectPhotons ≠ []) ∧
      c.buildCausticMap.indirectPhotonsBVH = c.indirectPhotonsBVH := by
    intro c hn
    unfold PhotonGICache.buildIndirectMap PhotonGICache.buildCausticMap
    constructor
    · split_ifs with hc
      · intro _; exact List.length_pos.mp hc.1
      · rw [hn]; intro h; cases h
    · split_ifs <;> rfl
  have hcau : ∀ c : PhotonGICache, c.buildCausticMap.indirectPhotonsBVH = c.indirectPhotonsBVH := by
    intro c
    unfold PhotonGICache.buildCausticMap
    split_ifs <;> rfl
  refine ⟨?_, ?_, ?_⟩
  · intro h
    rw [d6, c6] at h
    have := (b6 (by rw [a6]; exact hd)).1 h
    rw [a2] at this
    exact this.1
  · intro h
    rw [hcau] at h
    have := (hind t.freeVisibilityMap.buildDirectMap (by rw [b7, a7]; exact hi)).1 h
    rw [b3, a3] at this
    exact this
  · intro h
    have := (d8 (by rw [c8, b8, a8]; exact hk)).1 h
    rw [c4, b4, a4] at this
    exact this.1

/-- C36: when the work counter cannot wrap while a worker is running
(`maxTracedCount + 4096 * (number of workers) <= 2^32`; `maxTracedCount + 4096`
for the sequential run of one worker), then after the photon trace of
`Preprocess` on a freshly constructed cache every class (direct, indirect,
caustic) whose photon vector is non-empty has a traced count of at least 1.  So
the traced count is at least 1 for every BVH that exists while the radiance
photons are filled (`AddOutgoingRadiance`) and for the direct and the caustic
BVH that exist after `Preprocess` (`ProcessCacheEntries`), and for such a count
and a `maxDistance2` that is not zero the divisors
`photonTracedCount * maxDistance2` and, with `M_PI` not zero,
`photonTracedCount * maxDistance2 * M_PI` are not zero. -/
theorem Preprocess_traced_count_positive (M : Platform) (schedule : List Nat) (fuel : Nat)
    (scn : Scene) (p : PhotonGICacheParams) (c : PhotonGICache)
    (hN : p.photon.maxTracedCount + 4096 * M.hardware_concurrency ≤ 4294967296)
    (h : PhotonGICache.Preprocess M schedule fuel (PhotonGICache.construct scn p) = Except.ok c) :
    ∃ t, PhotonGICache.TracePhotons M schedule fuel
        ((PhotonGICache.construct scn p).prepareVisibility M) = Except.ok t ∧
      c = PhotonGICache.buildMaps M t ∧
      (t.directPhotons ≠ [] → 1 ≤ t.directPhotonTracedCount) ∧
      (t.indirectPhotons ≠ [] → 1 ≤ t.indirectPhotonTracedCount) ∧
      (t.causticPhotons ≠ [] → 1 ≤ t.causticPhotonTracedCount) ∧
      (t.freeVisibilityMap.buildDirectMap.buildIndirectMap.buildCausticMap.directPhotonsBVH.isSome =
          true →
        1 ≤ t.freeVisibilityMap.buildDirectMap.buildIndirectMap.buildCausticMap.directPhotonTracedCount) ∧
      (t.freeVisibilityMap.buildDirectMap.buildIndirectMap.buildCausticMap.indirectPhotonsBVH.isSome =
          true →
        1 ≤ t.freeVisibilityMap.buildDirectMap.buildIndirectMap.buildCausticMap.indirectPhotonTracedCount) ∧
      (t.freeVisibilityMap.buildDirectMap.buildIndirectMap.buildCausticMap.causticPhotonsBVH.isSome =
          true →
        1 ≤ t.freeVisibilityMap.buildDirectMap.buildIndirectMap.buildCausticMap.causticPhotonTracedCount) ∧
      (c.directPhotonsBVH.isSome = true → 1 ≤ c.directPhotonTracedCount) ∧
      (c.causticPhotonsBVH.isSome = true → 1 ≤ c.causticPhotonTracedCount) ∧
      (∀ (photonTracedCount : Nat) (maxDistance2 : ℚ), 1 ≤ photonTracedCount →
        maxDistance2 ≠ 0 →
        (photonTracedCount : ℚ) * maxDistance2 ≠ 0 ∧
          (M.M_PI ≠ 0 → (photonTracedCount : ℚ) * maxDistance2 * M.M_PI ≠ 0)) := by
  obtain ⟨t, htr, hc⟩ := Preprocess_eq M schedule fuel _ c h
  obtain ⟨_, v2, v3, v4, v5, _, v7, v8, v9, _⟩ :=
    prepareVisibility_fields M (PhotonGICache.construct scn p)
  obtain ⟨_, _, _, k4, _⟩ := construct_keeps_flags scn p
  obtain ⟨_, _, f3, f4, f5, _, _, _⟩ := TracePhotons_frame M schedule fuel _ t htr
  obtain ⟨p1, p2, p3⟩ := TracePhotons_traced_pos M schedule fuel _ t
    (by rw [v2, k4]; exact hN) (by rw [v3]; rfl) (by rw [v4]; rfl) (by rw [v5]; rfl) htr
  obtain ⟨s1, s2, s3⟩ := buildSteps_traced t
  obtain ⟨n1, n2, n3⟩ := buildSteps_bvh_nonempty t (by rw [f3, v7]; rfl) (by rw [f4, v8]; rfl)
    (by rw [f5, v9]; rfl)
  obtain ⟨m1, m3⟩ := buildMaps_traced M t
  obtain ⟨r0, r1, r3, _⟩ := buildRadianceMap_fields M
    t.freeVisibilityMap.buildDirectMap.buildIndirectMap.buildCausticMap
  obtain ⟨u1, u3, _⟩ := freeUnused_fields (PhotonGICache.buildRadianceMap M
    t.freeVisibilityMap.buildDirectMap.buildIndirectMap.buildCausticMap)
  refine ⟨t, htr, hc, p1, p2, p3, ?_, ?_, ?_, ?_, ?_, ?_⟩
  · intro hb; rw [s1]; exact p1 (n1 hb)
  · intro hb; rw [s2]; exact p2 (n2 hb)
  · intro hb; rw [s3]; exact p3 (n3 hb)
  · intro hb
    rw [hc, m1]
    rw [hc] at hb
    unfold PhotonGICache.buildMaps at hb
    have := (u1.1 hb).2
    rw [r1] at this
    exact p1 (n1 this)
  · intro hb
    rw [hc, m3]
    rw [hc] at hb
    unfold PhotonGICache.buildMaps at hb
    have := (u3.1 hb).2
    rw [r3] at this
    exact p3 (n3 this)
  · intro n d hn hd
    have hn0 : (n : ℚ) ≠ 0 := by
      have : 0 < n := hn
      exact_mod_cast (Nat.pos_iff_ne_zero.mp this)
    exact ⟨mul_ne_zero hn0 hd, fun hpi => mul_ne_zero (mul_ne_zero hn0 hd) hpi⟩

theorem Preprocess_traced_count_positive_witness :
    ∃ c, PhotonGICache.Preprocess exactPlatform [] 3
        (PhotonGICache.construct floorScene allEnabledParams) = Except.ok c ∧
      allEnabledParams.photon.maxTracedCount + 4096 * exactPlatform.hardware_concurrency ≤
        4294967296 ∧
      c.directPhotonsBVH.isSome = true ∧ c.directPhotonTracedCount = 2 ∧
      ∃ t, PhotonGICache.TracePhotons exactPlatform [] 3
          ((PhotonGICache.construct floorScene allEnabledParams).prepareVisibility exactPlatform) =
          Except.ok t ∧
        c = PhotonGICache.buildMaps exactPlatform t ∧
        (t.directPhotons ≠ [] → 1 ≤ t.directPhotonTracedCount) :=
  ⟨_, by with_unfolding_all rfl, by decide!, by decide!, by decide!,
    (Preprocess_traced_count_positive exactPlatform [] 3 floorScene allEnabledParams _
      (by decide!) (by with_unfolding_all rfl)).imp
      (fun _ h => ⟨h.1, h.2.1, h.2.2.1⟩)⟩

/-! ## The classes that are disabled -/

theorem construct_maxSize_zero (scn : Scene) (p : PhotonGICacheParams) :
    (p.caustic.enabled = false →
        (PhotonGICache.construct scn p).params.maxSizeOf PhotonClass.caustic = 0) ∧
      (p.indirect.enabled = false →
        (PhotonGICache.construct scn p).params.maxSizeOf PhotonClass.indirect = 0) ∧
      (p.direct.enabled = false → p.indirect.enabled = false →
        (PhotonGICache.construct scn p).params.maxSizeOf PhotonClass.direct = 0) := by
  simp only [PhotonGICache.construct, PhotonGICache.normalizeParams,
    PhotonGICacheParams.maxSizeOf]
  cases hd : p.direct.enabled <;> cases hi : p.indirect.enabled <;>
    cases hc : p.caustic.enabled <;> simp [hd, hi, hc]

theorem RenderFunc.bucket_disabledInv (M : Platform) (c0 : PhotonGICache)
    (E : PhotonClass → Nat) (pgic pgic2 : PhotonGICache) (th th2 : TracePhotonsThread)
    (hG : sizeInv c0 pgic (fun X => E X + (th.ofClass X).length) ∧
      disabledInv pgic (fun X => E X + (th.ofClass X).length))
    (h : RenderFunc.bucket M pgic th = Except.ok (pgic2, th2)) :
    sizeInv c0 pgic2 (fun X => E X + (th2.ofClass X).length) ∧
      disabledInv pgic2 (fun X => E X + (th2.ofClass X).length) := by
  refine ⟨RenderFunc.bucket_sizeInv M c0 E pgic pgic2 th th2 hG.1 h, ?_⟩
  intro X hX
  obtain ⟨hsame, _, _, b4, _, _⟩ := RenderFunc.bucket_ofClass M pgic pgic2 th th2 X h
  have hp : pgic2.params = pgic.params := hsame.2.1
  rw [hp] at hX
  obtain ⟨g1, g2⟩ := hG.2 X hX
  have hlen := b4 (by rw [hX]; exact Nat.zero_le _)
  simp only [] at g1 ⊢
  refine ⟨by omega, ?_⟩
  by_cases hstop : pgic.globalPhotonsCounter ≥ pgic.params.photon.maxTracedCount
  · rw [RenderFunc.bucket_stop M pgic th hstop] at h
    simp only [Except.ok.injEq, Prod.mk.injEq] at h
    obtain ⟨h1, _⟩ := h
    subst h1
    rw [← g2]
    cases X <;> simp only [PhotonGICache.tracedOf]
  · rcases RenderFunc.bucket_work M pgic th (Nat.not_le.1 hstop) with
      ⟨he, _⟩ | ⟨q, t, hok, _, _, hflags, _, htr⟩
    · rw [he] at h; cases h
    · rw [hok] at h
      simp only [Except.ok.injEq, Prod.mk.injEq] at h
      obtain ⟨h1, h2⟩ := h
      subst h1 h2
      rw [htr X, hflags X, if_pos (by rw [hX]; exact decide_eq_true (Nat.zero_le _))]
      exact g2

theorem TracePhotonPath_disabled (pgic : PhotonGICache) (th : TracePhotonsThread)
    (rndGen : RandomGenerator) (samples : List ℚ) :
    (pgic.params.caustic.enabled = false →
        (TracePhotonPath pgic th rndGen samples).photons.newCausticPhotons = []) ∧
      (pgic.params.indirect.enabled = false →
        (TracePhotonPath pgic th rndGen samples).photons.newIndirectPhotons = []) ∧
      (pgic.params.direct.enabled = false → pgic.params.indirect.enabled = false →
        (TracePhotonPath pgic th rndGen samples).photons.newDirectPhotons = []) := by
  refine ⟨?_, ?_, ?_⟩
  · intro hk
    apply TracePhotonPath_preserves pgic th (fun ph _ => ph.newCausticPhotons = [])
    · rfl
    · intro bsdf s hs
      rcases depositVertex_cases pgic th bsdf s with h | h
      · rw [h]; exact hs
      · rw [h, (depositPhotons_lists pgic th bsdf _ s).2.1, if_neg]
        · exact hs
        · rintro ⟨_, _, h3, _⟩
          rw [hk] at h3
          cases h3
  · intro hi
    apply TracePhotonPath_preserves pgic th (fun ph _ => ph.newIndirectPhotons = [])
    · rfl
    · intro bsdf s hs
      rcases depositVertex_cases pgic th bsdf s with h | h
      · rw [h]; exact hs
      · rw [h, (depositPhotons_lists pgic th bsdf _ s).2.2, if_neg]
        · exact hs
        · rintro ⟨_, _, h3, _⟩
          rw [hi] at h3
          cases h3
  · intro hd hi
    apply TracePhotonPath_preserves pgic th (fun ph _ => ph.newDirectPhotons = [])
    · rfl
    · intro bsdf s hs
      rcases depositVertex_cases pgic th bsdf s with h | h
      · rw [h]; exact hs
      · rw [h, (depositPhotons_lists pgic th bsdf _ s).1, if_neg]
        · exact hs
        · rintro ⟨_, h2 | h2, _⟩
          · rw [hd] at h2; cases h2
          · rw [hi] at h2; cases h2

/-- After `TracePhotons` on a cache whose vector of a class is empty and whose
`maxSize` of that class is 0, the vector is empty and the traced counter is 0. -/
theorem TracePhotons_no_budget (M : Platform) (schedule : List Nat) (fuel : Nat)
    (c t : PhotonGICache) (h : PhotonGICache.TracePhotons M schedule fuel c = Except.ok t)
    (X : PhotonClass) (hX : c.params.maxSizeOf X = 0) :
    t.tracedOf X = 0 ∧
      (X = PhotonClass.direct → c.directPhotons = [] →
        t.directPhotons = [] ∧ t.directPhotonTracedCount = 0) ∧
      (X = PhotonClass.indirect → c.indirectPhotons = [] →
        t.indirectPhotons = [] ∧ t.indirectPhotonTracedCount = 0) ∧
      (X = PhotonClass.caustic → c.causticPhotons = [] →
        t.causticPhotons = [] ∧ t.causticPhotonTracedCount = 0) := by
  obtain ⟨st, ⟨⟨hsame, _⟩, hdis⟩, ht⟩ := TracePhotons_preserves M
    (fun pgic tot => sizeInv c.resetCounters pgic tot ∧ disabledInv pgic tot)
    (RenderFunc.bucket_disabledInv M c.resetCounters) schedule fuel c t
    ⟨sizeInv_resetCounters c, fun Y _ => ⟨rfl, by cases Y <;> rfl⟩⟩ h
  have hp : st.pgic.params = c.params := hsame.2.1
  obtain ⟨g1, g2⟩ := hdis X (by rw [hp]; exact hX)
  obtain ⟨_, _, _, _, _, _, _, e8, e9, e10, _⟩ := hsame
  have hfl : (st.renderThreads.map (fun th => th.ofClass X)).flatten = [] :=
    List.length_eq_zero.mp (by rw [storedCount_flatten]; exact g1)
  refine ⟨?_, ?_, ?_, ?_⟩
  · rw [ht, ← g2]; cases X <;> rfl
  · intro hx hv
    subst hx
    rw [ht]
    refine ⟨?_, g2⟩
    simp only [TraceState.collect]
    rw [e8]
    show c.directPhotons ++ _ = []
    rw [hv, List.nil_append]
    exact hfl
  · intro hx hv
    subst hx
    rw [ht]
    refine ⟨?_, g2⟩
    simp only [TraceState.collect]
    rw [e9]
    show c.indirectPhotons ++ _ = []
    rw [hv, List.nil_append]
    exact hfl
  · intro hx hv
    subst hx
    rw [ht]
    refine ⟨?_, g2⟩
    simp only [TraceState.collect]
    rw [e10]
    show c.causticPhotons ++ _ = []
    rw [hv, List.nil_append]
    exact hfl

/-- C34: on a cache as the constructor leaves it, a disabled class receives no
photon and accrues no traced count, in any bucket-granular interleaving of any
number of workers: with caustic disabled `TracePhotonPath` pushes no caustic
Photon, and after `TracePhotons` the caustic vector is empty and
`causticPhotonTracedCount` is 0; likewise for indirect; and with direct and
indirect both disabled likewise for direct.  The `maxSize` of such a class is 0,
so its done snapshot is true in every bucket. -/
theorem TracePhotons_disabled_class (M : Platform) (schedule : List Nat) (fuel : Nat)
    (scn : Scene) (p : PhotonGICacheParams) (t : PhotonGICache)
    (h : PhotonGICache.TracePhotons M schedule fuel
      ((PhotonGICache.construct scn p).prepareVisibility M) = Except.ok t) :
    (p.caustic.enabled = false →
        t.causticPhotons = [] ∧ t.causticPhotonTracedCount = 0 ∧
          t.globalCausticPhotonsTraced = 0 ∧
          (PhotonGICache.construct scn p).params.caustic.maxSize = 0 ∧
          ∀ (pgic : PhotonGICache) (th : TracePhotonsThread) (g : RandomGenerator)
            (samples : List ℚ), pgic.params = (PhotonGICache.construct scn p).params →
            (RenderFunc.snapshotDone pgic th).causticDone = true ∧
              (TracePhotonPath pgic th g samples).photons.newCausticPhotons = []) ∧
      (p.indirect.enabled = false →
        t.indirectPhotons = [] ∧ t.indirectPhotonTracedCount = 0 ∧
          t.globalIndirectPhotonsTraced = 0 ∧
          (PhotonGICache.construct scn p).params.indirect.maxSize = 0 ∧
          ∀ (pgic : PhotonGICache) (th : TracePhotonsThread) (g : RandomGenerator)
            (samples : List ℚ), pgic.params = (PhotonGICache.construct scn p).params →
            (RenderFunc.snapshotDone pgic th).indirectDone = true ∧
              (TracePhotonPath pgic th g samples).photons.newIndirectPhotons = []) ∧
      (p.direct.enabled = false → p.indirect.enabled = false →
        t.directPhotons = [] ∧ t.directPhotonTracedCount = 0 ∧
          t.globalDirectPhotonsTraced = 0 ∧
          (PhotonGICache.construct scn p).params.direct.maxSize = 0 ∧
          ∀ (pgic : PhotonGICache) (th : TracePhotonsThread) (g : RandomGenerator)
            (samples : List ℚ), pgic.params = (PhotonGICache.construct scn p).params →
            (RenderFunc.snapshotDone pgic th).directDone = true ∧
              (TracePhotonPath pgic th g samples).photons.newDirectPhotons = []) := by
  obtain ⟨_, v2, v3, v4, v5, _⟩ := prepareVisibility_fields M (PhotonGICache.construct scn p)
  obtain ⟨m1, m2, m3⟩ := construct_maxSize_zero scn p
  obtain ⟨k1, k2, k3, _⟩ := construct_keeps_flags scn p
  refine ⟨?_, ?_, ?_⟩
  · intro hk
    obtain ⟨a1, _, _, a4⟩ := TracePhotons_no_budget M schedule fuel _ t h PhotonClass.caustic
      (by rw [v2]; exact m1 hk)
    obtain ⟨b1, b2⟩ := a4 rfl (by rw [v5]; rfl)
    refine ⟨b1, b2, a1, m1 hk, ?_⟩
    intro pgic th g samples hp
    refine ⟨?_, (TracePhotonPath_disabled pgic th g samples).1 (by rw [hp, k3]; exact hk)⟩
    exact (snapshotDone_ofClass pgic th PhotonClass.caustic).2.2
      (by rw [hp, m1 hk]; exact Nat.zero_le _)
  · intro hi
    obtain ⟨a1, _, a3, _⟩ := TracePhotons_no_budget M schedule fuel _ t h PhotonClass.indirect
      (by rw [v2]; exact m2 hi)
    obtain ⟨b1, b2⟩ := a3 rfl (by rw [v4]; rfl)
    refine ⟨b1, b2, a1, m2 hi, ?_⟩
    intro pgic th g samples hp
    refine ⟨?_, (TracePhotonPath_disabled pgic th g samples).2.1 (by rw [hp, k2]; exact hi)⟩
    exact (snapshotDone_ofClass pgic th PhotonClass.indirect).2.2
      (by rw [hp, m2 hi]; exact Nat.zero_le _)
  · intro hd hi
    obtain ⟨a1, a2, _, _⟩ := TracePhotons_no_budget M schedule fuel _ t h PhotonClass.direct
      (by rw [v2]; exact m3 hd hi)
    obtain ⟨b1, b2⟩ := a2 rfl (by rw [v3]; rfl)
    refine ⟨b1, b2, a1, m3 hd hi, ?_⟩
    intro pgic th g samples hp
    refine ⟨?_, (TracePhotonPath_disabled pgic th g samples).2.2 (by rw [hp, k1]; exact hd)
      (by rw [hp, k2]; exact hi)⟩
    exact (snapshotDone_ofClass pgic th PhotonClass.direct).2.2
      (by rw [hp, m3 hd hi]; exact Nat.zero_le _)

theorem TracePhotons_disabled_class_witness :
    ∃ t, PhotonGICache.TracePhotons exactPlatform [] 3
        ((PhotonGICache.construct floorScene directOnlyParams).prepareVisibility exactPlatform) =
        Except.ok t ∧
      directOnlyParams.caustic.enabled = false ∧ t.directPhotons.length = 2 ∧
      t.directPhotonTracedCount = 2 ∧
      t.causticPhotons = [] ∧ t.causticPhotonTracedCount = 0 :=
  ⟨_, by with_unfolding_all rfl, by decide!, by decide!, by decide!,
    ((TracePhotons_disabled_class exactPlatform [] 3 floorScene directOnlyParams _
      (by with_unfolding_all rfl)).1 (by decide!)).1,
    ((TracePhotons_disabled_class exactPlatform [] 3 floorScene directOnlyParams _
      (by with_unfolding_all rfl)).1 (by decide!)).2.1⟩

/-! ## The reads of the sample vector -/

theorem List.get_eq_some_getD (l : List ℚ) (i : Nat) (h : i < l.length) :
    l.get? i = some (l.getD i 0) := by
  rw [List.getD_eq_getElem?_getD, List.get?_eq_getElem?, List.getElem?_eq_getElem h]
  rfl

theorem TracePhotonPath.sampleOffset_le (depth : Nat) :
    TracePhotonPath.sampleOffset depth ≤ 7 + 4 * (depth - 1) ∧
      (7 + 4 * (depth - 1) < 4294967296 →
        TracePhotonPath.sampleOffset depth = 7 + 4 * (depth - 1)) := by
  unfold TracePhotonPath.sampleOffset u32 sampleBootSize sampleStepSize
  constructor
  · have h1 := Nat.mod_le ((depth - 1) * 4) 4294967296
    have h2 := Nat.mod_le (7 + (depth - 1) * 4 % 4294967296) 4294967296
    omega
  · intro h
    rw [Nat.mod_eq_of_lt (by omega), Nat.mod_eq_of_lt (by omega)]
    omega

theorem TracePhotonPath.loopChecked_eq (pgic : PhotonGICache) (th : TracePhotonsThread)
    (samples : List ℚ)
    (hlen : samples.length = 7 + 4 * pgic.params.photon.maxPathDepth) :
    ∀ (fuel : Nat) (s : PathState), 1 ≤ s.depth →
      TracePhotonPath.loopChecked pgic th samples fuel s =
        some (TracePhotonPath.loop pgic th samples fuel s) := by
  intro fuel
  induction fuel with
  | zero => intro s _; rfl
  | succ fuel ih =>
    intro s hs
    rw [TracePhotonPath.loopChecked, TracePhotonPath.loop]
    by_cases hd : s.depth ≤ pgic.params.photon.maxPathDepth
    · rw [if_pos hd, if_pos hd]
      have ho := (TracePhotonPath.sampleOffset_le s.depth).1
      have hb : TracePhotonPath.sampleOffset s.depth < samples.length := by omega
      simp only []
      rw [List.get_eq_some_getD samples _ hb]
      simp only []
      have hoff : TracePhotonPath.sampleOffset s.depth =
          u32 (sampleBootSize + u32 ((s.depth - 1) * sampleStepSize)) := rfl
      rw [← hoff]
      cases hi : pgic.scene.Intersect s.volInfo
          (samples.getD (TracePhotonPath.sampleOffset s.depth) 0) s.nextEventRay with
      | none => rfl
      | some hit =>
        simp only []
        have hdep := depositVertex_depth pgic th hit.bsdf
          { s with
              lightPathFlux := s.lightPathFlux.mul hit.connectionThroughput
              volInfo := hit.volInfo }
        by_cases hge : (depositVertex pgic th hit.bsdf
            { s with
                lightPathFlux := s.lightPathFlux.mul hit.connectionThroughput
                volInfo := hit.volInfo }).depth ≥ pgic.params.photon.maxPathDepth
        · rw [if_pos hge, if_pos hge]
        · rw [if_neg hge, if_neg hge]
          have hlt : s.depth < pgic.params.photon.maxPathDepth := by
            rw [hdep] at hge
            exact Nat.not_le.1 hge
          have h2 : u32 (TracePhotonPath.sampleOffset s.depth + 2) < samples.length := by
            have := Nat.mod_le (TracePhotonPath.sampleOffset s.depth + 2) 4294967296
            unfold u32
            omega
          have h3 : u32 (TracePhotonPath.sampleOffset s.depth + 3) < samples.length := by
            have := Nat.mod_le (TracePhotonPath.sampleOffset s.depth + 3) 4294967296
            unfold u32
            omega
          rw [List.get_eq_some_getD samples _ h2, List.get_eq_some_getD samples _ h3]
          simp only []
          by_cases hbl : (hit.bsdf.Sample
              (samples.getD (u32 (TracePhotonPath.sampleOffset s.depth + 2)) 0)
              (samples.getD (u32 (TracePhotonPath.sampleOffset s.depth + 3)) 0)).value.Black = true
          · rw [if_pos hbl, if_pos hbl]
          · rw [if_neg hbl, if_neg hbl]
            exact ih _ (Nat.le_add_left 1 _)
    · rw [if_neg hd, if_neg hd]

theorem UniformMutate_length :
    ∀ (n : Nat) (g : RandomGenerator), (UniformMutate g n).1.length = n := by
  intro n
  induction n with
  | zero => intro g; rfl
  | succ n ih =>
    intro g
    simp only [UniformMutate, List.length_cons, ih]

/-- C31: with a sample vector of length `7 + 4 * maxPathDepth`, no read of
`TracePhotonPath` is past the end: the run with checked reads succeeds and gives
what `TracePhotonPath` gives.  The light setup reads the indices 0 to 6; the
vertex at depth `d`, `1 <= d <= maxPathDepth`, reads `sampleOffset` for the
intersection and `sampleOffset + 2`, `sampleOffset + 3` for `bsdf.Sample`, with
`sampleOffset + 3` below the length and `sampleOffset = 7 + 4 * (d - 1)` when
that number fits a `u_int`.  The vectors `RenderFunc` works with have
`sampleSize` samples, which is `7 + 4 * maxPathDepth` when that fits a `u_int`,
and `UniformMutate` and `Mutate` keep that length. -/
theorem TracePhotonPath_reads_in_bounds (pgic : PhotonGICache) (th : TracePhotonsThread)
    (rndGen : RandomGenerator) (samples : List ℚ)
    (hlen : samples.length = 7 + 4 * pgic.params.photon.maxPathDepth) :
    TracePhotonPath.checked pgic th rndGen samples =
        some (TracePhotonPath pgic th rndGen samples) ∧
      (∀ i, i ≤ 6 → i < samples.length) ∧
      (∀ d, 1 ≤ d → d ≤ pgic.params.photon.maxPathDepth →
        TracePhotonPath.sampleOffset d + 3 < samples.length ∧
          (7 + 4 * (d - 1) < 4294967296 →
            TracePhotonPath.sampleOffset d = 7 + 4 * (d - 1))) ∧
      (7 + 4 * pgic.params.photon.maxPathDepth < 4294967296 →
        sampleSize pgic = 7 + 4 * pgic.params.photon.maxPathDepth) ∧
      (∀ g : RandomGenerator, (UniformMutate g (sampleSize pgic)).1.length = sampleSize pgic) ∧
      (∀ (M : Platform) (g : RandomGenerator) (mutationSize : ℚ),
        (Mutate M g samples mutationSize).1.length = samples.length) := by
  have hget : ∀ i, i ≤ 6 → samples.get? i = some (samples.getD i 0) :=
    fun i hi => List.get_eq_some_getD samples i (by omega)
  refine ⟨?_, fun i hi => by omega, ?_, ?_, fun g => UniformMutate_length _ g,
    fun M g ms => Mutate_length M ms samples g⟩
  · unfold TracePhotonPath.checked TracePhotonPath TracePhotonPath.emitSamples
    rw [hget 0 (by omega), hget 1 (by omega), hget 2 (by omega), hget 3 (by omega),
      hget 4 (by omega), hget 5 (by omega), hget 6 (by omega)]
    simp only []
    cases hL : pgic.scene.SampleLights (samples.getD 1 0) with
    | none => rfl
    | some lp =>
      obtain ⟨light, lightPickPdf⟩ := lp
      simp only []
      split_ifs
      · rw [TracePhotonPath.loopChecked_eq pgic th samples hlen _ _ (le_refl 1)]
      · rfl
  · intro d h1 h2
    obtain ⟨a, b⟩ := TracePhotonPath.sampleOffset_le d
    exact ⟨by omega, b⟩
  · intro h
    unfold sampleSize u32 sampleBootSize sampleStepSize
    rw [Nat.mod_eq_of_lt (by omega), Nat.mod_eq_of_lt (by omega)]
    omega

theorem TracePhotonPath_reads_in_bounds_witness :
    halfSamples.length =
        7 + 4 * (PhotonGICache.construct floorScene allEnabledParams).params.photon.maxPathDepth ∧
      TracePhotonPath.checked (PhotonGICache.construct floorScene allEnabledParams) freshThread
          freshThread.rndGen halfSamples =
        some (TracePhotonPath (PhotonGICache.construct floorScene allEnabledParams) freshThread
          freshThread.rndGen halfSamples) ∧
      (TracePhotonPath (PhotonGICache.construct floorScene allEnabledParams) freshThread
          freshThread.rndGen halfSamples).photons.newDirectPhotons.length = 1 ∧
      (TracePhotonPath.checked (PhotonGICache.construct floorScene allEnabledParams) freshThread
          freshThread.rndGen (List.replicate 10 (1 / 2))).isSome = false :=
  ⟨by decide, (TracePhotonPath_reads_in_bounds
      (PhotonGICache.construct floorScene allEnabledParams) freshThread freshThread.rndGen
      halfSamples (by decide)).1, by decide!, by decide!⟩

/-! ## The pixel index of the random sampler -/

theorem u32sub_add_one (a b : Nat) (h : a ≤ b) (hfit : b - a + 1 < 4294967296) : u32 (u32sub b a + 1) = b - a + 1 := by
  unfold u32 u32sub
  have : (b + 4294967296 - a) % 4294967296 = b - a := by
    rw [show b + 4294967296 - a = (b - a) + 4294967296 by omega, Nat.add_mod_right]
    exact Nat.mod_eq_of_lt (by omega)
  rw [this]
  exact Nat.mod_eq_of_lt hfit

theorem RandomSamplerSharedData.construct_count (film : Film)
    (hx : film.subRegion0 ≤ film.subRegion1) (hy : film.subRegion2 ≤ film.subRegion3)
    (hfit : (film.subRegion1 - film.subRegion0 + 1) * (film.subRegion3 - film.subRegion2 + 1) <
      4294967296) :
    u32 (u32sub film.subRegion1 film.subRegion0 + 1) = film.subRegion1 - film.subRegion0 + 1 ∧
      (RandomSamplerSharedData.construct film).filmRegionPixelCount =
        (film.subRegion1 - film.subRegion0 + 1) * (film.subRegion3 - film.subRegion2 + 1) ∧
      0 < (film.subRegion1 - film.subRegion0 + 1) * (film.subRegion3 - film.subRegion2 + 1) := by
  have hw : film.subRegion1 - film.subRegion0 + 1 ≤
      (film.subRegion1 - film.subRegion0 + 1) * (film.subRegion3 - film.subRegion2 + 1) :=
    Nat.le_mul_of_pos_right _ (Nat.succ_pos _)
  have hh : film.subRegion3 - film.subRegion2 + 1 ≤
      (film.subRegion1 - film.subRegion0 + 1) * (film.subRegion3 - film.subRegion2 + 1) :=
    Nat.le_mul_of_pos_left _ (Nat.succ_pos _)
  have e1 := u32sub_add_one film.subRegion0 film.subRegion1 hx (lt_of_le_of_lt hw hfit)
  have e2 := u32sub_add_one film.subRegion2 film.subRegion3 hy (lt_of_le_of_lt hh hfit)
  refine ⟨e1, ?_, Nat.mul_pos (Nat.succ_pos _) (Nat.succ_pos _)⟩
  unfold RandomSamplerSharedData.construct
  simp only [e1, e2]
  exact Nat.mod_eq_of_lt hfit

theorem RandomSamplerSharedData.GetNewPixelIndex_inv (RANDOM_THREAD_WORK_SIZE : Nat)
    (sharedData : RandomSamplerSharedData) (h0 : 0 < sharedData.filmRegionPixelCount) :
    ∃ sd, sharedData.GetNewPixelIndex RANDOM_THREAD_WORK_SIZE = some (sharedData.pixelIndex, sd) ∧
      sd.filmRegionPixelCount = sharedData.filmRegionPixelCount ∧
      sd.pixelIndex < sd.filmRegionPixelCount ∧
      sd.pixelIndex =
        u32 (sharedData.pixelIndex + RANDOM_THREAD_WORK_SIZE) % sharedData.filmRegionPixelCount ∧
      (sharedData.pixelIndex + RANDOM_THREAD_WORK_SIZE < 4294967296 →
        sd.pixelIndex =
          (sharedData.pixelIndex + RANDOM_THREAD_WORK_SIZE) % sharedData.filmRegionPixelCount) := by
  unfold RandomSamplerSharedData.GetNewPixelIndex
  rw [if_neg (Nat.pos_iff_ne_zero.mp h0)]
  refine ⟨_, rfl, rfl, Nat.mod_lt _ h0, rfl, ?_⟩
  intro hlt
  show u32 _ % _ = _
  unfold u32
  rw [Nat.mod_eq_of_lt hlt]

theorem RandomSamplerSharedData.calls_lt (RANDOM_THREAD_WORK_SIZE : Nat) :
    ∀ (n : Nat) (sharedData : RandomSamplerSharedData),
      sharedData.pixelIndex < sharedData.filmRegionPixelCount →
      ∃ rs sd, RandomSamplerSharedData.calls RANDOM_THREAD_WORK_SIZE n sharedData = some (rs, sd) ∧
        rs.length = n ∧ (∀ r ∈ rs, r < sharedData.filmRegionPixelCount) ∧
        sd.filmRegionPixelCount = sharedData.filmRegionPixelCount ∧
        sd.pixelIndex < sd.filmRegionPixelCount := by
  intro n
  induction n with
  | zero =>
    intro sharedData h
    exact ⟨[], sharedData, rfl, rfl, fun r hr => absurd hr (List.not_mem_nil r), rfl, h⟩
  | succ n ih =>
    intro sharedData h
    obtain ⟨sd1, h1, h2, h3, _⟩ := RandomSamplerSharedData.GetNewPixelIndex_inv
      RANDOM_THREAD_WORK_SIZE sharedData (lt_of_le_of_lt (Nat.zero_le _) h)
    obtain ⟨rs, sd2, k1, k2, k3, k4, k5⟩ := ih sd1 h3
    refine ⟨sharedData.pixelIndex :: rs, sd2, ?_, by rw [List.length_cons, k2], ?_,
      by rw [k4, h2], k5⟩
    · rw [RandomSamplerSharedData.calls, h1]
      simp only [k1]
    · intro r hr
      rcases List.mem_cons.mp hr with hr | hr
      · rw [hr]; exact h
      · rw [← h2]; exact k3 r hr

theorem RandomSampler.pixel_in_region (film : Film)
    (hx : film.subRegion0 ≤ film.subRegion1) (hy : film.subRegion2 ≤ film.subRegion3)
    (hx1 : film.subRegion1 < 4294967296) (hy1 : film.subRegion3 < 4294967296)
    (hfit : (film.subRegion1 - film.subRegion0 + 1) * (film.subRegion3 - film.subRegion2 + 1) <
      4294967296)
    (pixelIndexBase pixelIndexOffset : Nat) :
    ∃ pixelX pixelY,
      RandomSampler.pixel film
          ((film.subRegion1 - film.subRegion0 + 1) * (film.subRegion3 - film.subRegion2 + 1))
          pixelIndexBase pixelIndexOffset = some (pixelX, pixelY) ∧
        film.subRegion0 ≤ pixelX ∧ pixelX ≤ film.subRegion1 ∧
        film.subRegion2 ≤ pixelY ∧ pixelY ≤ film.subRegion3 := by
  obtain ⟨e1, _, hpos⟩ := RandomSamplerSharedData.construct_count film hx hy hfit
  unfold RandomSampler.pixel
  rw [if_neg (Nat.pos_iff_ne_zero.mp hpos)]
  simp only [e1]
  rw [if_neg (Nat.succ_ne_zero _)]
  have hidx : u32 (pixelIndexBase + pixelIndexOffset) %
      ((film.subRegion1 - film.subRegion0 + 1) * (film.subRegion3 - film.subRegion2 + 1)) <
      (film.subRegion1 - film.subRegion0 + 1) * (film.subRegion3 - film.subRegion2 + 1) :=
    Nat.mod_lt _ hpos
  generalize u32 (pixelIndexBase + pixelIndexOffset) %
      ((film.subRegion1 - film.subRegion0 + 1) * (film.subRegion3 - film.subRegion2 + 1)) = k
      at hidx
  have hm : k % (film.subRegion1 - film.subRegion0 + 1) < film.subRegion1 - film.subRegion0 + 1 :=
    Nat.mod_lt _ (Nat.succ_pos _)
  have hdv : k / (film.subRegion1 - film.subRegion0 + 1) < film.subRegion3 - film.subRegion2 + 1 :=
    Nat.div_lt_of_lt_mul hidx
  generalize k % (film.subRegion1 - film.subRegion0 + 1) = a at hm
  generalize k / (film.subRegion1 - film.subRegion0 + 1) = b at hdv
  have ha : u32 (film.subRegion0 + a) = film.subRegion0 + a := Nat.mod_eq_of_lt (by omega)
  have hb : u32 (film.subRegion2 + b) = film.subRegion2 + b := Nat.mod_eq_of_lt (by omega)
  rw [ha, hb]
  exact ⟨_, _, rfl, by omega, by omega, by omega, by omega⟩

theorem RandomSampler.InitNewSample_pixel (RANDOM_THREAD_WORK_SIZE : Nat) (film : Film)
    (hx : film.subRegion0 ≤ film.subRegion1) (hy : film.subRegion2 ≤ film.subRegion3)
    (hx1 : film.subRegion1 < 4294967296) (hy1 : film.subRegion3 < 4294967296)
    (hfit : (film.subRegion1 - film.subRegion0 + 1) * (film.subRegion3 - film.subRegion2 + 1) <
      4294967296)
    (sharedData : RandomSamplerSharedData) (s : RandomSampler)
    (hc : sharedData.filmRegionPixelCount =
      (film.subRegion1 - film.subRegion0 + 1) * (film.subRegion3 - film.subRegion2 + 1)) :
    ∃ s2 sd pixelX pixelY,
      RandomSampler.InitNewSample RANDOM_THREAD_WORK_SIZE film sharedData s = some (s2, sd) ∧
        sd.filmRegionPixelCount = sharedData.filmRegionPixelCount ∧
        RandomSampler.pixel film sd.filmRegionPixelCount s2.pixelIndexBase s2.pixelIndexOffset =
          some (pixelX, pixelY) ∧
        s2.sample0 = ((pixelX : ℚ) + s.rndGen.draws s.rndGen.pos) / (film.width : ℚ) ∧
        s2.sample1 = ((pixelY : ℚ) + s.rndGen.draws (s.rndGen.pos + 1)) / (film.height : ℚ) ∧
        film.subRegion0 ≤ pixelX ∧ pixelX ≤ film.subRegion1 ∧
        film.subRegion2 ≤ pixelY ∧ pixelY ≤ film.subRegion3 := by
  obtain ⟨_, _, hpos⟩ := RandomSamplerSharedData.construct_count film hx hy hfit
  unfold RandomSampler.InitNewSample
  simp only []
  by_cases hask : u32 (s.pixelIndexOffset + 1) > RANDOM_THREAD_WORK_SIZE
  · rw [if_pos hask]
    obtain ⟨sd1, h1, h2, _⟩ := RandomSamplerSharedData.GetNewPixelIndex_inv
      RANDOM_THREAD_WORK_SIZE sharedData (by rw [hc]; exact hpos)
    rw [h1]
    simp only []
    obtain ⟨px, py, hp, b1, b2, b3, b4⟩ := RandomSampler.pixel_in_region film hx hy hx1 hy1 hfit
      sharedData.pixelIndex 0
    rw [h2, hc, hp]
    exact ⟨_, _, px, py, rfl, by rw [h2, hc], by rw [h2, hc]; exact hp, rfl, rfl, b1, b2, b3, b4⟩
  · rw [if_neg hask]
    simp only []
    obtain ⟨px, py, hp, b1, b2, b3, b4⟩ := RandomSampler.pixel_in_region film hx hy hx1 hy1 hfit
      s.pixelIndexBase (u32 (s.pixelIndexOffset + 1))
    rw [hc, hp]
    exact ⟨_, _, px, py, rfl, hc, by rw [hc]; exact hp, rfl, rfl, b1, b2, b3, b4⟩

/-- C40: for a film sub-region `[x0, x1] x [y0, y1]` with `x0 <= x1`, `y0 <= y1`
(coordinates that fit a `u_int`) whose pixel count
`(x1 - x0 + 1) * (y1 - y0 + 1)` fits a `u_int`: the constructor stores that count
and index 0; every call of `GetNewPixelIndex`, and so each of any number of calls
in a row, hands out the shared index, which is below the count, and leaves the
index `(pixelIndex + RANDOM_THREAD_WORK_SIZE)`, as a `u_int`, modulo the count
(the sum itself modulo the count when the sum fits a `u_int`); and
`InitNewSample` succeeds, for every base and offset, with a pixel that satisfies
`x0 <= pixelX <= x1` and `y0 <= pixelY <= y1`. -/
theorem RandomSampler_pixel_index (RANDOM_THREAD_WORK_SIZE : Nat) (film : Film)
    (hx : film.subRegion0 ≤ film.subRegion1) (hy : film.subRegion2 ≤ film.subRegion3)
    (hx1 : film.subRegion1 < 4294967296) (hy1 : film.subRegion3 < 4294967296)
    (hfit : (film.subRegion1 - film.subRegion0 + 1) * (film.subRegion3 - film.subRegion2 + 1) <
      4294967296) :
    (RandomSamplerSharedData.construct film).filmRegionPixelCount =
        (film.subRegion1 - film.subRegion0 + 1) * (film.subRegion3 - film.subRegion2 + 1) ∧
      (RandomSamplerSharedData.construct film).pixelIndex = 0 ∧
      (∀ sharedData : RandomSamplerSharedData,
        sharedData.filmRegionPixelCount = (RandomSamplerSharedData.construct film).filmRegionPixelCount →
        sharedData.pixelIndex < sharedData.filmRegionPixelCount →
        ∃ sd, sharedData.GetNewPixelIndex RANDOM_THREAD_WORK_SIZE =
            some (sharedData.pixelIndex, sd) ∧
          sd.filmRegionPixelCount = sharedData.filmRegionPixelCount ∧
          sd.pixelIndex < sd.filmRegionPixelCount ∧
          sd.pixelIndex =
            u32 (sharedData.pixelIndex + RANDOM_THREAD_WORK_SIZE) %
              sharedData.filmRegionPixelCount ∧
          (sharedData.pixelIndex + RANDOM_THREAD_WORK_SIZE < 4294967296 →
            sd.pixelIndex =
              (sharedData.pixelIndex + RANDOM_THREAD_WORK_SIZE) %
                sharedData.filmRegionPixelCount)) ∧
      (∀ n, ∃ rs sd,
        RandomSamplerSharedData.calls RANDOM_THREAD_WORK_SIZE n
            (RandomSamplerSharedData.construct film) = some (rs, sd) ∧
          rs.length = n ∧
          ∀ r ∈ rs, r < (RandomSamplerSharedData.construct film).filmRegionPixelCount) ∧
      (∀ (sharedData : RandomSamplerSharedData) (s : RandomSampler),
        sharedData.filmRegionPixelCount = (RandomSamplerSharedData.construct film).filmRegionPixelCount →
        ∃ s2 sd pixelX pixelY,
          RandomSampler.InitNewSample RANDOM_THREAD_WORK_SIZE film sharedData s = some (s2, sd) ∧
            sd.filmRegionPixelCount = sharedData.filmRegionPixelCount ∧
            RandomSampler.pixel film sd.filmRegionPixelCount s2.pixelIndexBase
              s2.pixelIndexOffset = some (pixelX, pixelY) ∧
            s2.sample0 = ((pixelX : ℚ) + s.rndGen.draws s.rndGen.pos) / (film.width : ℚ) ∧
            s2.sample1 =
              ((pixelY : ℚ) + s.rndGen.draws (s.rndGen.pos + 1)) / (film.height : ℚ) ∧
            film.subRegion0 ≤ pixelX ∧ pixelX ≤ film.subRegion1 ∧
            film.subRegion2 ≤ pixelY ∧ pixelY ≤ film.subRegion3) := by
  obtain ⟨_, hcount, hpos⟩ := RandomSamplerSharedData.construct_count film hx hy hfit
  refine ⟨hcount, rfl, ?_, ?_, ?_⟩
  · intro sharedData _ hlt
    exact RandomSamplerSharedData.GetNewPixelIndex_inv RANDOM_THREAD_WORK_SIZE sharedData
      (lt_of_le_of_lt (Nat.zero_le _) hlt)
  · intro n
    obtain ⟨rs, sd, k1, k2, k3, _⟩ := RandomSamplerSharedData.calls_lt RANDOM_THREAD_WORK_SIZE n
      (RandomSamplerSharedData.construct film) (by rw [hcount]; exact hpos)
    exact ⟨rs, sd, k1, k2, k3⟩
  · intro sharedData s hc
    exact RandomSampler.InitNewSample_pixel RANDOM_THREAD_WORK_SIZE film hx hy hx1 hy1 hfit
      sharedData s (by rw [hc, hcount])

theorem RandomSampler_pixel_index_witness :
    smallFilm.subRegion0 ≤ smallFilm.subRegion1 ∧ smallFilm.subRegion2 ≤ smallFilm.subRegion3 ∧
      (RandomSamplerSharedData.construct smallFilm).filmRegionPixelCount = 12 ∧
      (RandomSamplerSharedData.calls 5 4 (RandomSamplerSharedData.construct smallFilm)).map
          (fun r => r.1) = some [0, 5, 10, 3] ∧
      RandomSampler.pixel smallFilm 12 10 1 = some (5, 3) ∧
      ∀ n, ∃ rs sd,
        RandomSamplerSharedData.calls 5 n (RandomSamplerSharedData.construct smallFilm) =
            some (rs, sd) ∧
          rs.length = n ∧
          ∀ r ∈ rs, r < (RandomSamplerSharedData.construct smallFilm).filmRegionPixelCount :=
  ⟨by decide, by decide, by decide, by decide, by decide,
    (RandomSampler_pixel_index 5 smallFilm (by decide) (by decide) (by decide) (by decide)
      (by decide)).2.2.2.1⟩

/-! ## The traversal of `DLSCBvh::GetEntry` -/

theorem BVHNodeData_GetSkipIndex_lt (nodeData : Nat) :
    BVHNodeData_GetSkipIndex nodeData < 2147483648 := by
  unfold BVHNodeData_GetSkipIndex
  exact lt_of_le_of_lt Nat.and_le_right (by norm_num)

theorem DLSCBvh.stopNode_lt (bvh : DLSCBvh) : bvh.stopNode < 2147483648 := by
  unfold DLSCBvh.stopNode
  cases bvh.arrayNodes.get? 0 with
  | none => norm_num
  | some root => exact BVHNodeData_GetSkipIndex_lt _


theorem DLSCBvh.GetEntry.step_found (bvh : DLSCBvh) (p : Point) (n : Normal) (isVolume : Bool)
    (cur : Nat) (entry : DLSCacheEntry)
    (h : DLSCBvh.GetEntry.step bvh p n isVolume cur = GetEntryStep.found entry) :
    bvh.leafEntry cur entry ∧ bvh.validEntry p n isVolume entry := by
  unfold DLSCBvh.GetEntry.step at h
  cases hn : bvh.arrayNodes.get? cur with
  | none => simp only [hn, reduceCtorEq] at h
  | some node =>
    simp only [hn] at h
    cases hl : BVHNodeData_IsLeaf node.nodeData with
    | true =>
      simp only [hl, if_true] at h
      cases he : bvh.allEntries.get? node.entryLeafIndex with
      | none => simp only [he, reduceCtorEq] at h
      | some e =>
        simp only [he] at h
        by_cases hv : bvh.validEntry p n isVolume e
        · simp only [hv, if_true, GetEntryStep.found.injEq] at h
          subst h
          exact ⟨⟨node, hn, hl, he⟩, hv⟩
        · simp only [hv, if_false, reduceCtorEq] at h
    | false =>
      simp only [hl, Bool.false_eq_true, if_false] at h
      split_ifs at h

theorem DLSCBvh.GetEntry.step_next (bvh : DLSCBvh) (p : Point) (n : Normal) (isVolume : Bool)
    (cur c : Nat)
    (h : DLSCBvh.GetEntry.step bvh p n isVolume cur = GetEntryStep.next c) :
    ∃ node, bvh.arrayNodes.get? cur = some node ∧
      ((BVHNodeData_IsLeaf node.nodeData = true ∧ c = u32 (cur + 1) ∧
          ∃ e, bvh.allEntries.get? node.entryLeafIndex = some e ∧
            ¬ bvh.validEntry p n isVolume e) ∨
        (BVHNodeData_IsLeaf node.nodeData = false ∧ node.boxContains p ∧
          c = u32 (cur + 1)) ∨
        (BVHNodeData_IsLeaf node.nodeData = false ∧ ¬ node.boxContains p ∧
          c = node.nodeData)) := by
  unfold DLSCBvh.GetEntry.step at h
  cases hn : bvh.arrayNodes.get? cur with
  | none => simp only [hn, reduceCtorEq] at h
  | some node =>
    simp only [hn] at h
    refine ⟨node, rfl, ?_⟩
    cases hl : BVHNodeData_IsLeaf node.nodeData with
    | true =>
      simp only [hl, if_true] at h
      cases he : bvh.allEntries.get? node.entryLeafIndex with
      | none => simp only [he, reduceCtorEq] at h
      | some e =>
        simp only [he] at h
        by_cases hv : bvh.validEntry p n isVolume e
        · simp only [hv, if_true, reduceCtorEq] at h
        · simp only [hv, if_false, GetEntryStep.next.injEq] at h
          exact Or.inl ⟨rfl, h.symm, e, rfl, hv⟩
    | false =>
      simp only [hl, Bool.false_eq_true, if_false] at h
      by_cases hb : node.boxContains p
      · simp only [hb, if_true, GetEntryStep.next.injEq] at h
        exact Or.inr (Or.inl ⟨rfl, hb, h.symm⟩)
      · simp only [hb, if_false, GetEntryStep.next.injEq] at h
        exact Or.inr (Or.inr ⟨rfl, hb, h.symm⟩)

theorem DLSCBvh.GetEntry.step_invalidRead (bvh : DLSCBvh) (p : Point) (n : Normal)
    (isVolume : Bool) (cur : Nat)
    (h : DLSCBvh.GetEntry.step bvh p n isVolume cur = GetEntryStep.invalidRead) :
    bvh.arrayNodes.get? cur = none ∨
      ∃ node, bvh.arrayNodes.get? cur = some node ∧ BVHNodeData_IsLeaf node.nodeData = true ∧
        bvh.allEntries.get? node.entryLeafIndex = none := by
  unfold DLSCBvh.GetEntry.step at h
  cases hn : bvh.arrayNodes.get? cur with
  | none => exact Or.inl rfl
  | some node =>
    simp only [hn] at h
    refine Or.inr ⟨node, rfl, ?_⟩
    cases hl : BVHNodeData_IsLeaf node.nodeData with
    | true =>
      simp only [hl, if_true] at h
      cases he : bvh.allEntries.get? node.entryLeafIndex with
      | none => exact ⟨rfl, rfl⟩
      | some e =>
        simp only [he] at h
        split_ifs at h
    | false =>
      simp only [hl, Bool.false_eq_true, if_false] at h
      split_ifs at h

/-- One iteration moves the current index up, and not beyond the root's skip
index. -/
theorem DLSCBvh.GetEntry.step_progress (bvh : DLSCBvh) (p : Point) (n : Normal)
    (isVolume : Bool) (hskip : bvh.skipsForward) (cur c : Nat) (hcur : cur < bvh.stopNode)
    (h : DLSCBvh.GetEntry.step bvh p n isVolume cur = GetEntryStep.next c) :
    cur < c ∧ c ≤ bvh.stopNode := by
  have hs := bvh.stopNode_lt
  have hu : u32 (cur + 1) = cur + 1 := by
    unfold u32
    exact Nat.mod_eq_of_lt (by omega)
  obtain ⟨node, hn, h1 | h1 | h1⟩ := DLSCBvh.GetEntry.step_next bvh p n isVolume cur c h
  · rw [h1.2.1, hu]; omega
  · rw [h1.2.2, hu]; omega
  · rw [h1.2.2]; exact hskip cur node hn h1.1

theorem DLSCBvh.GetEntry.loop_terminates (bvh : DLSCBvh) (p : Point) (n : Normal)
    (isVolume : Bool) (hskip : bvh.skipsForward) :
    ∀ fuel cur, bvh.stopNode ≤ cur + fuel →
      DLSCBvh.GetEntry.loop bvh p n isVolume bvh.stopNode fuel cur ≠
        Except.error GetEntryError.outOfFuel := by
  intro fuel
  induction fuel with
  | zero =>
    intro cur h
    have : ¬ cur < bvh.stopNode := by omega
    simp [DLSCBvh.GetEntry.loop, this]
  | succ fuel ih =>
    intro cur h
    unfold DLSCBvh.GetEntry.loop
    by_cases hc : cur < bvh.stopNode
    · simp only [hc, if_true]
      cases hs : DLSCBvh.GetEntry.step bvh p n isVolume cur with
      | found e => simp
      | invalidRead => simp
      | next c =>
        have := DLSCBvh.GetEntry.step_progress bvh p n isVolume hskip cur c hc hs
        exact ih c (by omega)
    · simp [hc]

/-- More fuel than the root's skip index changes nothing. -/
theorem DLSCBvh.GetEntry.loop_enough_fuel (bvh : DLSCBvh) (p : Point) (n : Normal)
    (isVolume : Bool) (hskip : bvh.skipsForward) :
    ∀ fuel cur, bvh.stopNode ≤ cur + fuel →
      DLSCBvh.GetEntry.loop bvh p n isVolume bvh.stopNode fuel cur =
        DLSCBvh.GetEntry.loop bvh p n isVolume bvh.stopNode (bvh.stopNode - cur) cur := by
  intro fuel
  induction fuel using Nat.strong_induction_on with
  | _ fuel ih =>
    intro cur h
    by_cases hc : cur < bvh.stopNode
    · obtain ⟨f, rfl⟩ : ∃ f, fuel = f + 1 := ⟨fuel - 1, by omega⟩
      obtain ⟨g, hg⟩ : ∃ g, bvh.stopNode - cur = g + 1 := ⟨bvh.stopNode - cur - 1, by omega⟩
      rw [hg]
      unfold DLSCBvh.GetEntry.loop
      simp only [hc, if_true]
      cases hs : DLSCBvh.GetEntry.step bvh p n isVolume cur with
      | found e => rfl
      | invalidRead => rfl
      | next c =>
        have hp := DLSCBvh.GetEntry.step_progress bvh p n isVolume hskip cur c hc hs
        simp only
        rw [ih f (by omega) c (by omega)]
        by_cases hg0 : g = f
        · subst hg0; rw [ih g (by omega) c (by omega)]
        · rw [ih g (by omega) c (by omega)]
    · have h0 : bvh.stopNode - cur = 0 := by omega
      rw [h0]
      cases fuel with
      | zero => rfl
      | succ f => simp [DLSCBvh.GetEntry.loop, hc]

theorem DLSCBvh.GetEntry.loop_ok (bvh : DLSCBvh) (p : Point) (n : Normal)
    (isVolume : Bool) (hskip : bvh.skipsForward) (hin : bvh.inBounds) :
    ∀ fuel cur, bvh.stopNode ≤ cur + fuel →
      ∃ r, DLSCBvh.GetEntry.loop bvh p n isVolume bvh.stopNode fuel cur = Except.ok r := by
  intro fuel
  induction fuel with
  | zero =>
    intro cur h
    have : ¬ cur < bvh.stopNode := by omega
    exact ⟨none, by simp [DLSCBvh.GetEntry.loop, this]⟩
  | succ fuel ih =>
    intro cur h
    unfold DLSCBvh.GetEntry.loop
    by_cases hc : cur < bvh.stopNode
    · simp only [hc, if_true]
      cases hs : DLSCBvh.GetEntry.step bvh p n isVolume cur with
      | found e => exact ⟨some e, rfl⟩
      | invalidRead =>
        exfalso
        rcases DLSCBvh.GetEntry.step_invalidRead bvh p n isVolume cur hs with h1 | ⟨node, hn, hl, he⟩
        · rw [List.get?_eq_none] at h1
          have := hin.2.1
          omega
        · rw [List.get?_eq_none] at he
          have := hin.2.2 cur node hn hl
          omega
      | next c =>
        have := DLSCBvh.GetEntry.step_progress bvh p n isVolume hskip cur c hc hs
        exact ih c (by omega)
    · exact ⟨none, by simp [hc]⟩

theorem DLSCBvh.leafEntry_unique (bvh : DLSCBvh) (i : Nat) (e1 e2 : DLSCacheEntry)
    (h1 : bvh.leafEntry i e1) (h2 : bvh.leafEntry i e2) : e1 = e2 := by
  obtain ⟨n1, hn1, _, he1⟩ := h1
  obtain ⟨n2, hn2, _, he2⟩ := h2
  rw [hn1] at hn2
  cases hn2
  rw [he1] at he2
  cases he2
  rfl

/-- An iteration that goes on leaves no leaf with a valid entry between the
current index and the next one. -/
theorem DLSCBvh.GetEntry.step_skips_no_valid (bvh : DLSCBvh) (p : Point) (n : Normal)
    (isVolume : Bool) (hbox : bvh.boxesCover) (cur c : Nat)
    (h : DLSCBvh.GetEntry.step bvh p n isVolume cur = GetEntryStep.next c) :
    ∀ i e, cur ≤ i → i < c → bvh.leafEntry i e → ¬ bvh.validEntry p n isVolume e := by
  intro i e h1 h2 hle hv
  have hu : u32 (cur + 1) ≤ cur + 1 := Nat.mod_le _ _
  obtain ⟨node, hn, hc | hc | hc⟩ := DLSCBvh.GetEntry.step_next bvh p n isVolume cur c h
  · obtain ⟨hl, hce, e2, he2, hnv⟩ := hc
    have hi : i = cur := by omega
    subst hi
    exact hnv (DLSCBvh.leafEntry_unique bvh i e e2 hle ⟨node, hn, hl, he2⟩ ▸ hv)
  · obtain ⟨hl, _, hce⟩ := hc
    have hi : i = cur := by omega
    subst hi
    obtain ⟨n2, hn2, hl2, _⟩ := hle
    rw [hn] at hn2
    cases hn2
    rw [hl] at hl2
    cases hl2
  · obtain ⟨hl, hnb, hce⟩ := hc
    by_cases hi : i = cur
    · subst hi
      obtain ⟨n2, hn2, hl2, _⟩ := hle
      rw [hn] at hn2
      cases hn2
      rw [hl] at hl2
      cases hl2
    · exact hnb (hbox cur node hn hl i e (by omega) (by omega) hle p hv.1)

theorem DLSCBvh.GetEntry.loop_finds (bvh : DLSCBvh) (p : Point) (n : Normal)
    (isVolume : Bool) (hskip : bvh.skipsForward) (hin : bvh.inBounds) (hbox : bvh.boxesCover)
    (t : Nat) (et : DLSCacheEntry) (ht : t < bvh.stopNode) (hle : bvh.leafEntry t et)
    (hv : bvh.validEntry p n isVolume et) :
    ∀ fuel cur, bvh.stopNode ≤ cur + fuel → cur ≤ t →
      ∃ e, DLSCBvh.GetEntry.loop bvh p n isVolume bvh.stopNode fuel cur =
        Except.ok (some e) := by
  intro fuel
  induction fuel with
  | zero => intro cur h hc; omega
  | succ fuel ih =>
    intro cur h hct
    have hc : cur < bvh.stopNode := by omega
    unfold DLSCBvh.GetEntry.loop
    simp only [hc, if_true]
    cases hs : DLSCBvh.GetEntry.step bvh p n isVolume cur with
    | found e => exact ⟨e, rfl⟩
    | invalidRead =>
      exfalso
      rcases DLSCBvh.GetEntry.step_invalidRead bvh p n isVolume cur hs with h1 | ⟨node, hn, hl, he⟩
      · rw [List.get?_eq_none] at h1
        have := hin.2.1
        omega
      · rw [List.get?_eq_none] at he
        have := hin.2.2 cur node hn hl
        omega
    | next c =>
      have hp := DLSCBvh.GetEntry.step_progress bvh p n isVolume hskip cur c hc hs
      have hno := DLSCBvh.GetEntry.step_skips_no_valid bvh p n isVolume hbox cur c hs
      have hct2 : c ≤ t := by
        by_contra hlt
        exact hno t et hct (by omega) hle hv
      exact ih c (by omega) hct2

/-- A run that returns an entry: the entry belongs to the leaf visited last, it
passes the test, and no leaf visited before has an entry that passes. -/
theorem DLSCBvh.GetEntry.loop_found (bvh : DLSCBvh) (p : Point) (n : Normal)
    (isVolume : Bool) (stopNode : Nat) (entry : DLSCacheEntry) :
    ∀ fuel cur,
      DLSCBvh.GetEntry.loop bvh p n isVolume stopNode fuel cur = Except.ok (some entry) →
      ∃ vs last, DLSCBvh.GetEntry.visited bvh p n isVolume stopNode fuel cur = vs ++ [last] ∧
        last < stopNode ∧
        bvh.leafEntry last entry ∧ bvh.validEntry p n isVolume entry ∧
        (∀ i ∈ vs, ∀ e, bvh.leafEntry i e → ¬ bvh.validEntry p n isVolume e) ∧
        (bvh.boxesCover → (∀ i e, i < cur → bvh.leafEntry i e →
            ¬ bvh.validEntry p n isVolume e) →
          ∀ i e, i < last → bvh.leafEntry i e → ¬ bvh.validEntry p n isVolume e) := by
  intro fuel
  induction fuel with
  | zero =>
    intro cur h
    unfold DLSCBvh.GetEntry.loop at h
    split_ifs at h
    simp only [Except.ok.injEq, reduceCtorEq] at h
  | succ fuel ih =>
    intro cur h
    unfold DLSCBvh.GetEntry.loop at h
    unfold DLSCBvh.GetEntry.visited
    by_cases hc : cur < stopNode
    · simp only [hc, if_true] at h ⊢
      cases hs : DLSCBvh.GetEntry.step bvh p n isVolume cur with
      | found e =>
        simp only [hs, Except.ok.injEq, Option.some.injEq] at h
        subst h
        obtain ⟨h1, h2⟩ := DLSCBvh.GetEntry.step_found bvh p n isVolume cur e hs
        exact ⟨[], cur, rfl, hc, h1, h2, fun i hi => absurd hi (List.not_mem_nil i),
          fun _ hlow => hlow⟩
      | invalidRead => simp [hs] at h
      | next c =>
        simp only [hs] at h
        obtain ⟨vs, last, hvs, hlast, hl, hv, hno, hidx⟩ := ih c h
        refine ⟨cur :: vs, last, by simp [hvs], hlast, hl, hv, ?_, ?_⟩
        · intro i hi e hle
          rcases List.mem_cons.mp hi with rfl | hi
          · have h0 := DLSCBvh.GetEntry.step_next bvh p n isVolume i c hs
            obtain ⟨node, hn, hcase | hcase | hcase⟩ := h0
            · obtain ⟨hlf, _, e2, he2, hnv⟩ := hcase
              exact DLSCBvh.leafEntry_unique bvh i e e2 hle ⟨node, hn, hlf, he2⟩ ▸ hnv
            · obtain ⟨n2, hn2, hl2, _⟩ := hle
              rw [hn] at hn2; cases hn2
              rw [hcase.1] at hl2; cases hl2
            · obtain ⟨n2, hn2, hl2, _⟩ := hle
              rw [hn] at hn2; cases hn2
              rw [hcase.1] at hl2; cases hl2
          · exact hno i hi e hle
        · intro hbox hlow
          apply hidx hbox
          intro i e hic hle
          by_cases hi : i < cur
          · exact hlow i e hi hle
          · exact DLSCBvh.GetEntry.step_skips_no_valid bvh p n isVolume hbox cur c hs i e
              (by omega) hic hle
    · simp [hc] at h

/-- For a volume query the iteration does not read the normal. -/
theorem DLSCBvh.GetEntry.step_volume (bvh : DLSCBvh) (p : Point) (n n2 : Normal) (cur : Nat) :
    DLSCBvh.GetEntry.step bvh p n2 true cur = DLSCBvh.GetEntry.step bvh p n true cur := by
  unfold DLSCBvh.GetEntry.step DLSCBvh.validEntry
  simp

theorem DLSCBvh.GetEntry.loop_volume (bvh : DLSCBvh) (p : Point) (n n2 : Normal)
    (stopNode : Nat) :
    ∀ fuel cur, DLSCBvh.GetEntry.loop bvh p n2 true stopNode fuel cur =
      DLSCBvh.GetEntry.loop bvh p n true stopNode fuel cur := by
  intro fuel
  induction fuel with
  | zero => intro cur; rfl
  | succ fuel ih =>
    intro cur
    unfold DLSCBvh.GetEntry.loop
    rw [DLSCBvh.GetEntry.step_volume bvh p n n2 cur]
    simp only [ih]

theorem DLSCBvh.GetEntry_eq_loop (bvh : DLSCBvh) (p : Point) (n : Normal) (isVolume : Bool)
    (fuel : Nat) (h : 0 < bvh.arrayNodes.length) :
    DLSCBvh.GetEntry bvh p n isVolume fuel =
      DLSCBvh.GetEntry.loop bvh p n isVolume bvh.stopNode fuel 0 := by
  unfold DLSCBvh.GetEntry DLSCBvh.stopNode
  cases hr : bvh.arrayNodes.get? 0 with
  | none =>
    rw [List.get?_eq_none] at hr
    omega
  | some root => rfl


/-- The skip index of an interior node is its `nodeData` (the comment of lines
69-70). -/
theorem BVHNodeData_GetSkipIndex_interior (nodeData : Nat) (h32 : nodeData < 4294967296)
    (h : BVHNodeData_IsLeaf nodeData = false) : BVHNodeData_GetSkipIndex nodeData = nodeData := by
  unfold BVHNodeData_IsLeaf at h
  unfold BVHNodeData_GetSkipIndex
  have h1 : nodeData &&& 2147483648 = 0 := by simpa using h
  have h2 := Nat.and_two_pow nodeData 31
  have h3 := Nat.and_pow_two_sub_one_eq_mod nodeData 31
  have h4 := @Nat.testBit_to_div_mod 31 nodeData
  norm_num at h2 h3 h4
  rw [h3]
  rw [h1] at h2
  cases hb : nodeData.testBit 31 with
  | true => rw [hb] at h2; simp at h2
  | false =>
    rw [hb] at h4
    have h5 : ¬ nodeData / 2147483648 % 2 = 1 := by simpa using h4.symm
    omega

theorem DLSCBvh.stopNode_eq (bvh : DLSCBvh) (root : IndexBVHArrayNode)
    (h : bvh.arrayNodes.get? 0 = some root) :
    bvh.stopNode = BVHNodeData_GetSkipIndex root.nodeData := by
  simp only [DLSCBvh.stopNode, h]

theorem DLSCBvh.GetEntry_no_root (bvh : DLSCBvh) (p : Point) (n : Normal) (isVolume : Bool)
    (fuel : Nat) (h : bvh.arrayNodes.get? 0 = none) :
    DLSCBvh.GetEntry bvh p n isVolume fuel = Except.error GetEntryError.invalidRead := by
  simp only [DLSCBvh.GetEntry, h]

theorem DLSCBvh.GetEntry_eq_loop_root (bvh : DLSCBvh) (p : Point) (n : Normal) (isVolume : Bool)
    (fuel : Nat) (root : IndexBVHArrayNode) (h : bvh.arrayNodes.get? 0 = some root) :
    DLSCBvh.GetEntry bvh p n isVolume fuel =
      DLSCBvh.GetEntry.loop bvh p n isVolume bvh.stopNode fuel 0 := by
  simp only [DLSCBvh.GetEntry, DLSCBvh.stopNode, h]

/-- The visited indices go up and stay below the stop index. -/
theorem DLSCBvh.GetEntry.visited_increasing (bvh : DLSCBvh) (p : Point) (n : Normal)
    (isVolume : Bool) (hskip : bvh.skipsForward) :
    ∀ fuel cur, (∀ v ∈ DLSCBvh.GetEntry.visited bvh p n isVolume bvh.stopNode fuel cur,
        cur ≤ v ∧ v < bvh.stopNode) ∧
      (DLSCBvh.GetEntry.visited bvh p n isVolume bvh.stopNode fuel cur).Pairwise
        (fun a b => a < b) := by
  intro fuel
  induction fuel with
  | zero =>
    intro cur
    simp [DLSCBvh.GetEntry.visited]
  | succ fuel ih =>
    intro cur
    unfold DLSCBvh.GetEntry.visited
    by_cases hc : cur < bvh.stopNode
    · simp only [hc, if_true]
      cases hs : DLSCBvh.GetEntry.step bvh p n isVolume cur with
      | found e => simp [hc]
      | invalidRead => simp [hc]
      | next c =>
        have hp := DLSCBvh.GetEntry.step_progress bvh p n isVolume hskip cur c hc hs
        obtain ⟨h1, h2⟩ := ih c
        simp only [List.mem_cons, List.pairwise_cons]
        refine ⟨?_, ?_, h2⟩
        · intro v hv
          rcases hv with rfl | hv
          · exact ⟨le_refl _, hc⟩
          · have := h1 v hv
            exact ⟨by omega, this.2⟩
        · intro v hv
          have := h1 v hv
          omega
    · simp [hc]

/-- C32: when the skip index of every interior node lies above the node's own
index and not above the root's skip index, every iteration of
`DLSCBvh::GetEntry` moves the current index up and not beyond the root's skip
index, so the loop ends within that many iterations; on an array that holds
these nodes and whose leaves point into the entry vector the call returns; and
when moreover the box of every interior node contains every point within the
entry radius of every entry of its subtree, the call returns an entry whenever
the entry of some leaf passes the test of distance, volume flag and normal. -/
theorem DLSCBvh.GetEntry_terminates_and_finds (bvh : DLSCBvh) (p : Point) (n : Normal)
    (isVolume : Bool) (hskip : bvh.skipsForward) :
    (∀ cur c, cur < bvh.stopNode →
        DLSCBvh.GetEntry.step bvh p n isVolume cur = GetEntryStep.next c →
        cur < c ∧ c ≤ bvh.stopNode) ∧
      (∀ fuel, (∀ v ∈ DLSCBvh.GetEntry.visited bvh p n isVolume bvh.stopNode fuel 0,
            v < bvh.stopNode) ∧
          (DLSCBvh.GetEntry.visited bvh p n isVolume bvh.stopNode fuel 0).Pairwise
            (fun a b => a < b)) ∧
      (∀ fuel, bvh.stopNode ≤ fuel →
        DLSCBvh.GetEntry bvh p n isVolume fuel ≠ Except.error GetEntryError.outOfFuel) ∧
      (∀ fuel, bvh.stopNode ≤ fuel →
        DLSCBvh.GetEntry bvh p n isVolume fuel =
          DLSCBvh.GetEntry bvh p n isVolume bvh.stopNode) ∧
      (bvh.inBounds → ∀ fuel, bvh.stopNode ≤ fuel →
        ∃ r, DLSCBvh.GetEntry bvh p n isVolume fuel = Except.ok r) ∧
      (bvh.inBounds → bvh.boxesCover →
        (∃ i entry, i < bvh.stopNode ∧ bvh.leafEntry i entry ∧
          bvh.validEntry p n isVolume entry) →
        ∀ fuel, bvh.stopNode ≤ fuel →
          ∃ e, DLSCBvh.GetEntry bvh p n isVolume fuel = Except.ok (some e)) ∧
      (bvh.inBounds → bvh.boxesCover → bvh.leavesCover →
        (∃ entry ∈ bvh.allEntries, bvh.validEntry p n isVolume entry) →
        ∀ fuel, bvh.stopNode ≤ fuel →
          ∃ e, DLSCBvh.GetEntry bvh p n isVolume fuel = Except.ok (some e)) ∧
      (∀ nodeData, nodeData < 4294967296 → BVHNodeData_IsLeaf nodeData = false →
        BVHNodeData_GetSkipIndex nodeData = nodeData) := by
  have hfind : bvh.inBounds → bvh.boxesCover →
      (∃ i entry, i < bvh.stopNode ∧ bvh.leafEntry i entry ∧
        bvh.validEntry p n isVolume entry) →
      ∀ fuel, bvh.stopNode ≤ fuel →
        ∃ e, DLSCBvh.GetEntry bvh p n isVolume fuel = Except.ok (some e) := by
    intro hin hbox ⟨i, entry, hi, hle, hv⟩ fuel hf
    rw [DLSCBvh.GetEntry_eq_loop bvh p n isVolume fuel hin.1]
    exact DLSCBvh.GetEntry.loop_finds bvh p n isVolume hskip hin hbox i entry hi hle hv fuel 0
      (by omega) (Nat.zero_le _)
  refine ⟨fun cur c hc h => DLSCBvh.GetEntry.step_progress bvh p n isVolume hskip cur c hc h,
    ?_, ?_, ?_, ?_, hfind, ?_, BVHNodeData_GetSkipIndex_interior⟩
  · intro fuel
    have h := DLSCBvh.GetEntry.visited_increasing bvh p n isVolume hskip fuel 0
    exact ⟨fun v hv => (h.1 v hv).2, h.2⟩
  · intro fuel hf
    cases hr : bvh.arrayNodes.get? 0 with
    | none =>
      rw [DLSCBvh.GetEntry_no_root bvh p n isVolume fuel hr]
      simp
    | some root =>
      rw [DLSCBvh.GetEntry_eq_loop_root bvh p n isVolume fuel root hr]
      exact DLSCBvh.GetEntry.loop_terminates bvh p n isVolume hskip fuel 0 (by omega)
  · intro fuel hf
    cases hr : bvh.arrayNodes.get? 0 with
    | none =>
      rw [DLSCBvh.GetEntry_no_root bvh p n isVolume fuel hr,
        DLSCBvh.GetEntry_no_root bvh p n isVolume bvh.stopNode hr]
    | some root =>
      rw [DLSCBvh.GetEntry_eq_loop_root bvh p n isVolume fuel root hr,
        DLSCBvh.GetEntry_eq_loop_root bvh p n isVolume bvh.stopNode root hr,
        DLSCBvh.GetEntry.loop_enough_fuel bvh p n isVolume hskip fuel 0 (by omega)]
      rfl
  · intro hin fuel hf
    rw [DLSCBvh.GetEntry_eq_loop bvh p n isVolume fuel hin.1]
    exact DLSCBvh.GetEntry.loop_ok bvh p n isVolume hskip hin fuel 0 (by omega)
  · intro hin hbox hlv ⟨entry, hmem, hv⟩
    obtain ⟨i, hi, hle⟩ := hlv entry hmem
    exact hfind hin hbox ⟨i, entry, hi, hle, hv⟩

/-- C38: an entry that `DLSCBvh::GetEntry(p, n, isVolume)` returns lies within
the squared entry radius of `p`, has the volume flag of the query and, for a
surface query, a normal whose dot product with `n` is at least
`entryNormalCosAngle`; it is the entry of the leaf visited last, no leaf visited
before it has an entry that passes the test, and when the boxes contain what
their subtrees cover no leaf before it in the array has one; a volume query
returns it for every normal; the bounds are `radius * radius` and the cosine of
`normalAngle` of the constructor. -/
theorem DLSCBvh.GetEntry_returns_first_valid (bvh : DLSCBvh) (p : Point) (n : Normal)
    (isVolume : Bool) (fuel : Nat) (entry : DLSCacheEntry)
    (h : DLSCBvh.GetEntry bvh p n isVolume fuel = Except.ok (some entry)) :
    DistanceSquared p entry.p ≤ bvh.entryRadius2 ∧ entry.isVolume = isVolume ∧
      (isVolume = false → Dot n entry.n ≥ bvh.entryNormalCosAngle) ∧
      (∃ vs last, DLSCBvh.GetEntry.visited bvh p n isVolume bvh.stopNode fuel 0 = vs ++ [last] ∧
        last < bvh.stopNode ∧ bvh.leafEntry last entry ∧
        (∀ i ∈ vs, ∀ e, bvh.leafEntry i e → ¬ bvh.validEntry p n isVolume e) ∧
        (bvh.boxesCover → ∀ i e, i < last → bvh.leafEntry i e →
          ¬ bvh.validEntry p n isVolume e)) ∧
      (isVolume = true → ∀ n2 : Normal,
        DLSCBvh.GetEntry bvh p n2 isVolume fuel = Except.ok (some entry)) ∧
      (∀ cosRadians arrayNodes entries radius normalAngle,
        bvh = DLSCBvh.construct cosRadians arrayNodes entries radius normalAngle →
        DistanceSquared p entry.p ≤ radius * radius ∧
          (isVolume = false → Dot n entry.n ≥ cosRadians normalAngle)) := by
  cases hr : bvh.arrayNodes.get? 0 with
  | none =>
    rw [DLSCBvh.GetEntry_no_root bvh p n isVolume fuel hr] at h
    cases h
  | some root =>
    have h0 := h
    rw [DLSCBvh.GetEntry_eq_loop_root bvh p n isVolume fuel root hr] at h0
    obtain ⟨vs, last, hvs, hlast, hle, hv, hno, hidx⟩ :=
      DLSCBvh.GetEntry.loop_found bvh p n isVolume bvh.stopNode entry fuel 0 h0
    have hdot : isVolume = false → Dot n entry.n ≥ bvh.entryNormalCosAngle := by
      intro hf
      rcases hv.2.2 with h1 | h1
      · rw [hf] at h1; cases h1
      · exact h1
    refine ⟨hv.1, hv.2.1.symm, hdot, ⟨vs, last, hvs, hlast, hle, hno, ?_⟩, ?_, ?_⟩
    · intro hbox
      exact hidx hbox (fun i e hi => absurd hi (Nat.not_lt_zero i))
    · intro ht n2
      subst ht
      rw [← h, DLSCBvh.GetEntry_eq_loop_root bvh p n2 true fuel root hr,
        DLSCBvh.GetEntry_eq_loop_root bvh p n true fuel root hr]
      exact DLSCBvh.GetEntry.loop_volume bvh p n n2 bvh.stopNode fuel 0
    · intro cosRadians arrayNodes entries radius normalAngle hb
      subst hb
      exact ⟨hv.1, hdot⟩


/-! ### The tree of five nodes -/

theorem smallBvh_stopNode : smallBvh.stopNode = 5 := by decide

theorem smallBvh_nodes (i : Nat) (node : IndexBVHArrayNode)
    (h : smallBvh.arrayNodes.get? i = some node) :
    (i = 0 ∧ node = ⟨5, ⟨-1, -1, -1⟩, ⟨12, 1, 1⟩, 0⟩) ∨
      (i = 1 ∧ node = ⟨2147483648 + 2, ⟨0, 0, 0⟩, ⟨0, 0, 0⟩, 0⟩) ∨
      (i = 2 ∧ node = ⟨5, ⟨4, -1, -1⟩, ⟨12, 1, 1⟩, 0⟩) ∨
      (i = 3 ∧ node = ⟨2147483648 + 4, ⟨0, 0, 0⟩, ⟨0, 0, 0⟩, 1⟩) ∨
      (i = 4 ∧ node = ⟨2147483648 + 5, ⟨0, 0, 0⟩, ⟨0, 0, 0⟩, 2⟩) := by
  have hi : i < 5 := by
    by_contra hc
    have : smallBvh.arrayNodes.get? i = none := List.get?_eq_none.mpr (by
      simp only [smallBvh, DLSCBvh.construct, List.length_cons, List.length_nil]; omega)
    rw [this] at h
    cases h
  interval_cases i <;>
    simp only [smallBvh, DLSCBvh.construct, List.get?, Option.some.injEq] at h <;>
    simp [← h]

theorem smallBvh_leaves (i : Nat) (entry : DLSCacheEntry) (h : smallBvh.leafEntry i entry) :
    (i = 1 ∧ entry = ⟨⟨0, 0, 0⟩, ⟨0, 0, 1⟩, false⟩) ∨
      (i = 3 ∧ entry = ⟨⟨5, 0, 0⟩, ⟨0, 0, -1⟩, false⟩) ∨
      (i = 4 ∧ entry = ⟨⟨11, 0, 0⟩, ⟨0, 0, 1⟩, true⟩) := by
  obtain ⟨node, hn, hl, he⟩ := h
  rcases smallBvh_nodes i node hn with ⟨rfl, rfl⟩ | ⟨rfl, rfl⟩ | ⟨rfl, rfl⟩ | ⟨rfl, rfl⟩ | ⟨rfl, rfl⟩
  · exact absurd hl (by decide)
  · simp only [smallBvh, DLSCBvh.construct, List.get?, Option.some.injEq] at he
    exact Or.inl ⟨rfl, he.symm⟩
  · exact absurd hl (by decide)
  · simp only [smallBvh, DLSCBvh.construct, List.get?, Option.some.injEq] at he
    exact Or.inr (Or.inl ⟨rfl, he.symm⟩)
  · simp only [smallBvh, DLSCBvh.construct, List.get?, Option.some.injEq] at he
    exact Or.inr (Or.inr ⟨rfl, he.symm⟩)

theorem smallBvh_skipsForward : smallBvh.skipsForward := by
  intro i node hn hl
  rw [smallBvh_stopNode]
  rcases smallBvh_nodes i node hn with ⟨rfl, rfl⟩ | ⟨rfl, rfl⟩ | ⟨rfl, rfl⟩ | ⟨rfl, rfl⟩ | ⟨rfl, rfl⟩
  · decide
  · exact absurd hl (by decide)
  · decide
  · exact absurd hl (by decide)
  · exact absurd hl (by decide)

theorem smallBvh_inBounds : smallBvh.inBounds := by
  refine ⟨by decide, by decide, ?_⟩
  intro i node hn hl
  rcases smallBvh_nodes i node hn with ⟨rfl, rfl⟩ | ⟨rfl, rfl⟩ | ⟨rfl, rfl⟩ | ⟨rfl, rfl⟩ | ⟨rfl, rfl⟩ <;>
    decide

/-- A point within distance 1 of a centre is within 1 of it on every axis. -/
theorem DistanceSquared_le_one (q c : Point) (h : DistanceSquared q c ≤ 1) :
    c.x - 1 ≤ q.x ∧ q.x ≤ c.x + 1 ∧ c.y - 1 ≤ q.y ∧ q.y ≤ c.y + 1 ∧
      c.z - 1 ≤ q.z ∧ q.z ≤ c.z + 1 := by
  unfold DistanceSquared at h
  have hx := mul_self_nonneg (q.x - c.x)
  have hy := mul_self_nonneg (q.y - c.y)
  have hz := mul_self_nonneg (q.z - c.z)
  refine ⟨?_, ?_, ?_, ?_, ?_, ?_⟩ <;> nlinarith

theorem smallBvh_boxesCover : smallBvh.boxesCover := by
  intro j nodeJ hj hlj i entry hji hi hle q hq
  have hr : smallBvh.entryRadius2 = 1 := by
    simp [smallBvh, DLSCBvh.construct]
  rw [hr] at hq
  have hb := DistanceSquared_le_one q entry.p hq
  unfold IndexBVHArrayNode.boxContains
  rcases smallBvh_nodes j nodeJ hj with ⟨rfl, rfl⟩ | ⟨rfl, rfl⟩ | ⟨rfl, rfl⟩ | ⟨rfl, rfl⟩ | ⟨rfl, rfl⟩
  · rcases smallBvh_leaves i entry hle with ⟨rfl, rfl⟩ | ⟨rfl, rfl⟩ | ⟨rfl, rfl⟩ <;>
      (simp only at hb ⊢; refine ⟨?_, ?_, ?_, ?_, ?_, ?_⟩ <;> linarith)
  · exact absurd hlj (by decide)
  · rcases smallBvh_leaves i entry hle with ⟨rfl, rfl⟩ | ⟨rfl, rfl⟩ | ⟨rfl, rfl⟩
    · omega
    · simp only at hb ⊢; refine ⟨?_, ?_, ?_, ?_, ?_, ?_⟩ <;> linarith
    · simp only at hb ⊢; refine ⟨?_, ?_, ?_, ?_, ?_, ?_⟩ <;> linarith
  · exact absurd hlj (by decide)
  · exact absurd hlj (by decide)

theorem smallBvh_leavesCover : smallBvh.leavesCover := by
  intro entry hmem
  rw [smallBvh_stopNode]
  simp only [smallBvh, DLSCBvh.construct, List.mem_cons, List.mem_singleton,
    List.not_mem_nil, or_false] at hmem
  rcases hmem with rfl | rfl | rfl
  · exact ⟨1, by decide, _, rfl, by decide, rfl⟩
  · exact ⟨3, by decide, _, rfl, by decide, rfl⟩
  · exact ⟨4, by decide, _, rfl, by decide, rfl⟩

theorem DLSCBvh.GetEntry_terminates_and_finds_witness :
    smallBvh.skipsForward ∧ smallBvh.inBounds ∧ smallBvh.boxesCover ∧ smallBvh.leavesCover ∧
      smallBvh.stopNode = 5 ∧
      (∃ entry ∈ smallBvh.allEntries,
        smallBvh.validEntry ⟨5, 1 / 2, 0⟩ ⟨0, 0, -1⟩ false entry) ∧
      DLSCBvh.GetEntry.visited smallBvh ⟨5, 1 / 2, 0⟩ ⟨0, 0, -1⟩ false 5 5 0 = [0, 1, 2, 3] ∧
      DLSCBvh.GetEntry smallBvh ⟨5, 1 / 2, 0⟩ ⟨0, 0, -1⟩ false 5 =
        Except.ok (some ⟨⟨5, 0, 0⟩, ⟨0, 0, -1⟩, false⟩) ∧
      DLSCBvh.GetEntry smallBvh ⟨5, 1 / 2, 0⟩ ⟨0, 0, -1⟩ false 3 =
        Except.error GetEntryError.outOfFuel ∧
      DLSCBvh.GetEntry smallBvh ⟨5, 1 / 2, 0⟩ ⟨0, 0, 1⟩ false 5 = Except.ok none ∧
      (∀ fuel, smallBvh.stopNode ≤ fuel →
        DLSCBvh.GetEntry smallBvh ⟨5, 1 / 2, 0⟩ ⟨0, 0, -1⟩ false fuel ≠
          Except.error GetEntryError.outOfFuel) ∧
      (∀ fuel, smallBvh.stopNode ≤ fuel →
        ∃ e, DLSCBvh.GetEntry smallBvh ⟨5, 1 / 2, 0⟩ ⟨0, 0, -1⟩ false fuel =
          Except.ok (some e)) :=
  ⟨smallBvh_skipsForward, smallBvh_inBounds, smallBvh_boxesCover, smallBvh_leavesCover,
    by decide, ⟨⟨⟨5, 0, 0⟩, ⟨0, 0, -1⟩, false⟩, by decide!, by decide!⟩, by decide!,
    by with_unfolding_all rfl, by with_unfolding_all rfl, by with_unfolding_all rfl,
    (DLSCBvh.GetEntry_terminates_and_finds smallBvh ⟨5, 1 / 2, 0⟩ ⟨0, 0, -1⟩ false
      smallBvh_skipsForward).2.2.1,
    (DLSCBvh.GetEntry_terminates_and_finds smallBvh ⟨5, 1 / 2, 0⟩ ⟨0, 0, -1⟩ false
      smallBvh_skipsForward).2.2.2.2.2.2.1 smallBvh_inBounds smallBvh_boxesCover
      smallBvh_leavesCover ⟨⟨⟨5, 0, 0⟩, ⟨0, 0, -1⟩, false⟩, by decide!, by decide!⟩⟩

theorem DLSCBvh.GetEntry_returns_first_valid_witness :
    DLSCBvh.GetEntry smallBvh ⟨11, 1 / 2, 0⟩ ⟨0, 0, -1⟩ true 5 =
        Except.ok (some ⟨⟨11, 0, 0⟩, ⟨0, 0, 1⟩, true⟩) ∧
      DLSCBvh.GetEntry.visited smallBvh ⟨11, 1 / 2, 0⟩ ⟨0, 0, -1⟩ true 5 5 0 = [0, 1, 2, 3, 4] ∧
      Dot (⟨0, 0, -1⟩ : Normal) (⟨0, 0, 1⟩ : Normal) < smallBvh.entryNormalCosAngle ∧
      DLSCBvh.GetEntry smallBvh ⟨11, 1 / 2, 0⟩ ⟨0, 0, -1⟩ false 5 = Except.ok none ∧
      (DistanceSquared (⟨11, 1 / 2, 0⟩ : Point) (⟨11, 0, 0⟩ : Point) ≤ smallBvh.entryRadius2 ∧
        (∀ n2 : Normal, DLSCBvh.GetEntry smallBvh ⟨11, 1 / 2, 0⟩ n2 true 5 =
          Except.ok (some ⟨⟨11, 0, 0⟩, ⟨0, 0, 1⟩, true⟩))) :=
  ⟨by with_unfolding_all rfl, by decide!, by decide!, by with_unfolding_all rfl,
    (DLSCBvh.GetEntry_returns_first_valid smallBvh ⟨11, 1 / 2, 0⟩ ⟨0, 0, -1⟩ true 5
      ⟨⟨11, 0, 0⟩, ⟨0, 0, 1⟩, true⟩ (by with_unfolding_all rfl)).1,
    (DLSCBvh.GetEntry_returns_first_valid smallBvh ⟨11, 1 / 2, 0⟩ ⟨0, 0, -1⟩ true 5
      ⟨⟨11, 0, 0⟩, ⟨0, 0, 1⟩, true⟩ (by with_unfolding_all rfl)).2.2.2.2.1 rfl⟩

/-! ## The mutation size under float rounding -/

theorem nearOneStream_draw (n : Nat) (h : 2 ≤ n) : nearOneStream n = nearOne := by
  show (if n = 1 then (3 / 4 : ℚ) else nearOne) = nearOne
  rw [if_neg (by omega)]

theorem Start_nearOneStream (M : Platform) (hstream : M.randomStream 1 = nearOneStream) :
    TracePhotonsThread.Start M 0 = pinholeThread := by
  unfold pinholeThread TracePhotonsThread.Start
  rw [show 1 + 0 = 1 from rfl, hstream]
  rfl

/-- The exponent `1 / mutationSize + 1` for a `mutationSize` of at least
`1/32767`. -/
theorem Mutate.exponent_pos (M : Platform) (hfl : M.roundsLikeFloat) (ms : ℚ)
    (hms : 1 / 32767 ≤ ms) :
    1 ≤ M.fl (M.fl (1 / ms) + 1) ∧ M.fl (M.fl (1 / ms) + 1) ≤ 32768 := by
  obtain ⟨hmono, _, hint⟩ := hfl
  have h0 : M.fl 0 = 0 := by simpa using hint 0 (by norm_num)
  have h1 : M.fl 1 = 1 := by simpa using hint 1 (by norm_num)
  have h2 : M.fl 32767 = 32767 := by simpa using hint 32767 (by norm_num)
  have h3 : M.fl 32768 = 32768 := by simpa using hint 32768 (by norm_num)
  have hpos : (0 : ℚ) < ms := lt_of_lt_of_le (by norm_num) hms
  have ha : (0 : ℚ) ≤ 1 / ms := le_of_lt (one_div_pos.2 hpos)
  have hb : 1 / ms ≤ 32767 := by
    rw [div_le_iff₀ hpos]
    linarith
  have hc : 0 ≤ M.fl (1 / ms) := h0 ▸ hmono _ _ ha
  have hd : M.fl (1 / ms) ≤ 32767 := h2 ▸ hmono _ _ hb
  constructor
  · have := hmono 1 (M.fl (1 / ms) + 1) (by linarith)
    rwa [h1] at this
  · have := hmono (M.fl (1 / ms) + 1) 32768 (by linarith)
    rwa [h3] at this

/-- The exponent `1 / mutationSize + 1` for a negative `mutationSize` of at least
`-1/8193`. -/
theorem Mutate.exponent_neg (M : Platform) (hfl : M.roundsLikeFloat) (ms : ℚ)
    (hms : -(1 / 8193) ≤ ms) (hneg : ms < 0) :
    M.fl (M.fl (1 / ms) + 1) ≤ -8192 := by
  obtain ⟨hmono, _, hint⟩ := hfl
  have h2 : M.fl (-8193) = -8193 := by simpa using hint (-8193) (by norm_num)
  have h3 : M.fl (-8192) = -8192 := by simpa using hint (-8192) (by norm_num)
  have hb : 1 / ms ≤ -8193 := by
    rw [div_le_iff_of_neg hneg]
    linarith
  have hd : M.fl (1 / ms) ≤ -8193 := h2 ▸ hmono _ _ hb
  have := hmono (M.fl (1 / ms) + 1) (-8192) (by linarith)
  rwa [h3] at this

/-- With a `mutationSize` of at least `1/32767`, the mutation of the sample 3/4
with draws of `1 - 2^-12` is another value than 3/4. -/
theorem component_rejecting (M : Platform) (hfl : M.roundsLikeFloat) (hpow : M.powfNearOne)
    (p : Nat) (hp : 2 ≤ p) (ms : ℚ) (hms : 1 / 32767 ≤ ms) :
    (Mutate.component M ⟨nearOneStream, p⟩ ms (3 / 4)).1 ≠ 3 / 4 := by
  obtain ⟨he1, he2⟩ := Mutate.exponent_pos M hfl ms hms
  obtain ⟨hd1, hd2⟩ := hpow.1 _ he1 he2
  obtain ⟨hmono, hgrid, _⟩ := hfl
  have g1 : M.fl (3 / 4 - 1 / 16777216) = 3 / 4 - 1 / 16777216 := by
    have := hgrid 12582911 (by norm_num)
    norm_num at this ⊢
    exact this
  have g2 : M.fl (-(1 / 4) + 1 / 16777216) = -(1 / 4) + 1 / 16777216 := by
    have := hgrid (-4194303) (by norm_num)
    norm_num at this ⊢
    exact this
  have g3 : M.fl (3 / 4 + 1 / 16777216) = 3 / 4 + 1 / 16777216 := by
    have := hgrid 12582913 (by norm_num)
    norm_num at this ⊢
    exact this
  unfold Mutate.component
  simp only [RandomGenerator.floatValue, nearOneStream_draw p hp,
    nearOneStream_draw (p + 1) (by omega)]
  have hge : ¬ (nearOne < 1 / 2) := by unfold nearOne; norm_num
  rw [if_neg hge]
  generalize M.powf nearOne (M.fl (M.fl (1 / ms) + 1)) = δ at hd1 hd2 ⊢
  have hm1 : M.fl (3 / 4 - δ) ≤ 3 / 4 - 1 / 16777216 :=
    g1 ▸ hmono _ _ (by linarith)
  have hm2 : -(1 / 4) + 1 / 16777216 ≤ M.fl (3 / 4 - δ) :=
    g2 ▸ hmono _ _ (by linarith)
  generalize M.fl (3 / 4 - δ) = m at hm1 hm2 ⊢
  by_cases hneg : m < 0
  · simp only [if_pos hneg]
    have hv : 3 / 4 + 1 / 16777216 ≤ M.fl (m + 1) := g3 ▸ hmono _ _ (by linarith)
    generalize M.fl (m + 1) = v at hv ⊢
    by_cases h1 : v = 1
    · rw [if_pos h1]; norm_num
    · rw [if_neg h1]
      intro h
      rw [h] at hv
      norm_num at hv
  · simp only [if_neg hneg]
    by_cases h1 : m = 1
    · rw [if_pos h1]; norm_num
    · rw [if_neg h1]
      intro h
      rw [h] at hm1
      norm_num at hm1

/-- With a negative `mutationSize` of at least `-1/8193`, the mutation of a sample
of at most 1 with draws of `1 - 2^-12` is at most -1. -/
theorem component_out_of_range (M : Platform) (hfl : M.roundsLikeFloat)
    (hpow : M.powfNearOne) (p : Nat) (hp : 2 ≤ p) (ms : ℚ) (hms : -(1 / 8193) ≤ ms)
    (hneg : ms < 0) (u : ℚ) (hu : u ≤ 1) :
    (Mutate.component M ⟨nearOneStream, p⟩ ms u).1 ≤ -1 := by
  have he := Mutate.exponent_neg M hfl ms hms hneg
  have hd := hpow.2 _ he
  obtain ⟨hmono, _, hint⟩ := hfl
  have g1 : M.fl (-2) = -2 := by simpa using hint (-2) (by norm_num)
  have g2 : M.fl (-1) = -1 := by simpa using hint (-1) (by norm_num)
  unfold Mutate.component
  simp only [RandomGenerator.floatValue, nearOneStream_draw p hp,
    nearOneStream_draw (p + 1) (by omega)]
  have hge : ¬ (nearOne < 1 / 2) := by unfold nearOne; norm_num
  rw [if_neg hge]
  generalize M.powf nearOne (M.fl (M.fl (1 / ms) + 1)) = δ at hd ⊢
  have hm1 : M.fl (u - δ) ≤ -2 := g1 ▸ hmono _ _ (by linarith)
  generalize M.fl (u - δ) = m at hm1 ⊢
  have hlt : m < 0 := by linarith
  simp only [if_pos hlt]
  have hv : M.fl (m + 1) ≤ -1 := g2 ▸ hmono _ _ (by linarith)
  generalize M.fl (m + 1) = v at hv ⊢
  have h1 : ¬ (v = 1) := by intro h; rw [h] at hv; norm_num at hv
  rw [if_neg h1]
  exact hv

theorem Mutate_out_of_range (M : Platform) (hfl : M.roundsLikeFloat) (hpow : M.powfNearOne)
    (ms : ℚ) (hms : -(1 / 8193) ≤ ms) (hneg : ms < 0) :
    ∀ (l : List ℚ) (p : Nat), 2 ≤ p → (∀ u ∈ l, u ≤ 1) →
      ∀ x ∈ (Mutate M ⟨nearOneStream, p⟩ l ms).1, x ≤ -1 := by
  intro l
  induction l with
  | nil =>
    intro p _ _ x hx
    simp [Mutate] at hx
  | cons a l ih =>
    intro p hp hl x hx
    rw [Mutate] at hx
    simp only [List.mem_cons] at hx
    rcases hx with hx | hx
    · rw [hx]
      exact component_out_of_range M hfl hpow p hp ms hms hneg a (hl a (List.mem_cons_self _ _))
    · have hg : (Mutate.component M ⟨nearOneStream, p⟩ ms a).2 = ⟨nearOneStream, p + 2⟩ := rfl
      rw [hg] at hx
      exact ih (p + 2) (by omega) (fun u hu => hl u (List.mem_cons_of_mem _ hu)) x hx

theorem bootstrapStart_pinhole :
    RenderFunc.bootstrapStart pinholeCache pinholeThread = rejState 0 := by
  with_unfolding_all rfl

theorem rejState_samples (j : Nat) : (rejState j).currentPathSamples = bootSamples := by
  with_unfolding_all rfl

theorem rejState_adoptsUniform (j : Nat) :
    TracePhotonPath pinholeCache (rejState j).th
        (UniformMutate (rejState j).rndGen (sampleSize pinholeCache)).2
        (UniformMutate (rejState j).rndGen (sampleSize pinholeCache)).1 =
      ⟨false, PathPhotons.empty, ⟨nearOneStream, 24 + 69 * j + 23⟩⟩ := by
  rw [TracePhotonPath_pinhole, UniformMutate_rndGen, sampleSize_pinhole]
  · rfl
  · rw [sampleSize_pinhole, UniformMutate_second]
    show nearOneStream (24 + 69 * j + 1) ≠ 3 / 4
    rw [nearOneStream_draw _ (by omega)]
    unfold nearOne
    norm_num

theorem rejState_candidate (M : Platform) (j : Nat) :
    (Mutate M ⟨nearOneStream, 24 + 69 * j + 23⟩ bootSamples (msSeq j)).1.getD 1 0 =
      (Mutate.component M ⟨nearOneStream, 24 + 69 * j + 25⟩ (msSeq j) (3 / 4)).1 := by
  unfold bootSamples
  rw [Mutate_second]

theorem rejState_step (M : Platform) (hfl : M.roundsLikeFloat) (hpow : M.powfNearOne)
    (j : Nat) (h : 1 / 32767 ≤ msSeq j) :
    RenderFunc.chainStep M pinholeCache (rejState j) = rejState (j + 1) := by
  have h1 : RenderFunc.adoptsUniform pinholeCache (rejState j) = false := by
    unfold RenderFunc.adoptsUniform
    rw [rejState_adoptsUniform]
  have hm : TracePhotonPath pinholeCache (rejState j).th
      (Mutate M ⟨nearOneStream, 24 + 69 * j + 23⟩ bootSamples (msSeq j)).2
      (Mutate M ⟨nearOneStream, 24 + 69 * j + 23⟩ bootSamples (msSeq j)).1 =
      ⟨false, PathPhotons.empty, ⟨nearOneStream, 24 + 69 * (j + 1)⟩⟩ := by
    rw [TracePhotonPath_pinhole, Mutate_rndGen]
    · show (⟨false, PathPhotons.empty, ⟨nearOneStream, 24 + 69 * j + 23 + 2 * 23⟩⟩ : PathResult) = _
      congr 2
    · rw [rejState_candidate]
      exact component_rejecting M hfl hpow _ (by omega) _ h
  have h2 : RenderFunc.acceptsMutation M pinholeCache (rejState j) = false := by
    unfold RenderFunc.acceptsMutation
    simp only [rejState_adoptsUniform, rejState_samples]
    show (TracePhotonPath pinholeCache (rejState j).th
      (Mutate M ⟨nearOneStream, 24 + 69 * j + 23⟩ bootSamples (msSeq j)).2
      (Mutate M ⟨nearOneStream, 24 + 69 * j + 23⟩ bootSamples (msSeq j)).1).usefulPath = false
    rw [hm]
  rw [RenderFunc.chainStep_reject M pinholeCache (rejState j) h1 h2]
  simp only [rejState_adoptsUniform, rejState_samples]
  have hm2 : (TracePhotonPath pinholeCache (rejState j).th
      (Mutate M ⟨nearOneStream, 24 + 69 * j + 23⟩ bootSamples (rejState j).mutationSize).2
      (Mutate M ⟨nearOneStream, 24 + 69 * j + 23⟩ bootSamples
        (rejState j).mutationSize).1).rndGen =
      ⟨nearOneStream, 24 + 69 * (j + 1)⟩ := by
    show (TracePhotonPath pinholeCache (rejState j).th
      (Mutate M ⟨nearOneStream, 24 + 69 * j + 23⟩ bootSamples (msSeq j)).2
      (Mutate M ⟨nearOneStream, 24 + 69 * j + 23⟩ bootSamples (msSeq j)).1).rndGen = _
    rw [hm]
  rw [hm2]
  unfold rejState
  simp only [ChainState.mk.injEq, true_and, and_true]
  refine ⟨by with_unfolding_all rfl, ?_⟩
  show msSeq j + (((1 : Nat) : ℚ) / ((j + 1 + 1 : Nat) : ℚ) - 234 / 1000) /
      ((j + 1 + 1 : Nat) : ℚ) = msSeq (j + 1)
  rw [msSeq]
  push_cast
  ring

theorem msSeq_1718_eq :
    msSeq 1718 = 1 + msSum 10 0 + msSum 9 1024 + msSum 7 1536 + msSum 5 1664 + msSum 4 1696 +
      msSum 2 1712 + msSum 1 1716 := by
  have h0 : msSeq 0 = 1 := rfl
  have h1 := msSeq_add_pow 10 0
  have h2 := msSeq_add_pow 9 1024
  have h3 := msSeq_add_pow 7 1536
  have h4 := msSeq_add_pow 5 1664
  have h5 := msSeq_add_pow 4 1696
  have h6 := msSeq_add_pow 2 1712
  have h7 := msSeq_add_pow 1 1716
  rw [show 0 + 2 ^ 10 = 1024 by norm_num, h0] at h1
  rw [show 1024 + 2 ^ 9 = 1536 by norm_num, h1] at h2
  rw [show 1536 + 2 ^ 7 = 1664 by norm_num, h2] at h3
  rw [show 1664 + 2 ^ 5 = 1696 by norm_num, h3] at h4
  rw [show 1696 + 2 ^ 4 = 1712 by norm_num, h4] at h5
  rw [show 1712 + 2 ^ 2 = 1716 by norm_num, h5] at h6
  rw [show 1716 + 2 ^ 1 = 1718 by norm_num, h6] at h7
  exact h7

theorem msSeq_1718 : 1 / 32767 ≤ msSeq 1718 := by
  rw [msSeq_1718_eq]
  decide!

theorem msSeq_1719 : -(1 / 8193) ≤ msSeq 1719 ∧ msSeq 1719 < 0 := by
  rw [msSeq_1719_eq]
  decide!

theorem msSeq_ge (j : Nat) (h : j ≤ 1718) : 1 / 32767 ≤ msSeq j := by
  by_cases h3 : 3 ≤ j
  · exact le_trans msSeq_1718 (msSeq_antitone j h3 1718 h)
  · have : j = 0 ∨ j = 1 ∨ j = 2 := by omega
    rcases this with rfl | rfl | rfl <;> norm_num [msSeq]

theorem rejState_chain (M : Platform) (hfl : M.roundsLikeFloat) (hpow : M.powfNearOne) :
    ∀ (n j : Nat), j + n ≤ 1719 →
      RenderFunc.chain M pinholeCache n (rejState j) = rejState (j + n) := by
  intro n
  induction n with
  | zero => intro j _; rfl
  | succ n ih =>
    intro j h
    rw [RenderFunc.chain, rejState_step M hfl hpow j (msSeq_ge j (by omega)),
      ih (j + 1) (by omega)]
    congr 1
    omega

theorem round24_mono (x y : ℚ) (h : x ≤ y) : round24 x ≤ round24 y := by
  unfold round24
  apply div_le_div_of_nonneg_right _ (by norm_num)
  exact_mod_cast Int.floor_mono (by linarith)

theorem round24_grid (k : ℤ) : round24 ((k : ℚ) / 16777216) = (k : ℚ) / 16777216 := by
  unfold round24
  have h : ⌊(k : ℚ) / 16777216 * 16777216 + 1 / 2⌋ = k := by
    rw [Int.floor_eq_iff]
    constructor <;> · field_simp; linarith
  rw [h]

theorem round24_int (n : ℤ) : round24 (n : ℚ) = (n : ℚ) := by
  have h := round24_grid (n * 16777216)
  have e : (((n * 16777216 : ℤ)) : ℚ) / 16777216 = (n : ℚ) := by
    push_cast
    field_simp
  rw [e] at h
  exact h

theorem roundingPlatform_roundsLikeFloat : roundingPlatform.roundsLikeFloat :=
  ⟨round24_mono, fun k _ => round24_grid k, fun n _ => round24_int n⟩

theorem nearOne_pow_ge (n : Nat) (h : n ≤ 32768) : (1 : ℚ) / 65536 ≤ nearOne ^ n := by
  have hk : ∀ k : Nat, (k : ℚ) = 2048 → (1 : ℚ) / 2 ≤ nearOne ^ k := by
    intro k hk
    have h := one_add_mul_le_pow (show (-2 : ℚ) ≤ -(1 / 4096) by norm_num) k
    have e : (1 : ℚ) + -(1 / 4096) = nearOne := by unfold nearOne; norm_num
    rw [e, hk] at h
    linarith
  have hb : (1 : ℚ) / 2 ≤ nearOne ^ 2048 := hk 2048 (by norm_num)
  have h0 : (0 : ℚ) ≤ nearOne := by unfold nearOne; norm_num
  have h1 : nearOne ≤ 1 := by unfold nearOne; norm_num
  have hc : (1 : ℚ) / 65536 ≤ nearOne ^ 32768 := by
    have : nearOne ^ 32768 = (nearOne ^ 2048) ^ 16 := by rw [← pow_mul]
    rw [this]
    calc (1 : ℚ) / 65536 = (1 / 2) ^ 16 := by norm_num
      _ ≤ (nearOne ^ 2048) ^ 16 := pow_le_pow_left₀ (by norm_num) hb 16
  exact le_trans hc (pow_le_pow_of_le_one h0 h1 h)

theorem nearOne_pow_le (n : Nat) (h : 1 ≤ n) : nearOne ^ n ≤ nearOne := by
  have h0 : (0 : ℚ) ≤ nearOne := by unfold nearOne; norm_num
  have h1 : nearOne ≤ 1 := by unfold nearOne; norm_num
  calc nearOne ^ n ≤ nearOne ^ 1 := pow_le_pow_of_le_one h0 h1 h
    _ = nearOne := pow_one _

theorem nearOne_inv_pow_ge (n : Nat) (h : 8192 ≤ n) : (3 : ℚ) ≤ (nearOne ^ n)⁻¹ := by
  have e : (nearOne ^ n)⁻¹ = (4096 / 4095 : ℚ) ^ n := by
    rw [← inv_pow]
    unfold nearOne
    norm_num
  rw [e]
  have hb := one_add_mul_le_pow (show (-2 : ℚ) ≤ 1 / 4096 by norm_num) n
  have hn : (8192 : ℚ) ≤ (n : ℚ) := by exact_mod_cast h
  have hm : ((1 : ℚ) + 1 / 4096) ^ n ≤ (4096 / 4095 : ℚ) ^ n :=
    pow_le_pow_left₀ (by norm_num) (by norm_num) n
  have : (3 : ℚ) ≤ 1 + (n : ℚ) * (1 / 4096) := by linarith
  linarith

theorem roundingPlatform_powfNearOne : roundingPlatform.powfNearOne := by
  constructor
  · intro e h1 h2
    show 1 / 16777216 ≤ round24 (if 0 ≤ ⌊e⌋ then nearOne ^ (Int.toNat ⌊e⌋)
        else (nearOne ^ (Int.toNat (-⌊e⌋)))⁻¹) ∧
      round24 (if 0 ≤ ⌊e⌋ then nearOne ^ (Int.toNat ⌊e⌋)
        else (nearOne ^ (Int.toNat (-⌊e⌋)))⁻¹) ≤ 1 - 1 / 16777216
    have hf1 : (1 : ℤ) ≤ ⌊e⌋ := Int.le_floor.2 (by exact_mod_cast h1)
    have hf2 : ⌊e⌋ ≤ 32768 := by
      have : (⌊e⌋ : ℚ) ≤ 32768 := le_trans (Int.floor_le e) h2
      exact_mod_cast this
    rw [if_pos (by omega)]
    have hn1 : 1 ≤ Int.toNat ⌊e⌋ := by omega
    have hn2 : Int.toNat ⌊e⌋ ≤ 32768 := by omega
    have ha := nearOne_pow_ge _ hn2
    have hb := nearOne_pow_le _ hn1
    have g1 : round24 (1 / 65536) = 1 / 65536 := by
      have := round24_grid 256
      norm_num at this ⊢
      exact this
    have g2 : round24 nearOne = nearOne := by
      have := round24_grid 16773120
      unfold nearOne
      norm_num at this ⊢
      exact this
    constructor
    · have := round24_mono _ _ ha
      rw [g1] at this
      linarith
    · have := round24_mono _ _ hb
      rw [g2] at this
      have hn : nearOne ≤ 1 - 1 / 16777216 := by unfold nearOne; norm_num
      exact le_trans this hn
  · intro e h
    show 3 ≤ round24 (if 0 ≤ ⌊e⌋ then nearOne ^ (Int.toNat ⌊e⌋)
        else (nearOne ^ (Int.toNat (-⌊e⌋)))⁻¹)
    have hf : ⌊e⌋ ≤ -8192 := by
      have : (⌊e⌋ : ℚ) ≤ -8192 := le_trans (Int.floor_le e) h
      exact_mod_cast this
    rw [if_neg (by omega)]
    have hn : 8192 ≤ Int.toNat (-⌊e⌋) := by omega
    have ha := nearOne_inv_pow_ge _ hn
    have g : round24 3 = 3 := by simpa using round24_int 3
    have := round24_mono _ _ ha
    rw [g] at this
    exact this

/-- C30: on every platform whose rounding is monotone and leaves the floats
named in `roundsLikeFloat` as they are, and whose `powf` is within the bounds of
`powfNearOne`, the first Metropolis bucket of 4096 iterations on the pinhole scene
(the light is picked by the sample value 3/4 only) with the random stream
`nearOneStream` finds a useful path with the first bootstrap path and rejects in
each of its first 1719 iterations; the chain then holds a negative
`mutationSize`, and iteration 1720 of the bucket, whose uniform draw is useless,
passes it to `Mutate`, whose 23 candidate samples are then all at most -1,
outside the range that the assertion in the loop of `Mutate` (line 85) demands. -/
theorem mutationSize_negative_after_rejections (M : Platform) (hfl : M.roundsLikeFloat)
    (hpow : M.powfNearOne) (hstream : M.randomStream 1 = nearOneStream) :
    (RenderFunc.bootstrap pinholeCache (TracePhotonsThread.Start M 0) 16384
        (TracePhotonsThread.Start M 0).rndGen [] PathPhotons.empty).1 = true ∧
      (∀ j, j ≤ 1719 →
        RenderFunc.chain M pinholeCache j
            (RenderFunc.bootstrapStart pinholeCache (TracePhotonsThread.Start M 0)) =
          rejState j) ∧
      (∀ j, j < 1719 →
        RenderFunc.adoptsUniform pinholeCache (rejState j) = false ∧
          RenderFunc.acceptsMutation M pinholeCache (rejState j) = false ∧
          0 < (rejState j).mutationSize) ∧
      RenderFunc.chain M pinholeCache 4096
          (RenderFunc.bootstrapStart pinholeCache (TracePhotonsThread.Start M 0)) =
        RenderFunc.chain M pinholeCache 2376
          (RenderFunc.chainStep M pinholeCache
            (RenderFunc.chain M pinholeCache 1719
              (RenderFunc.bootstrapStart pinholeCache (TracePhotonsThread.Start M 0)))) ∧
      (RenderFunc.chain M pinholeCache 1719
          (RenderFunc.bootstrapStart pinholeCache
            (TracePhotonsThread.Start M 0))).mutatedCount = 1720 ∧
      (RenderFunc.chain M pinholeCache 1719
          (RenderFunc.bootstrapStart pinholeCache
            (TracePhotonsThread.Start M 0))).acceptedCount = 1 ∧
      (RenderFunc.chain M pinholeCache 1719
          (RenderFunc.bootstrapStart pinholeCache
            (TracePhotonsThread.Start M 0))).mutationSize < 0 ∧
      RenderFunc.adoptsUniform pinholeCache
          (RenderFunc.chain M pinholeCache 1719
            (RenderFunc.bootstrapStart pinholeCache (TracePhotonsThread.Start M 0))) = false ∧
      (RenderFunc.candidateSamples M pinholeCache
          (RenderFunc.chain M pinholeCache 1719
            (RenderFunc.bootstrapStart pinholeCache
              (TracePhotonsThread.Start M 0)))).length = 23 ∧
      ∀ x ∈ RenderFunc.candidateSamples M pinholeCache
          (RenderFunc.chain M pinholeCache 1719
            (RenderFunc.bootstrapStart pinholeCache (TracePhotonsThread.Start M 0))),
        x ≤ -1 := by
  rw [Start_nearOneStream M hstream]
  have hj : ∀ j, j ≤ 1719 → RenderFunc.chain M pinholeCache j
      (RenderFunc.bootstrapStart pinholeCache pinholeThread) = rejState j := by
    intro j h
    rw [bootstrapStart_pinhole, rejState_chain M hfl hpow j 0 (by omega), Nat.zero_add]
  have hc := hj 1719 (le_refl _)
  refine ⟨by with_unfolding_all rfl, hj, ?_, ?_, ?_, ?_, ?_, ?_, ?_, ?_⟩
  · intro j h
    have hms := msSeq_ge j (by omega)
    refine ⟨?_, ?_, lt_of_lt_of_le (by norm_num) hms⟩
    · unfold RenderFunc.adoptsUniform
      rw [rejState_adoptsUniform]
    · unfold RenderFunc.acceptsMutation
      simp only [rejState_adoptsUniform, rejState_samples]
      show (TracePhotonPath pinholeCache (rejState j).th
        (Mutate M ⟨nearOneStream, 24 + 69 * j + 23⟩ bootSamples (msSeq j)).2
        (Mutate M ⟨nearOneStream, 24 + 69 * j + 23⟩ bootSamples (msSeq j)).1).usefulPath = false
      rw [TracePhotonPath_pinhole]
      rw [rejState_candidate]
      exact component_rejecting M hfl hpow _ (by omega) _ hms
  · rw [show 4096 = 1719 + (2376 + 1) by norm_num, RenderFunc.chain_add, RenderFunc.chain]
  · rw [hc]; rfl
  · rw [hc]; rfl
  · rw [hc]; exact msSeq_1719.2
  · rw [hc]
    unfold RenderFunc.adoptsUniform
    rw [rejState_adoptsUniform]
  · rw [hc]
    unfold RenderFunc.candidateSamples
    simp only [rejState_adoptsUniform, rejState_samples]
    rw [Mutate_length]
    rfl
  · rw [hc]
    unfold RenderFunc.candidateSamples
    simp only [rejState_adoptsUniform, rejState_samples]
    show ∀ x ∈ (Mutate M ⟨nearOneStream, 24 + 69 * 1719 + 23⟩ bootSamples (msSeq 1719)).1, x ≤ -1
    refine Mutate_out_of_range M hfl hpow _ msSeq_1719.1 msSeq_1719.2 bootSamples _
      (by omega) ?_
    intro u hu
    unfold bootSamples at hu
    simp only [List.mem_cons, List.mem_replicate] at hu
    rcases hu with h | h | h
    · rw [h]; unfold nearOne; norm_num
    · rw [h]; norm_num
    · rw [h.2]; unfold nearOne; norm_num

theorem mutationSize_negative_after_rejections_witness :
    roundingPlatform.roundsLikeFloat ∧ roundingPlatform.powfNearOne ∧
      roundingPlatform.randomStream 1 = nearOneStream ∧
      roundingPlatform.fl (3 / 4 + 1 / 67108864) = 3 / 4 ∧
      (RenderFunc.chain roundingPlatform pinholeCache 1719
          (RenderFunc.bootstrapStart pinholeCache
            (TracePhotonsThread.Start roundingPlatform 0))).mutatedCount = 1720 ∧
      (RenderFunc.chain roundingPlatform pinholeCache 1719
          (RenderFunc.bootstrapStart pinholeCache
            (TracePhotonsThread.Start roundingPlatform 0))).acceptedCount = 1 ∧
      (RenderFunc.chain roundingPlatform pinholeCache 1719
          (RenderFunc.bootstrapStart pinholeCache
            (TracePhotonsThread.Start roundingPlatform 0))).mutationSize < 0 ∧
      ∀ x ∈ RenderFunc.candidateSamples roundingPlatform pinholeCache
          (RenderFunc.chain roundingPlatform pinholeCache 1719
            (RenderFunc.bootstrapStart pinholeCache
              (TracePhotonsThread.Start roundingPlatform 0))),
        x ≤ -1 :=
  ⟨roundingPlatform_roundsLikeFloat, roundingPlatform_powfNearOne, rfl, by decide!,
    (mutationSize_negative_after_rejections roundingPlatform roundingPlatform_roundsLikeFloat
      roundingPlatform_powfNearOne rfl).2.2.2.2.1,
    (mutationSize_negative_after_rejections roundingPlatform roundingPlatform_roundsLikeFloat
      roundingPlatform_powfNearOne rfl).2.2.2.2.2.1,
    (mutationSize_negative_after_rejections roundingPlatform roundingPlatform_roundsLikeFloat
      roundingPlatform_powfNearOne rfl).2.2.2.2.2.2.1,
    (mutationSize_negative_after_rejections roundingPlatform roundingPlatform_roundsLikeFloat
      roundingPlatform_powfNearOne rfl).2.2.2.2.2.2.2.2.2⟩

end LuxCore
